import Mathlib

/-! TPFA pressure assembly and well control switching.

A shallow embedding of

* `opm/core/pressure/tpfa/ifs_tpfa.c` (sparse system construction, assembly,
  pressure and flux recovery),
* `opm/simulators/wells/WellInterfaceFluidSystem.cpp` (individual well
  constraint checks, group constraint checks and group target rates), and
* the function `directVerticalNeighbors` of
  `opm/simulators/flow/EclGenericWriter_impl.hpp`.

Conventions of the embedding.

* A C array is a total map from indices to values; a store is
  `Function.update`.  Reads and writes outside the allocated extent are
  undefined in C; the theorems carry the bounds as hypotheses.
* `double` is modelled by exact rational arithmetic (`ℚ`).
* `int` cell indices of `face_cells` are `Int` (a negative value marks the
  exterior); all other indices are natural numbers.
* Memory allocation is taken to succeed.
* The linear solver is not part of the sources: a solution is a vector that
  satisfies `A x = b` exactly.
* The schedule, the group state, the guide rates and the calculators of
  `WellGroupHelpers` are not part of the sources: the values read from them
  are parameters.  The recursion towards the root of the group tree carries
  fuel.
-/

/-! ## Grid, wells and boundary conditions -/

/-- Grid topology (`struct UnstructuredGrid`), the fields read by the solver. -/
structure UnstructuredGrid where
  number_of_cells : Nat
  number_of_faces : Nat
  face_cells : Nat → Int
  cell_facepos : Nat → Nat
  cell_faces : Nat → Nat

/-- Well connections (`struct Wells`), the fields read by the solver. -/
structure Wells where
  number_of_wells : Nat
  well_connpos : Nat → Nat
  well_cells : Nat → Nat

/-- Modelled from the spec: the boundary condition kinds of `flow_bc.h`
(the header is not part of the sources): PRESSURE, FLUX_TOTAL_VOLUME and
any other kind. -/
inductive FlowBCType where
  | BC_NOFLOW
  | BC_PRESSURE
  | BC_FLUX_TOTVOL
  deriving DecidableEq, Repr

/-- Modelled from the spec: the boundary condition set of `flow_bc.h`, an
ordered list of `nbc` conditions; condition `i` has a type, a value and the
faces `face[cond_pos[i]] .. face[cond_pos[i+1]-1]`. -/
structure FlowBoundaryConditions where
  nbc : Nat
  type : Nat → FlowBCType
  value : Nat → ℚ
  cond_pos : Nat → Nat
  face : Nat → Nat

/-- Driving forces (`struct ifs_tpfa_forces`): optional source terms and
optional boundary conditions. -/
structure ifs_tpfa_forces where
  src : Option (Nat → ℚ)
  bc : Option FlowBoundaryConditions

/-! ## Sparse matrix -/

/-- Modelled from the spec: the compressed sparse row matrix of
`sparse_sys.h` (row pointers, column indices, values). -/
structure CSRMatrix where
  m : Nat
  nnz : Nat
  ia : Nat → Nat
  ja : Nat → Nat
  sa : Nat → ℚ

/-- Modelled from the spec: `vector_zero(n, v)` of `sparse_sys.h` sets the
first `n` entries of `v` to zero. -/
def vector_zero (n : Nat) (v : Nat → ℚ) : Nat → ℚ :=
  fun i => if i < n then 0 else v i

/-- Modelled from the spec: `csrmatrix_new_count_nnz(m)` of `sparse_sys.h`
allocates an `m`-row matrix whose row pointers are all zero and that has no
element storage yet. -/
def csrmatrix_new_count_nnz (m : Nat) : CSRMatrix :=
  { m := m, nnz := 0, ia := fun _ => 0, ja := fun _ => 0, sa := fun _ => 0 }

/-- One step of the running total in `csrmatrix_new_elms_pushback`:
`ia[0] += ia[i]; ia[i] = ia[0] - ia[i]`. -/
def pushback_step (ia : Nat → Nat) (i : Nat) : Nat → Nat :=
  let ia0 := Function.update ia 0 (ia 0 + ia i)
  Function.update ia0 i (ia0 0 - ia0 i)

/-- Modelled from the spec: `csrmatrix_new_elms_pushback(A)` of
`sparse_sys.h`.  On entry `ia[i+1]` holds the number of elements of row `i`;
on exit `ia[i+1]` holds the start of row `i`, `ia[0] = 0`, and `nnz` is the
total count, which is also the value returned. -/
def csrmatrix_new_elms_pushback (A : CSRMatrix) : CSRMatrix :=
  let ia1 := (List.range' 1 A.m).foldl pushback_step A.ia
  { A with nnz := ia1 0, ia := Function.update ia1 0 0 }

/-- Sort the entries `lo .. hi-1` of `ja` in ascending order. -/
def sortSegment (ja : Nat → Nat) (lo hi : Nat) : Nat → Nat :=
  fun p =>
    if lo ≤ p ∧ p < hi then
      (List.insertionSort (· ≤ ·) ((List.range' lo (hi - lo)).map ja)).getD (p - lo) 0
    else ja p

/-- Modelled from the spec: `csrmatrix_sortrows(A)` of `sparse_sys.h` sorts
the column indices of every row in ascending order. -/
def csrmatrix_sortrows (A : CSRMatrix) : CSRMatrix :=
  let ja1 := (List.range A.m).foldl (fun ja i => sortSegment ja (A.ia i) (A.ia (i + 1))) A.ja
  { A with ja := ja1 }

/-- Binary search for `key` in `ja[lo .. hi-1]`; `fuel` bounds the number of
halvings. -/
def bsearch (ja : Nat → Nat) (key : Nat) : Nat → Nat → Nat → Option Nat
  | 0, _, _ => none
  | fuel + 1, lo, hi =>
    if lo < hi then
      let mid := lo + (hi - lo) / 2
      if key < ja mid then bsearch ja key fuel lo mid
      else if ja mid < key then bsearch ja key fuel (mid + 1) hi
      else some mid
    else none

/-- Modelled from the spec: `csrmatrix_elm_index(i, j, A)` of `sparse_sys.h`
finds, by binary search in the sorted row `i`, the storage position of the
entry `(i, j)`.  The C function asserts that the entry exists; position `0`
stands for the undefined result when it does not. -/
def csrmatrix_elm_index (i j : Nat) (A : CSRMatrix) : Nat :=
  (bsearch A.ja j (A.ia (i + 1) - A.ia i) (A.ia i) (A.ia (i + 1))).getD 0

/-- Modelled from the spec: `csrmatrix_zero(A)` of `sparse_sys.h` sets the
`nnz` stored values to zero. -/
def csrmatrix_zero (A : CSRMatrix) : CSRMatrix :=
  { A with sa := vector_zero A.nnz A.sa }

/-! ## Loop nests -/

/-- Index pairs visited by the loop nest
`for (c = i = 0; c < n; c++) for (; i < pos[c + 1]; i++)`, started at outer
index `c` with `k` outer iterations to go and inner index `i`. -/
def segLoopFrom (pos : Nat → Nat) : Nat → Nat → Nat → List (Nat × Nat)
  | _, 0, _ => []
  | c, k + 1, i =>
    (List.range' i (pos (c + 1) - i)).map (fun j => (c, j))
      ++ segLoopFrom pos (c + 1) k (max i (pos (c + 1)))

/-- Index pairs `(c, i)` visited by
`for (c = i = 0; c < n; c++) for (; i < pos[c + 1]; i++)`, in order. -/
def segLoop (n : Nat) (pos : Nat → Nat) : List (Nat × Nat) :=
  segLoopFrom pos 0 n 0

/-! ## `ifs_tpfa_construct_matrix` -/

/-- The statement `ia[k] += 1`. -/
def incr (ia : Nat → Nat) (k : Nat) : Nat → Nat :=
  Function.update ia k (ia k + 1)

/-- The statement `A->ja[ A->ia[r + 1] ++ ] = col`. -/
def pushCol (A : CSRMatrix) (r col : Nat) : CSRMatrix :=
  { A with
    ja := Function.update A.ja (A.ia (r + 1)) col,
    ia := Function.update A.ia (r + 1) (A.ia (r + 1) + 1) }

/-- Number of unknowns: cells, then wells. -/
def numUnknowns (G : UnstructuredGrid) (W : Option Wells) : Nat :=
  G.number_of_cells + (match W with | some w => w.number_of_wells | none => 0)

/-- Counting pass of `ifs_tpfa_construct_matrix` (lines 87-113): on exit
`ia[i + 1]` is the number of entries of row `i`. -/
def construct_count (G : UnstructuredGrid) (W : Option Wells) (ia : Nat → Nat) : Nat → Nat :=
  let nc := G.number_of_cells
  let nnu := numUnknowns G W
  let ia1 := (List.range nnu).foldl (fun ia c1 => Function.update ia (c1 + 1) 1) ia
  let ia2 := (List.range G.number_of_faces).foldl (fun ia f =>
    let c1 := G.face_cells (2 * f + 0)
    let c2 := G.face_cells (2 * f + 1)
    if 0 ≤ c1 ∧ 0 ≤ c2 then incr (incr ia (c1.toNat + 1)) (c2.toNat + 1) else ia) ia1
  match W with
  | none => ia2
  | some w =>
    (segLoop w.number_of_wells w.well_connpos).foldl (fun ia wi =>
      let c1 := w.well_cells wi.2
      incr (incr ia (0 + c1 + 1)) (nc + wi.1 + 1)) ia2

/-- Filling pass of `ifs_tpfa_construct_matrix` (lines 123-149). -/
def construct_fill (G : UnstructuredGrid) (W : Option Wells) (A : CSRMatrix) : CSRMatrix :=
  let nc := G.number_of_cells
  let nnu := numUnknowns G W
  let A1 := (List.range nnu).foldl (fun A i => pushCol A i i) A
  let A2 := (List.range G.number_of_faces).foldl (fun A f =>
    let c1 := G.face_cells (2 * f + 0)
    let c2 := G.face_cells (2 * f + 1)
    if 0 ≤ c1 ∧ 0 ≤ c2 then pushCol (pushCol A c1.toNat c2.toNat) c2.toNat c1.toNat
    else A) A1
  match W with
  | none => A2
  | some w =>
    (segLoop w.number_of_wells w.well_connpos).foldl (fun A wi =>
      let c1 := w.well_cells wi.2
      pushCol (pushCol A (0 + c1) (nc + wi.1)) (nc + wi.1) c1) A2

/-- The function `ifs_tpfa_construct_matrix`: `none` is the null result. -/
def ifs_tpfa_construct_matrix (G : UnstructuredGrid) (W : Option Wells) : Option CSRMatrix :=
  let A := csrmatrix_new_count_nnz (numUnknowns G W)
  let A1 := csrmatrix_new_elms_pushback { A with ia := construct_count G W A.ia }
  if A1.nnz = 0 then none
  else some (csrmatrix_sortrows (construct_fill G W A1))

/-! ## Assembly -/

/-- Solver state (`struct ifs_tpfa_data`, with `pimpl->fgrav` inlined): the
matrix `A`, the right-hand side `b`, the solution vector `x` and the
accumulated gravity term per face. -/
structure ifs_tpfa_data where
  A : CSRMatrix
  b : Nat → ℚ
  x : Nat → ℚ
  fgrav : Nat → ℚ

/-- Pressure and flux output (`struct ifs_tpfa_solution`). -/
structure ifs_tpfa_solution where
  cell_press : Nat → ℚ
  face_flux : Nat → ℚ

/-- The C expression `2.0*(cond) - 1.0`. -/
def signOf (cond : Bool) : ℚ :=
  2 * (if cond then 1 else 0) - 1

/-- Body of the loop nest of `compute_grav_term` for cell `c` and slot `i`. -/
def grav_step (G : UnstructuredGrid) (gpress : Nat → ℚ) (fgrav : Nat → ℚ)
    (ci : Nat × Nat) : Nat → ℚ :=
  let f := G.cell_faces ci.2
  let c1 := G.face_cells (2 * f + 0)
  let c2 := G.face_cells (2 * f + 1)
  let s := signOf (decide (c1 = (ci.1 : Int)))
  if 0 ≤ c1 ∧ 0 ≤ c2 then Function.update fgrav f (fgrav f + s * gpress ci.2) else fgrav

/-- The function `compute_grav_term`. -/
def compute_grav_term (G : UnstructuredGrid) (gpress : Nat → ℚ) (fgrav : Nat → ℚ) : Nat → ℚ :=
  (segLoop G.number_of_cells G.cell_facepos).foldl (grav_step G gpress)
    (vector_zero G.number_of_faces fgrav)

/-- The statement `h->A->sa[j] += d`. -/
def addSa (h : ifs_tpfa_data) (j : Nat) (d : ℚ) : ifs_tpfa_data :=
  { h with A := { h.A with sa := Function.update h.A.sa j (h.A.sa j + d) } }

/-- The statement `h->b[c] += d`. -/
def addB (h : ifs_tpfa_data) (c : Nat) (d : ℚ) : ifs_tpfa_data :=
  { h with b := Function.update h.b c (h.b c + d) }

/-- Body of the main loop nest of `ifs_tpfa_assemble` (lines 367-388) for cell
`c` and slot `i`.  The diagonal position `j1` is looked up in the outer loop
of the C code; the sparsity pattern does not change during assembly, so the
lookup has the same value here. -/
def assemble_step (G : UnstructuredGrid) (trans : Nat → ℚ) (h : ifs_tpfa_data)
    (ci : Nat × Nat) : ifs_tpfa_data :=
  let c := ci.1
  let j1 := csrmatrix_elm_index c c h.A
  let f := G.cell_faces ci.2
  let c1 := G.face_cells (2 * f + 0)
  let c2 := G.face_cells (2 * f + 1)
  let s := signOf (decide (c1 = (c : Int)))
  let c2 := if c1 = (c : Int) then c2 else c1
  let h1 := addB h c (-(trans f * (s * h.fgrav f)))
  if 0 ≤ c2 then
    let j2 := csrmatrix_elm_index c c2.toNat h1.A
    addSa (addSa h1 j1 (trans f)) j2 (-(trans f))
  else h1

/-- Body of the face loop of a PRESSURE condition `i` in
`assemble_bc_contrib` (lines 211-228) for the face slot `j`. -/
def bc_pressure_step (G : UnstructuredGrid) (bc : FlowBoundaryConditions) (trans : Nat → ℚ)
    (i : Nat) (h : ifs_tpfa_data) (j : Nat) : ifs_tpfa_data :=
  let f := bc.face j
  let c1 := G.face_cells (2 * f + 0)
  let c2 := G.face_cells (2 * f + 1)
  let is_outflow : Bool := decide (0 ≤ c1)
  let t := trans f
  let s := signOf is_outflow
  let c1 := (if is_outflow then c1 else c2).toNat
  let ix := csrmatrix_elm_index c1 c1 h.A
  let h1 := addSa h ix t
  let h2 := addB h1 c1 (t * bc.value i)
  addB h2 c1 (-(s * t * h2.fgrav f))

/-- Body of the face loop of a FLUX_TOTVOL condition `i` in
`assemble_bc_contrib` (lines 235-246) for the face slot `j`. -/
def bc_flux_step (G : UnstructuredGrid) (bc : FlowBoundaryConditions)
    (i : Nat) (h : ifs_tpfa_data) (j : Nat) : ifs_tpfa_data :=
  let f := bc.face j
  let c1 := G.face_cells (2 * f + 0)
  let c2 := G.face_cells (2 * f + 1)
  let c1 := (if 0 ≤ c1 then c1 else c2).toNat
  addB h c1 (bc.value i)

/-- The face slots `cond_pos[i] .. cond_pos[i+1]-1` of condition `i`. -/
def condSlots (bc : FlowBoundaryConditions) (i : Nat) : List Nat :=
  List.range' (bc.cond_pos i) (bc.cond_pos (i + 1) - bc.cond_pos i)

/-- Body of the condition loop of `assemble_bc_contrib` for condition `i`;
the state is the flag `is_neumann` and the solver data. -/
def bc_contrib_step (G : UnstructuredGrid) (bc : FlowBoundaryConditions) (trans : Nat → ℚ)
    (st : Bool × ifs_tpfa_data) (i : Nat) : Bool × ifs_tpfa_data :=
  match bc.type i with
  | FlowBCType.BC_PRESSURE =>
    (false, (condSlots bc i).foldl (bc_pressure_step G bc trans i) st.2)
  | FlowBCType.BC_FLUX_TOTVOL =>
    (st.1, (condSlots bc i).foldl (bc_flux_step G bc i) st.2)
  | FlowBCType.BC_NOFLOW => st

/-- The function `assemble_bc_contrib`: returns `is_neumann` and the updated
solver data. -/
def assemble_bc_contrib (G : UnstructuredGrid) (bc : FlowBoundaryConditions) (trans : Nat → ℚ)
    (h : ifs_tpfa_data) : Bool × ifs_tpfa_data :=
  (List.range bc.nbc).foldl (bc_contrib_step G bc trans) (true, h)

/-- The first part of `ifs_tpfa_assemble` (lines 362-388): zero the matrix and
the right-hand side, compute the gravity terms, and run the loop nest over
cells and their faces. -/
def assemble_faces (G : UnstructuredGrid) (trans gpress : Nat → ℚ) (h : ifs_tpfa_data) :
    ifs_tpfa_data :=
  let h0 : ifs_tpfa_data :=
    { A := csrmatrix_zero h.A, b := vector_zero h.A.m h.b, x := h.x,
      fgrav := compute_grav_term G gpress h.fgrav }
  (segLoop G.number_of_cells G.cell_facepos).foldl (assemble_step G trans) h0

/-- The boundary-condition part of `ifs_tpfa_assemble` (lines 390-393). -/
def assemble_bc (G : UnstructuredGrid) (F : Option ifs_tpfa_forces) (trans : Nat → ℚ)
    (h : ifs_tpfa_data) : Bool × ifs_tpfa_data :=
  match F with
  | some F =>
    match F.bc with
    | some bc => assemble_bc_contrib G bc trans h
    | none => (true, h)
  | none => (true, h)

/-- The source-term part of `ifs_tpfa_assemble` (lines 395-399). -/
def assemble_src (G : UnstructuredGrid) (F : Option ifs_tpfa_forces) (h : ifs_tpfa_data) :
    ifs_tpfa_data :=
  match F with
  | some F =>
    match F.src with
    | some src => (List.range G.number_of_cells).foldl (fun h c => addB h c (src c)) h
    | none => h
  | none => h

/-- Everything `ifs_tpfa_assemble` does before the final test of
`is_neumann` (lines 362-399): returns the flag and the assembled data. -/
def assemble_core (G : UnstructuredGrid) (F : Option ifs_tpfa_forces) (trans gpress : Nat → ℚ)
    (h : ifs_tpfa_data) : Bool × ifs_tpfa_data :=
  let r := assemble_bc G F trans (assemble_faces G trans gpress h)
  (r.1, assemble_src G F r.2)

/-- The statement `h->A->sa[0] *= 2`. -/
def doubleFirst (h : ifs_tpfa_data) : ifs_tpfa_data :=
  { h with A := { h.A with sa := Function.update h.A.sa 0 (h.A.sa 0 * 2) } }

/-- The function `ifs_tpfa_assemble`. -/
def ifs_tpfa_assemble (G : UnstructuredGrid) (F : Option ifs_tpfa_forces)
    (trans gpress : Nat → ℚ) (h : ifs_tpfa_data) : ifs_tpfa_data :=
  let r := assemble_core G F trans gpress h
  if r.1 then doubleFirst r.2 else r.2

/-! ## Pressure and flux recovery -/

/-- Body of the face loop of a PRESSURE condition `i` in `boundary_fluxes`
(lines 272-288) for the face slot `j`. -/
def bflux_pressure_step (G : UnstructuredGrid) (bc : FlowBoundaryConditions)
    (trans cpress fgrav : Nat → ℚ) (i : Nat) (fflux : Nat → ℚ) (j : Nat) : Nat → ℚ :=
  let f := bc.face j
  let c1 := G.face_cells (2 * f + 0)
  let c2 := G.face_cells (2 * f + 1)
  let dh := if c1 < 0 then bc.value i - cpress c2.toNat else cpress c1.toNat - bc.value i
  Function.update fflux f (trans f * (dh + fgrav f))

/-- Body of the face loop of a FLUX_TOTVOL condition `i` in `boundary_fluxes`
(lines 294-306) for the face slot `j`. -/
def bflux_flux_step (G : UnstructuredGrid) (bc : FlowBoundaryConditions)
    (i : Nat) (fflux : Nat → ℚ) (j : Nat) : Nat → ℚ :=
  let f := bc.face j
  let c1 := G.face_cells (2 * f + 0)
  let s := signOf (decide (c1 < 0))
  Function.update fflux f (s * bc.value i)

/-- Body of the condition loop of `boundary_fluxes` for condition `i`. -/
def bflux_step (G : UnstructuredGrid) (bc : FlowBoundaryConditions)
    (trans cpress fgrav : Nat → ℚ) (fflux : Nat → ℚ) (i : Nat) : Nat → ℚ :=
  match bc.type i with
  | FlowBCType.BC_PRESSURE =>
    (condSlots bc i).foldl (bflux_pressure_step G bc trans cpress fgrav i) fflux
  | FlowBCType.BC_FLUX_TOTVOL =>
    (condSlots bc i).foldl (bflux_flux_step G bc i) fflux
  | FlowBCType.BC_NOFLOW => fflux

/-- The function `boundary_fluxes`. -/
def boundary_fluxes (G : UnstructuredGrid) (bc : FlowBoundaryConditions)
    (trans cpress fgrav : Nat → ℚ) (fflux : Nat → ℚ) : Nat → ℚ :=
  (List.range bc.nbc).foldl (bflux_step G bc trans cpress fgrav) fflux

/-- Body of the face loop of `ifs_tpfa_press_flux` (lines 432-442). -/
def flux_step (G : UnstructuredGrid) (trans cpress fgrav : Nat → ℚ)
    (fflux : Nat → ℚ) (f : Nat) : Nat → ℚ :=
  let c1 := G.face_cells (2 * f + 0)
  let c2 := G.face_cells (2 * f + 1)
  if 0 ≤ c1 ∧ 0 ≤ c2 then
    Function.update fflux f (trans f * (cpress c1.toNat - cpress c2.toNat + fgrav f))
  else Function.update fflux f 0

/-- The function `ifs_tpfa_press_flux`; `memcpy` copies the first
`number_of_cells` entries of `h->x` into `cell_press`. -/
def ifs_tpfa_press_flux (G : UnstructuredGrid) (F : Option ifs_tpfa_forces)
    (trans : Nat → ℚ) (h : ifs_tpfa_data) (soln : ifs_tpfa_solution) : ifs_tpfa_solution :=
  let cpress : Nat → ℚ := fun c => if c < G.number_of_cells then h.x c else soln.cell_press c
  let fflux := (List.range G.number_of_faces).foldl (flux_step G trans cpress h.fgrav)
    soln.face_flux
  let fflux1 := match F with
    | some F =>
      match F.bc with
      | some bc => boundary_fluxes G bc trans cpress h.fgrav fflux
      | none => fflux
    | none => fflux
  { cell_press := cpress, face_flux := fflux1 }

/-! ## Well control modes and limits -/

/-- Modelled from the spec: the producer control modes of the schedule
library (`Well::ProducerCMode`): BHP, ORAT, WRAT, GRAT, LRAT, RESV, THP and
GRUP. -/
inductive ProducerCMode where
  | BHP
  | ORAT
  | WRAT
  | GRAT
  | LRAT
  | RESV
  | THP
  | GRUP
  deriving DecidableEq, Repr

/-- Modelled from the spec: the injector control modes of the schedule
library (`Well::InjectorCMode`): BHP, RATE, RESV, THP and GRUP. -/
inductive InjectorCMode where
  | BHP
  | RATE
  | RESV
  | THP
  | GRUP
  deriving DecidableEq, Repr

/-- Modelled from the spec: the injected fluid of the schedule library
(`InjectorType`): water, oil, gas, or another kind (`MULTI`). -/
inductive InjectorType where
  | WATER
  | OIL
  | GAS
  | MULTI
  deriving DecidableEq, Repr

/-- The three black-oil phases (`BlackoilPhases::Aqua, Liquid, Vapour`). -/
inductive BlackoilPhases where
  | Aqua
  | Liquid
  | Vapour
  deriving DecidableEq, Repr

/-- Modelled from the spec: the runtime phase-usage descriptor
(`PhaseUsage`): which phases are active and their position in the
phase-indexed arrays. -/
structure PhaseUsage where
  phase_used : BlackoilPhases → Bool
  phase_pos : BlackoilPhases → Nat

/-- Modelled from the spec: the scheduled producer limits
(`Well::ProductionControls`), as read by `activeProductionConstraint`. -/
structure ProductionControls where
  hasControl : ProducerCMode → Bool
  bhp_limit : ℚ
  oil_rate : ℚ
  water_rate : ℚ
  gas_rate : ℚ
  liquid_rate : ℚ
  resv_rate : ℚ
  prediction_mode : Bool

/-- Modelled from the spec: the scheduled injector limits
(`Well::InjectionControls`), as read by `activeInjectionConstraint`. -/
structure InjectionControls where
  hasControl : InjectorCMode → Bool
  bhp_limit : ℚ
  surface_rate : ℚ
  reservoir_rate : ℚ
  injector_type : InjectorType

/-- Modelled from the spec: the dynamic state of one well
(`SingleWellState`): control modes, pressures and phase-indexed rates. -/
structure SingleWellState where
  production_cmode : ProducerCMode
  injection_cmode : InjectorCMode
  bhp : ℚ
  thp : ℚ
  surface_rates : Nat → ℚ
  reservoir_rates : Nat → ℚ
  well_potentials : Nat → ℚ
  trivial_target : Bool

/-- What `WellInterfaceFluidSystem` reads from the well object and its
collaborators: the well name, the controls returned by
`well_ecl_.productionControls(summaryState)` and
`well_ecl_.injectionControls(summaryState)`, the value of
`getTHPConstraint(summaryState)`, the flag `getWVFPEXP().prevent()`, the
phase usage, the number of phases, the rate converter
`calcReservoirVoidageRates` (at region 0 and the well's PVT region), and
whether the well is a producer or an injector. -/
structure WellContext where
  name : String
  productionControls : ProductionControls
  injectionControls : InjectionControls
  thpConstraint : ℚ
  wvfpexp_prevent : Bool
  phaseUsage : PhaseUsage
  number_of_phases : Nat
  calcReservoirVoidageRates : (Nat → ℚ) → (Nat → ℚ)
  isProducer : Bool
  isInjector : Bool

/-- The loop `for (p = 0; p < np; ++p) acc = acc && rate(p) <= potential(p)`
started from `true`. -/
def rateLessThanPotential (np : Nat) (rate potential : Nat → ℚ) : Bool :=
  (List.range np).foldl (fun acc p => acc && decide (rate p ≤ potential p)) true

/-- The produced total reservoir rate (lines 136-144): starting from zero,
the reservoir rate of every active phase is subtracted, in the order Aqua,
Liquid, Vapour. -/
def producedResvRate (pu : PhaseUsage) (ws : SingleWellState) : ℚ :=
  let r0 : ℚ := 0
  let r1 := if pu.phase_used BlackoilPhases.Aqua then
    r0 - ws.reservoir_rates (pu.phase_pos BlackoilPhases.Aqua) else r0
  let r2 := if pu.phase_used BlackoilPhases.Liquid then
    r1 - ws.reservoir_rates (pu.phase_pos BlackoilPhases.Liquid) else r1
  if pu.phase_used BlackoilPhases.Vapour then
    r2 - ws.reservoir_rates (pu.phase_pos BlackoilPhases.Vapour) else r2

/-- The injected total reservoir rate (lines 259-267): starting from zero,
the reservoir rate of every active phase is added, in the order Aqua,
Liquid, Vapour. -/
def injectedResvRate (pu : PhaseUsage) (ws : SingleWellState) : ℚ :=
  let r0 : ℚ := 0
  let r1 := if pu.phase_used BlackoilPhases.Aqua then
    r0 + ws.reservoir_rates (pu.phase_pos BlackoilPhases.Aqua) else r0
  let r2 := if pu.phase_used BlackoilPhases.Liquid then
    r1 + ws.reservoir_rates (pu.phase_pos BlackoilPhases.Liquid) else r1
  if pu.phase_used BlackoilPhases.Vapour then
    r2 + ws.reservoir_rates (pu.phase_pos BlackoilPhases.Vapour) else r2

/-- The reservoir-rate target of a producer outside prediction mode (lines
150-166): the scheduled phase rate targets are converted to reservoir rates
and summed. -/
def historyResvRate (w : WellContext) : ℚ :=
  let pu := w.phaseUsage
  let controls := w.productionControls
  let s0 : Nat → ℚ := fun _ => 0
  let s1 := if pu.phase_used BlackoilPhases.Aqua then
    Function.update s0 (pu.phase_pos BlackoilPhases.Aqua) controls.water_rate else s0
  let s2 := if pu.phase_used BlackoilPhases.Liquid then
    Function.update s1 (pu.phase_pos BlackoilPhases.Liquid) controls.oil_rate else s1
  let s3 := if pu.phase_used BlackoilPhases.Vapour then
    Function.update s2 (pu.phase_pos BlackoilPhases.Vapour) controls.gas_rate else s2
  let voidage_rates := w.calcReservoirVoidageRates s3
  (List.range w.number_of_phases).foldl (fun acc p => acc + voidage_rates p) 0

/-- The function `activeProductionConstraint`.  The Boolean argument and the
second component of the result are the member
`operability_status_.thp_limit_violated_but_not_switched` before and after
the call.  Log messages are not modelled. -/
def activeProductionConstraint (w : WellContext) (ws : SingleWellState) (flag : Bool) :
    ProducerCMode × Bool :=
  let pu := w.phaseUsage
  let controls := w.productionControls
  let currentControl := ws.production_cmode
  if controls.hasControl ProducerCMode.BHP ∧ currentControl ≠ ProducerCMode.BHP
      ∧ controls.bhp_limit > ws.bhp then
    (ProducerCMode.BHP, flag)
  else if controls.hasControl ProducerCMode.ORAT ∧ currentControl ≠ ProducerCMode.ORAT
      ∧ controls.oil_rate < -ws.surface_rates (pu.phase_pos BlackoilPhases.Liquid) then
    (ProducerCMode.ORAT, flag)
  else if controls.hasControl ProducerCMode.WRAT ∧ currentControl ≠ ProducerCMode.WRAT
      ∧ controls.water_rate < -ws.surface_rates (pu.phase_pos BlackoilPhases.Aqua) then
    (ProducerCMode.WRAT, flag)
  else if controls.hasControl ProducerCMode.GRAT ∧ currentControl ≠ ProducerCMode.GRAT
      ∧ controls.gas_rate < -ws.surface_rates (pu.phase_pos BlackoilPhases.Vapour) then
    (ProducerCMode.GRAT, flag)
  else if controls.hasControl ProducerCMode.LRAT ∧ currentControl ≠ ProducerCMode.LRAT
      ∧ (let current_rate := -ws.surface_rates (pu.phase_pos BlackoilPhases.Liquid)
            - ws.surface_rates (pu.phase_pos BlackoilPhases.Aqua)
         let skip : Bool := decide (controls.liquid_rate = controls.oil_rate
            ∧ |ws.surface_rates (pu.phase_pos BlackoilPhases.Aqua)| < 1e-12)
         skip = false ∧ controls.liquid_rate < current_rate) then
    (ProducerCMode.LRAT, flag)
  else if controls.hasControl ProducerCMode.RESV ∧ currentControl ≠ ProducerCMode.RESV
      ∧ (let current_rate := producedResvRate pu ws
         (controls.prediction_mode = true ∧ controls.resv_rate < current_rate)
         ∨ (controls.prediction_mode = false ∧ historyResvRate w < current_rate)) then
    (ProducerCMode.RESV, flag)
  else if controls.hasControl ProducerCMode.THP ∧ currentControl ≠ ProducerCMode.THP
      ∧ w.thpConstraint > ws.thp ∧ ws.trivial_target = false then
    let rate_less_than_potential : Bool :=
      if w.wvfpexp_prevent then
        rateLessThanPotential w.number_of_phases (fun p => -ws.surface_rates p)
          ws.well_potentials
      else true
    if w.wvfpexp_prevent = false ∨ rate_less_than_potential = false then
      (ProducerCMode.THP, false)
    else (currentControl, true)
  else (currentControl, flag)

/-- The function `activeInjectionConstraint`; `Except.error` is the exception
thrown for an injector type other than WATER, OIL or GAS.  The Boolean
argument and the second component of the result are the member
`operability_status_.thp_limit_violated_but_not_switched` before and after
the call.  Log messages are not modelled. -/
def activeInjectionConstraint (w : WellContext) (ws : SingleWellState) (flag : Bool) :
    Except String (InjectorCMode × Bool) :=
  let pu := w.phaseUsage
  let controls := w.injectionControls
  let currentControl := ws.injection_cmode
  if controls.hasControl InjectorCMode.BHP ∧ currentControl ≠ InjectorCMode.BHP
      ∧ controls.bhp_limit < ws.bhp then
    Except.ok (InjectorCMode.BHP, flag)
  else
    let rateCheck : Except String Bool :=
      if controls.hasControl InjectorCMode.RATE ∧ currentControl ≠ InjectorCMode.RATE then
        match controls.injector_type with
        | InjectorType.WATER =>
          Except.ok (decide (controls.surface_rate
            < ws.surface_rates (pu.phase_pos BlackoilPhases.Aqua)))
        | InjectorType.OIL =>
          Except.ok (decide (controls.surface_rate
            < ws.surface_rates (pu.phase_pos BlackoilPhases.Liquid)))
        | InjectorType.GAS =>
          Except.ok (decide (controls.surface_rate
            < ws.surface_rates (pu.phase_pos BlackoilPhases.Vapour)))
        | InjectorType.MULTI =>
          Except.error ("Expected WATER, OIL or GAS as type for injectors " ++ w.name)
      else Except.ok false
    match rateCheck with
    | Except.error e => Except.error e
    | Except.ok true => Except.ok (InjectorCMode.RATE, flag)
    | Except.ok false =>
      if controls.hasControl InjectorCMode.RESV ∧ currentControl ≠ InjectorCMode.RESV
          ∧ controls.reservoir_rate < injectedResvRate pu ws then
        Except.ok (InjectorCMode.RESV, flag)
      else if controls.hasControl InjectorCMode.THP ∧ currentControl ≠ InjectorCMode.THP
          ∧ w.thpConstraint < ws.thp then
        if rateLessThanPotential w.number_of_phases ws.surface_rates ws.well_potentials
            = false then
          Except.ok (InjectorCMode.THP, false)
        else Except.ok (currentControl, true)
      else Except.ok (currentControl, flag)

/-! ## Table-driven reference for the control switch -/

/-- Walk an ordered list of control modes and return the first mode that is
available, is not the current mode, and whose limit is violated; if there is
none, return the current mode. -/
def firstViolated {α : Type} [DecidableEq α] (order : List α) (available violated : α → Bool)
    (current : α) : α :=
  match order.find? (fun M => available M && (decide (M ≠ current) && violated M)) with
  | some M => M
  | none => current

/-- The fixed priority order of the producer limits. -/
def producerPriority : List ProducerCMode :=
  [ProducerCMode.BHP, ProducerCMode.ORAT, ProducerCMode.WRAT, ProducerCMode.GRAT,
   ProducerCMode.LRAT, ProducerCMode.RESV, ProducerCMode.THP]

/-- The limit check in the words of the specification, "the well's current
rate or pressure exceeds the corresponding scheduled limit": for every mode
the current value is above the limit (for LRAT with the documented skip
rule, for RESV with the target of the prediction or history mode). -/
def producerLimitExceeded (w : WellContext) (ws : SingleWellState) : ProducerCMode → Bool
  | ProducerCMode.BHP => decide (w.productionControls.bhp_limit < ws.bhp)
  | ProducerCMode.ORAT =>
    decide (w.productionControls.oil_rate
      < -ws.surface_rates (w.phaseUsage.phase_pos BlackoilPhases.Liquid))
  | ProducerCMode.WRAT =>
    decide (w.productionControls.water_rate
      < -ws.surface_rates (w.phaseUsage.phase_pos BlackoilPhases.Aqua))
  | ProducerCMode.GRAT =>
    decide (w.productionControls.gas_rate
      < -ws.surface_rates (w.phaseUsage.phase_pos BlackoilPhases.Vapour))
  | ProducerCMode.LRAT =>
    decide (¬ (w.productionControls.liquid_rate = w.productionControls.oil_rate
        ∧ |ws.surface_rates (w.phaseUsage.phase_pos BlackoilPhases.Aqua)| < 1e-12)
      ∧ w.productionControls.liquid_rate
        < -ws.surface_rates (w.phaseUsage.phase_pos BlackoilPhases.Liquid)
          - ws.surface_rates (w.phaseUsage.phase_pos BlackoilPhases.Aqua))
  | ProducerCMode.RESV =>
    if w.productionControls.prediction_mode then
      decide (w.productionControls.resv_rate < producedResvRate w.phaseUsage ws)
    else decide (historyResvRate w < producedResvRate w.phaseUsage ws)
  | ProducerCMode.THP => decide (w.thpConstraint < ws.thp)
  | ProducerCMode.GRUP => false

/-- The limit check read with the producer's sense of a pressure limit, a
pressure that has fallen below its limit, and nothing else: the THP limit
is violated as soon as thp is below it, which is the case the source itself
reports as "The THP limit is violated". -/
def producerLimitViolated (w : WellContext) (ws : SingleWellState) : ProducerCMode → Bool
  | ProducerCMode.BHP => decide (w.productionControls.bhp_limit > ws.bhp)
  | ProducerCMode.THP => decide (w.thpConstraint > ws.thp)
  | M => producerLimitExceeded w ws M

/-- The condition under which `activeProductionConstraint` switches to mode
`M` once `M` is available and not current, one row per `if` block of
lines 94-203: bhp below the BHP limit; a produced rate above its limit (for
LRAT unless the skip rule applies); thp below the THP limit with a
non-trivial target, unless the prevent flag is set and every phase rate is
within its well potential. -/
def producerLimitSwitches (w : WellContext) (ws : SingleWellState) : ProducerCMode → Bool
  | ProducerCMode.BHP => decide (w.productionControls.bhp_limit > ws.bhp)
  | ProducerCMode.ORAT =>
    decide (w.productionControls.oil_rate
      < -ws.surface_rates (w.phaseUsage.phase_pos BlackoilPhases.Liquid))
  | ProducerCMode.WRAT =>
    decide (w.productionControls.water_rate
      < -ws.surface_rates (w.phaseUsage.phase_pos BlackoilPhases.Aqua))
  | ProducerCMode.GRAT =>
    decide (w.productionControls.gas_rate
      < -ws.surface_rates (w.phaseUsage.phase_pos BlackoilPhases.Vapour))
  | ProducerCMode.LRAT =>
    decide (¬ (w.productionControls.liquid_rate = w.productionControls.oil_rate
        ∧ |ws.surface_rates (w.phaseUsage.phase_pos BlackoilPhases.Aqua)| < 1e-12)
      ∧ w.productionControls.liquid_rate
        < -ws.surface_rates (w.phaseUsage.phase_pos BlackoilPhases.Liquid)
          - ws.surface_rates (w.phaseUsage.phase_pos BlackoilPhases.Aqua))
  | ProducerCMode.RESV =>
    if w.productionControls.prediction_mode then
      decide (w.productionControls.resv_rate < producedResvRate w.phaseUsage ws)
    else decide (historyResvRate w < producedResvRate w.phaseUsage ws)
  | ProducerCMode.THP =>
    decide (w.thpConstraint > ws.thp) && !ws.trivial_target
      && !(w.wvfpexp_prevent
        && rateLessThanPotential w.number_of_phases (fun p => -ws.surface_rates p)
          ws.well_potentials)
  | ProducerCMode.GRUP => false

/-- The ordered walk over the producer modes with the switch conditions of
the code. -/
def activeProductionConstraint_table (w : WellContext) (ws : SingleWellState) : ProducerCMode :=
  firstViolated producerPriority w.productionControls.hasControl (producerLimitSwitches w ws)
    ws.production_cmode

/-- The fixed priority order of the injector limits. -/
def injectorPriority : List InjectorCMode :=
  [InjectorCMode.BHP, InjectorCMode.RATE, InjectorCMode.RESV, InjectorCMode.THP]

/-- The current surface rate of the injected phase. -/
def injectedSurfaceRate (w : WellContext) (ws : SingleWellState) : ℚ :=
  match w.injectionControls.injector_type with
  | InjectorType.WATER => ws.surface_rates (w.phaseUsage.phase_pos BlackoilPhases.Aqua)
  | InjectorType.OIL => ws.surface_rates (w.phaseUsage.phase_pos BlackoilPhases.Liquid)
  | InjectorType.GAS => ws.surface_rates (w.phaseUsage.phase_pos BlackoilPhases.Vapour)
  | InjectorType.MULTI => 0

/-- Whether the current value exceeds the limit of injector mode `M`: bhp
above the BHP limit, the injected phase's surface rate above the
surface-rate limit, the summed reservoir rates above the reservoir-rate
limit, thp above the THP limit. -/
def injectorLimitExceeded (w : WellContext) (ws : SingleWellState) : InjectorCMode → Bool
  | InjectorCMode.BHP => decide (w.injectionControls.bhp_limit < ws.bhp)
  | InjectorCMode.RATE => decide (w.injectionControls.surface_rate < injectedSurfaceRate w ws)
  | InjectorCMode.RESV =>
    decide (w.injectionControls.reservoir_rate < injectedResvRate w.phaseUsage ws)
  | InjectorCMode.THP => decide (w.thpConstraint < ws.thp)
  | InjectorCMode.GRUP => false

/-- The injector limit check with the THP rule of the code: the THP limit
counts only if, in addition, some phase's surface rate is above its well
potential. -/
def injectorLimitSwitches (w : WellContext) (ws : SingleWellState) : InjectorCMode → Bool
  | InjectorCMode.THP =>
    decide (w.thpConstraint < ws.thp)
      && !rateLessThanPotential w.number_of_phases ws.surface_rates ws.well_potentials
  | M => injectorLimitExceeded w ws M

/-! ## Well-formed inputs and iteration spaces -/

/-- The face slots of all boundary conditions, as pairs (condition, slot), in
the order in which `assemble_bc_contrib` and `boundary_fluxes` visit them. -/
def bcEntries (bc : FlowBoundaryConditions) : List (Nat × Nat) :=
  (List.range bc.nbc).flatMap (fun i => (condSlots bc i).map (fun j => (i, j)))

/-- The boundary conditions, if any, among the forces. -/
def forcesBC (F : Option ifs_tpfa_forces) : Option FlowBoundaryConditions :=
  match F with
  | some F => F.bc
  | none => none

/-- The source terms, if any, among the forces. -/
def forcesSrc (F : Option ifs_tpfa_forces) : Option (Nat → ℚ) :=
  match F with
  | some F => F.src
  | none => none

/-- Condition `i` is of a kind handled by the solver. -/
def bcHandled (bc : FlowBoundaryConditions) (i : Nat) : Prop :=
  bc.type i = FlowBCType.BC_PRESSURE ∨ bc.type i = FlowBCType.BC_FLUX_TOTVOL

instance (bc : FlowBoundaryConditions) (i : Nat) : Decidable (bcHandled bc i) := by
  unfold bcHandled
  infer_instance

/-- The assertions of `assemble_bc_contrib` and `boundary_fluxes`: every face
listed under a PRESSURE or FLUX_TOTVOL condition is a face of the grid and
has exactly one exterior cell. -/
def bcOnBoundary (G : UnstructuredGrid) (bc : FlowBoundaryConditions) : Prop :=
  ∀ e ∈ bcEntries bc, bcHandled bc e.1 →
    bc.face e.2 < G.number_of_faces ∧
    ((G.face_cells (2 * bc.face e.2 + 0) < 0 ∧ 0 ≤ G.face_cells (2 * bc.face e.2 + 1))
      ∨ (0 ≤ G.face_cells (2 * bc.face e.2 + 0) ∧ G.face_cells (2 * bc.face e.2 + 1) < 0))

instance (G : UnstructuredGrid) (bc : FlowBoundaryConditions) : Decidable (bcOnBoundary G bc) := by
  unfold bcOnBoundary
  infer_instance

/-- The assertions hold for the boundary conditions among the forces, if
there are any. -/
def forcesOnBoundary (G : UnstructuredGrid) (F : Option ifs_tpfa_forces) : Prop :=
  match forcesBC F with
  | some bc => bcOnBoundary G bc
  | none => True

instance (G : UnstructuredGrid) (F : Option ifs_tpfa_forces) :
    Decidable (forcesOnBoundary G F) := by
  unfold forcesOnBoundary
  cases forcesBC F <;> infer_instance

/-- Face `f` is listed under no boundary condition among the forces. -/
def noCondition (F : Option ifs_tpfa_forces) (f : Nat) : Prop :=
  match forcesBC F with
  | some bc => ∀ e ∈ bcEntries bc, bc.face e.2 ≠ f
  | none => True

instance (F : Option ifs_tpfa_forces) (f : Nat) : Decidable (noCondition F f) := by
  unfold noCondition
  cases forcesBC F <;> infer_instance

/-- The face slot `e` of a handled condition lists face `f`. -/
def listsFace (bc : FlowBoundaryConditions) (f : Nat) (e : Nat × Nat) : Bool :=
  decide (bcHandled bc e.1) && decide (bc.face e.2 = f)

/-- The last face slot of a PRESSURE or FLUX_TOTVOL condition that lists
face `f`, if there is one. -/
def lastListing (bc : FlowBoundaryConditions) (f : Nat) : Option (Nat × Nat) :=
  (bcEntries bc).reverse.find? (listsFace bc f)

/-- Both cells of face `f` are non-negative. -/
def interiorFace (G : UnstructuredGrid) (f : Nat) : Prop :=
  0 ≤ G.face_cells (2 * f + 0) ∧ 0 ≤ G.face_cells (2 * f + 1)

instance (G : UnstructuredGrid) (f : Nat) : Decidable (interiorFace G f) := by
  unfold interiorFace
  infer_instance

/-- The flux that `boundary_fluxes` stores for the face slot `e` of a handled
condition. -/
def bfluxVal (G : UnstructuredGrid) (bc : FlowBoundaryConditions)
    (trans cpress fgrav : Nat → ℚ) (e : Nat × Nat) : ℚ :=
  if bc.type e.1 = FlowBCType.BC_PRESSURE then
    trans (bc.face e.2) *
      ((if G.face_cells (2 * bc.face e.2 + 0) < 0 then
          bc.value e.1 - cpress (G.face_cells (2 * bc.face e.2 + 1)).toNat
        else cpress (G.face_cells (2 * bc.face e.2 + 0)).toNat - bc.value e.1)
        + fgrav (bc.face e.2))
  else signOf (decide (G.face_cells (2 * bc.face e.2 + 0) < 0)) * bc.value e.1

/-- One visit of `boundary_fluxes` to the face slot `e`. -/
def bfluxEntryStep (G : UnstructuredGrid) (bc : FlowBoundaryConditions)
    (trans cpress fgrav : Nat → ℚ) (v : Nat → ℚ) (e : Nat × Nat) : Nat → ℚ :=
  if decide (bcHandled bc e.1) = true then
    Function.update v (bc.face e.2) (bfluxVal G bc trans cpress fgrav e)
  else v

/-- The flux that the face loop of `ifs_tpfa_press_flux` stores for face `f`. -/
def fluxVal (G : UnstructuredGrid) (trans cpress fgrav : Nat → ℚ) (f : Nat) : ℚ :=
  if 0 ≤ G.face_cells (2 * f + 0) ∧ 0 ≤ G.face_cells (2 * f + 1) then
    trans f * (cpress (G.face_cells (2 * f + 0)).toNat
      - cpress (G.face_cells (2 * f + 1)).toNat + fgrav f)
  else 0

/-- The face slots `cell_facepos[c] .. cell_facepos[c+1]-1` of cell `c`. -/
def cellFaceSlots (G : UnstructuredGrid) (c : Nat) : List Nat :=
  List.range' (G.cell_facepos c) (G.cell_facepos (c + 1) - G.cell_facepos c)

/-- A well-formed grid: the face positions start at zero and are ascending,
the listed faces are faces of the grid, the cells of a face are cells of
the grid or exterior, and every face listed for a cell has that cell as one
of its two cells. -/
def wellFormedGrid (G : UnstructuredGrid) : Prop :=
  G.cell_facepos 0 = 0
  ∧ (∀ c, c < G.number_of_cells → G.cell_facepos c ≤ G.cell_facepos (c + 1))
  ∧ (∀ c, c < G.number_of_cells → ∀ i ∈ cellFaceSlots G c,
      G.cell_faces i < G.number_of_faces
      ∧ (G.face_cells (2 * G.cell_faces i + 0) = (c : Int)
        ∨ G.face_cells (2 * G.cell_faces i + 1) = (c : Int)))
  ∧ (∀ f, f < G.number_of_faces →
      G.face_cells (2 * f + 0) < (G.number_of_cells : Int)
      ∧ G.face_cells (2 * f + 1) < (G.number_of_cells : Int))

instance (G : UnstructuredGrid) : Decidable (wellFormedGrid G) := by
  unfold wellFormedGrid
  infer_instance

/-- The sign `s` of face `f` as seen from cell `c`: `+1` if `c` is the first
cell of `f`, else `-1`. -/
def faceSign (G : UnstructuredGrid) (c f : Nat) : ℚ :=
  signOf (decide (G.face_cells (2 * f + 0) = (c : Int)))

/-- The cell on which a boundary condition on face `f` acts: the first cell
of `f` if it is non-negative, else the second. -/
def bcCell (G : UnstructuredGrid) (f : Nat) : Nat :=
  (if 0 ≤ G.face_cells (2 * f + 0) then G.face_cells (2 * f + 0)
    else G.face_cells (2 * f + 1)).toNat

/-- The face slots of the conditions of type `ty` whose face acts on cell
`c`. -/
def bcEntriesAt (G : UnstructuredGrid) (bc : FlowBoundaryConditions) (ty : FlowBCType)
    (c : Nat) : List (Nat × Nat) :=
  (bcEntries bc).filter (fun e => decide (bc.type e.1 = ty ∧ bcCell G (bc.face e.2) = c))

/-- The gravity part of the right-hand side of cell `c`: the sum over the
faces `f` of `c` of `trans[f] * (s * fgrav[f])`. -/
def rhsGravity (G : UnstructuredGrid) (trans fgrav : Nat → ℚ) (c : Nat) : ℚ :=
  ((cellFaceSlots G c).map (fun i =>
    trans (G.cell_faces i) * (faceSign G c (G.cell_faces i) * fgrav (G.cell_faces i)))).sum

/-- The PRESSURE part of the right-hand side of cell `c`: the sum over the
faces `f` of `c` under a PRESSURE condition with value `v` of
`trans[f] * v - s * trans[f] * fgrav[f]`. -/
def rhsPressure (G : UnstructuredGrid) (bc : FlowBoundaryConditions) (trans fgrav : Nat → ℚ)
    (c : Nat) : ℚ :=
  ((bcEntriesAt G bc FlowBCType.BC_PRESSURE c).map (fun e =>
    trans (bc.face e.2) * bc.value e.1
      - faceSign G c (bc.face e.2) * trans (bc.face e.2) * fgrav (bc.face e.2))).sum

/-- The FLUX_TOTVOL part of the right-hand side of cell `c`: the sum of the
values of the conditions on the faces of `c`. -/
def rhsFlux (G : UnstructuredGrid) (bc : FlowBoundaryConditions) (c : Nat) : ℚ :=
  ((bcEntriesAt G bc FlowBCType.BC_FLUX_TOTVOL c).map (fun e => bc.value e.1)).sum

/-- The boundary-condition part of the right-hand side of cell `c`. -/
def rhsBoundary (G : UnstructuredGrid) (F : Option ifs_tpfa_forces) (trans fgrav : Nat → ℚ)
    (c : Nat) : ℚ :=
  match forcesBC F with
  | some bc => rhsPressure G bc trans fgrav c + rhsFlux G bc c
  | none => 0

/-- The source term of cell `c`, zero when no source terms are supplied. -/
def rhsSource (F : Option ifs_tpfa_forces) (c : Nat) : ℚ :=
  match forcesSrc F with
  | some src => src c
  | none => 0

/-- One visit of `assemble_bc_contrib` to the face slot `e`. -/
def bcEntryStep (G : UnstructuredGrid) (bc : FlowBoundaryConditions) (trans : Nat → ℚ)
    (h : ifs_tpfa_data) (e : Nat × Nat) : ifs_tpfa_data :=
  match bc.type e.1 with
  | FlowBCType.BC_PRESSURE => bc_pressure_step G bc trans e.1 h e.2
  | FlowBCType.BC_FLUX_TOTVOL => bc_flux_step G bc e.1 h e.2
  | FlowBCType.BC_NOFLOW => h

/-- What one visit of the main loop nest of `ifs_tpfa_assemble` to the pair
(cell, face slot) `e` adds to the right-hand side entry `k`. -/
def faceRhsTerm (G : UnstructuredGrid) (trans fgrav : Nat → ℚ) (e : Nat × Nat) (k : Nat) : ℚ :=
  if e.1 = k then
    -(trans (G.cell_faces e.2)
      * (faceSign G e.1 (G.cell_faces e.2) * fgrav (G.cell_faces e.2)))
  else 0

/-- What one visit of `assemble_bc_contrib` to the face slot `e` adds to the
right-hand side entry `k`. -/
def bcRhsTerm (G : UnstructuredGrid) (bc : FlowBoundaryConditions) (trans fgrav : Nat → ℚ)
    (e : Nat × Nat) (k : Nat) : ℚ :=
  if bc.type e.1 = FlowBCType.BC_PRESSURE ∧ bcCell G (bc.face e.2) = k then
    trans (bc.face e.2) * bc.value e.1
      - signOf (decide (0 ≤ G.face_cells (2 * bc.face e.2 + 0)))
        * trans (bc.face e.2) * fgrav (bc.face e.2)
  else if bc.type e.1 = FlowBCType.BC_FLUX_TOTVOL ∧ bcCell G (bc.face e.2) = k then
    bc.value e.1
  else 0

/-- The parts of the solver data that assembly reads but does not write
after the gravity terms are computed: the sparsity pattern, the solution
vector and the gravity terms. -/
def sameFrame (h0 h : ifs_tpfa_data) : Prop :=
  h.A.m = h0.A.m ∧ h.A.nnz = h0.A.nnz ∧ h.A.ia = h0.A.ia ∧ h.A.ja = h0.A.ja
    ∧ h.x = h0.x ∧ h.fgrav = h0.fgrav

/-- The solver data on entry to the main loop nest of `ifs_tpfa_assemble`. -/
def assembleStart (G : UnstructuredGrid) (gpress : Nat → ℚ) (h : ifs_tpfa_data) :
    ifs_tpfa_data :=
  { A := csrmatrix_zero h.A, b := vector_zero h.A.m h.b, x := h.x,
    fgrav := compute_grav_term G gpress h.fgrav }

/-- What `assemble_bc_contrib` adds to the right-hand side entry `k`. -/
def bcRhsSum (G : UnstructuredGrid) (F : Option ifs_tpfa_forces) (trans fgrav : Nat → ℚ)
    (k : Nat) : ℚ :=
  match forcesBC F with
  | some bc => ((bcEntries bc).map (fun e => bcRhsTerm G bc trans fgrav e k)).sum
  | none => 0

/-! ## The sparsity pattern as a list of entries -/

/-- The diagonal entries `(i, i)` of `n` unknowns. -/
def diagEvents (n : Nat) : List (Nat × Nat) :=
  (List.range n).flatMap (fun i => [(i, i)])

/-- The entries `(c1, c2)` and `(c2, c1)` of the faces whose two cells are
both non-negative, face by face. -/
def faceEvents (G : UnstructuredGrid) : List (Nat × Nat) :=
  (List.range G.number_of_faces).flatMap (fun f =>
    if 0 ≤ G.face_cells (2 * f + 0) ∧ 0 ≤ G.face_cells (2 * f + 1) then
      [((G.face_cells (2 * f + 0)).toNat, (G.face_cells (2 * f + 1)).toNat),
       ((G.face_cells (2 * f + 1)).toNat, (G.face_cells (2 * f + 0)).toNat)]
    else [])

/-- The entries `(c, N + w)` and `(N + w, c)` of the perforations visited by
the loop nest over wells and their perforations. -/
def wellEvents (G : UnstructuredGrid) (W : Option Wells) : List (Nat × Nat) :=
  match W with
  | none => []
  | some w =>
    (segLoop w.number_of_wells w.well_connpos).flatMap (fun wi =>
      [(w.well_cells wi.2, G.number_of_cells + wi.1),
       (G.number_of_cells + wi.1, w.well_cells wi.2)])

/-- The entries that `ifs_tpfa_construct_matrix` counts and then stores, in
the order of the three loops. -/
def patternEvents (G : UnstructuredGrid) (W : Option Wells) : List (Nat × Nat) :=
  diagEvents (numUnknowns G W) ++ faceEvents G ++ wellEvents G W

/-- The counting pass over a list of entries: `ia[row + 1] += 1` for each. -/
def countFold (es : List (Nat × Nat)) (ia : Nat → Nat) : Nat → Nat :=
  es.foldl (fun ia e => incr ia (e.1 + 1)) ia

/-- The filling pass over a list of entries:
`ja[ ia[row + 1] ++ ] = col` for each. -/
def fillFold (es : List (Nat × Nat)) (A : CSRMatrix) : CSRMatrix :=
  es.foldl (fun A e => pushCol A e.1 e.2) A

/-- The entries of row `r` among `es`. -/
def rowEvents (es : List (Nat × Nat)) (r : Nat) : List (Nat × Nat) :=
  es.filter (fun e => decide (e.1 = r))

/-- The number of entries of row `r` among `es`. -/
def rowCount (es : List (Nat × Nat)) (r : Nat) : Nat :=
  (rowEvents es r).length

/-- The columns of the entries of row `r` among `es`, in order. -/
def rowCols (es : List (Nat × Nat)) (r : Nat) : List Nat :=
  (rowEvents es r).map (fun e => e.2)

/-- The number of entries in the rows before row `r`. -/
def rowStart (es : List (Nat × Nat)) (r : Nat) : Nat :=
  ((List.range r).map (rowCount es)).sum

/-- The storage positions of row `i` of a matrix. -/
def rowPositions (A : CSRMatrix) (i : Nat) : List Nat :=
  List.range' (A.ia i) (A.ia (i + 1) - A.ia i)

/-- The stored (row, column) positions of a matrix, row by row, with
multiplicity. -/
def csrPositions (A : CSRMatrix) : List (Nat × Nat) :=
  (List.range A.m).flatMap (fun i => (rowPositions A i).map (fun p => (i, A.ja p)))

/-- Well-formed well connections: the perforation positions start at zero
and are ascending, and every perforated cell is a cell of the grid. -/
def wellFormedWells (G : UnstructuredGrid) (W : Option Wells) : Prop :=
  match W with
  | none => True
  | some w =>
    w.well_connpos 0 = 0
    ∧ (∀ k, k < w.number_of_wells → w.well_connpos k ≤ w.well_connpos (k + 1))
    ∧ (∀ i, i < w.well_connpos w.number_of_wells → w.well_cells i < G.number_of_cells)

instance (G : UnstructuredGrid) (W : Option Wells) : Decidable (wellFormedWells G W) := by
  unfold wellFormedWells
  cases W <;> infer_instance

/-- The cells of every face are cells of the grid or exterior. -/
def cellsInRange (G : UnstructuredGrid) : Prop :=
  ∀ f, f < G.number_of_faces →
    G.face_cells (2 * f + 0) < (G.number_of_cells : Int)
    ∧ G.face_cells (2 * f + 1) < (G.number_of_cells : Int)

instance (G : UnstructuredGrid) : Decidable (cellsInRange G) := by
  unfold cellsInRange
  infer_instance

/-- The pattern of the specification: `(i, i)` for each unknown; `(c1, c2)`
and `(c2, c1)` for each face whose two cells are both non-negative;
`(c, N + w)` and `(N + w, c)` for each perforation of well `w` in cell `c`. -/
def expectedPattern (G : UnstructuredGrid) (W : Option Wells) : List (Nat × Nat) :=
  (List.range (numUnknowns G W)).map (fun i => (i, i))
  ++ (List.range G.number_of_faces).flatMap (fun f =>
      if interiorFace G f then
        [((G.face_cells (2 * f + 0)).toNat, (G.face_cells (2 * f + 1)).toNat),
         ((G.face_cells (2 * f + 1)).toNat, (G.face_cells (2 * f + 0)).toNat)]
      else [])
  ++ (match W with
      | none => []
      | some w =>
        (List.range w.number_of_wells).flatMap (fun k =>
          (List.range' (w.well_connpos k) (w.well_connpos (k + 1) - w.well_connpos k)).flatMap
            (fun i => [(w.well_cells i, G.number_of_cells + k),
                       (G.number_of_cells + k, w.well_cells i)])))

/-- The slots of different rows do not overlap. -/
def slotsDisjoint (es : List (Nat × Nat)) (A : CSRMatrix) : Prop :=
  ∀ r r2 p, r ≠ r2 → A.ia (r + 1) ≤ p → p < A.ia (r + 1) + rowCount es r →
    ¬ (A.ia (r2 + 1) ≤ p ∧ p < A.ia (r2 + 1) + rowCount es r2)

/-- The matrix `A` has `m` rows and stores the entries `es` row by row: the
row pointers are the running totals of the row counts, and the columns of
each row are the columns of the entries of that row, in ascending order. -/
def builtPattern (es : List (Nat × Nat)) (m : Nat) (A : CSRMatrix) : Prop :=
  A.m = m ∧ A.nnz = rowStart es m ∧ (∀ k, k ≤ m → A.ia k = rowStart es k)
  ∧ ∀ r, r < m → List.Sorted (· ≤ ·) ((rowPositions A r).map A.ja)
      ∧ ((rowPositions A r).map A.ja).Perm (rowCols es r)

/-! ## Matrix values -/

/-- The cell on the other side of face `f` as seen from cell `c` (the value
of `c2` after line 377). -/
def otherCell (G : UnstructuredGrid) (c f : Nat) : Int :=
  if G.face_cells (2 * f + 0) = (c : Int) then G.face_cells (2 * f + 1)
  else G.face_cells (2 * f + 0)

/-- What one visit of the main loop nest of `ifs_tpfa_assemble` to the pair
(cell, face slot) `e` adds to the stored value at position `p`. -/
def faceSaTerm (G : UnstructuredGrid) (trans : Nat → ℚ) (A : CSRMatrix) (e : Nat × Nat)
    (p : Nat) : ℚ :=
  if 0 ≤ otherCell G e.1 (G.cell_faces e.2) then
    (if p = csrmatrix_elm_index e.1 e.1 A then trans (G.cell_faces e.2) else 0)
    + (if p = csrmatrix_elm_index e.1 (otherCell G e.1 (G.cell_faces e.2)).toNat A
        then -trans (G.cell_faces e.2) else 0)
  else 0

/-- What one visit of `assemble_bc_contrib` to the face slot `e` adds to the
stored value at position `p`. -/
def bcSaTerm (G : UnstructuredGrid) (bc : FlowBoundaryConditions) (trans : Nat → ℚ)
    (A : CSRMatrix) (e : Nat × Nat) (p : Nat) : ℚ :=
  if bc.type e.1 = FlowBCType.BC_PRESSURE
      ∧ p = csrmatrix_elm_index (bcCell G (bc.face e.2)) (bcCell G (bc.face e.2)) A then
    trans (bc.face e.2)
  else 0

/-- What `assemble_bc_contrib` adds to the stored value at position `p`. -/
def bcSaSum (G : UnstructuredGrid) (F : Option ifs_tpfa_forces) (trans : Nat → ℚ)
    (A : CSRMatrix) (p : Nat) : ℚ :=
  match forcesBC F with
  | some bc => ((bcEntries bc).map (fun e => bcSaTerm G bc trans A e p)).sum
  | none => 0

/-- The solver data holds the matrix that `ifs_tpfa_construct_matrix` built
for the grid and the wells; the stored values and the vectors are
arbitrary. -/
def constructedFor (G : UnstructuredGrid) (W : Option Wells) (h : ifs_tpfa_data) : Prop :=
  ∃ A0, ifs_tpfa_construct_matrix G W = some A0 ∧ h.A.m = A0.m ∧ h.A.nnz = A0.nnz
    ∧ h.A.ia = A0.ia ∧ h.A.ja = A0.ja

/-- The sum over the storage positions of row `i` of the stored values, each
multiplied by the weight of its column. -/
def rowWeighted (A : CSRMatrix) (i : Nat) (w : Nat → ℚ) : ℚ :=
  ((rowPositions A i).map (fun p => w (A.ja p) * A.sa p)).sum

/-- The total value stored at `(i, j)`: the sum of the stored values of the
positions of row `i` with column `j`. -/
def csrTotal (A : CSRMatrix) (i j : Nat) : ℚ :=
  ((rowPositions A i).map (fun p => if A.ja p = j then A.sa p else 0)).sum

/-- The sum of the stored values of row `i`. -/
def rowSum (A : CSRMatrix) (i : Nat) : ℚ :=
  ((rowPositions A i).map A.sa).sum

/-- No boundary condition of type PRESSURE is present among the forces. -/
def noPressure (F : Option ifs_tpfa_forces) : Prop :=
  match forcesBC F with
  | some bc => ∀ i, i < bc.nbc → bc.type i ≠ FlowBCType.BC_PRESSURE
  | none => True

instance (F : Option ifs_tpfa_forces) : Decidable (noPressure F) := by
  unfold noPressure
  cases forcesBC F <;> infer_instance

/-- The sum of `trans[f]` over the faces of cell `c` listed under a PRESSURE
condition. -/
def pressureDiag (G : UnstructuredGrid) (F : Option ifs_tpfa_forces) (trans : Nat → ℚ)
    (c : Nat) : ℚ :=
  match forcesBC F with
  | some bc =>
    ((bcEntriesAt G bc FlowBCType.BC_PRESSURE c).map (fun e => trans (bc.face e.2))).sum
  | none => 0

/-- The contribution of the face slot `i` of cell `c` to the weighted sum of
row `c`: for a face with a non-negative cell on the other side, `trans[f]`
at column `c` and `-trans[f]` at the column of the other cell. -/
def slotWeighted (G : UnstructuredGrid) (trans : Nat → ℚ) (c : Nat) (w : Nat → ℚ) (i : Nat) :
    ℚ :=
  if 0 ≤ otherCell G c (G.cell_faces i) then
    w c * trans (G.cell_faces i)
      - w (otherCell G c (G.cell_faces i)).toNat * trans (G.cell_faces i)
  else 0

/-- What one visit of the loop nest of `compute_grav_term` to the pair
(cell, face slot) `e` adds to the gravity term of face `f`. -/
def gravTerm (G : UnstructuredGrid) (gpress : Nat → ℚ) (e : Nat × Nat) (f : Nat) : ℚ :=
  if G.cell_faces e.2 = f ∧ interiorFace G (G.cell_faces e.2) then
    faceSign G e.1 (G.cell_faces e.2) * gpress e.2
  else 0

/-- Two matrices have the same sparsity pattern (their stored values may
differ). -/
def samePattern (A B : CSRMatrix) : Prop :=
  B.m = A.m ∧ B.nnz = A.nnz ∧ B.ia = A.ia ∧ B.ja = A.ja

/-- Two solver states agree on the outputs of assembly: the `nnz` stored
values, the `m` right-hand side entries and the gravity terms of the faces
of the grid. -/
def sameOutputs (G : UnstructuredGrid) (h1 h2 : ifs_tpfa_data) : Prop :=
  (∀ p, p < h1.A.nnz → h1.A.sa p = h2.A.sa p)
  ∧ (∀ k, k < h1.A.m → h1.b k = h2.b k)
  ∧ (∀ f, f < G.number_of_faces → h1.fgrav f = h2.fgrav f)

/-- No face joins cell 0 to itself. -/
def noSelfFaceAtZero (G : UnstructuredGrid) : Prop :=
  ∀ f, f < G.number_of_faces →
    ¬ (G.face_cells (2 * f + 0) = 0 ∧ G.face_cells (2 * f + 1) = 0)

instance (G : UnstructuredGrid) : Decidable (noSelfFaceAtZero G) := by
  unfold noSelfFaceAtZero
  infer_instance

/-- How often face `f` is listed among the faces of cell `c`. -/
def listedCount (G : UnstructuredGrid) (c f : Nat) : Nat :=
  ((cellFaceSlots G c).filter (fun i => decide (G.cell_faces i = f))).length

/-- Each interior face `f = (c1, c2)` is listed exactly once among the faces
of `c1` and once among the faces of `c2`. -/
def listedOnce (G : UnstructuredGrid) : Prop :=
  ∀ f, f < G.number_of_faces → interiorFace G f →
    listedCount G (G.face_cells (2 * f + 0)).toNat f = 1
    ∧ listedCount G (G.face_cells (2 * f + 1)).toNat f = 1

instance (G : UnstructuredGrid) : Decidable (listedOnce G) := by
  unfold listedOnce
  infer_instance

/-- No interior face joins a cell to itself. -/
def noSelfFaces (G : UnstructuredGrid) : Prop :=
  ∀ f, f < G.number_of_faces → interiorFace G f →
    G.face_cells (2 * f + 0) ≠ G.face_cells (2 * f + 1)

instance (G : UnstructuredGrid) : Decidable (noSelfFaces G) := by
  unfold noSelfFaces
  infer_instance

/-- The sum of `trans[f]` over the interior faces of cell `c`. -/
def diagFaces (G : UnstructuredGrid) (trans : Nat → ℚ) (c : Nat) : ℚ :=
  ((List.range G.number_of_faces).map (fun f =>
    if interiorFace G f
        ∧ (G.face_cells (2 * f + 0) = (c : Int) ∨ G.face_cells (2 * f + 1) = (c : Int))
    then trans f else 0)).sum

/-- The sum of `trans[f]` over the interior faces joining the cells `c` and
`c2`. -/
def joiningFaces (G : UnstructuredGrid) (trans : Nat → ℚ) (c c2 : Nat) : ℚ :=
  ((List.range G.number_of_faces).map (fun f =>
    if interiorFace G f
        ∧ ((G.face_cells (2 * f + 0) = (c : Int) ∧ G.face_cells (2 * f + 1) = (c2 : Int))
          ∨ (G.face_cells (2 * f + 0) = (c2 : Int) ∧ G.face_cells (2 * f + 1) = (c : Int)))
    then trans f else 0)).sum

/-- A grid with one cell and one face that joins the cell to itself. -/
def selfFaceGrid : UnstructuredGrid :=
  { number_of_cells := 1, number_of_faces := 1,
    face_cells := fun _ => 0,
    cell_facepos := fun k => if k = 0 then 0 else 1,
    cell_faces := fun _ => 0 }

/-- Solver data holding the matrix constructed for `selfFaceGrid` without
wells. -/
def selfFaceData : ifs_tpfa_data :=
  { A := (ifs_tpfa_construct_matrix selfFaceGrid none).getD (csrmatrix_new_count_nnz 0),
    b := fun _ => 0, x := fun _ => 0, fgrav := fun _ => 0 }

/-! ## Example wells -/

/-- Phase usage with the three phases active at positions 0, 1, 2. -/
def threePhase : PhaseUsage :=
  { phase_used := fun _ => true,
    phase_pos := fun p =>
      match p with
      | BlackoilPhases.Aqua => 0
      | BlackoilPhases.Liquid => 1
      | BlackoilPhases.Vapour => 2 }

/-- A producer with BHP, ORAT and LRAT controls: BHP limit 2000, ORAT limit
500, LRAT limit 550. -/
def exampleProducer : WellContext :=
  { name := "P1",
    productionControls :=
      { hasControl := fun M =>
          match M with
          | ProducerCMode.BHP => true
          | ProducerCMode.ORAT => true
          | ProducerCMode.LRAT => true
          | _ => false,
        bhp_limit := 2000, oil_rate := 500, water_rate := 0, gas_rate := 0,
        liquid_rate := 550, resv_rate := 0, prediction_mode := true },
    injectionControls :=
      { hasControl := fun _ => false, bhp_limit := 0, surface_rate := 0,
        reservoir_rate := 0, injector_type := InjectorType.WATER },
    thpConstraint := 0, wvfpexp_prevent := false, phaseUsage := threePhase,
    number_of_phases := 3, calcReservoirVoidageRates := fun r => r,
    isProducer := true, isInjector := false }

/-- A producer state in BHP mode at bhp 2100 producing 600 of oil and 10 of
water (rates of a producer are negative). -/
def exampleProducerState : SingleWellState :=
  { production_cmode := ProducerCMode.BHP, injection_cmode := InjectorCMode.BHP,
    bhp := 2100, thp := 0,
    surface_rates := fun p => if p = 1 then -600 else if p = 0 then -10 else 0,
    reservoir_rates := fun _ => 0, well_potentials := fun _ => 0,
    trivial_target := false }

/-- A water injector whose only controls are RATE, with limit 300, and THP,
with limit 100. -/
def exampleInjector : WellContext :=
  { name := "I1",
    productionControls :=
      { hasControl := fun _ => false, bhp_limit := 0, oil_rate := 0, water_rate := 0,
        gas_rate := 0, liquid_rate := 0, resv_rate := 0, prediction_mode := true },
    injectionControls :=
      { hasControl := fun M =>
          match M with
          | InjectorCMode.RATE => true
          | InjectorCMode.THP => true
          | _ => false,
        bhp_limit := 0, surface_rate := 300, reservoir_rate := 0,
        injector_type := InjectorType.WATER },
    thpConstraint := 100, wvfpexp_prevent := false, phaseUsage := threePhase,
    number_of_phases := 3, calcReservoirVoidageRates := fun r => r,
    isProducer := false, isInjector := true }

/-- An injector state in BHP mode at thp 150 (above the THP limit 100),
injecting 250 of water, with a well potential of 400 for every phase. -/
def exampleInjectorState : SingleWellState :=
  { production_cmode := ProducerCMode.BHP, injection_cmode := InjectorCMode.BHP,
    bhp := 0, thp := 150,
    surface_rates := fun p => if p = 0 then 250 else 0,
    reservoir_rates := fun _ => 0, well_potentials := fun _ => 400,
    trivial_target := false }

/-! ## Example grids -/

/-- A grid with one cell and one face; the face has cell 0 as its first cell
and the exterior as its second. -/
def oneCellGrid : UnstructuredGrid :=
  { number_of_cells := 1, number_of_faces := 1,
    face_cells := fun k => if k = 0 then 0 else -1,
    cell_facepos := fun k => if k = 0 then 0 else 1,
    cell_faces := fun _ => 0 }

/-- Two PRESSURE conditions, with values 100 and 200, both listing face 0. -/
def twoPressures : FlowBoundaryConditions :=
  { nbc := 2, type := fun _ => FlowBCType.BC_PRESSURE,
    value := fun i => if i = 0 then 100 else 200,
    cond_pos := fun i => i, face := fun _ => 0 }

/-- One PRESSURE condition with value 100 listing face 0. -/
def onePressure : FlowBoundaryConditions :=
  { nbc := 1, type := fun _ => FlowBCType.BC_PRESSURE,
    value := fun _ => 100,
    cond_pos := fun i => i, face := fun _ => 0 }

/-- Forces that consist of boundary conditions only. -/
def onlyBC (bc : FlowBoundaryConditions) : Option ifs_tpfa_forces :=
  some { src := none, bc := some bc }

/-- Solver data with an empty matrix and all vectors zero. -/
def zeroData : ifs_tpfa_data :=
  { A := csrmatrix_new_count_nnz 0, b := fun _ => 0, x := fun _ => 0, fgrav := fun _ => 0 }

/-- A solution record with all entries zero. -/
def zeroSolution : ifs_tpfa_solution :=
  { cell_press := fun _ => 0, face_flux := fun _ => 0 }

/-- Solver data for the one-cell grid: a matrix with one row and one stored
entry, arbitrary old values in the buffers. -/
def oneRowData : ifs_tpfa_data :=
  { A := { m := 1, nnz := 1, ia := fun k => if k = 0 then 0 else 1, ja := fun _ => 0,
           sa := fun _ => 7 },
    b := fun _ => 7, x := fun _ => 7, fgrav := fun _ => 7 }

/-- One well with a single perforation, in cell 0. -/
def oneWell : Wells :=
  { number_of_wells := 1, well_connpos := fun k => if k = 0 then 0 else 1,
    well_cells := fun _ => 0 }

/-- The matrix constructed for the one-cell grid with the one well. -/
def oneCellMatrix : CSRMatrix :=
  (ifs_tpfa_construct_matrix oneCellGrid (some oneWell)).getD (csrmatrix_new_count_nnz 0)

/-- Solver data holding the matrix constructed for the one-cell grid with
the one well, with arbitrary old values in the buffers. -/
def oneCellData : ifs_tpfa_data :=
  { A := { oneCellMatrix with sa := fun _ => 7 },
    b := fun _ => 7, x := fun _ => 7, fgrav := fun _ => 7 }

/-- One FLUX_TOTVOL condition with value 5 listing face 0. -/
def oneFlux : FlowBoundaryConditions :=
  { nbc := 1, type := fun _ => FlowBCType.BC_FLUX_TOTVOL,
    value := fun _ => 5,
    cond_pos := fun i => i, face := fun _ => 0 }

/-- Two FLUX_TOTVOL conditions, with values 5 and 7, both listing face 0. -/
def twoFluxes : FlowBoundaryConditions :=
  { nbc := 2, type := fun _ => FlowBCType.BC_FLUX_TOTVOL,
    value := fun i => if i = 0 then 5 else 7,
    cond_pos := fun i => i, face := fun _ => 0 }

/-- A producer whose only controls are BHP, with limit 2000, and ORAT, with
limit 500. -/
def scenarioProducer : WellContext :=
  { name := "P2",
    productionControls :=
      { hasControl := fun M =>
          match M with
          | ProducerCMode.BHP => true
          | ProducerCMode.ORAT => true
          | _ => false,
        bhp_limit := 2000, oil_rate := 500, water_rate := 0, gas_rate := 0,
        liquid_rate := 0, resv_rate := 0, prediction_mode := true },
    injectionControls :=
      { hasControl := fun _ => false, bhp_limit := 0, surface_rate := 0,
        reservoir_rate := 0, injector_type := InjectorType.WATER },
    thpConstraint := 0, wvfpexp_prevent := false, phaseUsage := threePhase,
    number_of_phases := 3, calcReservoirVoidageRates := fun r => r,
    isProducer := true, isInjector := false }

/-- A producer state at bhp 1800 producing 600 of oil (rates of a producer
are negative), in the control mode `mode`. -/
def scenarioProducerState (mode : ProducerCMode) : SingleWellState :=
  { production_cmode := mode, injection_cmode := InjectorCMode.BHP,
    bhp := 1800, thp := 0,
    surface_rates := fun p => if p = 1 then -600 else 0,
    reservoir_rates := fun _ => 0, well_potentials := fun _ => 0,
    trivial_target := false }

/-! ## Group constraints of a well (`WellInterfaceFluidSystem.cpp`, lines 328-727) -/

/-- Modelled from the spec: the phases of the schedule library (`Phase`)
that an injector can inject. -/
inductive Phase where
  | WATER
  | OIL
  | GAS
  deriving DecidableEq, Repr

/-- Modelled from the spec: the production control modes of a group
(`Group::ProductionCMode`); `FLD` and `NONE` mean that the group inherits
its control from above. -/
inductive Opm.Group.ProductionCMode where
  | NONE
  | ORAT
  | WRAT
  | GRAT
  | LRAT
  | CRAT
  | RESV
  | PRBL
  | FLD
  deriving DecidableEq, Repr

/-- Modelled from the spec: the injection control modes of a group
(`Group::InjectionCMode`); `FLD` and `NONE` mean that the group inherits its
control from above. -/
inductive Opm.Group.InjectionCMode where
  | NONE
  | RATE
  | RESV
  | REIN
  | VREP
  | FLD
  | SALE
  deriving DecidableEq, Repr

/-- Modelled from the spec: what the well interface reads from a group of
the schedule (`Group`): its name, the name of its parent, its efficiency
factor, whether it is available for control from above (for production, and
for injection of each phase), and whether it is a production or an
injection group. -/
structure Opm.Group where
  name : String
  parent : String
  getGroupEfficiencyFactor : ℚ
  productionGroupControlAvailable : Bool
  injectionGroupControlAvailable : Phase → Bool
  isProductionGroup : Bool
  isInjectionGroup : Bool

/-- What the group functions of `WellInterfaceFluidSystem` read from their
collaborators, none of which is part of the sources at hand:
the name of the group of the well (`well_ecl_.groupName()`), the efficiency
factor of the well (`well_ecl_.getEfficiencyFactor()`), the group table of
the schedule at the current step (`schedule.getGroup(name, current_step_)`),
the number of phases of the well state (`well_state.numPhases()`), the
current control of each group (`group_state.production_control` and
`group_state.injection_control`), the two group checks of
`WellGroupHelpers` (given the group, the state of the well, the injected
phase and the efficiency factor), the chain of group names from a group
down to this well (`WellGroupHelpers::groupChainTopBot(name(), top, ...)`),
the guide rate table (`guideRate()->has`), and, for the group that holds the
control, the values computed by `TargetCalculator`,
`InjectionTargetCalculator` and `FractionCalculator`: the target of the
group, the reduction rate of a group of the chain, the fraction of a member
of the chain, and the rate of the control mode for a vector of phase
rates. -/
structure GroupContext where
  groupName : String
  getEfficiencyFactor : ℚ
  getGroup : String → Opm.Group
  numPhases : Nat
  production_control : String → Opm.Group.ProductionCMode
  injection_control : String → Phase → Opm.Group.InjectionCMode
  helpersCheckGroupConstraintsInj : Opm.Group → SingleWellState → Phase → ℚ → Bool × ℚ
  helpersCheckGroupConstraintsProd : Opm.Group → SingleWellState → ℚ → Bool × ℚ
  groupChainTopBot : String → List String
  guideRateHas : String → Bool
  guideRateHasPhase : String → Phase → Bool
  prodGroupTarget : Opm.Group → ℚ
  prodLocalReduction : Opm.Group → String → ℚ
  prodLocalFraction : SingleWellState → Opm.Group → String → ℚ
  prodCalcModeRateFromRates : Opm.Group → (Nat → ℚ) → ℚ
  injGroupTarget : Opm.Group → Phase → ℚ
  injLocalReduction : Opm.Group → Phase → String → ℚ
  injLocalFraction : SingleWellState → Opm.Group → Phase → String → ℚ

/-- The function `checkGroupConstraintsInj` (lines 328-384): the injector
type is translated to a phase, with an exception for a type other than
WATER, OIL or GAS, and the check of `WellGroupHelpers` is called for that
phase. -/
def checkGroupConstraintsInj (w : WellContext) (env : GroupContext) (group : Opm.Group)
    (ws : SingleWellState) (efficiencyFactor : ℚ) : Except String (Bool × ℚ) :=
  match w.injectionControls.injector_type with
  | InjectorType.WATER =>
    Except.ok (env.helpersCheckGroupConstraintsInj group ws Phase.WATER efficiencyFactor)
  | InjectorType.OIL =>
    Except.ok (env.helpersCheckGroupConstraintsInj group ws Phase.OIL efficiencyFactor)
  | InjectorType.GAS =>
    Except.ok (env.helpersCheckGroupConstraintsInj group ws Phase.GAS efficiencyFactor)
  | InjectorType.MULTI =>
    Except.error ("Expected WATER, OIL or GAS as type for injector " ++ w.name)

/-- The function `checkGroupConstraintsProd` (lines 386-416). -/
def checkGroupConstraintsProd (env : GroupContext) (group : Opm.Group)
    (ws : SingleWellState) (efficiencyFactor : ℚ) : Bool × ℚ :=
  env.helpersCheckGroupConstraintsProd group ws efficiencyFactor

/-- The loop `for (p = 0; p < np; ++p) surface_rates[p] *= factor`. -/
def scaleRates (np : Nat) (factor : ℚ) (rates : Nat → ℚ) : Nat → ℚ :=
  (List.range np).foldl (fun r p => Function.update r p (r p * factor)) rates

/-- The function `checkGroupConstraints` (lines 418-488).  The result is the
returned flag and the state of the well after the call; `Except.error` is
the exception of `checkGroupConstraintsInj`. -/
def checkGroupConstraints (w : WellContext) (env : GroupContext) (ws : SingleWellState) :
    Except String (Bool × SingleWellState) :=
  if w.isInjector = true ∧ ws.injection_cmode ≠ InjectorCMode.GRUP then
    let group := env.getGroup env.groupName
    let efficiencyFactor := env.getEfficiencyFactor
    match checkGroupConstraintsInj w env group ws efficiencyFactor with
    | Except.error e => Except.error e
    | Except.ok group_constraint =>
      if group_constraint.1 = true then
        Except.ok (true,
          { ws with injection_cmode := InjectorCMode.GRUP,
                    surface_rates := scaleRates env.numPhases group_constraint.2
                      ws.surface_rates })
      else Except.ok (false, ws)
  else if w.isProducer = true ∧ ws.production_cmode ≠ ProducerCMode.GRUP then
    let group := env.getGroup env.groupName
    let efficiencyFactor := env.getEfficiencyFactor
    let group_constraint := checkGroupConstraintsProd env group ws efficiencyFactor
    if group_constraint.1 = true then
      Except.ok (true,
        { ws with production_cmode := ProducerCMode.GRUP,
                  surface_rates := scaleRates env.numPhases group_constraint.2
                    ws.surface_rates })
    else Except.ok (false, ws)
  else Except.ok (false, ws)

/-- A group table in which every group is a production group below FIELD,
with efficiency factor 1 and available for control from above. -/
def exampleGroup (name : String) : Opm.Group :=
  { name := name, parent := "FIELD", getGroupEfficiencyFactor := 1,
    productionGroupControlAvailable := true,
    injectionGroupControlAvailable := fun _ => true,
    isProductionGroup := true, isInjectionGroup := false }

/-- A context in which the well belongs to group G1 and both group checks of
the helper library report a broken constraint with scaling factor 1/2. -/
def exampleGroupContext : GroupContext :=
  { groupName := "G1", getEfficiencyFactor := 1, getGroup := exampleGroup, numPhases := 3,
    production_control := fun _ => Opm.Group.ProductionCMode.ORAT,
    injection_control := fun _ _ => Opm.Group.InjectionCMode.RATE,
    helpersCheckGroupConstraintsInj := fun _ _ _ _ => (true, 1 / 2),
    helpersCheckGroupConstraintsProd := fun _ _ _ => (true, 1 / 2),
    groupChainTopBot := fun top => [top, "P1"],
    guideRateHas := fun _ => false,
    guideRateHasPhase := fun _ _ => false,
    prodGroupTarget := fun _ => 1000,
    prodLocalReduction := fun _ _ => 0,
    prodLocalFraction := fun _ _ _ => 1,
    prodCalcModeRateFromRates := fun _ rates => rates 1,
    injGroupTarget := fun _ _ => 1000,
    injLocalReduction := fun _ _ _ => 0,
    injLocalFraction := fun _ _ _ _ => 1 }

/-! ## Group target rates (`WellInterfaceFluidSystem.cpp`, lines 543-727) -/

/-- The value of `chain.size() - 1` in the unsigned 64-bit arithmetic of
`size_t`. -/
def numAncestors (chain : List String) : Nat :=
  (chain.length + 2 ^ 64 - 1) % 2 ^ 64

/-- Body of the loop over the ancestors (lines 635-643 and 705-713): the
reduction of `chain[ii]` is subtracted at the top of the chain and at levels
with a guide rate, and the result is multiplied by the fraction of
`chain[ii + 1]`. -/
def targetStep (reduction fraction : String → ℚ) (has : String → Bool) (chain : List String)
    (target : ℚ) (ii : Nat) : ℚ :=
  let target1 :=
    if ii = 0 ∨ has (chain.getD ii "") = true then target - reduction (chain.getD ii "")
    else target
  target1 * fraction (chain.getD (ii + 1) "")

/-- The loop `for (ii = 0; ii < num_ancestors; ++ii)` started from
`orig_target`. -/
def chainTarget (reduction fraction : String → ℚ) (has : String → Bool) (chain : List String)
    (orig_target : ℚ) : ℚ :=
  (List.range (numAncestors chain)).foldl (targetStep reduction fraction has chain) orig_target

/-- The switch that translates the injector type to a phase in
`getGroupInjectionTargetRate` (lines 557-577): for a type other than WATER,
OIL or GAS the assertion fails, and without assertions the initial value
WATER is kept. -/
def injectionPhaseOf (injectorType : InjectorType) : Phase :=
  match injectorType with
  | InjectorType.WATER => Phase.WATER
  | InjectorType.OIL => Phase.OIL
  | InjectorType.GAS => Phase.GAS
  | InjectorType.MULTI => Phase.WATER

/-- The function `getGroupInjectionTargetRate` (lines 543-645).  The inner
option is the `std::optional` that the function returns; the outer one is
`none` when the walk towards the root has not ended after `fuel` steps. -/
def getGroupInjectionTargetRate (env : GroupContext) (ws : SingleWellState)
    (injectorType : InjectorType) (fuel : Nat) (group : Opm.Group) (efficiencyFactor : ℚ) :
    Option (Option ℚ) :=
  let injectionPhase := injectionPhaseOf injectorType
  let currentGroupControl := env.injection_control group.name injectionPhase
  if currentGroupControl = Opm.Group.InjectionCMode.FLD
      ∨ currentGroupControl = Opm.Group.InjectionCMode.NONE then
    if group.injectionGroupControlAvailable injectionPhase = false then some none
    else
      match fuel with
      | 0 => none
      | fuel + 1 =>
        getGroupInjectionTargetRate env ws injectorType fuel (env.getGroup group.parent)
          (efficiencyFactor * group.getGroupEfficiencyFactor)
  else if group.isInjectionGroup = false then some none
  else
    let orig_target := env.injGroupTarget group injectionPhase
    let chain := env.groupChainTopBot group.name
    let target := chainTarget (env.injLocalReduction group injectionPhase)
      (env.injLocalFraction ws group injectionPhase)
      (fun g => env.guideRateHasPhase g injectionPhase) chain orig_target
    some (some (max 0 (target / efficiencyFactor)))

/-- The local variable `target_rate` of `getGroupProductionTargetRate`
(lines 700-715) for the group that holds the control. -/
def productionTargetRate (env : GroupContext) (ws : SingleWellState) (group : Opm.Group)
    (efficiencyFactor : ℚ) : ℚ :=
  let orig_target := env.prodGroupTarget group
  let chain := env.groupChainTopBot group.name
  let target := chainTarget (env.prodLocalReduction group) (env.prodLocalFraction ws group)
    env.guideRateHas chain orig_target
  max 0 (target / efficiencyFactor)

/-- The function `getGroupProductionTargetRate` (lines 646-727); the result
is `none` when the walk towards the root has not ended after `fuel`
steps. -/
def getGroupProductionTargetRate (env : GroupContext) (ws : SingleWellState)
    (fuel : Nat) (group : Opm.Group) (efficiencyFactor : ℚ) : Option ℚ :=
  let currentGroupControl := env.production_control group.name
  if currentGroupControl = Opm.Group.ProductionCMode.FLD
      ∨ currentGroupControl = Opm.Group.ProductionCMode.NONE then
    if group.productionGroupControlAvailable = false then some 1
    else
      match fuel with
      | 0 => none
      | fuel + 1 =>
        getGroupProductionTargetRate env ws fuel (env.getGroup group.parent)
          (efficiencyFactor * group.getGroupEfficiencyFactor)
  else if group.isProductionGroup = false then some 1
  else
    let target_rate := productionTargetRate env ws group efficiencyFactor
    let current_rate := -env.prodCalcModeRateFromRates group ws.surface_rates
    if target_rate = 0 then some 0
    else if current_rate > 1e-14 then some (target_rate / current_rate)
    else some 1

/-! ### The walks as the specification words them -/

/-- The downward walk along the chain `[g0, g1, ..., gk]`: for each `g_i`
with a successor, first the reduction of `g_i` is subtracted if and only if
`g_i` is the top of the chain or has a guide-rate entry, then the result is
multiplied by the fraction of `g_{i+1}`.  The flag tells whether the head of
the list is the top of the chain. -/
def downwardWalk (reduction fraction : String → ℚ) (has : String → Bool) :
    Bool → ℚ → List String → ℚ
  | top, target, g :: g1 :: rest =>
    downwardWalk reduction fraction has false
      ((if top = true ∨ has g = true then target - reduction g else target) * fraction g1)
      (g1 :: rest)
  | _, target, _ => target

/-- The group reached from `group` after `k` steps towards the root. -/
def ancestor (env : GroupContext) (group : Opm.Group) : Nat → Opm.Group
  | 0 => group
  | k + 1 => ancestor env (env.getGroup group.parent) k

/-- The production control of `group` is inherited from above: its current
mode is FLD or NONE and it is available for control from above. -/
def inheritsProduction (env : GroupContext) (group : Opm.Group) : Prop :=
  (env.production_control group.name = Opm.Group.ProductionCMode.FLD
    ∨ env.production_control group.name = Opm.Group.ProductionCMode.NONE)
  ∧ group.productionGroupControlAvailable = true

instance (env : GroupContext) (group : Opm.Group) : Decidable (inheritsProduction env group) := by
  unfold inheritsProduction
  infer_instance

/-- The injection control of `group` for `phase` is inherited from above. -/
def inheritsInjection (env : GroupContext) (phase : Phase) (group : Opm.Group) : Prop :=
  (env.injection_control group.name phase = Opm.Group.InjectionCMode.FLD
    ∨ env.injection_control group.name phase = Opm.Group.InjectionCMode.NONE)
  ∧ group.injectionGroupControlAvailable phase = true

instance (env : GroupContext) (phase : Phase) (group : Opm.Group) :
    Decidable (inheritsInjection env phase group) := by
  unfold inheritsInjection
  infer_instance

/-- A group table with the group G1 below FIELD: G1 has efficiency factor
1/2 and is available for control from above, FIELD is not. -/
def treeGroup (name : String) : Opm.Group :=
  { name := name, parent := if name = "G1" then "FIELD" else "",
    getGroupEfficiencyFactor := if name = "G1" then 1 / 2 else 1,
    productionGroupControlAvailable := decide (name ≠ "FIELD"),
    injectionGroupControlAvailable := fun _ => decide (name ≠ "FIELD"),
    isProductionGroup := true, isInjectionGroup := true }

/-- A context for the well P1 of group G1: FIELD holds the control (ORAT for
production, RATE for injection) with target 1000 and G1 inherits it; the
reduction rate of FIELD is 100, the fraction of G1 is 1/2 and that of the
well is 1/3; no group has a guide rate; the rate of the control mode is the
rate of phase 1. -/
def treeContext : GroupContext :=
  { groupName := "G1", getEfficiencyFactor := 1, getGroup := treeGroup, numPhases := 3,
    production_control := fun n =>
      if n = "FIELD" then Opm.Group.ProductionCMode.ORAT else Opm.Group.ProductionCMode.FLD,
    injection_control := fun n _ =>
      if n = "FIELD" then Opm.Group.InjectionCMode.RATE else Opm.Group.InjectionCMode.FLD,
    helpersCheckGroupConstraintsInj := fun _ _ _ _ => (false, 1),
    helpersCheckGroupConstraintsProd := fun _ _ _ => (false, 1),
    groupChainTopBot := fun top => if top = "FIELD" then ["FIELD", "G1", "P1"] else [top, "P1"],
    guideRateHas := fun _ => false,
    guideRateHasPhase := fun _ _ => false,
    prodGroupTarget := fun _ => 1000,
    prodLocalReduction := fun _ n => if n = "FIELD" then 100 else 50,
    prodLocalFraction := fun _ _ n => if n = "G1" then 1 / 2 else 1 / 3,
    prodCalcModeRateFromRates := fun _ rates => rates 1,
    injGroupTarget := fun _ _ => 1000,
    injLocalReduction := fun _ _ n => if n = "FIELD" then 100 else 50,
    injLocalFraction := fun _ _ _ n => if n = "G1" then 1 / 2 else 1 / 3 }

/-- The state of a well that produces nothing. -/
def idleState : SingleWellState :=
  { exampleProducerState with surface_rates := fun _ => 0 }

/-- The state of a well whose oil production rate is 1e-15. -/
def tinyRateState : SingleWellState :=
  { exampleProducerState with surface_rates := fun p => if p = 1 then -(1 / 10 ^ 15) else 0 }

/-- The example context with the target of every group set to 0. -/
def zeroTargetContext : GroupContext :=
  { exampleGroupContext with prodGroupTarget := fun _ => 0 }

/-! ## The assembled linear system and its exact solutions -/

/-- The solver data after the linear solver has stored the vector `x` in
`h->x`. -/
def withSolution (h : ifs_tpfa_data) (x : Nat → ℚ) : ifs_tpfa_data :=
  { h with x := x }

/-- The vector `h->x` solves the system `A x = b` held in the solver data
exactly: in every row the sum of the stored values, each multiplied by the
entry of `x` of its column, is the right-hand side of the row. -/
def solvesSystem (h : ifs_tpfa_data) : Prop :=
  ∀ i, i < h.A.m → rowWeighted h.A i h.x = h.b i

/-- One PRESSURE condition with value `v` listing face 0. -/
def pressureAt (v : ℚ) : FlowBoundaryConditions :=
  { nbc := 1, type := fun _ => FlowBCType.BC_PRESSURE,
    value := fun _ => v,
    cond_pos := fun i => i, face := fun _ => 0 }

/-- Solver data holding the matrix constructed for the one-cell grid without
wells, with arbitrary old values in the buffers. -/
def oneCellPlainData : ifs_tpfa_data :=
  { A := { (ifs_tpfa_construct_matrix oneCellGrid none).getD (csrmatrix_new_count_nnz 0) with
           sa := fun _ => 7 },
    b := fun _ => 7, x := fun _ => 7, fgrav := fun _ => 7 }

/-- A grid with two cells and three faces: face 0 joins cell 0 (its first
cell) to cell 1, face 1 is a boundary face of cell 0 (its second cell) and
face 2 is a boundary face of cell 1 (its first cell). -/
def twoCellGrid : UnstructuredGrid :=
  { number_of_cells := 2, number_of_faces := 3,
    face_cells := fun k =>
      if k = 0 then 0 else if k = 1 then 1 else if k = 3 then 0 else if k = 4 then 1 else -1,
    cell_facepos := fun k => if k = 0 then 0 else if k = 1 then 2 else 4,
    cell_faces := fun i => if i = 0 then 0 else if i = 1 then 1 else if i = 2 then 0 else 2 }

/-- Source terms only: `q` into cell 0 and `-q` at every other cell. -/
def twoCellSources (q : ℚ) : Option ifs_tpfa_forces :=
  some { src := some (fun c => if c = 0 then q else -q), bc := none }

/-- Two FLUX_TOTVOL conditions: value `q` on face 1 (the boundary face of
cell 0) and value `-q` on face 2 (the boundary face of cell 1). -/
def twoCellFluxes (q : ℚ) : FlowBoundaryConditions :=
  { nbc := 2, type := fun _ => FlowBCType.BC_FLUX_TOTVOL,
    value := fun i => if i = 0 then q else -q,
    cond_pos := fun i => i, face := fun j => if j = 0 then 1 else 2 }

/-- Solver data holding the matrix constructed for the two-cell grid without
wells, with arbitrary old values in the buffers. -/
def twoCellData : ifs_tpfa_data :=
  { A := { (ifs_tpfa_construct_matrix twoCellGrid none).getD (csrmatrix_new_count_nnz 0) with
           sa := fun _ => 7 },
    b := fun _ => 7, x := fun _ => 7, fgrav := fun _ => 7 }

/-! ## Uniform PRESSURE conditions -/

/-- Every boundary condition among the forces is of type PRESSURE and
prescribes the value `v`. -/
def allPressure (F : Option ifs_tpfa_forces) (v : ℚ) : Prop :=
  match forcesBC F with
  | some bc => ∀ i, i < bc.nbc → bc.type i = FlowBCType.BC_PRESSURE ∧ bc.value i = v
  | none => True

/-- Cell `c` has a face listed under a PRESSURE condition. -/
def hasPressureFace (G : UnstructuredGrid) (F : Option ifs_tpfa_forces) (c : Nat) : Prop :=
  match forcesBC F with
  | some bc => bcEntriesAt G bc FlowBCType.BC_PRESSURE c ≠ []
  | none => False

instance (G : UnstructuredGrid) (F : Option ifs_tpfa_forces) (c : Nat) :
    Decidable (hasPressureFace G F c) := by
  unfold hasPressureFace
  cases forcesBC F <;> infer_instance

/-- Cell `c` is joined to a cell with a PRESSURE face by a chain of at most
`k` faces, each leading from a cell to the non-negative cell on its other
side. -/
def joinedToPressure (G : UnstructuredGrid) (F : Option ifs_tpfa_forces) : Nat → Nat → Bool
  | 0, c => decide (hasPressureFace G F c)
  | k + 1, c =>
    decide (hasPressureFace G F c)
      || (cellFaceSlots G c).any (fun i =>
        decide (0 ≤ otherCell G c (G.cell_faces i))
          && joinedToPressure G F k (otherCell G c (G.cell_faces i)).toNat)

/-- A grid with one cell and two boundary faces: face 0 has the cell as its
first cell, face 1 as its second. -/
def twoFaceCell : UnstructuredGrid :=
  { number_of_cells := 1, number_of_faces := 2,
    face_cells := fun k => if k = 0 then 0 else if k = 3 then 0 else -1,
    cell_facepos := fun k => if k = 0 then 0 else 2,
    cell_faces := fun i => if i = 0 then 0 else 1 }

/-- Two PRESSURE conditions: value 100 on face 0 and value 0 on face 1. -/
def twoFacePressures : FlowBoundaryConditions :=
  { nbc := 2, type := fun _ => FlowBCType.BC_PRESSURE,
    value := fun i => if i = 0 then 100 else 0,
    cond_pos := fun i => i, face := fun j => j }

/-- Solver data holding the matrix constructed for `twoFaceCell` without
wells. -/
def twoFaceData : ifs_tpfa_data :=
  { A := { (ifs_tpfa_construct_matrix twoFaceCell none).getD (csrmatrix_new_count_nnz 0) with
           sa := fun _ => 7 },
    b := fun _ => 7, x := fun _ => 7, fgrav := fun _ => 7 }

/-- A PRESSURE condition with value 100 on face 0 together with a source
term of 10 in every cell. -/
def pressureAndSource : Option ifs_tpfa_forces :=
  some { src := some (fun _ => 10), bc := some (pressureAt 100) }

/-- One PRESSURE condition with value `v` listing face `f`. -/
def pressureOnFace (f : Nat) (v : ℚ) : FlowBoundaryConditions :=
  { nbc := 1, type := fun _ => FlowBCType.BC_PRESSURE,
    value := fun _ => v,
    cond_pos := fun i => i, face := fun _ => f }

/-! ## The individual checks of `activeProductionConstraint` -/

/-- The BHP check of a producer returns (lines 94-99). -/
@[reducible]
def bhpTriggers (w : WellContext) (ws : SingleWellState) : Prop :=
  w.productionControls.hasControl ProducerCMode.BHP ∧ ws.production_cmode ≠ ProducerCMode.BHP
    ∧ w.productionControls.bhp_limit > ws.bhp

/-- The ORAT check returns (lines 101-105). -/
@[reducible]
def oratTriggers (w : WellContext) (ws : SingleWellState) : Prop :=
  w.productionControls.hasControl ProducerCMode.ORAT ∧ ws.production_cmode ≠ ProducerCMode.ORAT
    ∧ w.productionControls.oil_rate
      < -ws.surface_rates (w.phaseUsage.phase_pos BlackoilPhases.Liquid)

/-- The WRAT check returns (lines 107-111). -/
@[reducible]
def wratTriggers (w : WellContext) (ws : SingleWellState) : Prop :=
  w.productionControls.hasControl ProducerCMode.WRAT ∧ ws.production_cmode ≠ ProducerCMode.WRAT
    ∧ w.productionControls.water_rate
      < -ws.surface_rates (w.phaseUsage.phase_pos BlackoilPhases.Aqua)

/-- The GRAT check returns (lines 113-117). -/
@[reducible]
def gratTriggers (w : WellContext) (ws : SingleWellState) : Prop :=
  w.productionControls.hasControl ProducerCMode.GRAT ∧ ws.production_cmode ≠ ProducerCMode.GRAT
    ∧ w.productionControls.gas_rate
      < -ws.surface_rates (w.phaseUsage.phase_pos BlackoilPhases.Vapour)

/-- The LRAT check returns (lines 119-133). -/
@[reducible]
def lratTriggers (w : WellContext) (ws : SingleWellState) : Prop :=
  w.productionControls.hasControl ProducerCMode.LRAT ∧ ws.production_cmode ≠ ProducerCMode.LRAT
    ∧ (let current_rate := -ws.surface_rates (w.phaseUsage.phase_pos BlackoilPhases.Liquid)
          - ws.surface_rates (w.phaseUsage.phase_pos BlackoilPhases.Aqua)
       let skip : Bool := decide (w.productionControls.liquid_rate = w.productionControls.oil_rate
          ∧ |ws.surface_rates (w.phaseUsage.phase_pos BlackoilPhases.Aqua)| < 1e-12)
       skip = false ∧ w.productionControls.liquid_rate < current_rate)

/-- The RESV check returns (lines 135-171). -/
@[reducible]
def resvTriggers (w : WellContext) (ws : SingleWellState) : Prop :=
  w.productionControls.hasControl ProducerCMode.RESV ∧ ws.production_cmode ≠ ProducerCMode.RESV
    ∧ (let current_rate := producedResvRate w.phaseUsage ws
       (w.productionControls.prediction_mode = true
          ∧ w.productionControls.resv_rate < current_rate)
       ∨ (w.productionControls.prediction_mode = false ∧ historyResvRate w < current_rate))

/-- The vector of phase rate targets that the RESV check outside prediction
mode hands to the rate converter (lines 153-159): zero, with the water, oil
and gas limits stored at the positions of the active phases. -/
def phaseTargets (w : WellContext) : Nat → ℚ :=
  let pu := w.phaseUsage
  let controls := w.productionControls
  let s0 : Nat → ℚ := fun _ => 0
  let s1 := if pu.phase_used BlackoilPhases.Aqua then
    Function.update s0 (pu.phase_pos BlackoilPhases.Aqua) controls.water_rate else s0
  let s2 := if pu.phase_used BlackoilPhases.Liquid then
    Function.update s1 (pu.phase_pos BlackoilPhases.Liquid) controls.oil_rate else s1
  if pu.phase_used BlackoilPhases.Vapour then
    Function.update s2 (pu.phase_pos BlackoilPhases.Vapour) controls.gas_rate else s2

/-- A producer whose only control is LRAT, with the liquid-rate limit 500
equal to the oil-rate limit. -/
def lratProducer : WellContext :=
  { name := "P3",
    productionControls :=
      { hasControl := fun M =>
          match M with
          | ProducerCMode.LRAT => true
          | _ => false,
        bhp_limit := 0, oil_rate := 500, water_rate := 0, gas_rate := 0,
        liquid_rate := 500, resv_rate := 0, prediction_mode := true },
    injectionControls :=
      { hasControl := fun _ => false, bhp_limit := 0, surface_rate := 0,
        reservoir_rate := 0, injector_type := InjectorType.WATER },
    thpConstraint := 0, wvfpexp_prevent := false, phaseUsage := threePhase,
    number_of_phases := 3, calcReservoirVoidageRates := fun r => r,
    isProducer := true, isInjector := false }

/-- A producer state in BHP mode producing 600 of oil and exactly 1e-12 of
water. -/
def boundaryWaterState : SingleWellState :=
  { production_cmode := ProducerCMode.BHP, injection_cmode := InjectorCMode.BHP,
    bhp := 0, thp := 0,
    surface_rates := fun p => if p = 1 then -600 else if p = 0 then -(1 / 10 ^ 12) else 0,
    reservoir_rates := fun _ => 0, well_potentials := fun _ => 0,
    trivial_target := false }

/-- A producer whose only control is THP, with limit 100, and whose prevent
flag is set. -/
def thpProducer : WellContext :=
  { name := "P4",
    productionControls :=
      { hasControl := fun M =>
          match M with
          | ProducerCMode.THP => true
          | _ => false,
        bhp_limit := 0, oil_rate := 0, water_rate := 0, gas_rate := 0,
        liquid_rate := 0, resv_rate := 0, prediction_mode := true },
    injectionControls :=
      { hasControl := fun _ => false, bhp_limit := 0, surface_rate := 0,
        reservoir_rate := 0, injector_type := InjectorType.WATER },
    thpConstraint := 100, wvfpexp_prevent := true, phaseUsage := threePhase,
    number_of_phases := 3, calcReservoirVoidageRates := fun r => r,
    isProducer := true, isInjector := false }

/-- A producer state in BHP mode at thp 50, producing 600 of oil, with a well
potential of 700 for every phase. -/
def thpState : SingleWellState :=
  { production_cmode := ProducerCMode.BHP, injection_cmode := InjectorCMode.BHP,
    bhp := 0, thp := 50,
    surface_rates := fun p => if p = 1 then -600 else 0,
    reservoir_rates := fun _ => 0, well_potentials := fun _ => 700,
    trivial_target := false }

/-- A producer whose only control is RESV, outside prediction mode, with
phase rate targets 10 (water), 20 (oil) and 30 (gas) and a rate converter
that doubles every rate. -/
def resvProducer : WellContext :=
  { name := "P5",
    productionControls :=
      { hasControl := fun M =>
          match M with
          | ProducerCMode.RESV => true
          | _ => false,
        bhp_limit := 0, oil_rate := 20, water_rate := 10, gas_rate := 30,
        liquid_rate := 0, resv_rate := 1000, prediction_mode := false },
    injectionControls :=
      { hasControl := fun _ => false, bhp_limit := 0, surface_rate := 0,
        reservoir_rate := 0, injector_type := InjectorType.WATER },
    thpConstraint := 0, wvfpexp_prevent := false, phaseUsage := threePhase,
    number_of_phases := 3, calcReservoirVoidageRates := fun r p => 2 * r p,
    isProducer := true, isInjector := false }

/-- A producer state in BHP mode whose reservoir rates are -50 for every
phase. -/
def resvState : SingleWellState :=
  { production_cmode := ProducerCMode.BHP, injection_cmode := InjectorCMode.BHP,
    bhp := 0, thp := 0,
    surface_rates := fun _ => 0,
    reservoir_rates := fun _ => -50, well_potentials := fun _ => 0,
    trivial_target := false }

/-- An injector of a type other than WATER, OIL or GAS whose only control is
RATE. -/
def multiInjector : WellContext :=
  { exampleInjector with
    name := "I2",
    injectionControls :=
      { hasControl := fun M =>
          match M with
          | InjectorCMode.RATE => true
          | _ => false,
        bhp_limit := 0, surface_rate := 300, reservoir_rate := 0,
        injector_type := InjectorType.MULTI } }
/-! ## Conditions of another type -/

/-- One NOFLOW condition with value 5 listing face 0. -/
def oneNoflow : FlowBoundaryConditions :=
  { nbc := 1, type := fun _ => FlowBCType.BC_NOFLOW,
    value := fun _ => 5,
    cond_pos := fun i => i, face := fun _ => 0 }

/-- Forces with the boundary conditions removed. -/
def withoutBC (F : Option ifs_tpfa_forces) : Option ifs_tpfa_forces :=
  F.map (fun F => { F with bc := none })

/-- No condition of the list `bc` is a PRESSURE or a FLUX_TOTVOL
condition. -/
def onlyOtherTypes (bc : FlowBoundaryConditions) : Prop :=
  ∀ i, i < bc.nbc → bc.type i ≠ FlowBCType.BC_PRESSURE ∧ bc.type i ≠ FlowBCType.BC_FLUX_TOTVOL

/-! ## The nonzero count and `ifs_tpfa_construct` -/

/-- The value `nnz = csrmatrix_new_elms_pushback(A)` that
`ifs_tpfa_construct_matrix` computes after its counting pass and tests
against zero (lines 115-120). -/
def constructNnz (G : UnstructuredGrid) (W : Option Wells) : Nat :=
  let A := csrmatrix_new_count_nnz (numUnknowns G W)
  (csrmatrix_new_elms_pushback { A with ia := construct_count G W A.ia }).nnz

/-- The function `ifs_tpfa_construct`: `none` is the null result.  Memory
allocation is taken to succeed; `ddata` is the content of the freshly
allocated buffer that holds `b`, `x` and `fgrav` one after the other. -/
def ifs_tpfa_construct (G : UnstructuredGrid) (W : Option Wells) (ddata : Nat → ℚ) :
    Option ifs_tpfa_data :=
  match ifs_tpfa_construct_matrix G W with
  | none => none
  | some A =>
    some { A := A, b := ddata, x := fun i => ddata (A.m + i),
           fgrav := fun i => ddata (A.m + A.m + i) }

/-- The number of faces whose two cells are both non-negative. -/
def numInteriorFaces (G : UnstructuredGrid) : Nat :=
  ((List.range G.number_of_faces).filter (fun f => decide (interiorFace G f))).length

/-- The number of perforations of all wells, `well_connpos[number_of_wells]`
(zero without wells). -/
def numPerforations (W : Option Wells) : Nat :=
  match W with
  | none => 0
  | some w => w.well_connpos w.number_of_wells

/-- A grid with no cells and no faces. -/
def emptyGrid : UnstructuredGrid :=
  { number_of_cells := 0, number_of_faces := 0,
    face_cells := fun _ => -1,
    cell_facepos := fun _ => 0,
    cell_faces := fun _ => 0 }

/-! ## Grids and wells without repeated connections -/

/-- The faces `f` and `g` join the same pair of cells, in the same or in the
opposite order. -/
def joinSamePair (G : UnstructuredGrid) (f g : Nat) : Prop :=
  (G.face_cells (2 * f + 0) = G.face_cells (2 * g + 0)
      ∧ G.face_cells (2 * f + 1) = G.face_cells (2 * g + 1))
    ∨ (G.face_cells (2 * f + 0) = G.face_cells (2 * g + 1)
      ∧ G.face_cells (2 * f + 1) = G.face_cells (2 * g + 0))

instance (G : UnstructuredGrid) (f g : Nat) : Decidable (joinSamePair G f g) := by
  unfold joinSamePair
  infer_instance

/-- No other interior face joins the pair of cells that face `f` joins. -/
def aloneOnPair (G : UnstructuredGrid) (f : Nat) : Prop :=
  ∀ g, g < G.number_of_faces → interiorFace G g → joinSamePair G f g → f = g

instance (G : UnstructuredGrid) (f : Nat) : Decidable (aloneOnPair G f) := by
  unfold aloneOnPair
  infer_instance

/-- No two interior faces join the same pair of cells. -/
def noParallelFaces (G : UnstructuredGrid) : Prop :=
  ∀ f, f < G.number_of_faces → interiorFace G f → aloneOnPair G f

instance (G : UnstructuredGrid) : Decidable (noParallelFaces G) := by
  unfold noParallelFaces
  infer_instance

/-- The cells perforated by well `k`, perforation by perforation. -/
def perforatedCells (w : Wells) (k : Nat) : List Nat :=
  (List.range' (w.well_connpos k) (w.well_connpos (k + 1) - w.well_connpos k)).map
    w.well_cells

/-- No well perforates the same cell twice. -/
def noDoublePerforation (W : Option Wells) : Prop :=
  match W with
  | none => True
  | some w => ∀ k, k < w.number_of_wells → (perforatedCells w k).Nodup

instance (W : Option Wells) : Decidable (noDoublePerforation W) := by
  unfold noDoublePerforation
  cases W <;> infer_instance

/-- The matrix constructed for the two-cell grid without wells. -/
def twoCellMatrix : CSRMatrix :=
  (ifs_tpfa_construct_matrix twoCellGrid none).getD (csrmatrix_new_count_nnz 0)

/-! ## Conservation in a cell -/

/-- Every face with exactly one cell of the grid is listed exactly once
among the faces of that cell. -/
def boundaryListedOnce (G : UnstructuredGrid) : Prop :=
  ∀ f, f < G.number_of_faces → ¬ interiorFace G f →
    (0 ≤ G.face_cells (2 * f + 0) ∨ 0 ≤ G.face_cells (2 * f + 1)) →
    listedCount G (bcCell G f) f = 1

instance (G : UnstructuredGrid) : Decidable (boundaryListedOnce G) := by
  unfold boundaryListedOnce
  infer_instance

/-- Every face of the grid is listed by at most one face slot of a PRESSURE
or FLUX_TOTVOL condition. -/
def oneConditionPerFace (G : UnstructuredGrid) (F : Option ifs_tpfa_forces) : Prop :=
  match forcesBC F with
  | some bc => ∀ f, f < G.number_of_faces → ((bcEntries bc).filter (listsFace bc f)).length ≤ 1
  | none => True

instance (G : UnstructuredGrid) (F : Option ifs_tpfa_forces) :
    Decidable (oneConditionPerFace G F) := by
  unfold oneConditionPerFace
  cases forcesBC F <;> infer_instance

/-- The net outflow of cell `c`: the sum over the faces `f` of `c` of
`sigma(c, f) * flux[f]`, with `sigma = +1` if `c` is the first cell of `f`
and `-1` otherwise. -/
def cellOutflow (G : UnstructuredGrid) (c : Nat) (flux : Nat → ℚ) : ℚ :=
  ((cellFaceSlots G c).map (fun i =>
    faceSign G c (G.cell_faces i) * flux (G.cell_faces i))).sum

/-! ## `checkIndividualConstraints` and `checkConstraints` -/

/-- The injector block and the final `return false` of
`checkIndividualConstraints` (lines 317-325).  The Boolean argument and the
last component of the result are the member
`operability_status_.thp_limit_violated_but_not_switched`. -/
def individualInjectorCheck (w : WellContext) (ws : SingleWellState) (flag : Bool) :
    Except String (Bool × SingleWellState × Bool) :=
  if w.isInjector = true then
    match activeInjectionConstraint w ws flag with
    | Except.error e => Except.error e
    | Except.ok new_cmode =>
      if new_cmode.1 ≠ ws.injection_cmode then
        Except.ok (true, { ws with injection_cmode := new_cmode.1 }, new_cmode.2)
      else Except.ok (false, ws, new_cmode.2)
  else Except.ok (false, ws, flag)

/-- The function `checkIndividualConstraints` (lines 302-326).  The result is
the returned flag, the state of the well after the call and the member
`operability_status_.thp_limit_violated_but_not_switched` after the call;
`Except.error` is the exception of `activeInjectionConstraint`. -/
def checkIndividualConstraints (w : WellContext) (ws : SingleWellState) (flag : Bool) :
    Except String (Bool × SingleWellState × Bool) :=
  if w.isProducer = true then
    let new_cmode := activeProductionConstraint w ws flag
    if new_cmode.1 ≠ ws.production_cmode then
      Except.ok (true, { ws with production_cmode := new_cmode.1 }, new_cmode.2)
    else individualInjectorCheck w ws new_cmode.2
  else individualInjectorCheck w ws flag

/-- The function `checkConstraints` (lines 490-505): the individual limits
first, the group limits only if no individual limit switched the mode. -/
def checkConstraints (w : WellContext) (env : GroupContext) (ws : SingleWellState)
    (flag : Bool) : Except String (Bool × SingleWellState × Bool) :=
  match checkIndividualConstraints w ws flag with
  | Except.error e => Except.error e
  | Except.ok ind =>
    if ind.1 = true then Except.ok (true, ind.2.1, ind.2.2)
    else
      match checkGroupConstraints w env ind.2.1 with
      | Except.error e => Except.error e
      | Except.ok grp => Except.ok (grp.1, grp.2, ind.2.2)

/-! ## The individual checks of `activeInjectionConstraint` -/

/-- The BHP check of an injector returns (lines 219-225). -/
@[reducible]
def injBhpTriggers (w : WellContext) (ws : SingleWellState) : Prop :=
  w.injectionControls.hasControl InjectorCMode.BHP ∧ ws.injection_cmode ≠ InjectorCMode.BHP
    ∧ w.injectionControls.bhp_limit < ws.bhp

/-- The RATE check of an injector (lines 227-255): whether it returns RATE,
or the exception for an injector type other than WATER, OIL or GAS. -/
@[reducible]
def injRateCheck (w : WellContext) (ws : SingleWellState) : Except String Bool :=
  if w.injectionControls.hasControl InjectorCMode.RATE
      ∧ ws.injection_cmode ≠ InjectorCMode.RATE then
    match w.injectionControls.injector_type with
    | InjectorType.WATER =>
      Except.ok (decide (w.injectionControls.surface_rate
        < ws.surface_rates (w.phaseUsage.phase_pos BlackoilPhases.Aqua)))
    | InjectorType.OIL =>
      Except.ok (decide (w.injectionControls.surface_rate
        < ws.surface_rates (w.phaseUsage.phase_pos BlackoilPhases.Liquid)))
    | InjectorType.GAS =>
      Except.ok (decide (w.injectionControls.surface_rate
        < ws.surface_rates (w.phaseUsage.phase_pos BlackoilPhases.Vapour)))
    | InjectorType.MULTI =>
      Except.error ("Expected WATER, OIL or GAS as type for injectors " ++ w.name)
  else Except.ok false

/-- The RESV check of an injector returns (lines 257-271). -/
@[reducible]
def injResvTriggers (w : WellContext) (ws : SingleWellState) : Prop :=
  w.injectionControls.hasControl InjectorCMode.RESV ∧ ws.injection_cmode ≠ InjectorCMode.RESV
    ∧ w.injectionControls.reservoir_rate < injectedResvRate w.phaseUsage ws

/-! ## `directVerticalNeighbors` (`EclGenericWriter_impl.hpp`)

`int` values are integers: for dimensions at least 1 and indices
`0 ≤ small ≤ large` no operation of the function leaves the range of the
arguments.  `%` and `/` are the truncating operations of C++.  The map
`cartesianToActive` is a partial function; `find(gi) != end()` is `isSome`. -/

/-- The lambda `globalToIjk` (lines 93-100). -/
def globalToIjk (cartDims : Nat → Int) (gc : Int) : Int × Int × Int :=
  let i := Int.tmod gc (cartDims 0)
  let gc1 := Int.tdiv gc (cartDims 0)
  (i, Int.tmod gc1 (cartDims 1), Int.tdiv gc1 (cartDims 1))

/-- The loop `for (gi = ...; gi < largeGlobalIndex; gi += step)` of lines
108-115, started at `gi`: `some false` when an active cell is met,
`some true` when the loop ends, `none` when the fuel is used up. -/
def scanColumn (cartesianToActive : Int → Option Int) (step large : Int) :
    Nat → Int → Option Bool
  | 0, _ => none
  | fuel + 1, gi =>
    if gi < large then
      if (cartesianToActive gi).isSome then some false
      else scanColumn cartesianToActive step large fuel (gi + step)
    else some true

/-- The function `directVerticalNeighbors`; `fuel` bounds the number of loop
tests and `none` is the result when it is used up. -/
def directVerticalNeighbors (fuel : Nat) (cartDims : Nat → Int)
    (cartesianToActive : Int → Option Int) (smallGlobalIndex largeGlobalIndex : Int) :
    Option Bool :=
  let ijk1 := globalToIjk cartDims smallGlobalIndex
  let ijk2 := globalToIjk cartDims largeGlobalIndex
  if ijk1.1 = ijk2.1 ∧ ijk1.2.1 = ijk2.2.1 ∧ ijk2.2.2 - ijk1.2.2 > 1 then
    scanColumn cartesianToActive (cartDims 0 * cartDims 1) largeGlobalIndex fuel
      (smallGlobalIndex + cartDims 0 * cartDims 1)
  else some false

/-- The Cartesian index of the cell `(i, j, k)`. -/
def cartesianIndex (cartDims : Nat → Int) (i j k : Int) : Int :=
  i + cartDims 0 * (j + cartDims 1 * k)

/-- Cartesian dimensions 1 x 1 x 3: one column of three cells. -/
def threeLayerDims : Nat → Int :=
  fun d => if d = 2 then 3 else 1

/-! ## Producers at a pressure limit -/

/-- A producer with BHP (limit 2000), ORAT (limit 500) and THP (limit 100)
controls whose prevent flag (WVFPEXP item 4) is set. -/
def suppressedProducer : WellContext :=
  { name := "P7",
    productionControls :=
      { hasControl := fun M =>
          match M with
          | ProducerCMode.BHP => true
          | ProducerCMode.ORAT => true
          | ProducerCMode.THP => true
          | _ => false,
        bhp_limit := 2000, oil_rate := 500, water_rate := 0, gas_rate := 0,
        liquid_rate := 0, resv_rate := 0, prediction_mode := true },
    injectionControls :=
      { hasControl := fun _ => false, bhp_limit := 0, surface_rate := 0,
        reservoir_rate := 0, injector_type := InjectorType.WATER },
    thpConstraint := 100, wvfpexp_prevent := true, phaseUsage := threePhase,
    number_of_phases := 3, calcReservoirVoidageRates := fun r => r,
    isProducer := true, isInjector := false }

/-- A producer state in ORAT mode at bhp 2500 (above the BHP limit 2000) and
thp 50 (below the THP limit 100), producing 400 of oil, with a well
potential of 700 for every phase. -/
def suppressedState : SingleWellState :=
  { production_cmode := ProducerCMode.ORAT, injection_cmode := InjectorCMode.BHP,
    bhp := 2500, thp := 50,
    surface_rates := fun p => if p = 1 then -400 else 0,
    reservoir_rates := fun _ => 0, well_potentials := fun _ => 700,
    trivial_target := false }

/-- The producer `suppressedProducer` without the prevent flag. -/
def unpreventedProducer : WellContext :=
  { suppressedProducer with wvfpexp_prevent := false }

/-- The state `suppressedState` with a trivial target. -/
def trivialTargetState : SingleWellState :=
  { suppressedState with trivial_target := true }
/-! ## A grid without boundary -/

/-- Every face of the grid has two cells. -/
def allInterior (G : UnstructuredGrid) : Prop :=
  ∀ f, f < G.number_of_faces → interiorFace G f

instance (G : UnstructuredGrid) : Decidable (allInterior G) := by
  unfold allInterior
  infer_instance

/-- A ring of three cells and three faces, all interior: face 0 joins cell 0
to cell 1, face 1 joins cell 1 to cell 2 and face 2 joins cell 2 to cell 0.
Each face is listed once in each of its two cells. -/
def ringGrid : UnstructuredGrid :=
  { number_of_cells := 3, number_of_faces := 3,
    face_cells := fun k =>
      if k = 0 then 0 else if k = 1 then 1 else if k = 2 then 1 else if k = 3 then 2
      else if k = 4 then 2 else if k = 5 then 0 else -1,
    cell_facepos := fun k => 2 * k,
    cell_faces := fun i =>
      if i = 0 then 0 else if i = 1 then 2 else if i = 2 then 0 else if i = 3 then 1
      else if i = 4 then 1 else 2 }

/-- Transmissibilities 1, 2 and 3 on the faces 0, 1 and 2. -/
def ringTrans : Nat → ℚ :=
  fun f => (f : ℚ) + 1

/-- Zero sources and no boundary conditions. -/
def zeroSources : Option ifs_tpfa_forces :=
  some { src := some (fun _ => 0), bc := none }

/-- Solver data holding the matrix constructed for the ring without wells,
with arbitrary old values in the buffers. -/
def ringData : ifs_tpfa_data :=
  { A := { (ifs_tpfa_construct_matrix ringGrid none).getD (csrmatrix_new_count_nnz 0) with
           sa := fun _ => 7 },
    b := fun _ => 7, x := fun _ => 7, fgrav := fun _ => 7 }

/-! ## Loops as folds: generic facts -/

/-- A loop whose active iterations store `val e` at index `key e` leaves every
index that no active iteration addresses unchanged. -/
theorem foldl_assign_untouched {ι : Type} (step : (Nat → ℚ) → ι → (Nat → ℚ))
    (act : ι → Bool) (key : ι → Nat) (val : ι → ℚ)
    (hstep : ∀ v e, step v e = if act e = true then Function.update v (key e) (val e) else v)
    (k : Nat) :
    ∀ (L : List ι) (v : Nat → ℚ), (∀ e ∈ L, act e = true → key e ≠ k) →
      (L.foldl step v) k = v k := by
  intro L
  induction L with
  | nil => intro v _; rfl
  | cons e L ih =>
    intro v h
    rw [List.foldl_cons, ih _ (fun e' he' => h e' (List.mem_cons_of_mem _ he')), hstep]
    by_cases ha : act e = true
    · rw [if_pos ha]
      exact Function.update_noteq (Ne.symm (h e (List.mem_cons_self _ _) ha)) _ _
    · rw [if_neg ha]

/-- A loop whose active iterations store `val e` at index `key e` leaves at
index `k` the value of the last active iteration that addresses `k`. -/
theorem foldl_assign_last {ι : Type} (step : (Nat → ℚ) → ι → (Nat → ℚ))
    (act : ι → Bool) (key : ι → Nat) (val : ι → ℚ)
    (hstep : ∀ v e, step v e = if act e = true then Function.update v (key e) (val e) else v)
    (k : Nat) (L1 L2 : List ι) (e : ι) (v : Nat → ℚ) (ha : act e = true) (hk : key e = k)
    (h2 : ∀ e' ∈ L2, act e' = true → key e' ≠ k) :
    ((L1 ++ e :: L2).foldl step v) k = val e := by
  rw [List.foldl_append, List.foldl_cons,
    foldl_assign_untouched step act key val hstep k L2 _ h2, hstep, if_pos ha, ← hk]
  exact Function.update_same _ _ _

/-- A loop `for (f = 0; f < n; f++) v[f] = val(f)` sets the first `n`
entries and leaves the others. -/
theorem foldl_range_assign (step : (Nat → ℚ) → Nat → (Nat → ℚ)) (val : Nat → ℚ)
    (hstep : ∀ v f, step v f = Function.update v f (val f)) (v : Nat → ℚ) (k : Nat) :
    ∀ n : Nat, ((List.range n).foldl step v) k = if k < n then val k else v k := by
  intro n
  induction n with
  | zero => simp
  | succ n ih =>
    rw [List.range_succ, List.foldl_append, List.foldl_cons, List.foldl_nil, hstep]
    by_cases hk : k = n
    · subst hk
      simp
    · rw [Function.update_noteq hk, ih]
      by_cases hlt : k < n
      · rw [if_pos hlt, if_pos (by omega)]
      · rw [if_neg hlt, if_neg (by omega)]

/-- A loop whose body adds `d e k` to entry `k` of a component of the state,
while an invariant of the state holds, adds the sum of these amounts. -/
theorem foldl_accum {σ ι : Type} (step : σ → ι → σ) (proj : σ → Nat → ℚ) (d : ι → Nat → ℚ)
    (Inv : σ → Prop) (hinv : ∀ s e, Inv s → Inv (step s e))
    (hstep : ∀ s e k, Inv s → proj (step s e) k = proj s k + d e k) (k : Nat) :
    ∀ (L : List ι) (s : σ), Inv s →
      proj (L.foldl step s) k = proj s k + (L.map (fun e => d e k)).sum := by
  intro L
  induction L with
  | nil => intro s _; simp
  | cons e L ih =>
    intro s hs
    rw [List.foldl_cons, ih _ (hinv s e hs), hstep s e k hs, List.map_cons, List.sum_cons]
    ring

/-- An invariant of the loop body is an invariant of the loop. -/
theorem foldl_invariant {σ ι : Type} (step : σ → ι → σ) (Inv : σ → Prop)
    (hinv : ∀ s e, Inv s → Inv (step s e)) :
    ∀ (L : List ι) (s : σ), Inv s → Inv (L.foldl step s) := by
  intro L
  induction L with
  | nil => intro s hs; exact hs
  | cons e L ih => intro s hs; exact ih _ (hinv s e hs)

/-- A loop nest over a list of lists is a loop over the concatenation. -/
theorem foldl_flatMap_eq {σ ι κ : Type} (step : σ → κ → σ) (g : ι → List κ) :
    ∀ (L : List ι) (s : σ),
      (L.flatMap g).foldl step s = L.foldl (fun s i => (g i).foldl step s) s := by
  intro L
  induction L with
  | nil => intro s; rfl
  | cons i L ih =>
    intro s
    rw [List.flatMap_cons, List.foldl_append, ih, List.foldl_cons]

/-! ## Sums over lists -/

theorem sum_map_ite_eq_filter {ι : Type} (p : ι → Prop) [DecidablePred p] (g : ι → ℚ) :
    ∀ L : List ι, (L.map (fun e => if p e then g e else 0)).sum
      = ((L.filter (fun e => decide (p e))).map g).sum := by
  intro L
  induction L with
  | nil => rfl
  | cons e L ih =>
    rw [List.map_cons, List.sum_cons, ih]
    by_cases hp : p e
    · rw [if_pos hp, List.filter_cons_of_pos (by simpa using hp), List.map_cons, List.sum_cons]
    · rw [if_neg hp, List.filter_cons_of_neg (by simpa using hp), zero_add]

theorem sum_map_flatMap {ι κ : Type} (g : ι → List κ) (f : κ → ℚ) :
    ∀ L : List ι, ((L.flatMap g).map f).sum = (L.map (fun i => ((g i).map f).sum)).sum := by
  intro L
  induction L with
  | nil => rfl
  | cons i L ih =>
    rw [List.flatMap_cons, List.map_append, List.sum_append, ih, List.map_cons, List.sum_cons]

theorem sum_map_zero_of_forall {ι : Type} (f : ι → ℚ) :
    ∀ L : List ι, (∀ e ∈ L, f e = 0) → (L.map f).sum = 0 := by
  intro L
  induction L with
  | nil => intro _; rfl
  | cons e L ih =>
    intro h
    rw [List.map_cons, List.sum_cons, h e (List.mem_cons_self _ _),
      ih (fun e' he' => h e' (List.mem_cons_of_mem _ he')), add_zero]

theorem sum_map_congr {ι : Type} (f g : ι → ℚ) :
    ∀ L : List ι, (∀ e ∈ L, f e = g e) → (L.map f).sum = (L.map g).sum := by
  intro L
  induction L with
  | nil => intro _; rfl
  | cons e L ih =>
    intro h
    rw [List.map_cons, List.sum_cons, List.map_cons, List.sum_cons,
      h e (List.mem_cons_self _ _), ih (fun e' he' => h e' (List.mem_cons_of_mem _ he'))]

theorem sum_range_single (a : Nat → ℚ) (k : Nat) :
    ∀ n : Nat, ((List.range n).map (fun c => if c = k then a c else 0)).sum
      = if k < n then a k else 0 := by
  intro n
  induction n with
  | zero => simp
  | succ n ih =>
    rw [List.range_succ, List.map_append, List.sum_append, ih]
    by_cases hk : k = n
    · subst hk
      simp
    · by_cases hlt : k < n
      · rw [if_pos hlt, if_pos (by omega)]
        simp [Ne.symm hk]
      · rw [if_neg hlt, if_neg (by omega)]
        simp [Ne.symm hk]

/-! ## The loop nest over cells and their faces -/

theorem segLoopFrom_eq_flatMap (pos : Nat → Nat) :
    ∀ (k c : Nat), (∀ c', c ≤ c' → c' < c + k → pos c' ≤ pos (c' + 1)) →
      segLoopFrom pos c k (pos c)
        = (List.range' c k).flatMap (fun c' =>
            (List.range' (pos c') (pos (c' + 1) - pos c')).map (fun j => (c', j))) := by
  intro k
  induction k with
  | zero => intro c _; rfl
  | succ k ih =>
    intro c hmono
    have h1 : pos c ≤ pos (c + 1) := hmono c (le_refl _) (by omega)
    rw [segLoopFrom, max_eq_right h1, ih (c + 1) (fun c' h2 h3 => hmono c' (by omega) (by omega)),
      List.range'_succ, List.flatMap_cons]

/-- On well-formed face positions the loop nest visits, for each cell in
turn, the face slots of that cell. -/
theorem segLoop_eq_flatMap (n : Nat) (pos : Nat → Nat) (h0 : pos 0 = 0)
    (hmono : ∀ c, c < n → pos c ≤ pos (c + 1)) :
    segLoop n pos
      = (List.range n).flatMap (fun c =>
          (List.range' (pos c) (pos (c + 1) - pos c)).map (fun j => (c, j))) := by
  unfold segLoop
  have := segLoopFrom_eq_flatMap pos n 0 (fun c' _ h3 => hmono c' (by omega))
  rw [h0] at this
  rw [this, List.range_eq_range']

/-- A sum over the loop nest of terms that belong to cell `k` is the sum over
the face slots of `k`. -/
theorem sum_segLoop_cell (n : Nat) (pos : Nat → Nat) (h0 : pos 0 = 0)
    (hmono : ∀ c, c < n → pos c ≤ pos (c + 1)) (g : Nat × Nat → ℚ) (k : Nat) (hk : k < n) :
    ((segLoop n pos).map (fun e => if e.1 = k then g e else 0)).sum
      = ((List.range' (pos k) (pos (k + 1) - pos k)).map (fun i => g (k, i))).sum := by
  rw [segLoop_eq_flatMap n pos h0 hmono, sum_map_flatMap]
  have : ∀ c, ((List.range' (pos c) (pos (c + 1) - pos c)).map (fun j => (c, j))).map
        (fun e => if e.1 = k then g e else 0)
      = (List.range' (pos c) (pos (c + 1) - pos c)).map
        (fun i => if c = k then g (c, i) else 0) := by
    intro c
    rw [List.map_map]
    rfl
  simp only [this]
  have h2 : ∀ c, ((List.range' (pos c) (pos (c + 1) - pos c)).map
        (fun i => if c = k then g (c, i) else 0)).sum
      = if c = k then ((List.range' (pos c) (pos (c + 1) - pos c)).map
          (fun i => g (c, i))).sum else 0 := by
    intro c
    by_cases hc : c = k
    · simp [hc]
    · simp [hc]
  simp only [h2]
  rw [sum_range_single (fun c => ((List.range' (pos c) (pos (c + 1) - pos c)).map
    (fun i => g (c, i))).sum) k n, if_pos hk]

/-- A sum over the loop nest of terms of cells is zero at an index that is
not a cell. -/
theorem sum_segLoop_not_cell (n : Nat) (pos : Nat → Nat) (g : Nat × Nat → ℚ) (k : Nat)
    (hk : n ≤ k) :
    ((segLoop n pos).map (fun e => if e.1 = k then g e else 0)).sum = 0 := by
  apply sum_map_zero_of_forall
  intro e he
  have : e.1 < n := by
    have key : ∀ (m c i : Nat) (e : Nat × Nat), e ∈ segLoopFrom pos c m i → e.1 < c + m := by
      intro m
      induction m with
      | zero => intro c i e he; simp [segLoopFrom] at he
      | succ m ih =>
        intro c i e he
        rw [segLoopFrom, List.mem_append] at he
        rcases he with he | he
        · rw [List.mem_map] at he
          obtain ⟨j, _, rfl⟩ := he
          simp
        · have := ih (c + 1) _ e he
          omega
    have := key n 0 0 e he
    omega
  rw [if_neg (by omega)]

theorem sum_map_neg {ι : Type} (f : ι → ℚ) :
    ∀ L : List ι, (L.map (fun e => -f e)).sum = -(L.map f).sum := by
  intro L
  induction L with
  | nil => simp
  | cons e L ih =>
    rw [List.map_cons, List.sum_cons, ih, List.map_cons, List.sum_cons]
    ring

theorem sum_map_add_eq {ι : Type} (f g : ι → ℚ) :
    ∀ L : List ι, (L.map (fun e => f e + g e)).sum = (L.map f).sum + (L.map g).sum := by
  intro L
  induction L with
  | nil => simp
  | cons e L ih =>
    rw [List.map_cons, List.sum_cons, ih, List.map_cons, List.sum_cons, List.map_cons,
      List.sum_cons]
    ring

theorem sum_range'_single (y : Nat → ℚ) (j : Nat) :
    ∀ (n lo : Nat), ((List.range' lo n).map (fun p => if p = j then y p else 0)).sum
      = if lo ≤ j ∧ j < lo + n then y j else 0 := by
  intro n
  induction n with
  | zero =>
    intro lo
    rw [if_neg (by omega)]
    rfl
  | succ n ih =>
    intro lo
    rw [List.range'_succ, List.map_cons, List.sum_cons, ih]
    by_cases h1 : lo = j
    · subst h1
      rw [if_pos rfl, if_neg (by omega), if_pos (by omega), add_zero]
    · rw [if_neg h1, zero_add]
      by_cases h2 : lo + 1 ≤ j ∧ j < lo + 1 + n
      · rw [if_pos h2, if_pos (by omega)]
      · rw [if_neg h2, if_neg (by omega)]

theorem sum_map_sum_comm {ι κ : Type} (f : ι → κ → ℚ) (L2 : List κ) :
    ∀ L1 : List ι, (L1.map (fun a => (L2.map (fun b => f a b)).sum)).sum
      = (L2.map (fun b => (L1.map (fun a => f a b)).sum)).sum := by
  intro L1
  induction L1 with
  | nil => simp
  | cons a L1 ih =>
    simp only [List.map_cons, List.sum_cons]
    rw [ih, ← sum_map_add_eq]

theorem sum_map_mul_left {ι : Type} (c : ℚ) (f : ι → ℚ) :
    ∀ L : List ι, (L.map (fun e => c * f e)).sum = c * (L.map f).sum := by
  intro L
  induction L with
  | nil => simp
  | cons e L ih =>
    rw [List.map_cons, List.sum_cons, ih, List.map_cons, List.sum_cons]
    ring

theorem sum_map_ite_const {ι : Type} (p : ι → Prop) [DecidablePred p] (x : ℚ) :
    ∀ L : List ι, (L.map (fun i => if p i then x else 0)).sum
      = ((L.filter (fun i => decide (p i))).length : ℚ) * x := by
  intro L
  induction L with
  | nil => simp
  | cons i L ih =>
    rw [List.map_cons, List.sum_cons, ih]
    by_cases hp : p i
    · rw [if_pos hp, List.filter_cons_of_pos (by simpa using hp), List.length_cons]
      push_cast
      ring
    · rw [if_neg hp, List.filter_cons_of_neg (by simpa using hp), zero_add]

/-! ## Counting and filling: the two passes of the matrix construction -/

theorem foldl_pair_eq_flatMap {σ ι : Type} (step : σ → (Nat × Nat) → σ)
    (cond : ι → Prop) [DecidablePred cond] (a b : ι → Nat × Nat) :
    ∀ (L : List ι) (s : σ),
      L.foldl (fun s i => if cond i then step (step s (a i)) (b i) else s) s
        = (L.flatMap (fun i => if cond i then [a i, b i] else [])).foldl step s := by
  intro L s
  rw [foldl_flatMap_eq]
  congr 1
  funext s i
  by_cases hc : cond i
  · simp [hc]
  · simp [hc]

theorem countFold_append (es1 es2 : List (Nat × Nat)) (ia : Nat → Nat) :
    countFold (es1 ++ es2) ia = countFold es2 (countFold es1 ia) := by
  unfold countFold
  rw [List.foldl_append]

theorem fillFold_append (es1 es2 : List (Nat × Nat)) (A : CSRMatrix) :
    fillFold (es1 ++ es2) A = fillFold es2 (fillFold es1 A) := by
  unfold fillFold
  rw [List.foldl_append]

theorem rowEvents_cons (e : Nat × Nat) (es : List (Nat × Nat)) (r : Nat) :
    rowEvents (e :: es) r = if e.1 = r then e :: rowEvents es r else rowEvents es r := by
  unfold rowEvents
  by_cases h : e.1 = r
  · rw [List.filter_cons_of_pos (by simpa using h), if_pos h]
  · rw [List.filter_cons_of_neg (by simpa using h), if_neg h]

theorem rowCount_cons (e : Nat × Nat) (es : List (Nat × Nat)) (r : Nat) :
    rowCount (e :: es) r = rowCount es r + if e.1 = r then 1 else 0 := by
  unfold rowCount
  rw [rowEvents_cons]
  by_cases h : e.1 = r
  · simp [h]
  · simp [h]

theorem rowCols_cons (e : Nat × Nat) (es : List (Nat × Nat)) (r : Nat) :
    rowCols (e :: es) r = if e.1 = r then e.2 :: rowCols es r else rowCols es r := by
  unfold rowCols
  rw [rowEvents_cons]
  by_cases h : e.1 = r
  · simp [h]
  · simp [h]

theorem rowCols_length (es : List (Nat × Nat)) (r : Nat) :
    (rowCols es r).length = rowCount es r := by
  unfold rowCols rowCount
  rw [List.length_map]

/-- The counting pass adds to `ia[r + 1]` the number of entries of row `r`. -/
theorem countFold_succ (es : List (Nat × Nat)) :
    ∀ (ia : Nat → Nat) (r : Nat), countFold es ia (r + 1) = ia (r + 1) + rowCount es r := by
  induction es with
  | nil => intro ia r; simp [countFold, rowCount, rowEvents]
  | cons e es ih =>
    intro ia r
    have : countFold (e :: es) ia = countFold es (incr ia (e.1 + 1)) := rfl
    rw [this, ih, rowCount_cons]
    unfold incr
    by_cases h : e.1 = r
    · subst h
      simp
      omega
    · have : r + 1 ≠ e.1 + 1 := by omega
      rw [Function.update_noteq this, if_neg h]
      omega

theorem countFold_zero (es : List (Nat × Nat)) :
    ∀ (ia : Nat → Nat), countFold es ia 0 = ia 0 := by
  induction es with
  | nil => intro ia; rfl
  | cons e es ih =>
    intro ia
    have : countFold (e :: es) ia = countFold es (incr ia (e.1 + 1)) := rfl
    rw [this, ih]
    unfold incr
    exact Function.update_noteq (by omega) _ _

theorem pushCol_ia_succ (A : CSRMatrix) (r col k : Nat) :
    (pushCol A r col).ia (k + 1) = A.ia (k + 1) + if r = k then 1 else 0 := by
  unfold pushCol
  by_cases h : r = k
  · subst h
    simp
  · have : k + 1 ≠ r + 1 := by omega
    simp [Function.update_noteq this, h]

theorem pushCol_ia_zero (A : CSRMatrix) (r col : Nat) : (pushCol A r col).ia 0 = A.ia 0 := by
  have : (0 : Nat) ≠ r + 1 := by omega
  show Function.update A.ia (r + 1) (A.ia (r + 1) + 1) 0 = A.ia 0
  exact Function.update_noteq this _ _

theorem fillFold_cons (e : Nat × Nat) (es : List (Nat × Nat)) (A : CSRMatrix) :
    fillFold (e :: es) A = fillFold es (pushCol A e.1 e.2) := rfl

/-- The filling pass advances `ia[r + 1]` by the number of entries of row
`r`. -/
theorem fillFold_ia_succ (es : List (Nat × Nat)) :
    ∀ (A : CSRMatrix) (r : Nat), (fillFold es A).ia (r + 1) = A.ia (r + 1) + rowCount es r := by
  induction es with
  | nil => intro A r; simp [fillFold, rowCount, rowEvents]
  | cons e es ih =>
    intro A r
    rw [fillFold_cons, ih, pushCol_ia_succ, rowCount_cons]
    omega

theorem fillFold_ia_zero (es : List (Nat × Nat)) :
    ∀ (A : CSRMatrix), (fillFold es A).ia 0 = A.ia 0 := by
  induction es with
  | nil => intro A; rfl
  | cons e es ih =>
    intro A
    rw [fillFold_cons, ih, pushCol_ia_zero]

theorem fillFold_m (es : List (Nat × Nat)) :
    ∀ (A : CSRMatrix), (fillFold es A).m = A.m ∧ (fillFold es A).nnz = A.nnz
      ∧ (fillFold es A).sa = A.sa := by
  induction es with
  | nil => intro A; exact ⟨rfl, rfl, rfl⟩
  | cons e es ih =>
    intro A
    rw [fillFold_cons]
    exact ih _

/-- The filling pass writes only into the slots that the entries of each row
occupy. -/
theorem fillFold_ja_untouched (es : List (Nat × Nat)) :
    ∀ (A : CSRMatrix) (p : Nat),
      (∀ r, ¬ (A.ia (r + 1) ≤ p ∧ p < A.ia (r + 1) + rowCount es r)) →
      (fillFold es A).ja p = A.ja p := by
  induction es with
  | nil => intro A p _; rfl
  | cons e es ih =>
    intro A p h
    rw [fillFold_cons, ih]
    · unfold pushCol
      apply Function.update_noteq
      intro hp
      apply h e.1
      rw [rowCount_cons, if_pos rfl]
      omega
    · intro r hr
      apply h r
      rw [pushCol_ia_succ] at hr
      rw [rowCount_cons]
      by_cases he : e.1 = r
      · rw [if_pos he] at hr
        rw [if_pos he]
        omega
      · rw [if_neg he] at hr
        rw [if_neg he]
        omega

theorem slotsDisjoint_cons (e : Nat × Nat) (es : List (Nat × Nat)) (A : CSRMatrix)
    (h : slotsDisjoint (e :: es) A) : slotsDisjoint es (pushCol A e.1 e.2) := by
  intro r r2 p hne h1 h2 h3
  rw [pushCol_ia_succ] at h1 h2 h3
  apply h r r2 p hne
  · omega
  · rw [rowCount_cons]
    by_cases he : e.1 = r
    · rw [if_pos he] at h2
      rw [if_pos he]
      omega
    · rw [if_neg he] at h2
      rw [if_neg he]
      omega
  · rw [rowCount_cons]
    by_cases he : e.1 = r2
    · rw [if_pos he] at h3
      rw [if_pos he]
      omega
    · rw [if_neg he] at h3
      rw [if_neg he]
      omega

/-- After the filling pass the slots of row `r` hold the columns of the
entries of row `r`, in order. -/
theorem fillFold_row (es : List (Nat × Nat)) :
    ∀ (A : CSRMatrix) (r : Nat), slotsDisjoint es A →
      (List.range' (A.ia (r + 1)) (rowCount es r)).map (fillFold es A).ja = rowCols es r := by
  induction es with
  | nil => intro A r _; simp [rowCount, rowCols, rowEvents]
  | cons e es ih =>
    intro A r hd
    rw [fillFold_cons]
    have hd2 := slotsDisjoint_cons e es A hd
    by_cases he : e.1 = r
    · rw [rowCount_cons, if_pos he, rowCols_cons, if_pos he, List.range'_succ, List.map_cons]
      have hia : (pushCol A e.1 e.2).ia (r + 1) = A.ia (r + 1) + 1 := by
        rw [pushCol_ia_succ, if_pos he]
      rw [← hia, ih _ r hd2]
      congr 1
      rw [fillFold_ja_untouched]
      · unfold pushCol
        rw [he]
        exact Function.update_same _ _ _
      · intro r2 hr2
        rw [pushCol_ia_succ] at hr2
        by_cases he2 : e.1 = r2
        · rw [if_pos he2] at hr2
          have : r2 = r := by omega
          subst this
          omega
        · rw [if_neg he2] at hr2
          apply hd r r2 (A.ia (r + 1)) (by omega) (le_refl _)
          · rw [rowCount_cons, if_pos he]
            omega
          · rw [rowCount_cons, if_neg he2]
            omega
    · rw [rowCount_cons, if_neg he, rowCols_cons, if_neg he, Nat.add_zero]
      have hia : (pushCol A e.1 e.2).ia (r + 1) = A.ia (r + 1) := by
        rw [pushCol_ia_succ, if_neg he, Nat.add_zero]
      rw [← hia]
      exact ih _ r hd2

/-! ## The three loops of each pass as one loop over the pattern entries -/

theorem diagEvents_succ (n : Nat) : diagEvents (n + 1) = diagEvents n ++ [(n, n)] := by
  unfold diagEvents
  rw [List.range_succ, List.flatMap_append]
  rfl

theorem diagEvents_row_lt (n : Nat) : ∀ e ∈ diagEvents n, e.1 < n ∧ e.2 = e.1 := by
  intro e he
  unfold diagEvents at he
  rw [List.mem_flatMap] at he
  obtain ⟨i, hi, hei⟩ := he
  rw [List.mem_singleton] at hei
  subst hei
  exact ⟨List.mem_range.mp hi, rfl⟩

theorem rowCount_eq_zero (es : List (Nat × Nat)) (r : Nat) (h : ∀ e ∈ es, e.1 ≠ r) :
    rowCount es r = 0 := by
  unfold rowCount rowEvents
  rw [List.length_eq_zero, List.filter_eq_nil_iff]
  intro e he
  simpa using h e he

/-- The first loop of the counting pass stores `1`; on zeroed row pointers
this is an increment. -/
theorem count_diag_eq (n : Nat) (ia : Nat → Nat) (hz : ∀ k, ia k = 0) :
    (List.range n).foldl (fun ia c1 => Function.update ia (c1 + 1) 1) ia
      = countFold (diagEvents n) ia := by
  induction n with
  | zero => rfl
  | succ n ih =>
    rw [List.range_succ, List.foldl_append, List.foldl_cons, List.foldl_nil, ih,
      diagEvents_succ, countFold_append]
    show _ = incr (countFold (diagEvents n) ia) (n + 1)
    unfold incr
    rw [countFold_succ, hz, rowCount_eq_zero _ _ (fun e he => by
      have := (diagEvents_row_lt n e he).1
      omega)]

theorem construct_count_eq (G : UnstructuredGrid) (W : Option Wells) (ia : Nat → Nat)
    (hz : ∀ k, ia k = 0) :
    construct_count G W ia = countFold (patternEvents G W) ia := by
  unfold construct_count patternEvents
  simp only []
  rw [countFold_append, countFold_append, count_diag_eq _ _ hz]
  have hface : ∀ ia0 : Nat → Nat,
      (List.range G.number_of_faces).foldl (fun ia f =>
        if 0 ≤ G.face_cells (2 * f + 0) ∧ 0 ≤ G.face_cells (2 * f + 1) then
          incr (incr ia ((G.face_cells (2 * f + 0)).toNat + 1))
            ((G.face_cells (2 * f + 1)).toNat + 1)
        else ia) ia0 = countFold (faceEvents G) ia0 := by
    intro ia0
    exact foldl_pair_eq_flatMap (fun ia (e : Nat × Nat) => incr ia (e.1 + 1))
      (fun f => 0 ≤ G.face_cells (2 * f + 0) ∧ 0 ≤ G.face_cells (2 * f + 1))
      (fun f => ((G.face_cells (2 * f + 0)).toNat, (G.face_cells (2 * f + 1)).toNat))
      (fun f => ((G.face_cells (2 * f + 1)).toNat, (G.face_cells (2 * f + 0)).toNat))
      _ ia0
  rw [hface]
  cases W with
  | none => rfl
  | some w =>
    simp only [wellEvents]
    have := foldl_pair_eq_flatMap (fun ia (e : Nat × Nat) => incr ia (e.1 + 1))
      (fun _ : Nat × Nat => True)
      (fun wi => (w.well_cells wi.2, G.number_of_cells + wi.1))
      (fun wi => (G.number_of_cells + wi.1, w.well_cells wi.2))
      (segLoop w.number_of_wells w.well_connpos)
      (countFold (faceEvents G) (countFold (diagEvents (numUnknowns G (some w))) ia))
    simp only [if_true, Nat.zero_add] at this ⊢
    exact this

theorem construct_fill_eq (G : UnstructuredGrid) (W : Option Wells) (A : CSRMatrix) :
    construct_fill G W A = fillFold (patternEvents G W) A := by
  unfold construct_fill patternEvents
  simp only []
  rw [fillFold_append, fillFold_append]
  have hdiag : ∀ (n : Nat) (A0 : CSRMatrix),
      (List.range n).foldl (fun A i => pushCol A i i) A0 = fillFold (diagEvents n) A0 := by
    intro n A0
    unfold fillFold diagEvents
    rw [foldl_flatMap_eq]
    rfl
  have hface : ∀ A0 : CSRMatrix,
      (List.range G.number_of_faces).foldl (fun A f =>
        if 0 ≤ G.face_cells (2 * f + 0) ∧ 0 ≤ G.face_cells (2 * f + 1) then
          pushCol (pushCol A (G.face_cells (2 * f + 0)).toNat (G.face_cells (2 * f + 1)).toNat)
            (G.face_cells (2 * f + 1)).toNat (G.face_cells (2 * f + 0)).toNat
        else A) A0 = fillFold (faceEvents G) A0 := by
    intro A0
    exact foldl_pair_eq_flatMap (fun A (e : Nat × Nat) => pushCol A e.1 e.2)
      (fun f => 0 ≤ G.face_cells (2 * f + 0) ∧ 0 ≤ G.face_cells (2 * f + 1))
      (fun f => ((G.face_cells (2 * f + 0)).toNat, (G.face_cells (2 * f + 1)).toNat))
      (fun f => ((G.face_cells (2 * f + 1)).toNat, (G.face_cells (2 * f + 0)).toNat))
      _ A0
  rw [hdiag, hface]
  cases W with
  | none => rfl
  | some w =>
    simp only [wellEvents]
    have := foldl_pair_eq_flatMap (fun A (e : Nat × Nat) => pushCol A e.1 e.2)
      (fun _ : Nat × Nat => True)
      (fun wi => (w.well_cells wi.2, G.number_of_cells + wi.1))
      (fun wi => (G.number_of_cells + wi.1, w.well_cells wi.2))
      (segLoop w.number_of_wells w.well_connpos)
      (fillFold (faceEvents G) (fillFold (diagEvents (numUnknowns G (some w))) A))
    simp only [if_true, Nat.zero_add] at this ⊢
    exact this

/-! ## The running total of `csrmatrix_new_elms_pushback` -/

theorem pushback_fold (ia : Nat → Nat) :
    ∀ j : Nat,
      ((List.range' 1 j).foldl pushback_step ia) 0
          = ia 0 + ((List.range j).map (fun r => ia (r + 1))).sum
      ∧ (∀ r, r < j → ((List.range' 1 j).foldl pushback_step ia) (r + 1)
          = ia 0 + ((List.range r).map (fun r2 => ia (r2 + 1))).sum)
      ∧ (∀ r, j ≤ r → ((List.range' 1 j).foldl pushback_step ia) (r + 1) = ia (r + 1)) := by
  intro j
  induction j with
  | zero =>
    refine ⟨by simp, fun r hr => by omega, fun r _ => rfl⟩
  | succ j ih =>
    obtain ⟨h0, h1, h2⟩ := ih
    have hsplit : List.range' 1 (j + 1) = List.range' 1 j ++ [j + 1] := by
      rw [List.range'_1_concat, Nat.add_comm]
    rw [hsplit, List.foldl_append, List.foldl_cons, List.foldl_nil]
    generalize hv : (List.range' 1 j).foldl pushback_step ia = v at h0 h1 h2
    have hne : (0 : Nat) ≠ j + 1 := by omega
    have hstep0 : pushback_step v (j + 1) 0 = v 0 + v (j + 1) := by
      unfold pushback_step
      rw [Function.update_noteq hne, Function.update_same]
    have hstepj : pushback_step v (j + 1) (j + 1) = v 0 := by
      unfold pushback_step
      rw [Function.update_same, Function.update_same, Function.update_noteq (Ne.symm hne)]
      omega
    have hstepk : ∀ k, k ≠ 0 → k ≠ j + 1 → pushback_step v (j + 1) k = v k := by
      intro k hk0 hkj
      unfold pushback_step
      rw [Function.update_noteq hkj, Function.update_noteq hk0]
    refine ⟨?_, ?_, ?_⟩
    · rw [hstep0, h0, h2 j (le_refl _), List.range_succ, List.map_append, List.sum_append]
      simp
      omega
    · intro r hr
      by_cases hrj : r = j
      · subst hrj
        rw [hstepj, h0]
      · rw [hstepk (r + 1) (by omega) (by omega), h1 r (by omega)]
    · intro r hr
      rw [hstepk (r + 1) (by omega) (by omega), h2 r (by omega)]

/-! ## Row starts -/

theorem rowStart_zero (es : List (Nat × Nat)) : rowStart es 0 = 0 := rfl

theorem rowStart_succ (es : List (Nat × Nat)) (r : Nat) :
    rowStart es (r + 1) = rowStart es r + rowCount es r := by
  unfold rowStart
  rw [List.range_succ, List.map_append, List.sum_append]
  simp

theorem rowStart_mono (es : List (Nat × Nat)) (a b : Nat) (hab : a ≤ b) :
    rowStart es a ≤ rowStart es b := by
  induction b with
  | zero =>
    have : a = 0 := by omega
    rw [this]
  | succ b ih =>
    by_cases h : a = b + 1
    · rw [h]
    · have := ih (by omega)
      rw [rowStart_succ]
      omega

/-! ## Sorting the rows -/

theorem sortSegment_outside (ja : Nat → Nat) (lo hi p : Nat) (hp : ¬ (lo ≤ p ∧ p < hi)) :
    sortSegment ja lo hi p = ja p := by
  unfold sortSegment
  rw [if_neg hp]

theorem map_getD_range' (S : List Nat) :
    ∀ lo : Nat, (List.range' lo S.length).map (fun p => S.getD (p - lo) 0) = S := by
  induction S with
  | nil => intro lo; rfl
  | cons x S ih =>
    intro lo
    rw [List.length_cons, List.range'_succ, List.map_cons]
    congr 1
    · simp
    · refine Eq.trans (List.map_congr_left ?_) (ih (lo + 1))
      intro p hp
      rw [List.mem_range'] at hp
      obtain ⟨i, _, hi⟩ := hp
      have : p - lo = (p - (lo + 1)) + 1 := by omega
      rw [this, List.getD_cons_succ]

theorem sortSegment_segment (ja : Nat → Nat) (lo hi : Nat) :
    (List.range' lo (hi - lo)).map (sortSegment ja lo hi)
      = List.insertionSort (· ≤ ·) ((List.range' lo (hi - lo)).map ja) := by
  have hlen : (List.insertionSort (· ≤ ·) ((List.range' lo (hi - lo)).map ja)).length
      = hi - lo := by
    rw [List.length_insertionSort, List.length_map, List.length_range']
  have h := map_getD_range' (List.insertionSort (· ≤ ·) ((List.range' lo (hi - lo)).map ja)) lo
  rw [hlen] at h
  rw [← h]
  apply List.map_congr_left
  intro p hp
  rw [List.mem_range'] at hp
  obtain ⟨i, hi1, hi2⟩ := hp
  unfold sortSegment
  rw [if_pos (by omega)]

/-- Sorting rows leaves every position outside the rows sorted unchanged. -/
theorem sortrows_fold_outside (ia : Nat → Nat) (p : Nat) :
    ∀ (L : List Nat) (ja : Nat → Nat), (∀ i ∈ L, ¬ (ia i ≤ p ∧ p < ia (i + 1))) →
      (L.foldl (fun ja i => sortSegment ja (ia i) (ia (i + 1))) ja) p = ja p := by
  intro L
  induction L with
  | nil => intro ja _; rfl
  | cons i L ih =>
    intro ja h
    rw [List.foldl_cons, ih _ (fun i2 hi2 => h i2 (List.mem_cons_of_mem _ hi2)),
      sortSegment_outside _ _ _ _ (h i (List.mem_cons_self _ _))]

theorem map_congr_range' (f g : Nat → Nat) (lo n : Nat)
    (h : ∀ p, lo ≤ p → p < lo + n → f p = g p) :
    (List.range' lo n).map f = (List.range' lo n).map g := by
  apply List.map_congr_left
  intro p hp
  rw [List.mem_range'] at hp
  obtain ⟨i, hi1, hi2⟩ := hp
  exact h p (by omega) (by omega)

/-- After `csrmatrix_sortrows` on ascending row pointers, row `r` holds its
former columns in ascending order. -/
theorem sortrows_row (A : CSRMatrix) (hmono : ∀ i, i < A.m → A.ia i ≤ A.ia (i + 1))
    (r : Nat) (hr : r < A.m) :
    (rowPositions (csrmatrix_sortrows A) r).map (csrmatrix_sortrows A).ja
      = List.insertionSort (· ≤ ·) ((rowPositions A r).map A.ja) := by
  have hchain : ∀ a b, a ≤ b → b ≤ A.m → A.ia a ≤ A.ia b := by
    intro a b hab hb
    induction b with
    | zero =>
      have : a = 0 := by omega
      rw [this]
    | succ b ih =>
      by_cases h : a = b + 1
      · rw [h]
      · have h1 := ih (by omega) (by omega)
        have h2 := hmono b (by omega)
        omega
  have hsplit : List.range A.m = List.range r ++ r :: List.range' (r + 1) (A.m - (r + 1)) := by
    rw [List.range_eq_range', List.range_eq_range']
    have h1 : A.m = (A.m - (r + 1) + 1) + r := by omega
    conv_lhs => rw [h1]
    rw [← List.range'_append_1, List.range'_succ, Nat.zero_add]
  unfold rowPositions
  show (List.range' (A.ia r) (A.ia (r + 1) - A.ia r)).map
      ((List.range A.m).foldl (fun ja i => sortSegment ja (A.ia i) (A.ia (i + 1))) A.ja) = _
  rw [hsplit, List.foldl_append, List.foldl_cons, ← sortSegment_segment]
  have hlo := hmono r hr
  rw [map_congr_range' _ (sortSegment ((List.range r).foldl
      (fun ja i => sortSegment ja (A.ia i) (A.ia (i + 1))) A.ja) (A.ia r) (A.ia (r + 1)))
    (A.ia r) (A.ia (r + 1) - A.ia r)]
  · apply map_congr_range'
    intro p hp1 hp2
    unfold sortSegment
    rw [if_pos (by omega), if_pos (by omega)]
    congr 2
    apply map_congr_range'
    intro q hq1 hq2
    apply sortrows_fold_outside
    intro i hi
    rw [List.mem_range] at hi
    have := hchain (i + 1) r (by omega) (by omega)
    omega
  · intro p hp1 hp2
    apply sortrows_fold_outside
    intro i hi
    rw [List.mem_range'] at hi
    obtain ⟨k, hk1, hk2⟩ := hi
    have := hchain (r + 1) i (by omega) (by omega)
    omega

/-! ## Pressure and flux recovery: proofs -/

theorem bflux_step_eq_foldl (G : UnstructuredGrid) (bc : FlowBoundaryConditions)
    (trans cpress fgrav : Nat → ℚ) (fflux : Nat → ℚ) (i : Nat) :
    bflux_step G bc trans cpress fgrav fflux i
      = ((condSlots bc i).map (fun j => (i, j))).foldl
          (bfluxEntryStep G bc trans cpress fgrav) fflux := by
  rw [List.foldl_map]
  unfold bflux_step
  cases hty : bc.type i
  · have : ∀ (L : List Nat) (v : Nat → ℚ),
        L.foldl (fun v j => bfluxEntryStep G bc trans cpress fgrav v (i, j)) v = v := by
      intro L
      induction L with
      | nil => intro v; rfl
      | cons j L ih =>
        intro v
        rw [List.foldl_cons, ih]
        simp [bfluxEntryStep, bcHandled, hty]
    rw [this]
  · have hs : bflux_pressure_step G bc trans cpress fgrav i
        = fun v j => bfluxEntryStep G bc trans cpress fgrav v (i, j) := by
      funext v j
      simp [bfluxEntryStep, bfluxVal, bcHandled, hty, bflux_pressure_step]
    simp only [hs]
  · have hs : bflux_flux_step G bc i
        = fun v j => bfluxEntryStep G bc trans cpress fgrav v (i, j) := by
      funext v j
      simp [bfluxEntryStep, bfluxVal, bcHandled, hty, bflux_flux_step]
    simp only [hs]

/-- The loop nest of `boundary_fluxes` is one loop over the face slots. -/
theorem boundary_fluxes_eq_foldl (G : UnstructuredGrid) (bc : FlowBoundaryConditions)
    (trans cpress fgrav : Nat → ℚ) (fflux : Nat → ℚ) :
    boundary_fluxes G bc trans cpress fgrav fflux
      = (bcEntries bc).foldl (bfluxEntryStep G bc trans cpress fgrav) fflux := by
  unfold boundary_fluxes bcEntries
  rw [foldl_flatMap_eq]
  congr 1
  funext v i
  exact bflux_step_eq_foldl G bc trans cpress fgrav v i

theorem flux_step_eq (G : UnstructuredGrid) (trans cpress fgrav : Nat → ℚ)
    (fflux : Nat → ℚ) (f : Nat) :
    flux_step G trans cpress fgrav fflux f
      = Function.update fflux f (fluxVal G trans cpress fgrav f) := by
  unfold flux_step fluxVal
  by_cases hc : 0 ≤ G.face_cells (2 * f + 0) ∧ 0 ≤ G.face_cells (2 * f + 1)
  · simp only [if_pos hc]
  · simp only [if_neg hc]

/-- The cell pressures after `ifs_tpfa_press_flux`. -/
theorem press_flux_cell_press (G : UnstructuredGrid) (F : Option ifs_tpfa_forces)
    (trans : Nat → ℚ) (h : ifs_tpfa_data) (soln : ifs_tpfa_solution) (c : Nat) :
    (ifs_tpfa_press_flux G F trans h soln).cell_press c
      = if c < G.number_of_cells then h.x c else soln.cell_press c := rfl

/-- The face fluxes after `ifs_tpfa_press_flux`: the face loop followed by
the boundary loop over the face slots of the conditions. -/
theorem press_flux_face_flux (G : UnstructuredGrid) (F : Option ifs_tpfa_forces)
    (trans : Nat → ℚ) (h : ifs_tpfa_data) (soln : ifs_tpfa_solution) :
    (ifs_tpfa_press_flux G F trans h soln).face_flux
      = match forcesBC F with
        | some bc =>
          (bcEntries bc).foldl
            (bfluxEntryStep G bc trans (ifs_tpfa_press_flux G F trans h soln).cell_press h.fgrav)
            ((List.range G.number_of_faces).foldl
              (flux_step G trans (ifs_tpfa_press_flux G F trans h soln).cell_press h.fgrav)
              soln.face_flux)
        | none =>
          (List.range G.number_of_faces).foldl
            (flux_step G trans (ifs_tpfa_press_flux G F trans h soln).cell_press h.fgrav)
            soln.face_flux := by
  unfold ifs_tpfa_press_flux forcesBC
  cases F with
  | none => rfl
  | some F =>
    cases hbc : F.bc with
    | none => simp only [hbc]
    | some bc =>
      simp only [hbc]
      exact boundary_fluxes_eq_foldl G bc trans _ h.fgrav _

/-- The face loop of `ifs_tpfa_press_flux` alone. -/
theorem flux_loop_apply (G : UnstructuredGrid) (trans cpress fgrav : Nat → ℚ)
    (fflux : Nat → ℚ) (f : Nat) (hf : f < G.number_of_faces) :
    ((List.range G.number_of_faces).foldl (flux_step G trans cpress fgrav) fflux) f
      = fluxVal G trans cpress fgrav f := by
  rw [foldl_range_assign (flux_step G trans cpress fgrav) (fluxVal G trans cpress fgrav)
    (fun v f => flux_step_eq G trans cpress fgrav v f), if_pos hf]

/-- A face that no handled condition lists keeps the flux of the face loop. -/
theorem press_flux_face_flux_unlisted (G : UnstructuredGrid) (F : Option ifs_tpfa_forces)
    (trans : Nat → ℚ) (h : ifs_tpfa_data) (soln : ifs_tpfa_solution) (f : Nat)
    (hf : f < G.number_of_faces)
    (hno : ∀ bc, forcesBC F = some bc →
      ∀ e ∈ bcEntries bc, bcHandled bc e.1 → bc.face e.2 ≠ f) :
    (ifs_tpfa_press_flux G F trans h soln).face_flux f
      = fluxVal G trans (ifs_tpfa_press_flux G F trans h soln).cell_press h.fgrav f := by
  rw [press_flux_face_flux]
  cases hbc : forcesBC F with
  | none => exact flux_loop_apply G trans _ h.fgrav _ f hf
  | some bc =>
    simp only []
    rw [foldl_assign_untouched (bfluxEntryStep G bc trans _ h.fgrav)
      (fun e => decide (bcHandled bc e.1)) (fun e => bc.face e.2)
      (bfluxVal G bc trans _ h.fgrav) (fun v e => rfl) f (bcEntries bc) _
      (fun e he ha => hno bc hbc e he (of_decide_eq_true ha))]
    exact flux_loop_apply G trans _ h.fgrav _ f hf

/-- A face whose last listing under a handled condition is the slot `e` gets
the flux of that slot. -/
theorem press_flux_face_flux_listed (G : UnstructuredGrid) (F : Option ifs_tpfa_forces)
    (trans : Nat → ℚ) (h : ifs_tpfa_data) (soln : ifs_tpfa_solution)
    (bc : FlowBoundaryConditions) (hbc : forcesBC F = some bc) (f : Nat) (e : Nat × Nat)
    (hlast : lastListing bc f = some e) :
    (ifs_tpfa_press_flux G F trans h soln).face_flux f
      = bfluxVal G bc trans (ifs_tpfa_press_flux G F trans h soln).cell_press h.fgrav e := by
  rw [press_flux_face_flux]
  simp only [hbc]
  unfold lastListing at hlast
  rw [List.find?_eq_some] at hlast
  obtain ⟨hp, as, bs, hrev, hnot⟩ := hlast
  have hent : bcEntries bc = bs.reverse ++ e :: as.reverse := by
    have := congrArg List.reverse hrev
    simpa using this
  rw [hent]
  simp only [listsFace, Bool.and_eq_true, decide_eq_true_eq] at hp
  apply foldl_assign_last (bfluxEntryStep G bc trans _ h.fgrav)
    (fun e => decide (bcHandled bc e.1)) (fun e => bc.face e.2)
    (bfluxVal G bc trans _ h.fgrav) (fun v e => rfl) f _ _ e _ (decide_eq_true hp.1) hp.2
  intro e' he' ha hk
  have h1 := hnot e' (List.mem_reverse.mp he')
  have h2 : listsFace bc f e' = true := by
    simp only [listsFace, Bool.and_eq_true, decide_eq_true_eq]
    exact ⟨of_decide_eq_true ha, hk⟩
  rw [h2] at h1
  exact absurd h1 (by decide)

/-! ## Assembly: the state after each part -/

@[simp] theorem addB_b (h : ifs_tpfa_data) (c : Nat) (d : ℚ) (k : Nat) :
    (addB h c d).b k = if k = c then h.b c + d else h.b k := by
  unfold addB
  by_cases hk : k = c
  · subst hk
    simp
  · simp [hk]

@[simp] theorem addB_A (h : ifs_tpfa_data) (c : Nat) (d : ℚ) : (addB h c d).A = h.A := rfl

@[simp] theorem addB_fgrav (h : ifs_tpfa_data) (c : Nat) (d : ℚ) :
    (addB h c d).fgrav = h.fgrav := rfl

@[simp] theorem addB_x (h : ifs_tpfa_data) (c : Nat) (d : ℚ) : (addB h c d).x = h.x := rfl

@[simp] theorem addSa_b (h : ifs_tpfa_data) (j : Nat) (d : ℚ) : (addSa h j d).b = h.b := rfl

@[simp] theorem addSa_fgrav (h : ifs_tpfa_data) (j : Nat) (d : ℚ) :
    (addSa h j d).fgrav = h.fgrav := rfl

@[simp] theorem addSa_x (h : ifs_tpfa_data) (j : Nat) (d : ℚ) : (addSa h j d).x = h.x := rfl

@[simp] theorem addSa_ia (h : ifs_tpfa_data) (j : Nat) (d : ℚ) :
    (addSa h j d).A.ia = h.A.ia := rfl

@[simp] theorem addSa_ja (h : ifs_tpfa_data) (j : Nat) (d : ℚ) :
    (addSa h j d).A.ja = h.A.ja := rfl

@[simp] theorem addSa_m (h : ifs_tpfa_data) (j : Nat) (d : ℚ) :
    (addSa h j d).A.m = h.A.m := rfl

@[simp] theorem addSa_nnz (h : ifs_tpfa_data) (j : Nat) (d : ℚ) :
    (addSa h j d).A.nnz = h.A.nnz := rfl

@[simp] theorem addSa_sa (h : ifs_tpfa_data) (j : Nat) (d : ℚ) (p : Nat) :
    (addSa h j d).A.sa p = if p = j then h.A.sa j + d else h.A.sa p := by
  unfold addSa
  by_cases hp : p = j
  · subst hp
    simp
  · simp [hp]

/-- The lookup reads the row pointers and the column indices only. -/
theorem elm_index_congr (i j : Nat) (A B : CSRMatrix) (hia : A.ia = B.ia) (hja : A.ja = B.ja) :
    csrmatrix_elm_index i j A = csrmatrix_elm_index i j B := by
  unfold csrmatrix_elm_index
  rw [hia, hja]

theorem sameFrame_refl (h : ifs_tpfa_data) : sameFrame h h :=
  ⟨rfl, rfl, rfl, rfl, rfl, rfl⟩

theorem sameFrame_addB (h0 h : ifs_tpfa_data) (c : Nat) (d : ℚ) (hf : sameFrame h0 h) :
    sameFrame h0 (addB h c d) := hf

theorem sameFrame_addSa (h0 h : ifs_tpfa_data) (j : Nat) (d : ℚ) (hf : sameFrame h0 h) :
    sameFrame h0 (addSa h j d) := hf

theorem assemble_step_frame (G : UnstructuredGrid) (trans : Nat → ℚ) (h0 h : ifs_tpfa_data)
    (e : Nat × Nat) (hf : sameFrame h0 h) : sameFrame h0 (assemble_step G trans h e) := by
  unfold assemble_step
  simp only []
  split_ifs <;>
    first
    | exact sameFrame_addSa _ _ _ _ (sameFrame_addSa _ _ _ _ (sameFrame_addB _ _ _ _ hf))
    | exact sameFrame_addB _ _ _ _ hf

theorem assemble_step_b (G : UnstructuredGrid) (trans : Nat → ℚ) (h : ifs_tpfa_data)
    (e : Nat × Nat) (k : Nat) :
    (assemble_step G trans h e).b k = h.b k + faceRhsTerm G trans h.fgrav e k := by
  have hb : (assemble_step G trans h e).b
      = (addB h e.1 (-(trans (G.cell_faces e.2)
          * (faceSign G e.1 (G.cell_faces e.2) * h.fgrav (G.cell_faces e.2))))).b := by
    unfold assemble_step faceSign
    simp only []
    split_ifs <;> rfl
  rw [hb, addB_b]
  unfold faceRhsTerm
  by_cases hk : e.1 = k
  · rw [if_pos hk.symm, if_pos hk, hk]
  · rw [if_neg (Ne.symm hk), if_neg hk, add_zero]

theorem bc_pressure_step_frame (G : UnstructuredGrid) (bc : FlowBoundaryConditions)
    (trans : Nat → ℚ) (i : Nat) (h0 h : ifs_tpfa_data) (j : Nat) (hf : sameFrame h0 h) :
    sameFrame h0 (bc_pressure_step G bc trans i h j) := by
  unfold bc_pressure_step
  exact sameFrame_addB _ _ _ _ (sameFrame_addB _ _ _ _ (sameFrame_addSa _ _ _ _ hf))

theorem bcEntryStep_frame (G : UnstructuredGrid) (bc : FlowBoundaryConditions)
    (trans : Nat → ℚ) (h0 h : ifs_tpfa_data) (e : Nat × Nat) (hf : sameFrame h0 h) :
    sameFrame h0 (bcEntryStep G bc trans h e) := by
  unfold bcEntryStep
  cases bc.type e.1
  · exact hf
  · exact bc_pressure_step_frame G bc trans e.1 h0 h e.2 hf
  · exact sameFrame_addB _ _ _ _ hf

theorem bcEntryStep_b (G : UnstructuredGrid) (bc : FlowBoundaryConditions)
    (trans : Nat → ℚ) (h : ifs_tpfa_data) (e : Nat × Nat) (k : Nat) :
    (bcEntryStep G bc trans h e).b k = h.b k + bcRhsTerm G bc trans h.fgrav e k := by
  unfold bcEntryStep bcRhsTerm bcCell
  cases hty : bc.type e.1
  · simp
  · simp only [bc_pressure_step, addB_b, addB_fgrav, addSa_b, addSa_fgrav, true_and,
      reduceCtorEq, false_and, if_false, decide_eq_true_eq]
    generalize (if 0 ≤ G.face_cells (2 * bc.face e.2 + 0)
        then G.face_cells (2 * bc.face e.2 + 0)
        else G.face_cells (2 * bc.face e.2 + 1)).toNat = c
    by_cases hk : k = c
    · subst hk
      simp only [if_true]
      ring
    · rw [if_neg hk, if_neg hk, if_neg (Ne.symm hk)]
      ring
  · simp only [bc_flux_step, addB_b, reduceCtorEq, false_and, if_false, true_and]
    generalize (if 0 ≤ G.face_cells (2 * bc.face e.2 + 0)
        then G.face_cells (2 * bc.face e.2 + 0)
        else G.face_cells (2 * bc.face e.2 + 1)).toNat = c
    by_cases hk : k = c
    · subst hk
      simp only [if_true]
    · rw [if_neg hk, if_neg (Ne.symm hk)]
      ring

/-- The loop nest of `assemble_bc_contrib` is one loop over the face slots. -/
theorem assemble_bc_contrib_snd (G : UnstructuredGrid) (bc : FlowBoundaryConditions)
    (trans : Nat → ℚ) (h : ifs_tpfa_data) :
    (assemble_bc_contrib G bc trans h).2 = (bcEntries bc).foldl (bcEntryStep G bc trans) h := by
  unfold assemble_bc_contrib bcEntries
  rw [foldl_flatMap_eq]
  have key : ∀ (L : List Nat) (st : Bool × ifs_tpfa_data),
      (L.foldl (bc_contrib_step G bc trans) st).2
        = L.foldl (fun s i => ((condSlots bc i).map (fun j => (i, j))).foldl
            (bcEntryStep G bc trans) s) st.2 := by
    intro L
    induction L with
    | nil => intro st; rfl
    | cons i L ih =>
      intro st
      rw [List.foldl_cons, ih, List.foldl_cons]
      congr 1
      rw [List.foldl_map]
      unfold bc_contrib_step
      cases hty : bc.type i
      · have : ∀ (L : List Nat) (s : ifs_tpfa_data),
            L.foldl (fun s j => bcEntryStep G bc trans s (i, j)) s = s := by
          intro L
          induction L with
          | nil => intro s; rfl
          | cons j L ih2 =>
            intro s
            rw [List.foldl_cons, ih2]
            simp [bcEntryStep, hty]
        rw [this]
      · have hs : bc_pressure_step G bc trans i
            = fun s j => bcEntryStep G bc trans s (i, j) := by
          funext s j
          simp [bcEntryStep, hty]
        simp only [hs]
      · have hs : bc_flux_step G bc i = fun s j => bcEntryStep G bc trans s (i, j) := by
          funext s j
          simp [bcEntryStep, hty]
        simp only [hs]
  exact key _ _

/-- The flag returned by `assemble_bc_contrib`: no condition is of type
PRESSURE. -/
theorem assemble_bc_contrib_fst (G : UnstructuredGrid) (bc : FlowBoundaryConditions)
    (trans : Nat → ℚ) (h : ifs_tpfa_data) :
    (assemble_bc_contrib G bc trans h).1 = true
      ↔ ∀ i, i < bc.nbc → bc.type i ≠ FlowBCType.BC_PRESSURE := by
  unfold assemble_bc_contrib
  have key : ∀ (n : Nat) (st : Bool × ifs_tpfa_data),
      ((List.range n).foldl (bc_contrib_step G bc trans) st).1 = true
        ↔ (st.1 = true ∧ ∀ i, i < n → bc.type i ≠ FlowBCType.BC_PRESSURE) := by
    intro n
    induction n with
    | zero => intro st; simp
    | succ n ih =>
      intro st
      rw [List.range_succ, List.foldl_append, List.foldl_cons, List.foldl_nil]
      have hstep : (bc_contrib_step G bc trans
            ((List.range n).foldl (bc_contrib_step G bc trans) st) n).1 = true
          ↔ (((List.range n).foldl (bc_contrib_step G bc trans) st).1 = true
            ∧ bc.type n ≠ FlowBCType.BC_PRESSURE) := by
        unfold bc_contrib_step
        cases hty : bc.type n <;> simp
      rw [hstep, ih]
      constructor
      · rintro ⟨⟨h1, h2⟩, h3⟩
        refine ⟨h1, fun i hi => ?_⟩
        by_cases hin : i = n
        · subst hin; exact h3
        · exact h2 i (by omega)
      · rintro ⟨h1, h2⟩
        exact ⟨⟨h1, fun i hi => h2 i (by omega)⟩, h2 n (by omega)⟩
  rw [key]
  simp

theorem assemble_faces_eq (G : UnstructuredGrid) (trans gpress : Nat → ℚ) (h : ifs_tpfa_data) :
    assemble_faces G trans gpress h
      = (segLoop G.number_of_cells G.cell_facepos).foldl (assemble_step G trans)
          (assembleStart G gpress h) := rfl

theorem assemble_faces_frame (G : UnstructuredGrid) (trans gpress : Nat → ℚ)
    (h : ifs_tpfa_data) :
    sameFrame (assembleStart G gpress h) (assemble_faces G trans gpress h) := by
  rw [assemble_faces_eq]
  exact foldl_invariant (assemble_step G trans) (sameFrame (assembleStart G gpress h))
    (fun s e hs => assemble_step_frame G trans _ s e hs) _ _ (sameFrame_refl _)

theorem assemble_faces_b (G : UnstructuredGrid) (trans gpress : Nat → ℚ) (h : ifs_tpfa_data)
    (k : Nat) :
    (assemble_faces G trans gpress h).b k
      = vector_zero h.A.m h.b k
        + ((segLoop G.number_of_cells G.cell_facepos).map (fun e =>
            faceRhsTerm G trans (compute_grav_term G gpress h.fgrav) e k)).sum := by
  rw [assemble_faces_eq]
  exact foldl_accum (assemble_step G trans) (fun s => s.b)
    (fun e k => faceRhsTerm G trans (compute_grav_term G gpress h.fgrav) e k)
    (sameFrame (assembleStart G gpress h))
    (fun s e hs => assemble_step_frame G trans _ s e hs)
    (fun s e k hs => by
      show (assemble_step G trans s e).b k = s.b k + faceRhsTerm G trans _ e k
      rw [assemble_step_b, hs.2.2.2.2.2]
      rfl)
    k _ _ (sameFrame_refl _)

theorem assemble_bc_snd (G : UnstructuredGrid) (F : Option ifs_tpfa_forces) (trans : Nat → ℚ)
    (h : ifs_tpfa_data) :
    (assemble_bc G F trans h).2
      = match forcesBC F with
        | some bc => (bcEntries bc).foldl (bcEntryStep G bc trans) h
        | none => h := by
  unfold assemble_bc forcesBC
  cases F with
  | none => rfl
  | some F =>
    cases hbc : F.bc with
    | none => simp only [hbc]
    | some bc =>
      simp only [hbc]
      exact assemble_bc_contrib_snd G bc trans h

theorem assemble_bc_frame (G : UnstructuredGrid) (F : Option ifs_tpfa_forces)
    (trans : Nat → ℚ) (h0 h : ifs_tpfa_data) (hf : sameFrame h0 h) :
    sameFrame h0 (assemble_bc G F trans h).2 := by
  rw [assemble_bc_snd]
  cases forcesBC F with
  | none => exact hf
  | some bc =>
    exact foldl_invariant (bcEntryStep G bc trans) (sameFrame h0)
      (fun s e hs => bcEntryStep_frame G bc trans _ s e hs) _ _ hf

theorem assemble_bc_b (G : UnstructuredGrid) (F : Option ifs_tpfa_forces) (trans : Nat → ℚ)
    (h : ifs_tpfa_data) (k : Nat) :
    (assemble_bc G F trans h).2.b k = h.b k + bcRhsSum G F trans h.fgrav k := by
  rw [assemble_bc_snd]
  unfold bcRhsSum
  cases forcesBC F with
  | none => simp
  | some bc =>
    exact foldl_accum (bcEntryStep G bc trans) (fun s => s.b)
      (fun e k => bcRhsTerm G bc trans h.fgrav e k) (sameFrame h)
      (fun s e hs => bcEntryStep_frame G bc trans _ s e hs)
      (fun s e k hs => by
        show (bcEntryStep G bc trans s e).b k = s.b k + bcRhsTerm G bc trans h.fgrav e k
        rw [bcEntryStep_b, hs.2.2.2.2.2])
      k _ _ (sameFrame_refl _)

theorem assemble_src_eq (G : UnstructuredGrid) (F : Option ifs_tpfa_forces)
    (h : ifs_tpfa_data) :
    assemble_src G F h
      = match forcesSrc F with
        | some src => (List.range G.number_of_cells).foldl (fun h c => addB h c (src c)) h
        | none => h := by
  unfold assemble_src forcesSrc
  cases F with
  | none => rfl
  | some F => rfl

theorem assemble_src_frame (G : UnstructuredGrid) (F : Option ifs_tpfa_forces)
    (h0 h : ifs_tpfa_data) (hf : sameFrame h0 h) : sameFrame h0 (assemble_src G F h) := by
  rw [assemble_src_eq]
  cases forcesSrc F with
  | none => exact hf
  | some src =>
    exact foldl_invariant (fun h c => addB h c (src c)) (sameFrame h0)
      (fun s e hs => sameFrame_addB _ _ _ _ hs) _ _ hf

theorem assemble_src_sa (G : UnstructuredGrid) (F : Option ifs_tpfa_forces)
    (h : ifs_tpfa_data) : (assemble_src G F h).A.sa = h.A.sa := by
  rw [assemble_src_eq]
  cases forcesSrc F with
  | none => rfl
  | some src =>
    exact foldl_invariant (fun h c => addB h c (src c)) (fun s => s.A.sa = h.A.sa)
      (fun s e hs => hs) _ _ rfl

theorem assemble_src_b (G : UnstructuredGrid) (F : Option ifs_tpfa_forces)
    (h : ifs_tpfa_data) (k : Nat) :
    (assemble_src G F h).b k
      = h.b k + if k < G.number_of_cells then rhsSource F k else 0 := by
  rw [assemble_src_eq]
  unfold rhsSource
  cases forcesSrc F with
  | none => simp
  | some src =>
    simp only []
    rw [foldl_accum (fun h c => addB h c (src c)) (fun s => s.b)
      (fun c k => if c = k then src c else 0) (fun _ => True) (fun _ _ _ => trivial)
      (fun s c k _ => by
        show (addB s c (src c)).b k = s.b k + if c = k then src c else 0
        rw [addB_b]
        by_cases hk : k = c
        · subst hk; simp
        · simp [hk, Ne.symm hk])
      k _ _ trivial, sum_range_single]

/-- The right-hand side after `ifs_tpfa_assemble`, entry by entry. -/
theorem assemble_b_closed (G : UnstructuredGrid) (F : Option ifs_tpfa_forces)
    (trans gpress : Nat → ℚ) (h : ifs_tpfa_data) (k : Nat) :
    (ifs_tpfa_assemble G F trans gpress h).b k
      = vector_zero h.A.m h.b k
        + ((segLoop G.number_of_cells G.cell_facepos).map (fun e =>
            faceRhsTerm G trans (compute_grav_term G gpress h.fgrav) e k)).sum
        + bcRhsSum G F trans (compute_grav_term G gpress h.fgrav) k
        + (if k < G.number_of_cells then rhsSource F k else 0) := by
  have hb : (ifs_tpfa_assemble G F trans gpress h).b
      = (assemble_src G F (assemble_bc G F trans (assemble_faces G trans gpress h)).2).b := by
    unfold ifs_tpfa_assemble assemble_core
    simp only []
    split_ifs <;> rfl
  rw [hb, assemble_src_b, assemble_bc_b, assemble_faces_b,
    (assemble_faces_frame G trans gpress h).2.2.2.2.2]
  rfl

/-- The gravity terms after `ifs_tpfa_assemble` are those of
`compute_grav_term`. -/
theorem assemble_fgrav (G : UnstructuredGrid) (F : Option ifs_tpfa_forces)
    (trans gpress : Nat → ℚ) (h : ifs_tpfa_data) :
    (ifs_tpfa_assemble G F trans gpress h).fgrav = compute_grav_term G gpress h.fgrav := by
  have hb : (ifs_tpfa_assemble G F trans gpress h).fgrav
      = (assemble_src G F (assemble_bc G F trans (assemble_faces G trans gpress h)).2).fgrav := by
    unfold ifs_tpfa_assemble assemble_core
    simp only []
    split_ifs <;> rfl
  rw [hb]
  exact (assemble_src_frame G F _ _ (assemble_bc_frame G F trans _ _
    (assemble_faces_frame G trans gpress h))).2.2.2.2.2

/-! ## The right-hand side in terms of faces and conditions -/

theorem sum_faceRhsTerm_not_cell (G : UnstructuredGrid) (trans fgrav : Nat → ℚ) (k : Nat)
    (hk : G.number_of_cells ≤ k) :
    ((segLoop G.number_of_cells G.cell_facepos).map (fun e =>
      faceRhsTerm G trans fgrav e k)).sum = 0 :=
  sum_segLoop_not_cell G.number_of_cells G.cell_facepos
    (fun e => -(trans (G.cell_faces e.2)
      * (faceSign G e.1 (G.cell_faces e.2) * fgrav (G.cell_faces e.2)))) k hk

theorem sum_faceRhsTerm_cell (G : UnstructuredGrid) (trans fgrav : Nat → ℚ) (c : Nat)
    (hG : wellFormedGrid G) (hc : c < G.number_of_cells) :
    ((segLoop G.number_of_cells G.cell_facepos).map (fun e =>
      faceRhsTerm G trans fgrav e c)).sum = -rhsGravity G trans fgrav c := by
  have h := sum_segLoop_cell G.number_of_cells G.cell_facepos hG.1 hG.2.1
    (fun e => -(trans (G.cell_faces e.2)
      * (faceSign G e.1 (G.cell_faces e.2) * fgrav (G.cell_faces e.2)))) c hc
  unfold faceRhsTerm
  rw [h, sum_map_neg]
  rfl

/-- On a face with exactly one exterior cell the sign used by
`assemble_bc_contrib` is the sign of the face as seen from the cell on which
the condition acts. -/
theorem bc_sign_eq_faceSign (G : UnstructuredGrid) (f : Nat)
    (hb : (G.face_cells (2 * f + 0) < 0 ∧ 0 ≤ G.face_cells (2 * f + 1))
      ∨ (0 ≤ G.face_cells (2 * f + 0) ∧ G.face_cells (2 * f + 1) < 0)) :
    signOf (decide (0 ≤ G.face_cells (2 * f + 0))) = faceSign G (bcCell G f) f := by
  unfold faceSign bcCell
  rcases hb with ⟨h1, _⟩ | ⟨h1, _⟩
  · have hn : ¬ 0 ≤ G.face_cells (2 * f + 0) := by omega
    rw [if_neg hn]
    have : ¬ G.face_cells (2 * f + 0) = ((G.face_cells (2 * f + 1)).toNat : Int) := by omega
    rw [decide_eq_false hn, decide_eq_false this]
  · rw [if_pos h1]
    have : G.face_cells (2 * f + 0) = ((G.face_cells (2 * f + 0)).toNat : Int) := by omega
    rw [decide_eq_true h1, decide_eq_true this]

/-- The cell on which a condition on a boundary face of a well-formed grid
acts is a cell of the grid. -/
theorem bcCell_lt (G : UnstructuredGrid) (f : Nat) (hG : wellFormedGrid G)
    (hf : f < G.number_of_faces)
    (hb : (G.face_cells (2 * f + 0) < 0 ∧ 0 ≤ G.face_cells (2 * f + 1))
      ∨ (0 ≤ G.face_cells (2 * f + 0) ∧ G.face_cells (2 * f + 1) < 0)) :
    bcCell G f < G.number_of_cells := by
  unfold bcCell
  have := hG.2.2.2 f hf
  rcases hb with ⟨h1, h2⟩ | ⟨h1, h2⟩
  · rw [if_neg (by omega)]
    omega
  · rw [if_pos h1]
    omega

theorem bcRhsSum_eq (G : UnstructuredGrid) (F : Option ifs_tpfa_forces) (trans fgrav : Nat → ℚ)
    (c : Nat) (hassert : forcesOnBoundary G F) :
    bcRhsSum G F trans fgrav c = rhsBoundary G F trans fgrav c := by
  unfold bcRhsSum rhsBoundary
  unfold forcesOnBoundary at hassert
  cases hbc : forcesBC F with
  | none => rfl
  | some bc =>
    rw [hbc] at hassert
    simp only []
    unfold rhsPressure rhsFlux bcEntriesAt
    rw [← sum_map_ite_eq_filter (fun e : Nat × Nat => bc.type e.1 = FlowBCType.BC_PRESSURE
        ∧ bcCell G (bc.face e.2) = c),
      ← sum_map_ite_eq_filter (fun e : Nat × Nat => bc.type e.1 = FlowBCType.BC_FLUX_TOTVOL
        ∧ bcCell G (bc.face e.2) = c),
      ← sum_map_add_eq]
    apply sum_map_congr
    intro e he
    unfold bcRhsTerm
    by_cases hP : bc.type e.1 = FlowBCType.BC_PRESSURE ∧ bcCell G (bc.face e.2) = c
    · have hF : ¬ (bc.type e.1 = FlowBCType.BC_FLUX_TOTVOL ∧ bcCell G (bc.face e.2) = c) := by
        rw [hP.1]
        simp
      have hs := bc_sign_eq_faceSign G (bc.face e.2) (hassert e he (Or.inl hP.1)).2
      rw [hP.2] at hs
      rw [if_pos hP, if_pos hP, if_neg hF]
      simp only [Nat.add_zero] at hs ⊢
      rw [hs]
      ring
    · rw [if_neg hP, if_neg hP, zero_add]

theorem bcRhsSum_not_cell (G : UnstructuredGrid) (F : Option ifs_tpfa_forces)
    (trans fgrav : Nat → ℚ) (k : Nat) (hG : wellFormedGrid G) (hassert : forcesOnBoundary G F)
    (hk : G.number_of_cells ≤ k) : bcRhsSum G F trans fgrav k = 0 := by
  unfold bcRhsSum
  unfold forcesOnBoundary at hassert
  cases hbc : forcesBC F with
  | none => rfl
  | some bc =>
    rw [hbc] at hassert
    simp only []
    apply sum_map_zero_of_forall
    intro e he
    unfold bcRhsTerm
    have hlt : bcHandled bc e.1 → bcCell G (bc.face e.2) ≠ k := by
      intro hh
      have := bcCell_lt G (bc.face e.2) hG (hassert e he hh).1 (hassert e he hh).2
      omega
    rw [if_neg (fun h => hlt (Or.inl h.1) h.2), if_neg (fun h => hlt (Or.inr h.1) h.2)]

/-! ## The constructed matrix stores the pattern entries row by row -/

/-- The matrix after the counting pass, the running total and the filling
pass, for any list of entries whose rows are below `m`. -/
theorem filled_spec (es : List (Nat × Nat)) (m : Nat) (A0 : CSRMatrix)
    (hrows : ∀ e ∈ es, e.1 < m) (hm : A0.m = m) (hia0 : A0.ia 0 = 0)
    (hia : ∀ r, A0.ia (r + 1) = rowCount es r) :
    (fillFold es (csrmatrix_new_elms_pushback A0)).m = m
    ∧ (fillFold es (csrmatrix_new_elms_pushback A0)).nnz = rowStart es m
    ∧ (csrmatrix_new_elms_pushback A0).nnz = rowStart es m
    ∧ (∀ k, k ≤ m → (fillFold es (csrmatrix_new_elms_pushback A0)).ia k = rowStart es k)
    ∧ (∀ r, r < m →
        (rowPositions (fillFold es (csrmatrix_new_elms_pushback A0)) r).map
          (fillFold es (csrmatrix_new_elms_pushback A0)).ja = rowCols es r) := by
  obtain ⟨p0, p1, p2⟩ := pushback_fold A0.ia m
  have hsum : ∀ r, ((List.range r).map (fun r2 => A0.ia (r2 + 1))).sum = rowStart es r := by
    intro r
    unfold rowStart
    congr 1
    apply List.map_congr_left
    intro r2 _
    exact hia r2
  have hcnt0 : ∀ r, m ≤ r → rowCount es r = 0 := by
    intro r hr
    apply rowCount_eq_zero
    intro e he
    have := hrows e he
    omega
  have hA1nnz : (csrmatrix_new_elms_pushback A0).nnz = rowStart es m := by
    show ((List.range' 1 A0.m).foldl pushback_step A0.ia) 0 = rowStart es m
    rw [hm, p0, hia0, hsum, Nat.zero_add]
  have hA1zero : (csrmatrix_new_elms_pushback A0).ia 0 = 0 := by
    show Function.update ((List.range' 1 A0.m).foldl pushback_step A0.ia) 0 0 0 = 0
    exact Function.update_same _ _ _
  have hA1succ : ∀ r, (csrmatrix_new_elms_pushback A0).ia (r + 1)
      = if r < m then rowStart es r else 0 := by
    intro r
    show Function.update ((List.range' 1 A0.m).foldl pushback_step A0.ia) 0 0 (r + 1) = _
    have hne : r + 1 ≠ 0 := by omega
    rw [Function.update_noteq hne, hm]
    by_cases hr : r < m
    · rw [if_pos hr, p1 r hr, hia0, hsum, Nat.zero_add]
    · rw [if_neg hr, p2 r (by omega), hia, hcnt0 r (by omega)]
  have hdisj : slotsDisjoint es (csrmatrix_new_elms_pushback A0) := by
    intro r r2 p hne h1 h2 h3
    rw [hA1succ] at h1 h2
    rw [hA1succ] at h3
    by_cases hr : r < m
    · by_cases hr2 : r2 < m
      · rw [if_pos hr] at h1 h2
        rw [if_pos hr2] at h3
        rcases Nat.lt_or_gt_of_ne hne with hlt | hgt
        · have := rowStart_mono es (r + 1) r2 (by omega)
          rw [rowStart_succ] at this
          omega
        · have := rowStart_mono es (r2 + 1) r (by omega)
          rw [rowStart_succ] at this
          omega
      · have := hcnt0 r2 (by omega)
        omega
    · have := hcnt0 r (by omega)
      omega
  have hiaF : ∀ k, k ≤ m → (fillFold es (csrmatrix_new_elms_pushback A0)).ia k
      = rowStart es k := by
    intro k hk
    cases k with
    | zero => rw [fillFold_ia_zero, hA1zero, rowStart_zero]
    | succ r =>
      rw [fillFold_ia_succ, hA1succ, if_pos (by omega), rowStart_succ]
  refine ⟨?_, ?_, hA1nnz, hiaF, ?_⟩
  · rw [(fillFold_m es _).1]
    exact hm
  · rw [(fillFold_m es _).2.1, hA1nnz]
  · intro r hr
    unfold rowPositions
    rw [hiaF r (by omega), hiaF (r + 1) (by omega), rowStart_succ, Nat.add_sub_cancel_left]
    have := fillFold_row es (csrmatrix_new_elms_pushback A0) r hdisj
    rw [hA1succ, if_pos hr] at this
    exact this

theorem builtPattern_of_filled (es : List (Nat × Nat)) (m : Nat) (A : CSRMatrix)
    (hm : A.m = m) (hnnz : A.nnz = rowStart es m)
    (hia : ∀ k, k ≤ m → A.ia k = rowStart es k)
    (hrow : ∀ r, r < m → (rowPositions A r).map A.ja = rowCols es r) :
    builtPattern es m (csrmatrix_sortrows A) := by
  have hmono : ∀ i, i < A.m → A.ia i ≤ A.ia (i + 1) := by
    intro i hi
    rw [hia i (by omega), hia (i + 1) (by omega)]
    exact rowStart_mono es i (i + 1) (by omega)
  refine ⟨hm, hnnz, hia, ?_⟩
  intro r hr
  rw [sortrows_row A hmono r (by omega), hrow r hr]
  exact ⟨List.sorted_insertionSort _ _, List.perm_insertionSort _ _⟩

/-- The rows of the pattern entries of well-formed inputs are unknowns. -/
theorem patternEvents_rows (G : UnstructuredGrid) (W : Option Wells) (hG : cellsInRange G)
    (hW : wellFormedWells G W) :
    ∀ e ∈ patternEvents G W, e.1 < numUnknowns G W ∧ e.2 < numUnknowns G W := by
  intro e he
  unfold patternEvents at he
  rw [List.mem_append, List.mem_append] at he
  rcases he with (he | he) | he
  · have := diagEvents_row_lt _ e he
    omega
  · unfold faceEvents at he
    rw [List.mem_flatMap] at he
    obtain ⟨f, hf, hef⟩ := he
    rw [List.mem_range] at hf
    have hc := hG f hf
    unfold numUnknowns
    split_ifs at hef with hint
    · simp only [List.mem_cons, List.mem_singleton, List.not_mem_nil, or_false] at hef
      rcases hef with rfl | rfl
      · constructor <;> simp only [] <;> omega
      · constructor <;> simp only [] <;> omega
    · simp at hef
  · cases W with
    | none => simp [wellEvents] at he
    | some w =>
      unfold wellFormedWells at hW
      simp only [] at hW
      obtain ⟨h0, hmono, hcells⟩ := hW
      simp only [wellEvents] at he
      rw [segLoop_eq_flatMap _ _ h0 hmono, List.mem_flatMap] at he
      obtain ⟨wi, hwi, hewi⟩ := he
      rw [List.mem_flatMap] at hwi
      obtain ⟨k, hk, hwk⟩ := hwi
      rw [List.mem_range] at hk
      rw [List.mem_map] at hwk
      obtain ⟨i, hi, rfl⟩ := hwk
      rw [List.mem_range'] at hi
      obtain ⟨j, hj1, hj2⟩ := hi
      have hchain : ∀ a b, a ≤ b → b ≤ w.number_of_wells →
          w.well_connpos a ≤ w.well_connpos b := by
        intro a b hab hb
        induction b with
        | zero =>
          have : a = 0 := by omega
          rw [this]
        | succ b ih =>
          by_cases h : a = b + 1
          · rw [h]
          · have h1 := ih (by omega) (by omega)
            have h2 := hmono b (by omega)
            omega
      have h1 := hchain (k + 1) w.number_of_wells (by omega) (le_refl _)
      have h2 := hcells i (by omega)
      unfold numUnknowns
      simp only [List.mem_cons, List.mem_singleton, List.not_mem_nil, or_false] at hewi
      rcases hewi with rfl | rfl
      · constructor <;> simp only [] <;> omega
      · constructor <;> simp only [] <;> omega

/-- What `ifs_tpfa_construct_matrix` returns: no matrix when there is no
entry to store, else the matrix that stores the pattern entries row by row
in ascending column order. -/
theorem construct_matrix_spec (G : UnstructuredGrid) (W : Option Wells) (hG : cellsInRange G)
    (hW : wellFormedWells G W) :
    (rowStart (patternEvents G W) (numUnknowns G W) = 0 → ifs_tpfa_construct_matrix G W = none)
    ∧ (∀ A, ifs_tpfa_construct_matrix G W = some A →
        builtPattern (patternEvents G W) (numUnknowns G W) A)
    ∧ (rowStart (patternEvents G W) (numUnknowns G W) ≠ 0 →
        ∃ A, ifs_tpfa_construct_matrix G W = some A) := by
  have hcount := construct_count_eq G W (fun _ => 0) (fun _ => rfl)
  have hspec := filled_spec (patternEvents G W) (numUnknowns G W)
    { csrmatrix_new_count_nnz (numUnknowns G W) with
      ia := construct_count G W (csrmatrix_new_count_nnz (numUnknowns G W)).ia }
    (fun e he => (patternEvents_rows G W hG hW e he).1) rfl
    (by
      show construct_count G W (fun _ => 0) 0 = 0
      rw [hcount, countFold_zero])
    (by
      intro r
      show construct_count G W (fun _ => 0) (r + 1) = _
      rw [hcount, countFold_succ]
      simp)
  obtain ⟨h1, h2, h3, h4, h5⟩ := hspec
  unfold ifs_tpfa_construct_matrix
  simp only []
  refine ⟨?_, ?_, ?_⟩
  · intro hz
    rw [if_pos (by rw [h3]; exact hz)]
  · intro A hA
    by_cases hz : rowStart (patternEvents G W) (numUnknowns G W) = 0
    · rw [if_pos (by rw [h3]; exact hz)] at hA
      exact absurd hA (by simp)
    · rw [if_neg (by rw [h3]; exact hz)] at hA
      have hA2 := Option.some.inj hA
      rw [← hA2, construct_fill_eq]
      exact builtPattern_of_filled _ _ _ h1 h2 h4 h5
  · intro hz
    rw [if_neg (by rw [h3]; exact hz)]
    exact ⟨_, rfl⟩

/-! ## The stored positions of the constructed matrix -/

theorem flatMap_rowEvents_perm (es : List (Nat × Nat)) :
    ∀ m : Nat, ((List.range m).flatMap (rowEvents es)).Perm
      (es.filter (fun e => decide (e.1 < m))) := by
  intro m
  induction m with
  | zero => simp
  | succ m ih =>
    rw [List.range_succ, List.flatMap_append, List.flatMap_singleton]
    have h1 := List.filter_append_perm (fun e : Nat × Nat => decide (e.1 < m))
      (es.filter (fun e => decide (e.1 < m + 1)))
    rw [List.filter_filter, List.filter_filter] at h1
    have e1 : es.filter (fun a => decide (a.1 < m) && decide (a.1 < m + 1))
        = es.filter (fun e => decide (e.1 < m)) := by
      apply List.filter_congr
      intro e _
      by_cases h : e.1 < m
      · have : e.1 < m + 1 := by omega
        simp [h, this]
      · simp [h]
    have e2 : es.filter (fun a => (!decide (a.1 < m)) && decide (a.1 < m + 1))
        = rowEvents es m := by
      unfold rowEvents
      apply List.filter_congr
      intro e _
      by_cases h : e.1 = m
      · simp [h]
      · by_cases h2 : e.1 < m
        · simp [h, h2]
        · have : ¬ e.1 < m + 1 := by omega
          simp [h, h2, this]
    rw [e1, e2] at h1
    exact (List.Perm.append ih (List.Perm.refl _)).trans h1

/-- The stored positions of a matrix that stores `es` row by row are a
permutation of `es`. -/
theorem csrPositions_perm (es : List (Nat × Nat)) (m : Nat) (A : CSRMatrix)
    (hrows : ∀ e ∈ es, e.1 < m) (hA : builtPattern es m A) : (csrPositions A).Perm es := by
  obtain ⟨hm, _, _, hrow⟩ := hA
  unfold csrPositions
  rw [hm]
  have h1 : ((List.range m).flatMap (fun i => (rowPositions A i).map (fun p => (i, A.ja p)))).Perm
      ((List.range m).flatMap (rowEvents es)) := by
    apply List.Perm.flatMap_left
    intro i hi
    rw [List.mem_range] at hi
    have hp := (hrow i hi).2
    have h2 : (rowPositions A i).map (fun p => (i, A.ja p))
        = ((rowPositions A i).map A.ja).map (fun c => (i, c)) := by
      rw [List.map_map]
      rfl
    have h3 : rowEvents es i = (rowCols es i).map (fun c => (i, c)) := by
      unfold rowCols
      rw [List.map_map]
      symm
      have : ∀ e ∈ rowEvents es i, ((fun c => (i, c)) ∘ fun e : Nat × Nat => e.2) e = id e := by
        intro e he
        unfold rowEvents at he
        rw [List.mem_filter] at he
        have := of_decide_eq_true he.2
        show (i, e.2) = e
        rw [← this]
      rw [List.map_congr_left this, List.map_id]
    rw [h2, h3]
    exact hp.map _
  refine h1.trans ((flatMap_rowEvents_perm es m).trans ?_)
  rw [List.filter_eq_self.mpr]
  intro e he
  exact decide_eq_true (hrows e he)

/-- On well-formed wells the entries that the code stores are the pattern of
the specification. -/
theorem patternEvents_eq_expected (G : UnstructuredGrid) (W : Option Wells)
    (hW : wellFormedWells G W) : patternEvents G W = expectedPattern G W := by
  unfold patternEvents expectedPattern
  congr 1
  · congr 1
    unfold diagEvents
    induction numUnknowns G W with
    | zero => rfl
    | succ n ih => rw [List.range_succ, List.flatMap_append, List.map_append, ih]; rfl
  · cases W with
    | none => rfl
    | some w =>
      unfold wellFormedWells at hW
      simp only [] at hW
      simp only [wellEvents]
      rw [segLoop_eq_flatMap _ _ hW.1 hW.2.1, List.flatMap_assoc]
      congr 1
      funext k
      rw [List.flatMap_map]

/-- The pattern is symmetric: swapping rows and columns permutes it. -/
theorem patternEvents_swap (G : UnstructuredGrid) (W : Option Wells) :
    ((patternEvents G W).map Prod.swap).Perm (patternEvents G W) := by
  unfold patternEvents
  rw [List.map_append, List.map_append]
  refine List.Perm.append (List.Perm.append ?_ ?_) ?_
  · unfold diagEvents
    rw [List.map_flatMap]
    rfl
  · unfold faceEvents
    rw [List.map_flatMap]
    apply List.Perm.flatMap_left
    intro f _
    split_ifs
    · exact List.Perm.swap _ _ _
    · exact List.Perm.refl _
  · cases W with
    | none => exact List.Perm.refl _
    | some w =>
      simp only [wellEvents]
      rw [List.map_flatMap]
      apply List.Perm.flatMap_left
      intro wi _
      exact List.Perm.swap _ _ _

/-! ## Control switching: proofs -/

theorem firstViolated_nil {α : Type} [DecidableEq α] (available violated : α → Bool)
    (current : α) : firstViolated [] available violated current = current := rfl

theorem firstViolated_cons {α : Type} [DecidableEq α] (M : α) (rest : List α)
    (available violated : α → Bool) (current : α) :
    firstViolated (M :: rest) available violated current
      = if available M = true ∧ current ≠ M ∧ violated M = true then M
        else firstViolated rest available violated current := by
  unfold firstViolated
  by_cases h : (available M && (decide (M ≠ current) && violated M)) = true
  · have h' : available M = true ∧ current ≠ M ∧ violated M = true := by
      simp only [Bool.and_eq_true, decide_eq_true_eq] at h
      exact ⟨h.1, Ne.symm h.2.1, h.2.2⟩
    simp only [List.find?, h, if_pos h']
  · have h' : ¬ (available M = true ∧ current ≠ M ∧ violated M = true) := by
      intro hc
      apply h
      simp only [Bool.and_eq_true, decide_eq_true_eq]
      exact ⟨hc.1, Ne.symm hc.2.1, hc.2.2⟩
    have h2 : (available M && (decide (M ≠ current) && violated M)) = false := by
      simpa using h
    simp only [List.find?, h2, if_neg h']

/-- The RATE check of `activeInjectionConstraint` for a handled injector
type is the comparison of the limit with the injected phase's rate. -/
theorem rateCheck_eq (w : WellContext) (ws : SingleWellState)
    (hty : w.injectionControls.injector_type ≠ InjectorType.MULTI) :
    (match w.injectionControls.injector_type with
      | InjectorType.WATER =>
        (Except.ok (decide (w.injectionControls.surface_rate
          < ws.surface_rates (w.phaseUsage.phase_pos BlackoilPhases.Aqua))) : Except String Bool)
      | InjectorType.OIL =>
        Except.ok (decide (w.injectionControls.surface_rate
          < ws.surface_rates (w.phaseUsage.phase_pos BlackoilPhases.Liquid)))
      | InjectorType.GAS =>
        Except.ok (decide (w.injectionControls.surface_rate
          < ws.surface_rates (w.phaseUsage.phase_pos BlackoilPhases.Vapour)))
      | InjectorType.MULTI =>
        Except.error ("Expected WATER, OIL or GAS as type for injectors " ++ w.name))
      = Except.ok (decide (w.injectionControls.surface_rate < injectedSurfaceRate w ws)) := by
  unfold injectedSurfaceRate
  cases hty2 : w.injectionControls.injector_type
  · rfl
  · rfl
  · rfl
  · exact absurd hty2 hty

theorem aic_walk (w : WellContext) (ws : SingleWellState) (flag : Bool)
    (hty : w.injectionControls.injector_type ≠ InjectorType.MULTI) :
    ∃ flag1, activeInjectionConstraint w ws flag
      = Except.ok (firstViolated injectorPriority w.injectionControls.hasControl
          (injectorLimitSwitches w ws) ws.injection_cmode, flag1) := by
  have hB : injectorLimitSwitches w ws InjectorCMode.BHP = true
      ↔ w.injectionControls.bhp_limit < ws.bhp := by
    simp [injectorLimitSwitches, injectorLimitExceeded]
  have hR : injectorLimitSwitches w ws InjectorCMode.RATE = true
      ↔ w.injectionControls.surface_rate < injectedSurfaceRate w ws := by
    simp [injectorLimitSwitches, injectorLimitExceeded]
  have hV : injectorLimitSwitches w ws InjectorCMode.RESV = true
      ↔ w.injectionControls.reservoir_rate < injectedResvRate w.phaseUsage ws := by
    simp [injectorLimitSwitches, injectorLimitExceeded]
  have hT : injectorLimitSwitches w ws InjectorCMode.THP = true
      ↔ (w.thpConstraint < ws.thp
        ∧ rateLessThanPotential w.number_of_phases ws.surface_rates ws.well_potentials
          = false) := by
    simp [injectorLimitSwitches]
  simp only [injectorPriority, firstViolated_cons, firstViolated_nil, activeInjectionConstraint,
    hB, hR, hV, hT, rateCheck_eq w ws hty]
  by_cases h1 : w.injectionControls.hasControl InjectorCMode.BHP = true ∧
      ws.injection_cmode ≠ InjectorCMode.BHP ∧ w.injectionControls.bhp_limit < ws.bhp
  · exact ⟨flag, by simp only [if_pos h1]⟩
  simp only [if_neg h1]
  by_cases h2a : w.injectionControls.hasControl InjectorCMode.RATE = true ∧
      ws.injection_cmode ≠ InjectorCMode.RATE
  · by_cases h2b : w.injectionControls.surface_rate < injectedSurfaceRate w ws
    · refine ⟨flag, ?_⟩
      simp only [if_pos h2a, if_pos (show _ ∧ _ ∧ _ from ⟨h2a.1, h2a.2, h2b⟩),
        decide_eq_true h2b]
    · have h2c : ¬ (w.injectionControls.hasControl InjectorCMode.RATE = true ∧
          ws.injection_cmode ≠ InjectorCMode.RATE ∧
          w.injectionControls.surface_rate < injectedSurfaceRate w ws) := fun h => h2b h.2.2
      simp only [if_pos h2a, if_neg h2c, decide_eq_false h2b]
      by_cases h3 : w.injectionControls.hasControl InjectorCMode.RESV = true ∧
          ws.injection_cmode ≠ InjectorCMode.RESV ∧
          w.injectionControls.reservoir_rate < injectedResvRate w.phaseUsage ws
      · exact ⟨flag, by simp only [if_pos h3]⟩
      simp only [if_neg h3]
      by_cases h4 : w.injectionControls.hasControl InjectorCMode.THP = true ∧
          ws.injection_cmode ≠ InjectorCMode.THP ∧ w.thpConstraint < ws.thp
      · cases hr : rateLessThanPotential w.number_of_phases ws.surface_rates ws.well_potentials
        · exact ⟨false, by simp [h4]⟩
        · exact ⟨true, by simp [h4]⟩
      · refine ⟨flag, ?_⟩
        have h4c : ¬ (w.injectionControls.hasControl InjectorCMode.THP = true ∧
            ws.injection_cmode ≠ InjectorCMode.THP ∧ w.thpConstraint < ws.thp ∧
            rateLessThanPotential w.number_of_phases ws.surface_rates ws.well_potentials
              = false) := fun h => h4 ⟨h.1, h.2.1, h.2.2.1⟩
        simp only [if_neg h4, if_neg h4c]
  · have h2c : ¬ (w.injectionControls.hasControl InjectorCMode.RATE = true ∧
        ws.injection_cmode ≠ InjectorCMode.RATE ∧
        w.injectionControls.surface_rate < injectedSurfaceRate w ws) :=
      fun h => h2a ⟨h.1, h.2.1⟩
    simp only [if_neg h2a, if_neg h2c]
    by_cases h3 : w.injectionControls.hasControl InjectorCMode.RESV = true ∧
        ws.injection_cmode ≠ InjectorCMode.RESV ∧
        w.injectionControls.reservoir_rate < injectedResvRate w.phaseUsage ws
    · exact ⟨flag, by simp only [if_pos h3]⟩
    simp only [if_neg h3]
    by_cases h4 : w.injectionControls.hasControl InjectorCMode.THP = true ∧
        ws.injection_cmode ≠ InjectorCMode.THP ∧ w.thpConstraint < ws.thp
    · cases hr : rateLessThanPotential w.number_of_phases ws.surface_rates ws.well_potentials
      · exact ⟨false, by simp [h4]⟩
      · exact ⟨true, by simp [h4]⟩
    · refine ⟨flag, ?_⟩
      have h4c : ¬ (w.injectionControls.hasControl InjectorCMode.THP = true ∧
          ws.injection_cmode ≠ InjectorCMode.THP ∧ w.thpConstraint < ws.thp ∧
          rateLessThanPotential w.number_of_phases ws.surface_rates ws.well_potentials
            = false) := fun h => h4 ⟨h.1, h.2.1, h.2.2.1⟩
      simp only [if_neg h4, if_neg h4c]

/-! ## Looking up an entry of the constructed matrix -/

/-- Binary search in a sorted segment that contains the key finds a position
of the key. -/
theorem bsearch_spec (ja : Nat → Nat) (key : Nat) :
    ∀ (fuel lo hi : Nat), hi - lo ≤ fuel →
      (∀ p q, lo ≤ p → p ≤ q → q < hi → ja p ≤ ja q) →
      (∃ p, lo ≤ p ∧ p < hi ∧ ja p = key) →
      ∃ r, bsearch ja key fuel lo hi = some r ∧ lo ≤ r ∧ r < hi ∧ ja r = key := by
  intro fuel
  induction fuel with
  | zero =>
    intro lo hi hf _ hex
    obtain ⟨p, h1, h2, _⟩ := hex
    omega
  | succ fuel ih =>
    intro lo hi hf hsorted hex
    obtain ⟨p, h1, h2, h3⟩ := hex
    have hlt : lo < hi := by omega
    have hmid1 : lo ≤ lo + (hi - lo) / 2 := by omega
    have hmid2 : lo + (hi - lo) / 2 < hi := by omega
    unfold bsearch
    rw [if_pos hlt]
    simp only []
    by_cases hk1 : key < ja (lo + (hi - lo) / 2)
    · rw [if_pos hk1]
      have hp : p < lo + (hi - lo) / 2 := by
        by_contra hcon
        have := hsorted (lo + (hi - lo) / 2) p hmid1 (by omega) h2
        omega
      obtain ⟨r, hr1, hr2, hr3, hr4⟩ := ih lo (lo + (hi - lo) / 2) (by omega)
        (fun a b ha hab hb => hsorted a b ha hab (by omega)) ⟨p, h1, hp, h3⟩
      exact ⟨r, hr1, hr2, by omega, hr4⟩
    · rw [if_neg hk1]
      by_cases hk2 : ja (lo + (hi - lo) / 2) < key
      · rw [if_pos hk2]
        have hp : lo + (hi - lo) / 2 + 1 ≤ p := by
          by_contra hcon
          have := hsorted p (lo + (hi - lo) / 2) h1 (by omega) hmid2
          omega
        obtain ⟨r, hr1, hr2, hr3, hr4⟩ := ih (lo + (hi - lo) / 2 + 1) hi (by omega)
          (fun a b ha hab hb => hsorted a b (by omega) hab hb) ⟨p, hp, h2, h3⟩
        exact ⟨r, hr1, by omega, hr3, hr4⟩
      · rw [if_neg hk2]
        exact ⟨_, rfl, hmid1, hmid2, by omega⟩

/-- The columns of a sorted row are ascending along the storage positions. -/
theorem sorted_row_pointwise (ja : Nat → Nat) (lo n : Nat)
    (hs : List.Sorted (· ≤ ·) ((List.range' lo n).map ja)) :
    ∀ p q, lo ≤ p → p ≤ q → q < lo + n → ja p ≤ ja q := by
  intro p q hp hpq hq
  by_cases heq : p = q
  · rw [heq]
  · have hpw := List.pairwise_iff_getElem.mp hs (p - lo) (q - lo)
      (by simp; omega) (by simp; omega) (by omega)
    simp only [List.getElem_map, List.getElem_range'] at hpw
    have e1 : lo + 1 * (p - lo) = p := by omega
    have e2 : lo + 1 * (q - lo) = q := by omega
    rw [e1, e2] at hpw
    exact hpw

/-- In a matrix that stores `es` row by row, the lookup of an entry of `es`
returns a storage position of that row holding that column. -/
theorem elm_index_spec (es : List (Nat × Nat)) (m : Nat) (A : CSRMatrix)
    (hA : builtPattern es m A) (r col : Nat) (hr : r < m) (hmem : (r, col) ∈ es) :
    A.ia r ≤ csrmatrix_elm_index r col A
    ∧ csrmatrix_elm_index r col A < A.ia (r + 1)
    ∧ A.ja (csrmatrix_elm_index r col A) = col := by
  obtain ⟨_, _, hia, hrow⟩ := hA
  obtain ⟨hsorted, hperm⟩ := hrow r hr
  have hle : A.ia r ≤ A.ia (r + 1) := by
    rw [hia r (by omega), hia (r + 1) (by omega)]
    exact rowStart_mono es r (r + 1) (by omega)
  have hcol : col ∈ rowCols es r := by
    unfold rowCols rowEvents
    rw [List.mem_map]
    exact ⟨(r, col), List.mem_filter.mpr ⟨hmem, by simp⟩, rfl⟩
  have hcol2 := (hperm.mem_iff).mpr hcol
  unfold rowPositions at hcol2 hsorted
  rw [List.mem_map] at hcol2
  obtain ⟨p, hp, hpc⟩ := hcol2
  rw [List.mem_range'] at hp
  obtain ⟨i, hi1, hi2⟩ := hp
  have hpt := sorted_row_pointwise A.ja (A.ia r) (A.ia (r + 1) - A.ia r) hsorted
  obtain ⟨q, hq1, hq2, hq3, hq4⟩ := bsearch_spec A.ja col (A.ia (r + 1) - A.ia r) (A.ia r)
    (A.ia (r + 1)) (le_refl _) (fun a b ha hab hb => hpt a b ha hab (by omega))
    ⟨p, by omega, by omega, hpc⟩
  unfold csrmatrix_elm_index
  rw [hq1]
  exact ⟨hq2, hq3, hq4⟩

/-! ## The stored values after assembly -/

theorem faceSaTerm_congr (G : UnstructuredGrid) (trans : Nat → ℚ) (A B : CSRMatrix)
    (hia : A.ia = B.ia) (hja : A.ja = B.ja) (e : Nat × Nat) (p : Nat) :
    faceSaTerm G trans A e p = faceSaTerm G trans B e p := by
  unfold faceSaTerm
  rw [elm_index_congr _ _ A B hia hja, elm_index_congr _ _ A B hia hja]

theorem bcSaTerm_congr (G : UnstructuredGrid) (bc : FlowBoundaryConditions) (trans : Nat → ℚ)
    (A B : CSRMatrix) (hia : A.ia = B.ia) (hja : A.ja = B.ja) (e : Nat × Nat) (p : Nat) :
    bcSaTerm G bc trans A e p = bcSaTerm G bc trans B e p := by
  unfold bcSaTerm
  rw [elm_index_congr _ _ A B hia hja]

theorem assemble_step_sa (G : UnstructuredGrid) (trans : Nat → ℚ) (h : ifs_tpfa_data)
    (e : Nat × Nat) (p : Nat) :
    (assemble_step G trans h e).A.sa p = h.A.sa p + faceSaTerm G trans h.A e p := by
  unfold assemble_step faceSaTerm otherCell
  simp only [addB_A]
  by_cases hc : 0 ≤ (if G.face_cells (2 * G.cell_faces e.2 + 0) = (e.1 : Int)
      then G.face_cells (2 * G.cell_faces e.2 + 1) else G.face_cells (2 * G.cell_faces e.2 + 0))
  · rw [if_pos hc, if_pos hc, addSa_sa, addSa_sa, addSa_sa]
    simp only [addB_A]
    generalize csrmatrix_elm_index e.1 e.1 h.A = j1
    generalize csrmatrix_elm_index e.1 _ h.A = j2
    by_cases h1 : p = j1
    · by_cases h2 : p = j2
      · subst h1
        subst h2
        simp
      · subst h1
        simp [h2]
    · by_cases h2 : p = j2
      · subst h2
        simp [h1, Ne.symm h1]
      · simp [h1, h2]
  · rw [if_neg hc, if_neg hc]
    simp

theorem bcEntryStep_sa (G : UnstructuredGrid) (bc : FlowBoundaryConditions)
    (trans : Nat → ℚ) (h : ifs_tpfa_data) (e : Nat × Nat) (p : Nat) :
    (bcEntryStep G bc trans h e).A.sa p = h.A.sa p + bcSaTerm G bc trans h.A e p := by
  unfold bcEntryStep bcSaTerm bcCell
  cases hty : bc.type e.1
  · simp
  · simp only [bc_pressure_step, addB_A, addSa_sa, true_and, decide_eq_true_eq]
    split_ifs <;> simp_all
  · simp [bc_flux_step]

theorem assemble_faces_sa (G : UnstructuredGrid) (trans gpress : Nat → ℚ) (h : ifs_tpfa_data)
    (p : Nat) :
    (assemble_faces G trans gpress h).A.sa p
      = vector_zero h.A.nnz h.A.sa p
        + ((segLoop G.number_of_cells G.cell_facepos).map (fun e =>
            faceSaTerm G trans h.A e p)).sum := by
  rw [assemble_faces_eq]
  exact foldl_accum (assemble_step G trans) (fun s => s.A.sa)
    (fun e p => faceSaTerm G trans h.A e p)
    (sameFrame (assembleStart G gpress h))
    (fun s e hs => assemble_step_frame G trans _ s e hs)
    (fun s e p hs => by
      show (assemble_step G trans s e).A.sa p = s.A.sa p + faceSaTerm G trans h.A e p
      rw [assemble_step_sa]
      congr 1
      exact faceSaTerm_congr G trans s.A h.A hs.2.2.1 hs.2.2.2.1 e p)
    p _ _ (sameFrame_refl _)

theorem assemble_bc_sa (G : UnstructuredGrid) (F : Option ifs_tpfa_forces) (trans : Nat → ℚ)
    (h : ifs_tpfa_data) (p : Nat) :
    (assemble_bc G F trans h).2.A.sa p = h.A.sa p + bcSaSum G F trans h.A p := by
  rw [assemble_bc_snd]
  unfold bcSaSum
  cases forcesBC F with
  | none => simp
  | some bc =>
    exact foldl_accum (bcEntryStep G bc trans) (fun s => s.A.sa)
      (fun e p => bcSaTerm G bc trans h.A e p) (sameFrame h)
      (fun s e hs => bcEntryStep_frame G bc trans _ s e hs)
      (fun s e p hs => by
        show (bcEntryStep G bc trans s e).A.sa p = s.A.sa p + bcSaTerm G bc trans h.A e p
        rw [bcEntryStep_sa]
        congr 1
        exact bcSaTerm_congr G bc trans s.A h.A hs.2.2.1 hs.2.2.2.1 e p)
      p _ _ (sameFrame_refl _)

theorem bcSaSum_congr (G : UnstructuredGrid) (F : Option ifs_tpfa_forces) (trans : Nat → ℚ)
    (A B : CSRMatrix) (hia : A.ia = B.ia) (hja : A.ja = B.ja) (p : Nat) :
    bcSaSum G F trans A p = bcSaSum G F trans B p := by
  unfold bcSaSum
  cases forcesBC F with
  | none => rfl
  | some bc =>
    simp only []
    congr 1
    apply List.map_congr_left
    intro e _
    exact bcSaTerm_congr G bc trans A B hia hja e p

/-- The frame of the solver data after everything before the doubling. -/
theorem assemble_core_frame (G : UnstructuredGrid) (F : Option ifs_tpfa_forces)
    (trans gpress : Nat → ℚ) (h : ifs_tpfa_data) :
    sameFrame (assembleStart G gpress h) (assemble_core G F trans gpress h).2 := by
  unfold assemble_core
  exact assemble_src_frame G F _ _ (assemble_bc_frame G F trans _ _
    (assemble_faces_frame G trans gpress h))

/-- The stored values after everything before the doubling, position by
position. -/
theorem assemble_core_sa (G : UnstructuredGrid) (F : Option ifs_tpfa_forces)
    (trans gpress : Nat → ℚ) (h : ifs_tpfa_data) (p : Nat) :
    (assemble_core G F trans gpress h).2.A.sa p
      = vector_zero h.A.nnz h.A.sa p
        + ((segLoop G.number_of_cells G.cell_facepos).map (fun e =>
            faceSaTerm G trans h.A e p)).sum
        + bcSaSum G F trans h.A p := by
  unfold assemble_core
  simp only []
  rw [assemble_src_sa, assemble_bc_sa, assemble_faces_sa]
  congr 1
  have hf := assemble_faces_frame G trans gpress h
  exact bcSaSum_congr G F trans _ h.A hf.2.2.1 hf.2.2.2.1 p

/-- The flag `is_neumann` on exit from the boundary-condition part. -/
theorem assemble_core_fst (G : UnstructuredGrid) (F : Option ifs_tpfa_forces)
    (trans gpress : Nat → ℚ) (h : ifs_tpfa_data) :
    (assemble_core G F trans gpress h).1 = true ↔ noPressure F := by
  unfold assemble_core assemble_bc noPressure forcesBC
  simp only []
  cases F with
  | none => simp
  | some F =>
    cases hbc : F.bc with
    | none => simp [hbc]
    | some bc =>
      simp only [hbc]
      exact assemble_bc_contrib_fst G bc trans _

/-! ## Rows of the constructed matrix -/

theorem builtPattern_congr (es : List (Nat × Nat)) (m : Nat) (A B : CSRMatrix)
    (hm : B.m = A.m) (hnnz : B.nnz = A.nnz) (hia : B.ia = A.ia) (hja : B.ja = A.ja)
    (hA : builtPattern es m A) : builtPattern es m B := by
  unfold builtPattern rowPositions at *
  rw [hm, hnnz, hia, hja]
  exact hA

/-- Solver data constructed for well-formed inputs stores the pattern
entries row by row. -/
theorem constructedFor_built (G : UnstructuredGrid) (W : Option Wells) (h : ifs_tpfa_data)
    (hG : cellsInRange G) (hW : wellFormedWells G W) (hA : constructedFor G W h) :
    builtPattern (patternEvents G W) (numUnknowns G W) h.A := by
  obtain ⟨A0, h0, hm, hnnz, hia, hja⟩ := hA
  exact builtPattern_congr _ _ A0 h.A hm hnnz hia hja
    ((construct_matrix_spec G W hG hW).2.1 A0 h0)

theorem built_ia_le (es : List (Nat × Nat)) (m : Nat) (A : CSRMatrix)
    (hA : builtPattern es m A) (a b : Nat) (hab : a ≤ b) (hb : b ≤ m) : A.ia a ≤ A.ia b := by
  rw [hA.2.2.1 a (by omega), hA.2.2.1 b hb]
  exact rowStart_mono es a b hab

/-- A storage position lies in at most one row. -/
theorem built_row_unique (es : List (Nat × Nat)) (m : Nat) (A : CSRMatrix)
    (hA : builtPattern es m A) (r r2 p : Nat) (hr : r < m) (hr2 : r2 < m)
    (h1 : A.ia r ≤ p ∧ p < A.ia (r + 1)) (h2 : A.ia r2 ≤ p ∧ p < A.ia (r2 + 1)) : r = r2 := by
  by_contra hne
  rcases Nat.lt_or_gt_of_ne hne with hlt | hgt
  · have := built_ia_le es m A hA (r + 1) r2 (by omega) (by omega)
    omega
  · have := built_ia_le es m A hA (r2 + 1) r (by omega) (by omega)
    omega

/-- Every storage position of a row is below `nnz`. -/
theorem built_row_lt_nnz (es : List (Nat × Nat)) (m : Nat) (A : CSRMatrix)
    (hA : builtPattern es m A) (r p : Nat) (hr : r < m) (hp : p < A.ia (r + 1)) :
    p < A.nnz := by
  have := built_ia_le es m A hA (r + 1) m (by omega) (le_refl _)
  rw [hA.2.1, ← hA.2.2.1 m (le_refl _)]
  omega

/-- The pairs visited by the loop nest over the cells of a well-formed grid
are the face slots of the cells. -/
theorem mem_segLoop_grid (G : UnstructuredGrid) (hG : wellFormedGrid G) (e : Nat × Nat)
    (he : e ∈ segLoop G.number_of_cells G.cell_facepos) :
    e.1 < G.number_of_cells ∧ e.2 ∈ cellFaceSlots G e.1 := by
  rw [segLoop_eq_flatMap _ _ hG.1 hG.2.1, List.mem_flatMap] at he
  obtain ⟨c, hc, hec⟩ := he
  rw [List.mem_map] at hec
  obtain ⟨i, hi, rfl⟩ := hec
  exact ⟨List.mem_range.mp hc, hi⟩

theorem wellFormedGrid_cellsInRange (G : UnstructuredGrid) (hG : wellFormedGrid G) :
    cellsInRange G := hG.2.2.2

theorem diag_mem_patternEvents (G : UnstructuredGrid) (W : Option Wells) (c : Nat)
    (hc : c < numUnknowns G W) : (c, c) ∈ patternEvents G W := by
  unfold patternEvents diagEvents
  rw [List.mem_append, List.mem_append]
  left
  left
  rw [List.mem_flatMap]
  exact ⟨c, List.mem_range.mpr hc, List.mem_singleton.mpr rfl⟩

/-- The entry that the main loop nest looks up for a face slot of a cell is
an entry of the pattern. -/
theorem other_mem_patternEvents (G : UnstructuredGrid) (W : Option Wells)
    (hG : wellFormedGrid G) (c i : Nat) (hc : c < G.number_of_cells)
    (hi : i ∈ cellFaceSlots G c) (ho : 0 ≤ otherCell G c (G.cell_faces i)) :
    (c, (otherCell G c (G.cell_faces i)).toNat) ∈ patternEvents G W := by
  obtain ⟨hf, hcons⟩ := hG.2.2.1 c hc i hi
  unfold patternEvents faceEvents
  rw [List.mem_append, List.mem_append]
  left
  right
  rw [List.mem_flatMap]
  refine ⟨G.cell_faces i, List.mem_range.mpr hf, ?_⟩
  unfold otherCell at ho ⊢
  by_cases h1 : G.face_cells (2 * G.cell_faces i + 0) = (c : Int)
  · rw [if_pos h1] at ho ⊢
    rw [if_pos ⟨by omega, ho⟩]
    have : (G.face_cells (2 * G.cell_faces i + 0)).toNat = c := by omega
    rw [this]
    exact List.mem_cons_self _ _
  · rw [if_neg h1] at ho ⊢
    have h2 : G.face_cells (2 * G.cell_faces i + 1) = (c : Int) := by
      rcases hcons with h | h
      · exact absurd h h1
      · exact h
    rw [if_pos ⟨ho, by omega⟩]
    have : (G.face_cells (2 * G.cell_faces i + 1)).toNat = c := by omega
    rw [this]
    exact List.mem_cons_of_mem _ (List.mem_singleton.mpr rfl)

/-! ## Weighted row sums of the assembled matrix -/

theorem row_single (A : CSRMatrix) (c j : Nat) (w : Nat → ℚ) (x : ℚ) :
    ((rowPositions A c).map (fun p => w (A.ja p) * (if p = j then x else 0))).sum
      = if A.ia c ≤ j ∧ j < A.ia (c + 1) then w (A.ja j) * x else 0 := by
  have hfun : (fun p => w (A.ja p) * (if p = j then x else 0))
      = fun p => if p = j then w (A.ja p) * x else 0 := by
    funext p
    by_cases hp : p = j
    · rw [if_pos hp, if_pos hp]
    · rw [if_neg hp, if_neg hp, mul_zero]
  unfold rowPositions
  rw [hfun, sum_range'_single (fun p => w (A.ja p) * x) j]
  by_cases h1 : A.ia c ≤ j ∧ j < A.ia (c + 1)
  · rw [if_pos h1, if_pos (by omega)]
  · rw [if_neg h1, if_neg (by omega)]

/-- The contribution of one visit of the main loop nest to the weighted sum
of row `c`. -/
theorem row_faceSaTerm (G : UnstructuredGrid) (W : Option Wells) (trans : Nat → ℚ)
    (A : CSRMatrix) (hG : wellFormedGrid G)
    (hB : builtPattern (patternEvents G W) (numUnknowns G W) A)
    (e : Nat × Nat) (he : e ∈ segLoop G.number_of_cells G.cell_facepos)
    (c : Nat) (hc : c < numUnknowns G W) (w : Nat → ℚ) :
    ((rowPositions A c).map (fun p => w (A.ja p) * faceSaTerm G trans A e p)).sum
      = if e.1 = c then slotWeighted G trans c w e.2 else 0 := by
  obtain ⟨he1, he2⟩ := mem_segLoop_grid G hG e he
  have hem : e.1 < numUnknowns G W := by
    unfold numUnknowns
    omega
  unfold faceSaTerm
  by_cases ho : 0 ≤ otherCell G e.1 (G.cell_faces e.2)
  · simp only [if_pos ho]
    have hfun : (fun p => w (A.ja p) *
          ((if p = csrmatrix_elm_index e.1 e.1 A then trans (G.cell_faces e.2) else 0)
            + (if p = csrmatrix_elm_index e.1 (otherCell G e.1 (G.cell_faces e.2)).toNat A
                then -trans (G.cell_faces e.2) else 0)))
        = fun p => w (A.ja p) *
            (if p = csrmatrix_elm_index e.1 e.1 A then trans (G.cell_faces e.2) else 0)
          + w (A.ja p) *
            (if p = csrmatrix_elm_index e.1 (otherCell G e.1 (G.cell_faces e.2)).toNat A
              then -trans (G.cell_faces e.2) else 0) := by
      funext p
      ring
    rw [hfun, sum_map_add_eq, row_single, row_single]
    obtain ⟨a1, a2, a3⟩ := elm_index_spec _ _ A hB e.1 e.1 hem
      (diag_mem_patternEvents G W e.1 hem)
    obtain ⟨b1, b2, b3⟩ := elm_index_spec _ _ A hB e.1
      (otherCell G e.1 (G.cell_faces e.2)).toNat hem
      (other_mem_patternEvents G W hG e.1 e.2 he1 he2 ho)
    by_cases hec : e.1 = c
    · rw [← hec, if_pos ⟨a1, a2⟩, if_pos ⟨b1, b2⟩, if_pos rfl, a3, b3]
      unfold slotWeighted
      rw [if_pos ho]
      ring
    · rw [if_neg (fun hh => hec (built_row_unique _ _ A hB e.1 c _ hem hc ⟨a1, a2⟩ hh)),
        if_neg (fun hh => hec (built_row_unique _ _ A hB e.1 c _ hem hc ⟨b1, b2⟩ hh)),
        if_neg hec, add_zero]
  · simp only [if_neg ho, mul_zero]
    rw [sum_map_zero_of_forall _ _ (fun _ _ => rfl)]
    by_cases hec : e.1 = c
    · rw [if_pos hec]
      unfold slotWeighted
      rw [← hec, if_neg ho]
    · rw [if_neg hec]

/-- The contribution of one visit of `assemble_bc_contrib` to the weighted
sum of row `c`. -/
theorem row_bcSaTerm (G : UnstructuredGrid) (W : Option Wells) (bc : FlowBoundaryConditions)
    (trans : Nat → ℚ) (A : CSRMatrix) (hG : wellFormedGrid G)
    (hB : builtPattern (patternEvents G W) (numUnknowns G W) A) (hbc : bcOnBoundary G bc)
    (e : Nat × Nat) (he : e ∈ bcEntries bc) (c : Nat) (hc : c < numUnknowns G W)
    (w : Nat → ℚ) :
    ((rowPositions A c).map (fun p => w (A.ja p) * bcSaTerm G bc trans A e p)).sum
      = if bc.type e.1 = FlowBCType.BC_PRESSURE ∧ bcCell G (bc.face e.2) = c then
          w c * trans (bc.face e.2)
        else 0 := by
  unfold bcSaTerm
  by_cases hP : bc.type e.1 = FlowBCType.BC_PRESSURE
  · have hcell := bcCell_lt G (bc.face e.2) hG (hbc e he (Or.inl hP)).1 (hbc e he (Or.inl hP)).2
    have hcm : bcCell G (bc.face e.2) < numUnknowns G W := by
      unfold numUnknowns
      omega
    obtain ⟨a1, a2, a3⟩ := elm_index_spec _ _ A hB _ _ hcm (diag_mem_patternEvents G W _ hcm)
    simp only [hP, true_and]
    rw [row_single]
    by_cases hec : bcCell G (bc.face e.2) = c
    · rw [if_pos hec]
      rw [← hec, if_pos ⟨a1, a2⟩, a3]
    · rw [if_neg hec,
        if_neg (fun hh => hec (built_row_unique _ _ A hB _ c _ hcm hc ⟨a1, a2⟩ hh))]
  · simp only [hP, false_and, if_false, mul_zero]
    exact sum_map_zero_of_forall _ _ (fun _ _ => rfl)

/-- The weighted sum of row `c` after everything before the doubling: the
contributions of the face slots of `c` (none for a well row) and of the
PRESSURE conditions on the faces of `c`. -/
theorem rowWeighted_core (G : UnstructuredGrid) (W : Option Wells) (F : Option ifs_tpfa_forces)
    (trans gpress : Nat → ℚ) (h : ifs_tpfa_data) (hG : wellFormedGrid G)
    (hW : wellFormedWells G W) (hA : constructedFor G W h) (hassert : forcesOnBoundary G F)
    (c : Nat) (hc : c < numUnknowns G W) (w : Nat → ℚ) :
    rowWeighted (assemble_core G F trans gpress h).2.A c w
      = (if c < G.number_of_cells then
          ((cellFaceSlots G c).map (slotWeighted G trans c w)).sum else 0)
        + w c * pressureDiag G F trans c := by
  have hB := constructedFor_built G W h (wellFormedGrid_cellsInRange G hG) hW hA
  have hf := assemble_core_frame G F trans gpress h
  have hia : (assemble_core G F trans gpress h).2.A.ia = h.A.ia := hf.2.2.1
  have hja : (assemble_core G F trans gpress h).2.A.ja = h.A.ja := hf.2.2.2.1
  unfold rowWeighted
  have hrow : rowPositions (assemble_core G F trans gpress h).2.A c = rowPositions h.A c := by
    unfold rowPositions
    rw [hia]
  rw [hrow, hja]
  have hpt : ∀ p ∈ rowPositions h.A c,
      w (h.A.ja p) * (assemble_core G F trans gpress h).2.A.sa p
        = ((segLoop G.number_of_cells G.cell_facepos).map (fun e =>
              w (h.A.ja p) * faceSaTerm G trans h.A e p)).sum
          + w (h.A.ja p) * bcSaSum G F trans h.A p := by
    intro p hp
    unfold rowPositions at hp
    rw [List.mem_range'] at hp
    obtain ⟨i, hi1, hi2⟩ := hp
    have hlt : p < h.A.nnz := built_row_lt_nnz _ _ h.A hB c p hc (by omega)
    rw [assemble_core_sa, sum_map_mul_left]
    unfold vector_zero
    rw [if_pos hlt]
    ring
  rw [sum_map_congr _ _ _ hpt, sum_map_add_eq, sum_map_sum_comm]
  congr 1
  · rw [sum_map_congr _ _ _ (fun e he => row_faceSaTerm G W trans h.A hG hB e he c hc w)]
    by_cases hcN : c < G.number_of_cells
    · rw [if_pos hcN]
      exact sum_segLoop_cell _ _ hG.1 hG.2.1 (fun e => slotWeighted G trans c w e.2) c hcN
    · rw [if_neg hcN]
      exact sum_segLoop_not_cell _ _ (fun e => slotWeighted G trans c w e.2) c (by omega)
  · unfold bcSaSum pressureDiag
    unfold forcesOnBoundary at hassert
    cases hbc : forcesBC F with
    | none => simp
    | some bc =>
      rw [hbc] at hassert
      simp only []
      have hfun : (fun p => w (h.A.ja p)
            * ((bcEntries bc).map (fun e => bcSaTerm G bc trans h.A e p)).sum)
          = fun p => ((bcEntries bc).map (fun e =>
              w (h.A.ja p) * bcSaTerm G bc trans h.A e p)).sum := by
        funext p
        rw [sum_map_mul_left]
      rw [hfun, sum_map_sum_comm,
        sum_map_congr _ _ _ (fun e he => row_bcSaTerm G W bc trans h.A hG hB hassert e he c hc w)]
      unfold bcEntriesAt
      rw [← sum_map_ite_eq_filter (fun e : Nat × Nat => bc.type e.1 = FlowBCType.BC_PRESSURE
          ∧ bcCell G (bc.face e.2) = c), ← sum_map_mul_left]
      apply sum_map_congr
      intro e _
      split_ifs
      · rfl
      · rw [mul_zero]

/-! ## The gravity terms -/

theorem grav_step_apply (G : UnstructuredGrid) (gpress fgrav : Nat → ℚ) (e : Nat × Nat)
    (f : Nat) : grav_step G gpress fgrav e f = fgrav f + gravTerm G gpress e f := by
  unfold grav_step gravTerm interiorFace faceSign
  by_cases hint : 0 ≤ G.face_cells (2 * G.cell_faces e.2 + 0)
      ∧ 0 ≤ G.face_cells (2 * G.cell_faces e.2 + 1)
  · rw [if_pos hint]
    by_cases hf : G.cell_faces e.2 = f
    · rw [if_pos ⟨hf, hint⟩, ← hf, Function.update_same]
    · rw [if_neg (fun hh => hf hh.1), Function.update_noteq (Ne.symm hf), add_zero]
  · rw [if_neg hint, if_neg (fun hh => hint hh.2), add_zero]

/-- The gravity terms after `compute_grav_term`, face by face. -/
theorem compute_grav_term_apply (G : UnstructuredGrid) (gpress fgrav : Nat → ℚ) (f : Nat) :
    compute_grav_term G gpress fgrav f
      = vector_zero G.number_of_faces fgrav f
        + ((segLoop G.number_of_cells G.cell_facepos).map (fun e => gravTerm G gpress e f)).sum :=
  foldl_accum (grav_step G gpress) (fun s => s) (fun e f => gravTerm G gpress e f)
    (fun _ => True) (fun _ _ _ => trivial)
    (fun s e f _ => grav_step_apply G gpress s e f) f _ _ trivial

/-- The gravity terms of the faces of the grid do not depend on the former
content of the buffer. -/
theorem compute_grav_term_independent (G : UnstructuredGrid) (gpress fg1 fg2 : Nat → ℚ)
    (f : Nat) (hf : f < G.number_of_faces) :
    compute_grav_term G gpress fg1 f = compute_grav_term G gpress fg2 f := by
  rw [compute_grav_term_apply, compute_grav_term_apply]
  unfold vector_zero
  rw [if_pos hf, if_pos hf]

/-! ## The state after `ifs_tpfa_assemble` -/

theorem doubleFirst_sa (h : ifs_tpfa_data) (p : Nat) :
    (doubleFirst h).A.sa p = if p = 0 then h.A.sa 0 * 2 else h.A.sa p := by
  unfold doubleFirst
  by_cases hp : p = 0
  · subst hp
    simp
  · simp [hp]

theorem doubleFirst_frame (h0 h : ifs_tpfa_data) (hf : sameFrame h0 h) :
    sameFrame h0 (doubleFirst h) := hf

/-- The stored values after `ifs_tpfa_assemble`: those before the doubling,
with the value at position 0 doubled if no PRESSURE condition is present. -/
theorem assemble_sa (G : UnstructuredGrid) (F : Option ifs_tpfa_forces)
    (trans gpress : Nat → ℚ) (h : ifs_tpfa_data) (p : Nat) :
    (ifs_tpfa_assemble G F trans gpress h).A.sa p
      = if noPressure F ∧ p = 0 then (assemble_core G F trans gpress h).2.A.sa 0 * 2
        else (assemble_core G F trans gpress h).2.A.sa p := by
  unfold ifs_tpfa_assemble
  simp only []
  by_cases hn : noPressure F
  · rw [if_pos ((assemble_core_fst G F trans gpress h).mpr hn), doubleFirst_sa]
    by_cases hp : p = 0
    · rw [if_pos hp, if_pos ⟨hn, hp⟩]
    · rw [if_neg hp, if_neg (fun hh => hp hh.2)]
  · have : ¬ (assemble_core G F trans gpress h).1 = true :=
      fun hh => hn ((assemble_core_fst G F trans gpress h).mp hh)
    rw [if_neg this, if_neg (fun hh => hn hh.1)]

theorem assemble_frame (G : UnstructuredGrid) (F : Option ifs_tpfa_forces)
    (trans gpress : Nat → ℚ) (h : ifs_tpfa_data) :
    sameFrame (assembleStart G gpress h) (ifs_tpfa_assemble G F trans gpress h) := by
  unfold ifs_tpfa_assemble
  simp only []
  split_ifs
  · exact doubleFirst_frame _ _ (assemble_core_frame G F trans gpress h)
  · exact assemble_core_frame G F trans gpress h

/-- Assembly keeps the sparsity pattern. -/
theorem assemble_samePattern (G : UnstructuredGrid) (F : Option ifs_tpfa_forces)
    (trans gpress : Nat → ℚ) (h : ifs_tpfa_data) :
    samePattern h.A (ifs_tpfa_assemble G F trans gpress h).A := by
  obtain ⟨h1, h2, h3, h4, _, _⟩ := assemble_frame G F trans gpress h
  exact ⟨h1, h2, h3, h4⟩

theorem assemble_core_sa_independent (G : UnstructuredGrid) (F : Option ifs_tpfa_forces)
    (trans gpress : Nat → ℚ) (h h2 : ifs_tpfa_data) (hp : samePattern h.A h2.A) (p : Nat)
    (hlt : p < h.A.nnz) :
    (assemble_core G F trans gpress h).2.A.sa p
      = (assemble_core G F trans gpress h2).2.A.sa p := by
  obtain ⟨_, hnnz, hia, hja⟩ := hp
  rw [assemble_core_sa, assemble_core_sa]
  unfold vector_zero
  rw [if_pos hlt, if_pos (by rw [hnnz]; exact hlt),
    bcSaSum_congr G F trans h2.A h.A hia hja p,
    sum_map_congr (fun e => faceSaTerm G trans h2.A e p) (fun e => faceSaTerm G trans h.A e p)
      _ (fun e _ => faceSaTerm_congr G trans h2.A h.A hia hja e p)]

theorem faceRhsTerm_congr (G : UnstructuredGrid) (trans fg1 fg2 : Nat → ℚ) (e : Nat × Nat)
    (k : Nat) (hfg : fg1 (G.cell_faces e.2) = fg2 (G.cell_faces e.2)) :
    faceRhsTerm G trans fg1 e k = faceRhsTerm G trans fg2 e k := by
  unfold faceRhsTerm
  rw [hfg]

theorem bcRhsSum_congr (G : UnstructuredGrid) (F : Option ifs_tpfa_forces)
    (trans fg1 fg2 : Nat → ℚ) (k : Nat) (hassert : forcesOnBoundary G F)
    (hfg : ∀ f, f < G.number_of_faces → fg1 f = fg2 f) :
    bcRhsSum G F trans fg1 k = bcRhsSum G F trans fg2 k := by
  unfold bcRhsSum
  unfold forcesOnBoundary at hassert
  cases hbc : forcesBC F with
  | none => rfl
  | some bc =>
    rw [hbc] at hassert
    simp only []
    apply sum_map_congr
    intro e he
    unfold bcRhsTerm
    by_cases hP : bc.type e.1 = FlowBCType.BC_PRESSURE ∧ bcCell G (bc.face e.2) = k
    · rw [if_pos hP, if_pos hP, hfg _ (hassert e he (Or.inl hP.1)).1]
    · rw [if_neg hP, if_neg hP]

/-- The outputs of `ifs_tpfa_assemble` do not depend on the former content
of the buffers. -/
theorem assemble_independent (G : UnstructuredGrid) (F : Option ifs_tpfa_forces)
    (trans gpress : Nat → ℚ) (h h2 : ifs_tpfa_data) (hG : wellFormedGrid G)
    (hassert : forcesOnBoundary G F) (hp : samePattern h.A h2.A) :
    sameOutputs G (ifs_tpfa_assemble G F trans gpress h)
      (ifs_tpfa_assemble G F trans gpress h2) := by
  have hfg : ∀ f, f < G.number_of_faces →
      compute_grav_term G gpress h.fgrav f = compute_grav_term G gpress h2.fgrav f :=
    fun f hf => compute_grav_term_independent G gpress _ _ f hf
  have hfr := assemble_frame G F trans gpress h
  refine ⟨?_, ?_, ?_⟩
  · intro p hlt
    have hlt2 : p < h.A.nnz := by
      rw [hfr.2.1] at hlt
      exact hlt
    have h0 : 0 < h.A.nnz := by omega
    rw [assemble_sa, assemble_sa, assemble_core_sa_independent G F trans gpress h h2 hp p hlt2,
      assemble_core_sa_independent G F trans gpress h h2 hp 0 h0]
  · intro k hk
    have hk2 : k < h.A.m := by
      rw [hfr.1] at hk
      exact hk
    have hk3 : k < h2.A.m := by
      rw [hp.1]
      exact hk2
    rw [assemble_b_closed, assemble_b_closed,
      bcRhsSum_congr G F trans _ _ k hassert hfg,
      sum_map_congr (fun e => faceRhsTerm G trans (compute_grav_term G gpress h.fgrav) e k)
        (fun e => faceRhsTerm G trans (compute_grav_term G gpress h2.fgrav) e k) _
        (fun e he => faceRhsTerm_congr G trans _ _ e k
          (hfg _ (hG.2.2.1 e.1 (mem_segLoop_grid G hG e he).1 e.2
            (mem_segLoop_grid G hG e he).2).1))]
    unfold vector_zero
    rw [if_pos hk2, if_pos hk3]
  · intro f hf
    rw [assemble_fgrav, assemble_fgrav]
    exact hfg f hf

/-! ## Storage position 0 -/

theorem rowCols_append (es1 es2 : List (Nat × Nat)) (r : Nat) :
    rowCols (es1 ++ es2) r = rowCols es1 r ++ rowCols es2 r := by
  unfold rowCols rowEvents
  rw [List.filter_append, List.map_append]

theorem mem_rowCols (es : List (Nat × Nat)) (r c : Nat) :
    c ∈ rowCols es r ↔ (r, c) ∈ es := by
  unfold rowCols rowEvents
  rw [List.mem_map]
  constructor
  · rintro ⟨e, he, rfl⟩
    rw [List.mem_filter] at he
    have h1 := of_decide_eq_true he.2
    have : e = (r, e.2) := by rw [← h1]
    rw [← this]
    exact he.1
  · intro h
    exact ⟨(r, c), List.mem_filter.mpr ⟨h, by simp⟩, rfl⟩

theorem rowCols_diag_zero (m : Nat) (hm : 0 < m) : rowCols (diagEvents m) 0 = [0] := by
  induction m with
  | zero => omega
  | succ m ih =>
    rw [diagEvents_succ, rowCols_append]
    by_cases h0 : m = 0
    · subst h0
      rfl
    · rw [ih (by omega)]
      have : rowCols [(m, m)] 0 = [] := by
        unfold rowCols rowEvents
        rw [List.filter_cons_of_neg (by simpa using h0)]
        rfl
      rw [this]
      rfl

/-- The entries of the wells join a cell and a well unknown. -/
theorem wellEvents_mem (G : UnstructuredGrid) (W : Option Wells) (hW : wellFormedWells G W)
    (e : Nat × Nat) (he : e ∈ wellEvents G W) :
    (e.1 < G.number_of_cells ∧ G.number_of_cells ≤ e.2)
    ∨ (G.number_of_cells ≤ e.1 ∧ e.2 < G.number_of_cells) := by
  cases W with
  | none => simp [wellEvents] at he
  | some w =>
    unfold wellFormedWells at hW
    simp only [] at hW
    obtain ⟨h0, hmono, hcells⟩ := hW
    simp only [wellEvents] at he
    rw [segLoop_eq_flatMap _ _ h0 hmono, List.mem_flatMap] at he
    obtain ⟨wi, hwi, hewi⟩ := he
    rw [List.mem_flatMap] at hwi
    obtain ⟨k, hk, hwk⟩ := hwi
    rw [List.mem_range] at hk
    rw [List.mem_map] at hwk
    obtain ⟨i, hi, rfl⟩ := hwk
    rw [List.mem_range'] at hi
    obtain ⟨j, hj1, hj2⟩ := hi
    have hchain : ∀ a b, a ≤ b → b ≤ w.number_of_wells →
        w.well_connpos a ≤ w.well_connpos b := by
      intro a b hab hb
      induction b with
      | zero =>
        have : a = 0 := by omega
        rw [this]
      | succ b ih =>
        by_cases h : a = b + 1
        · rw [h]
        · have h1 := ih (by omega) (by omega)
          have h2 := hmono b (by omega)
          omega
    have h1 := hchain (k + 1) w.number_of_wells (by omega) (le_refl _)
    have h2 := hcells i (by omega)
    simp only [List.mem_cons, List.mem_singleton, List.not_mem_nil, or_false] at hewi
    rcases hewi with rfl | rfl
    · left
      constructor <;> simp only [] <;> omega
    · right
      constructor <;> simp only [] <;> omega

/-- When no face joins cell 0 to itself, the diagonal entry is the only
entry `(0, 0)` of the pattern, and it is the first entry of row 0. -/
theorem rowCols_pattern_zero (G : UnstructuredGrid) (W : Option Wells)
    (hm : 0 < numUnknowns G W) (hW : wellFormedWells G W) (hself : noSelfFaceAtZero G) :
    ∃ rest, rowCols (patternEvents G W) 0 = 0 :: rest ∧ 0 ∉ rest := by
  refine ⟨rowCols (faceEvents G) 0 ++ rowCols (wellEvents G W) 0, ?_, ?_⟩
  · unfold patternEvents
    rw [rowCols_append, rowCols_append, rowCols_diag_zero _ hm]
    rfl
  · intro hmem
    rw [List.mem_append, mem_rowCols, mem_rowCols] at hmem
    rcases hmem with hf | hw
    · unfold faceEvents at hf
      rw [List.mem_flatMap] at hf
      obtain ⟨f, hf1, hf2⟩ := hf
      rw [List.mem_range] at hf1
      split_ifs at hf2 with hint
      · apply hself f hf1
        simp only [List.mem_cons, List.mem_singleton, List.not_mem_nil, or_false,
          Prod.mk.injEq] at hf2
        omega
      · simp at hf2
    · have := wellEvents_mem G W hW (0, 0) hw
      simp only [] at this
      omega

/-- In solver data constructed for well-formed inputs there is at least one
unknown, storage position 0 belongs to row 0 and holds column 0. -/
theorem constructed_first (G : UnstructuredGrid) (W : Option Wells) (h : ifs_tpfa_data)
    (hG : cellsInRange G) (hW : wellFormedWells G W) (hA : constructedFor G W h) :
    0 < numUnknowns G W ∧ h.A.ia 0 = 0 ∧ 0 < h.A.ia 1 ∧ h.A.ja 0 = 0 := by
  have hB := constructedFor_built G W h hG hW hA
  have hm : 0 < numUnknowns G W := by
    obtain ⟨A0, h0, _⟩ := hA
    by_contra hcon
    have hz : numUnknowns G W = 0 := by omega
    have := (construct_matrix_spec G W hG hW).1 (by rw [hz]; rfl)
    rw [this] at h0
    exact absurd h0 (by simp)
  have hia0 : h.A.ia 0 = 0 := by
    rw [hB.2.2.1 0 (by omega)]
    rfl
  obtain ⟨q1, q2, q3⟩ := elm_index_spec _ _ h.A hB 0 0 hm (diag_mem_patternEvents G W 0 hm)
  have hs := sorted_row_pointwise h.A.ja (h.A.ia 0) (h.A.ia (0 + 1) - h.A.ia 0)
    (hB.2.2.2 0 hm).1 0 (csrmatrix_elm_index 0 0 h.A) (by omega) (by omega) (by omega)
  simp only [Nat.zero_add] at q2 hs
  refine ⟨hm, hia0, by omega, by omega⟩

/-- When no face joins cell 0 to itself, position 0 is the only storage
position of row 0 that holds column 0. -/
theorem constructed_first_unique (G : UnstructuredGrid) (W : Option Wells) (h : ifs_tpfa_data)
    (hG : cellsInRange G) (hW : wellFormedWells G W) (hA : constructedFor G W h)
    (hself : noSelfFaceAtZero G) (p : Nat) (hp : p < h.A.ia 1) (hja : h.A.ja p = 0) :
    p = 0 := by
  have hB := constructedFor_built G W h hG hW hA
  obtain ⟨hm, hia0, hia1, hja0⟩ := constructed_first G W h hG hW hA
  obtain ⟨rest, hrest, hnot⟩ := rowCols_pattern_zero G W hm hW hself
  have hperm := (hB.2.2.2 0 hm).2
  rw [hrest] at hperm
  unfold rowPositions at hperm
  rw [hia0, Nat.sub_zero] at hperm
  have hsplit : h.A.ia (0 + 1) = (h.A.ia 1 - 1) + 1 := by
    show h.A.ia 1 = _
    omega
  rw [hsplit, List.range'_succ, List.map_cons, hja0] at hperm
  have hperm2 := hperm.cons_inv
  by_contra hne
  apply hnot
  rw [← hperm2.mem_iff, List.mem_map]
  refine ⟨p, ?_, hja⟩
  rw [List.mem_range']
  exact ⟨p - 1, by omega, by omega⟩

/-! ## Row sums -/

theorem rowSum_eq_rowWeighted (A : CSRMatrix) (c : Nat) :
    rowSum A c = rowWeighted A c (fun _ => 1) := by
  unfold rowSum rowWeighted
  congr 1
  apply List.map_congr_left
  intro p _
  rw [one_mul]

theorem csrTotal_eq_rowWeighted (A : CSRMatrix) (c c2 : Nat) :
    csrTotal A c c2 = rowWeighted A c (fun j => if j = c2 then 1 else 0) := by
  unfold csrTotal rowWeighted
  congr 1
  apply List.map_congr_left
  intro p _
  by_cases hp : A.ja p = c2
  · simp only [hp, if_true, one_mul]
  · simp only [hp, if_false, zero_mul]

theorem mem_bcEntries (bc : FlowBoundaryConditions) (e : Nat × Nat) (he : e ∈ bcEntries bc) :
    e.1 < bc.nbc ∧ e.2 ∈ condSlots bc e.1 := by
  unfold bcEntries at he
  rw [List.mem_flatMap] at he
  obtain ⟨i, hi, hei⟩ := he
  rw [List.mem_map] at hei
  obtain ⟨j, hj, rfl⟩ := hei
  exact ⟨List.mem_range.mp hi, hj⟩

theorem pressureDiag_noPressure (G : UnstructuredGrid) (F : Option ifs_tpfa_forces)
    (trans : Nat → ℚ) (c : Nat) (hno : noPressure F) : pressureDiag G F trans c = 0 := by
  unfold pressureDiag
  unfold noPressure at hno
  cases hbc : forcesBC F with
  | none => rfl
  | some bc =>
    rw [hbc] at hno
    simp only []
    apply sum_map_zero_of_forall
    intro e he
    unfold bcEntriesAt at he
    rw [List.mem_filter] at he
    have h1 := (of_decide_eq_true he.2).1
    exact absurd h1 (hno e.1 (mem_bcEntries bc e he.1).1)

/-- Before the doubling, the sum of every row is the sum of `trans[f]` over
the faces of that cell under a PRESSURE condition: the contributions of the
face slots cancel within the row. -/
theorem rowSum_core (G : UnstructuredGrid) (W : Option Wells) (F : Option ifs_tpfa_forces)
    (trans gpress : Nat → ℚ) (h : ifs_tpfa_data) (hG : wellFormedGrid G)
    (hW : wellFormedWells G W) (hA : constructedFor G W h) (hassert : forcesOnBoundary G F)
    (c : Nat) (hc : c < numUnknowns G W) :
    rowSum (assemble_core G F trans gpress h).2.A c = pressureDiag G F trans c := by
  rw [rowSum_eq_rowWeighted, rowWeighted_core G W F trans gpress h hG hW hA hassert c hc]
  have hz : ((cellFaceSlots G c).map (slotWeighted G trans c (fun _ => 1))).sum = 0 := by
    apply sum_map_zero_of_forall
    intro i _
    unfold slotWeighted
    split_ifs
    · ring
    · rfl
  rw [hz]
  simp

/-- The row sums after `ifs_tpfa_assemble`. -/
theorem rowSum_assemble (G : UnstructuredGrid) (W : Option Wells) (F : Option ifs_tpfa_forces)
    (trans gpress : Nat → ℚ) (h : ifs_tpfa_data) (hG : wellFormedGrid G)
    (hW : wellFormedWells G W) (hA : constructedFor G W h) (c : Nat)
    (hc : c < numUnknowns G W) :
    rowSum (ifs_tpfa_assemble G F trans gpress h).A c
      = rowSum (assemble_core G F trans gpress h).2.A c
        + if noPressure F ∧ c = 0 then (assemble_core G F trans gpress h).2.A.sa 0 else 0 := by
  have hB := constructedFor_built G W h (wellFormedGrid_cellsInRange G hG) hW hA
  obtain ⟨hm, hia0, hia1, _⟩ := constructed_first G W h (wellFormedGrid_cellsInRange G hG) hW hA
  have hf1 := assemble_frame G F trans gpress h
  have hf2 := assemble_core_frame G F trans gpress h
  have hr1 : rowPositions (ifs_tpfa_assemble G F trans gpress h).A c = rowPositions h.A c := by
    unfold rowPositions
    rw [hf1.2.2.1]
    rfl
  have hr2 : rowPositions (assemble_core G F trans gpress h).2.A c = rowPositions h.A c := by
    unfold rowPositions
    rw [hf2.2.2.1]
    rfl
  unfold rowSum
  rw [hr1, hr2]
  have hpt : ∀ p ∈ rowPositions h.A c, (ifs_tpfa_assemble G F trans gpress h).A.sa p
      = (assemble_core G F trans gpress h).2.A.sa p
        + if p = 0 then (if noPressure F then (assemble_core G F trans gpress h).2.A.sa 0
            else 0) else 0 := by
    intro p _
    rw [assemble_sa]
    by_cases hp : p = 0
    · by_cases hn : noPressure F
      · rw [if_pos ⟨hn, hp⟩, if_pos hp, if_pos hn, hp]
        ring
      · rw [if_neg (fun hh => hn hh.1), if_pos hp, if_neg hn, add_zero]
    · rw [if_neg (fun hh => hp hh.2), if_neg hp, add_zero]
  rw [sum_map_congr _ _ _ hpt, sum_map_add_eq]
  congr 1
  unfold rowPositions
  rw [sum_range'_single (fun _ => if noPressure F then
    (assemble_core G F trans gpress h).2.A.sa 0 else 0) 0]
  by_cases hc0 : c = 0
  · subst hc0
    have hcond : h.A.ia 0 ≤ 0 ∧ 0 < h.A.ia 0 + (h.A.ia (0 + 1) - h.A.ia 0) := by
      simp only [Nat.zero_add]
      omega
    rw [if_pos hcond]
    by_cases hn : noPressure F
    · rw [if_pos hn, if_pos ⟨hn, rfl⟩]
    · rw [if_neg hn, if_neg (fun hh => hn hh.1)]
  · have h1 := built_ia_le _ _ h.A hB 1 c (by omega) (by omega)
    rw [if_neg (by omega), if_neg (fun hh => hc0 hh.2)]

/-! ## From the face slots of a cell to the faces of the grid -/

/-- A sum over the face slots of a cell of a quantity that vanishes except
on interior faces of the cell is the sum of the quantity over the faces of
the grid, when each interior face is listed once for each of its cells. -/
theorem sum_slots_eq_sum_faces (G : UnstructuredGrid) (hG : wellFormedGrid G)
    (honce : listedOnce G) (c : Nat) (hc : c < G.number_of_cells) (g : Nat → ℚ)
    (hsupp : ∀ f, f < G.number_of_faces → g f ≠ 0 →
      interiorFace G f
      ∧ (G.face_cells (2 * f + 0) = (c : Int) ∨ G.face_cells (2 * f + 1) = (c : Int))) :
    ((cellFaceSlots G c).map (fun i => g (G.cell_faces i))).sum
      = ((List.range G.number_of_faces).map g).sum := by
  have h1 : ∀ i ∈ cellFaceSlots G c, g (G.cell_faces i)
      = ((List.range G.number_of_faces).map
          (fun f => if G.cell_faces i = f then g f else 0)).sum := by
    intro i hi
    have hlt := (hG.2.2.1 c hc i hi).1
    have hfun : (fun f => if G.cell_faces i = f then g f else 0)
        = fun f => if f = G.cell_faces i then g f else 0 := by
      funext f
      by_cases hf : f = G.cell_faces i
      · rw [if_pos hf.symm, if_pos hf]
      · rw [if_neg (fun hh => hf hh.symm), if_neg hf]
    rw [hfun, sum_range_single g (G.cell_faces i), if_pos hlt]
  rw [sum_map_congr _ _ _ h1, sum_map_sum_comm]
  apply sum_map_congr
  intro f hf
  rw [List.mem_range] at hf
  rw [sum_map_ite_const (fun i => G.cell_faces i = f) (g f)]
  by_cases hg : g f = 0
  · rw [hg, mul_zero]
  · obtain ⟨hint, hcell⟩ := hsupp f hf hg
    have hcount : listedCount G c f = 1 := by
      have ho := honce f hf hint
      rcases hcell with h | h
      · have : (G.face_cells (2 * f + 0)).toNat = c := by omega
        rw [← this]
        exact ho.1
      · have : (G.face_cells (2 * f + 1)).toNat = c := by omega
        rw [← this]
        exact ho.2
    unfold listedCount at hcount
    rw [hcount]
    simp

/-- The contribution of a face slot of cell `c` to the total at `(c, c)`, on
a grid without self faces. -/
theorem slotWeighted_diag (G : UnstructuredGrid) (trans : Nat → ℚ) (hG : wellFormedGrid G)
    (hself : noSelfFaces G) (c : Nat) (hc : c < G.number_of_cells) (i : Nat)
    (hi : i ∈ cellFaceSlots G c) :
    slotWeighted G trans c (fun j => if j = c then 1 else 0) i
      = if interiorFace G (G.cell_faces i)
          ∧ (G.face_cells (2 * G.cell_faces i + 0) = (c : Int)
            ∨ G.face_cells (2 * G.cell_faces i + 1) = (c : Int))
        then trans (G.cell_faces i) else 0 := by
  obtain ⟨hf, hcons⟩ := hG.2.2.1 c hc i hi
  have hns := hself (G.cell_faces i) hf
  unfold interiorFace at hns
  by_cases hint : interiorFace G (G.cell_faces i)
  · have hint2 := hint
    unfold interiorFace at hint2
    have hcond : interiorFace G (G.cell_faces i)
        ∧ (G.face_cells (2 * G.cell_faces i + 0) = (c : Int)
          ∨ G.face_cells (2 * G.cell_faces i + 1) = (c : Int)) := ⟨hint, hcons⟩
    rw [if_pos hcond]
    have hne := hns hint2
    have ho : 0 ≤ otherCell G c (G.cell_faces i) := by
      unfold otherCell
      split_ifs
      · exact hint2.2
      · exact hint2.1
    have hoc : ¬ (otherCell G c (G.cell_faces i)).toNat = c := by
      unfold otherCell
      split_ifs with h1
      · omega
      · omega
    unfold slotWeighted
    rw [if_pos ho]
    beta_reduce
    rw [if_pos rfl, if_neg hoc]
    ring
  · have hcond : ¬ (interiorFace G (G.cell_faces i)
        ∧ (G.face_cells (2 * G.cell_faces i + 0) = (c : Int)
          ∨ G.face_cells (2 * G.cell_faces i + 1) = (c : Int))) := fun hh => hint hh.1
    rw [if_neg hcond]
    have ho : ¬ 0 ≤ otherCell G c (G.cell_faces i) := by
      unfold interiorFace at hint
      unfold otherCell
      split_ifs with h1
      · omega
      · rcases hcons with h | h
        · exact absurd h h1
        · omega
    unfold slotWeighted
    rw [if_neg ho]

/-- The contribution of a face slot of cell `c` to the total at `(c, c2)` for
`c2 ≠ c`. -/
theorem slotWeighted_offdiag (G : UnstructuredGrid) (trans : Nat → ℚ) (hG : wellFormedGrid G)
    (c c2 : Nat) (hc : c < G.number_of_cells) (hne : c2 ≠ c) (i : Nat)
    (hi : i ∈ cellFaceSlots G c) :
    slotWeighted G trans c (fun j => if j = c2 then 1 else 0) i
      = -(if interiorFace G (G.cell_faces i)
          ∧ ((G.face_cells (2 * G.cell_faces i + 0) = (c : Int)
              ∧ G.face_cells (2 * G.cell_faces i + 1) = (c2 : Int))
            ∨ (G.face_cells (2 * G.cell_faces i + 0) = (c2 : Int)
              ∧ G.face_cells (2 * G.cell_faces i + 1) = (c : Int)))
        then trans (G.cell_faces i) else 0) := by
  obtain ⟨hf, hcons⟩ := hG.2.2.1 c hc i hi
  have hcc : ¬ c = c2 := fun hh => hne hh.symm
  by_cases hcond : interiorFace G (G.cell_faces i)
      ∧ ((G.face_cells (2 * G.cell_faces i + 0) = (c : Int)
          ∧ G.face_cells (2 * G.cell_faces i + 1) = (c2 : Int))
        ∨ (G.face_cells (2 * G.cell_faces i + 0) = (c2 : Int)
          ∧ G.face_cells (2 * G.cell_faces i + 1) = (c : Int)))
  · rw [if_pos hcond]
    have ho : 0 ≤ otherCell G c (G.cell_faces i)
        ∧ (otherCell G c (G.cell_faces i)).toNat = c2 := by
      unfold otherCell
      obtain ⟨_, ⟨h1, h2⟩ | ⟨h1, h2⟩⟩ := hcond
      · rw [if_pos h1]
        omega
      · rw [if_neg (by omega)]
        omega
    unfold slotWeighted
    rw [if_pos ho.1]
    beta_reduce
    rw [if_neg hcc, if_pos ho.2]
    ring
  · rw [if_neg hcond, neg_zero]
    unfold slotWeighted
    by_cases ho : 0 ≤ otherCell G c (G.cell_faces i)
    · have hoc : ¬ (otherCell G c (G.cell_faces i)).toNat = c2 := by
        intro hh
        apply hcond
        unfold otherCell at ho hh
        unfold interiorFace
        by_cases h1 : G.face_cells (2 * G.cell_faces i + 0) = (c : Int)
        · rw [if_pos h1] at ho hh
          exact ⟨⟨by omega, ho⟩, Or.inl ⟨h1, by omega⟩⟩
        · rw [if_neg h1] at ho hh
          have h2 : G.face_cells (2 * G.cell_faces i + 1) = (c : Int) := by
            rcases hcons with h | h
            · exact absurd h h1
            · exact h
          exact ⟨⟨ho, by omega⟩, Or.inr ⟨by omega, h2⟩⟩
      rw [if_pos ho]
      beta_reduce
      rw [if_neg hcc, if_neg hoc]
      ring
    · rw [if_neg ho]

/-! ## The diagonal entry of a cell row -/

theorem rowCols_diag (m c : Nat) (hc : c < m) : rowCols (diagEvents m) c = [c] := by
  induction m with
  | zero => omega
  | succ m ih =>
    rw [diagEvents_succ, rowCols_append]
    by_cases h0 : c = m
    · subst h0
      have h1 : rowCols (diagEvents c) c = [] := by
        unfold rowCols rowEvents
        rw [List.filter_eq_nil_iff.mpr, List.map_nil]
        intro e he
        have := (diagEvents_row_lt c e he).1
        simp
        omega
      have h2 : rowCols [(c, c)] c = [c] := by
        unfold rowCols rowEvents
        rw [List.filter_cons_of_pos (by simp)]
        rfl
      rw [h1, h2]
      rfl
    · rw [ih (by omega)]
      have : rowCols [(m, m)] c = [] := by
        unfold rowCols rowEvents
        rw [List.filter_cons_of_neg (by simpa using fun hh : m = c => h0 hh.symm)]
        rfl
      rw [this]
      rfl

/-- On a grid without self faces the diagonal entry is the only entry
`(c, c)` of the pattern, for every cell `c`. -/
theorem rowCols_pattern_cell (G : UnstructuredGrid) (W : Option Wells) (hW : wellFormedWells G W)
    (hself : noSelfFaces G) (c : Nat) (hc : c < G.number_of_cells) :
    ∃ rest, rowCols (patternEvents G W) c = c :: rest ∧ c ∉ rest := by
  have hm : c < numUnknowns G W := by
    unfold numUnknowns
    omega
  refine ⟨rowCols (faceEvents G) c ++ rowCols (wellEvents G W) c, ?_, ?_⟩
  · unfold patternEvents
    rw [rowCols_append, rowCols_append, rowCols_diag _ c hm]
    rfl
  · intro hmem
    rw [List.mem_append, mem_rowCols, mem_rowCols] at hmem
    rcases hmem with hf | hw
    · unfold faceEvents at hf
      rw [List.mem_flatMap] at hf
      obtain ⟨f, hf1, hf2⟩ := hf
      rw [List.mem_range] at hf1
      split_ifs at hf2 with hint
      · apply hself f hf1 hint
        simp only [List.mem_cons, List.mem_singleton, List.not_mem_nil, or_false,
          Prod.mk.injEq] at hf2
        omega
      · simp at hf2
    · have := wellEvents_mem G W hW (c, c) hw
      simp only [] at this
      omega

/-- When the pattern has a single entry `(r, c)`, the total value at
`(r, c)` is the stored value at the position that the lookup returns, and
that position is the only one of row `r` holding column `c`. -/
theorem single_entry (es : List (Nat × Nat)) (m : Nat) (A : CSRMatrix)
    (hA : builtPattern es m A) (r c : Nat) (hr : r < m) (rest : List Nat)
    (hrow : rowCols es r = c :: rest) (hnot : c ∉ rest) :
    csrTotal A r c = A.sa (csrmatrix_elm_index r c A)
    ∧ (∀ p, A.ia r ≤ p → p < A.ia (r + 1) → A.ja p = c → p = csrmatrix_elm_index r c A) := by
  have hmem : (r, c) ∈ es := by
    rw [← mem_rowCols, hrow]
    exact List.mem_cons_self _ _
  obtain ⟨q1, q2, q3⟩ := elm_index_spec es m A hA r c hr hmem
  have hperm := (hA.2.2.2 r hr).2
  rw [hrow] at hperm
  have hnil : rest.filter (fun x => decide (x = c)) = [] := by
    rw [List.filter_eq_nil_iff]
    intro x hx
    have : x ≠ c := fun hh => hnot (hh ▸ hx)
    simpa using this
  have hfil := hperm.filter (fun x => decide (x = c))
  rw [List.filter_cons_of_pos (by simp), hnil, List.filter_map] at hfil
  have hlen := hfil.length_eq
  rw [List.length_map, List.length_singleton] at hlen
  obtain ⟨a, ha⟩ := List.length_eq_one.mp hlen
  have hin : ∀ p, A.ia r ≤ p → p < A.ia (r + 1) → A.ja p = c → p = a := by
    intro p hp1 hp2 hp3
    have : p ∈ (rowPositions A r).filter ((fun x => decide (x = c)) ∘ A.ja) := by
      rw [List.mem_filter]
      refine ⟨?_, by simpa using hp3⟩
      unfold rowPositions
      rw [List.mem_range']
      exact ⟨p - A.ia r, by omega, by omega⟩
    rw [ha, List.mem_singleton] at this
    exact this
  have hq : csrmatrix_elm_index r c A = a := hin _ q1 q2 q3
  refine ⟨?_, fun p hp1 hp2 hp3 => by rw [hq]; exact hin p hp1 hp2 hp3⟩
  unfold csrTotal
  rw [sum_map_ite_eq_filter (fun p => A.ja p = c) A.sa]
  have hfeq : (rowPositions A r).filter (fun p => decide (A.ja p = c))
      = (rowPositions A r).filter ((fun x => decide (x = c)) ∘ A.ja) := rfl
  rw [hfeq, ha, hq]
  simp

/-! ## Group constraints -/

/-- The scaling loop multiplies the first `np` rates by the factor and
leaves the others. -/
theorem scaleRates_apply (factor : ℚ) (rates : Nat → ℚ) (k : Nat) :
    ∀ np : Nat, scaleRates np factor rates k = if k < np then rates k * factor else rates k := by
  intro np
  unfold scaleRates
  induction np with
  | zero => simp
  | succ n ih =>
    rw [List.range_succ, List.foldl_append, List.foldl_cons, List.foldl_nil]
    by_cases hk : k = n
    · subst hk
      rw [Function.update_same, ih, if_neg (by omega), if_pos (by omega)]
    · rw [Function.update_noteq hk, ih]
      by_cases hlt : k < n
      · rw [if_pos hlt, if_pos (by omega)]
      · rw [if_neg hlt, if_neg (by omega)]

/-! ## Group target rates -/

theorem getD_append_length (pre : List String) (a : String) (l : List String) :
    (pre ++ a :: l).getD pre.length "" = a := by
  induction pre with
  | nil => rfl
  | cons x pre ih =>
    rw [List.cons_append, List.length_cons, List.getD_cons_succ]
    exact ih

theorem getD_append_length_succ (pre : List String) (a b : String) (l : List String) :
    (pre ++ a :: b :: l).getD (pre.length + 1) "" = b := by
  have h := getD_append_length (pre ++ [a]) b l
  rw [List.length_append, List.length_singleton, List.append_assoc] at h
  exact h

theorem downwardWalk_single (reduction fraction : String → ℚ) (has : String → Bool)
    (top : Bool) (t : ℚ) (a : String) : downwardWalk reduction fraction has top t [a] = t := by
  unfold downwardWalk
  rfl

theorem downwardWalk_cons (reduction fraction : String → ℚ) (has : String → Bool)
    (top : Bool) (t : ℚ) (a b : String) (rest : List String) :
    downwardWalk reduction fraction has top t (a :: b :: rest)
      = downwardWalk reduction fraction has false
          ((if top = true ∨ has a = true then t - reduction a else t) * fraction b)
          (b :: rest) := by
  rw [downwardWalk]

/-- The indexed loop over the ancestors, started in the middle of the chain,
is the downward walk along the rest of the chain. -/
theorem targetLoop_eq_downwardWalk (reduction fraction : String → ℚ) (has : String → Bool) :
    ∀ (l pre : List String) (t : ℚ), l ≠ [] →
      (List.range' pre.length (l.length - 1)).foldl
          (targetStep reduction fraction has (pre ++ l)) t
        = downwardWalk reduction fraction has (decide (pre.length = 0)) t l := by
  intro l
  induction l with
  | nil => intro pre t h; exact absurd rfl h
  | cons a l ih =>
    intro pre t _
    cases l with
    | nil =>
      rw [downwardWalk_single]
      rfl
    | cons b rest =>
      rw [downwardWalk_cons]
      have hlen : (a :: b :: rest).length - 1 = (b :: rest).length - 1 + 1 := by
        simp
      rw [hlen, List.range'_succ, List.foldl_cons]
      have hstep : targetStep reduction fraction has (pre ++ a :: b :: rest) t pre.length
          = (if decide (pre.length = 0) = true ∨ has a = true then t - reduction a else t)
            * fraction b := by
        unfold targetStep
        rw [getD_append_length, getD_append_length_succ]
        simp only [decide_eq_true_eq]
      rw [hstep]
      have h2 := ih (pre ++ [a]) ((if decide (pre.length = 0) = true ∨ has a = true
        then t - reduction a else t) * fraction b) (List.cons_ne_nil _ _)
      rw [List.length_append, List.length_singleton, List.append_assoc] at h2
      have hd : decide (pre.length + 1 = 0) = false := decide_eq_false (by omega)
      rw [hd] at h2
      exact h2

theorem numAncestors_eq (chain : List String) (hne : chain ≠ []) (hlen : chain.length < 2 ^ 64) :
    numAncestors chain = chain.length - 1 := by
  unfold numAncestors
  have hpos : 0 < chain.length := List.length_pos.mpr hne
  have : chain.length + 2 ^ 64 - 1 = (chain.length - 1) + 2 ^ 64 := by omega
  rw [this, Nat.add_mod_right, Nat.mod_eq_of_lt (by omega)]

/-- The loop over the ancestors computes the downward walk along the
chain. -/
theorem chainTarget_eq_downwardWalk (reduction fraction : String → ℚ) (has : String → Bool)
    (chain : List String) (t : ℚ) (hne : chain ≠ []) (hlen : chain.length < 2 ^ 64) :
    chainTarget reduction fraction has chain t
      = downwardWalk reduction fraction has true t chain := by
  unfold chainTarget
  rw [numAncestors_eq chain hne hlen, List.range_eq_range']
  exact targetLoop_eq_downwardWalk reduction fraction has chain [] t hne

/-! ## The upward walk -/

/-- The result of `getGroupProductionTargetRate` at a group that holds the
control. -/
theorem production_controlling (env : GroupContext) (ws : SingleWellState) (fuel : Nat)
    (group : Opm.Group) (eff : ℚ)
    (hmode : ¬ (env.production_control group.name = Opm.Group.ProductionCMode.FLD
      ∨ env.production_control group.name = Opm.Group.ProductionCMode.NONE))
    (hprod : group.isProductionGroup = true) :
    getGroupProductionTargetRate env ws fuel group eff
      = some (if productionTargetRate env ws group eff = 0 then 0
          else if -env.prodCalcModeRateFromRates group ws.surface_rates > 1e-14 then
            productionTargetRate env ws group eff
              / -env.prodCalcModeRateFromRates group ws.surface_rates
          else 1) := by
  have hp : ¬ group.isProductionGroup = false := by
    rw [hprod]
    decide
  cases fuel <;>
  · unfold getGroupProductionTargetRate
    simp only [if_neg hmode, if_neg hp]
    split_ifs <;> rfl

theorem production_not_available (env : GroupContext) (ws : SingleWellState) (fuel : Nat)
    (group : Opm.Group) (eff : ℚ)
    (hmode : env.production_control group.name = Opm.Group.ProductionCMode.FLD
      ∨ env.production_control group.name = Opm.Group.ProductionCMode.NONE)
    (hav : group.productionGroupControlAvailable = false) :
    getGroupProductionTargetRate env ws fuel group eff = some 1 := by
  cases fuel <;>
  · unfold getGroupProductionTargetRate
    simp only [if_pos hmode, if_pos hav]

theorem production_not_group (env : GroupContext) (ws : SingleWellState) (fuel : Nat)
    (group : Opm.Group) (eff : ℚ)
    (hmode : ¬ (env.production_control group.name = Opm.Group.ProductionCMode.FLD
      ∨ env.production_control group.name = Opm.Group.ProductionCMode.NONE))
    (hprod : group.isProductionGroup = false) :
    getGroupProductionTargetRate env ws fuel group eff = some 1 := by
  cases fuel <;>
  · unfold getGroupProductionTargetRate
    simp only [if_neg hmode, if_pos hprod]

theorem production_step (env : GroupContext) (ws : SingleWellState) (fuel : Nat)
    (group : Opm.Group) (eff : ℚ) (hin : inheritsProduction env group) :
    getGroupProductionTargetRate env ws (fuel + 1) group eff
      = getGroupProductionTargetRate env ws fuel (env.getGroup group.parent)
          (eff * group.getGroupEfficiencyFactor) := by
  have hav : ¬ group.productionGroupControlAvailable = false := by
    rw [hin.2]
    decide
  rw [getGroupProductionTargetRate]
  simp only [if_pos hin.1, if_neg hav]

theorem production_zero (env : GroupContext) (ws : SingleWellState)
    (group : Opm.Group) (eff : ℚ) (hin : inheritsProduction env group) :
    getGroupProductionTargetRate env ws 0 group eff = none := by
  have hav : ¬ group.productionGroupControlAvailable = false := by
    rw [hin.2]
    decide
  rw [getGroupProductionTargetRate]
  simp only [if_pos hin.1, if_neg hav]

/-- A group that does not inherit its production control ends the walk, with
any fuel. -/
theorem production_ends (env : GroupContext) (ws : SingleWellState)
    (group : Opm.Group) (eff : ℚ) (hin : ¬ inheritsProduction env group) :
    ∃ r, ∀ fuel2, getGroupProductionTargetRate env ws fuel2 group eff = some r := by
  by_cases hmode : env.production_control group.name = Opm.Group.ProductionCMode.FLD
      ∨ env.production_control group.name = Opm.Group.ProductionCMode.NONE
  · have hav : group.productionGroupControlAvailable = false := by
      cases h : group.productionGroupControlAvailable
      · rfl
      · exact absurd ⟨hmode, h⟩ hin
    exact ⟨1, fun fuel2 => production_not_available env ws fuel2 group eff hmode hav⟩
  · cases hprod : group.isProductionGroup
    · exact ⟨1, fun fuel2 => production_not_group env ws fuel2 group eff hmode hprod⟩
    · exact ⟨_, fun fuel2 => production_controlling env ws fuel2 group eff hmode hprod⟩

/-- More fuel does not change a result. -/
theorem production_mono (env : GroupContext) (ws : SingleWellState) :
    ∀ (fuel : Nat) (group : Opm.Group) (eff r : ℚ),
      getGroupProductionTargetRate env ws fuel group eff = some r →
      ∀ fuel2, fuel ≤ fuel2 → getGroupProductionTargetRate env ws fuel2 group eff = some r := by
  intro fuel
  induction fuel with
  | zero =>
    intro group eff r h fuel2 _
    by_cases hin : inheritsProduction env group
    · rw [production_zero env ws group eff hin] at h
      exact absurd h (by simp)
    · obtain ⟨r2, hr2⟩ := production_ends env ws group eff hin
      rw [hr2 0] at h
      rw [hr2 fuel2, h]
  | succ n ih =>
    intro group eff r h fuel2 hle
    by_cases hin : inheritsProduction env group
    · obtain ⟨m, rfl⟩ : ∃ m, fuel2 = m + 1 := ⟨fuel2 - 1, by omega⟩
      rw [production_step env ws n group eff hin] at h
      rw [production_step env ws m group eff hin]
      exact ih _ _ r h m (by omega)
    · obtain ⟨r2, hr2⟩ := production_ends env ws group eff hin
      rw [hr2 (n + 1)] at h
      rw [hr2 fuel2, h]

/-- If the group reached after `k` steps towards the root does not inherit
its production control, `k` units of fuel are enough for a result. -/
theorem production_terminates (env : GroupContext) (ws : SingleWellState) :
    ∀ (k : Nat) (group : Opm.Group) (eff : ℚ),
      ¬ inheritsProduction env (ancestor env group k) →
      ∃ r, getGroupProductionTargetRate env ws k group eff = some r := by
  intro k
  induction k with
  | zero =>
    intro group eff h
    obtain ⟨r, hr⟩ := production_ends env ws group eff h
    exact ⟨r, hr 0⟩
  | succ k ih =>
    intro group eff h
    by_cases hin : inheritsProduction env group
    · rw [production_step env ws k group eff hin]
      exact ih _ _ h
    · obtain ⟨r, hr⟩ := production_ends env ws group eff hin
      exact ⟨r, hr (k + 1)⟩

/-- The result of `getGroupInjectionTargetRate` at a group that holds the
control. -/
theorem injection_controlling (env : GroupContext) (ws : SingleWellState)
    (ty : InjectorType) (fuel : Nat) (group : Opm.Group) (eff : ℚ)
    (hmode : ¬ (env.injection_control group.name (injectionPhaseOf ty)
        = Opm.Group.InjectionCMode.FLD
      ∨ env.injection_control group.name (injectionPhaseOf ty)
        = Opm.Group.InjectionCMode.NONE))
    (hinj : group.isInjectionGroup = true) :
    getGroupInjectionTargetRate env ws ty fuel group eff
      = some (some (max 0
          (chainTarget (env.injLocalReduction group (injectionPhaseOf ty))
            (env.injLocalFraction ws group (injectionPhaseOf ty))
            (fun g => env.guideRateHasPhase g (injectionPhaseOf ty))
            (env.groupChainTopBot group.name)
            (env.injGroupTarget group (injectionPhaseOf ty)) / eff))) := by
  have hp : ¬ group.isInjectionGroup = false := by
    rw [hinj]
    decide
  cases fuel <;>
  · unfold getGroupInjectionTargetRate
    simp only [if_neg hmode, if_neg hp]

theorem injection_not_available (env : GroupContext) (ws : SingleWellState)
    (ty : InjectorType) (fuel : Nat) (group : Opm.Group) (eff : ℚ)
    (hmode : env.injection_control group.name (injectionPhaseOf ty)
        = Opm.Group.InjectionCMode.FLD
      ∨ env.injection_control group.name (injectionPhaseOf ty)
        = Opm.Group.InjectionCMode.NONE)
    (hav : group.injectionGroupControlAvailable (injectionPhaseOf ty) = false) :
    getGroupInjectionTargetRate env ws ty fuel group eff = some none := by
  cases fuel <;>
  · unfold getGroupInjectionTargetRate
    simp only [if_pos hmode, if_pos hav]

theorem injection_not_group (env : GroupContext) (ws : SingleWellState)
    (ty : InjectorType) (fuel : Nat) (group : Opm.Group) (eff : ℚ)
    (hmode : ¬ (env.injection_control group.name (injectionPhaseOf ty)
        = Opm.Group.InjectionCMode.FLD
      ∨ env.injection_control group.name (injectionPhaseOf ty)
        = Opm.Group.InjectionCMode.NONE))
    (hinj : group.isInjectionGroup = false) :
    getGroupInjectionTargetRate env ws ty fuel group eff = some none := by
  cases fuel <;>
  · unfold getGroupInjectionTargetRate
    simp only [if_neg hmode, if_pos hinj]

theorem injection_step (env : GroupContext) (ws : SingleWellState) (ty : InjectorType)
    (fuel : Nat) (group : Opm.Group) (eff : ℚ)
    (hin : inheritsInjection env (injectionPhaseOf ty) group) :
    getGroupInjectionTargetRate env ws ty (fuel + 1) group eff
      = getGroupInjectionTargetRate env ws ty fuel (env.getGroup group.parent)
          (eff * group.getGroupEfficiencyFactor) := by
  have hav : ¬ group.injectionGroupControlAvailable (injectionPhaseOf ty) = false := by
    rw [hin.2]
    decide
  rw [getGroupInjectionTargetRate]
  simp only [if_pos hin.1, if_neg hav]

theorem injection_zero (env : GroupContext) (ws : SingleWellState) (ty : InjectorType)
    (group : Opm.Group) (eff : ℚ)
    (hin : inheritsInjection env (injectionPhaseOf ty) group) :
    getGroupInjectionTargetRate env ws ty 0 group eff = none := by
  have hav : ¬ group.injectionGroupControlAvailable (injectionPhaseOf ty) = false := by
    rw [hin.2]
    decide
  rw [getGroupInjectionTargetRate]
  simp only [if_pos hin.1, if_neg hav]

/-- A group that does not inherit its injection control ends the walk, with
any fuel. -/
theorem injection_ends (env : GroupContext) (ws : SingleWellState) (ty : InjectorType)
    (group : Opm.Group) (eff : ℚ)
    (hin : ¬ inheritsInjection env (injectionPhaseOf ty) group) :
    ∃ r, ∀ fuel2, getGroupInjectionTargetRate env ws ty fuel2 group eff = some r := by
  by_cases hmode : env.injection_control group.name (injectionPhaseOf ty)
        = Opm.Group.InjectionCMode.FLD
      ∨ env.injection_control group.name (injectionPhaseOf ty)
        = Opm.Group.InjectionCMode.NONE
  · have hav : group.injectionGroupControlAvailable (injectionPhaseOf ty) = false := by
      cases h : group.injectionGroupControlAvailable (injectionPhaseOf ty)
      · rfl
      · exact absurd ⟨hmode, h⟩ hin
    exact ⟨none, fun fuel2 => injection_not_available env ws ty fuel2 group eff hmode hav⟩
  · cases hinj : group.isInjectionGroup
    · exact ⟨none, fun fuel2 => injection_not_group env ws ty fuel2 group eff hmode hinj⟩
    · exact ⟨_, fun fuel2 => injection_controlling env ws ty fuel2 group eff hmode hinj⟩

/-- More fuel does not change a result. -/
theorem injection_mono (env : GroupContext) (ws : SingleWellState) (ty : InjectorType) :
    ∀ (fuel : Nat) (group : Opm.Group) (eff : ℚ) (r : Option ℚ),
      getGroupInjectionTargetRate env ws ty fuel group eff = some r →
      ∀ fuel2, fuel ≤ fuel2 →
        getGroupInjectionTargetRate env ws ty fuel2 group eff = some r := by
  intro fuel
  induction fuel with
  | zero =>
    intro group eff r h fuel2 _
    by_cases hin : inheritsInjection env (injectionPhaseOf ty) group
    · rw [injection_zero env ws ty group eff hin] at h
      exact absurd h (by simp)
    · obtain ⟨r2, hr2⟩ := injection_ends env ws ty group eff hin
      rw [hr2 0] at h
      rw [hr2 fuel2, h]
  | succ n ih =>
    intro group eff r h fuel2 hle
    by_cases hin : inheritsInjection env (injectionPhaseOf ty) group
    · obtain ⟨m, rfl⟩ : ∃ m, fuel2 = m + 1 := ⟨fuel2 - 1, by omega⟩
      rw [injection_step env ws ty n group eff hin] at h
      rw [injection_step env ws ty m group eff hin]
      exact ih _ _ r h m (by omega)
    · obtain ⟨r2, hr2⟩ := injection_ends env ws ty group eff hin
      rw [hr2 (n + 1)] at h
      rw [hr2 fuel2, h]

/-- If the group reached after `k` steps towards the root does not inherit
its injection control, `k` units of fuel are enough for a result. -/
theorem injection_terminates (env : GroupContext) (ws : SingleWellState)
    (ty : InjectorType) :
    ∀ (k : Nat) (group : Opm.Group) (eff : ℚ),
      ¬ inheritsInjection env (injectionPhaseOf ty) (ancestor env group k) →
      ∃ r, getGroupInjectionTargetRate env ws ty k group eff = some r := by
  intro k
  induction k with
  | zero =>
    intro group eff h
    obtain ⟨r, hr⟩ := injection_ends env ws ty group eff h
    exact ⟨r, hr 0⟩
  | succ k ih =>
    intro group eff h
    by_cases hin : inheritsInjection env (injectionPhaseOf ty) group
    · rw [injection_step env ws ty k group eff hin]
      exact ih _ _ h
    · obtain ⟨r, hr⟩ := injection_ends env ws ty group eff hin
      exact ⟨r, hr (k + 1)⟩

/-! ## The assembled linear system -/

/-- The weighted sum of a row after `ifs_tpfa_assemble`: that of the row
before the doubling, plus the doubled value for row 0 of a system without
PRESSURE condition. -/
theorem rowWeighted_assemble (G : UnstructuredGrid) (W : Option Wells)
    (F : Option ifs_tpfa_forces) (trans gpress : Nat → ℚ) (h : ifs_tpfa_data)
    (hG : wellFormedGrid G) (hW : wellFormedWells G W) (hA : constructedFor G W h) (c : Nat)
    (hc : c < numUnknowns G W) (w : Nat → ℚ) :
    rowWeighted (ifs_tpfa_assemble G F trans gpress h).A c w
      = rowWeighted (assemble_core G F trans gpress h).2.A c w
        + if noPressure F ∧ c = 0 then w 0 * (assemble_core G F trans gpress h).2.A.sa 0
          else 0 := by
  have hB := constructedFor_built G W h (wellFormedGrid_cellsInRange G hG) hW hA
  obtain ⟨hm, hia0, hia1, hja0⟩ :=
    constructed_first G W h (wellFormedGrid_cellsInRange G hG) hW hA
  have hf1 := assemble_frame G F trans gpress h
  have hf2 := assemble_core_frame G F trans gpress h
  have hr1 : rowPositions (ifs_tpfa_assemble G F trans gpress h).A c = rowPositions h.A c := by
    unfold rowPositions
    rw [hf1.2.2.1]
    rfl
  have hr2 : rowPositions (assemble_core G F trans gpress h).2.A c = rowPositions h.A c := by
    unfold rowPositions
    rw [hf2.2.2.1]
    rfl
  have hj1 : (ifs_tpfa_assemble G F trans gpress h).A.ja = h.A.ja := hf1.2.2.2.1
  have hj2 : (assemble_core G F trans gpress h).2.A.ja = h.A.ja := hf2.2.2.2.1
  unfold rowWeighted
  rw [hr1, hr2, hj1, hj2]
  have hpt : ∀ p ∈ rowPositions h.A c,
      w (h.A.ja p) * (ifs_tpfa_assemble G F trans gpress h).A.sa p
      = w (h.A.ja p) * (assemble_core G F trans gpress h).2.A.sa p
        + if p = 0 then (if noPressure F then w 0 * (assemble_core G F trans gpress h).2.A.sa 0
            else 0) else 0 := by
    intro p _
    rw [assemble_sa]
    by_cases hp : p = 0
    · by_cases hn : noPressure F
      · rw [if_pos ⟨hn, hp⟩, if_pos hp, if_pos hn, hp, hja0]
        ring
      · rw [if_neg (fun hh => hn hh.1), if_pos hp, if_neg hn, add_zero]
    · rw [if_neg (fun hh => hp hh.2), if_neg hp, add_zero]
  rw [sum_map_congr _ _ _ hpt, sum_map_add_eq]
  congr 1
  unfold rowPositions
  rw [sum_range'_single (fun _ => if noPressure F then
    w 0 * (assemble_core G F trans gpress h).2.A.sa 0 else 0) 0]
  by_cases hc0 : c = 0
  · subst hc0
    have hcond : h.A.ia 0 ≤ 0 ∧ 0 < h.A.ia 0 + (h.A.ia (0 + 1) - h.A.ia 0) := by
      simp only [Nat.zero_add]
      omega
    rw [if_pos hcond]
    by_cases hn : noPressure F
    · rw [if_pos hn, if_pos ⟨hn, rfl⟩]
    · rw [if_neg hn, if_neg (fun hh => hn hh.1)]
  · have h1 := built_ia_le _ _ h.A hB 1 c (by omega) (by omega)
    rw [if_neg (by omega), if_neg (fun hh => hc0 hh.2)]

/-- The right-hand side of a cell after `ifs_tpfa_assemble`. -/
theorem assemble_b_cell (G : UnstructuredGrid) (W : Option Wells) (F : Option ifs_tpfa_forces)
    (trans gpress : Nat → ℚ) (h : ifs_tpfa_data) (hG : wellFormedGrid G)
    (hassert : forcesOnBoundary G F) (hm : h.A.m = numUnknowns G W) (c : Nat)
    (hc : c < G.number_of_cells) :
    (ifs_tpfa_assemble G F trans gpress h).b c
      = -rhsGravity G trans (compute_grav_term G gpress h.fgrav) c
        + rhsBoundary G F trans (compute_grav_term G gpress h.fgrav) c
        + rhsSource F c := by
  have hcm : c < h.A.m := by
    rw [hm]
    unfold numUnknowns
    omega
  rw [assemble_b_closed, sum_faceRhsTerm_cell G trans _ c hG hc,
    bcRhsSum_eq G F trans _ c hassert, if_pos hc]
  unfold vector_zero
  rw [if_pos hcm, zero_add]

/-- With zero gravity pressures the gravity term of every face of the grid
is zero. -/
theorem compute_grav_term_zero (G : UnstructuredGrid) (fgrav : Nat → ℚ) (f : Nat)
    (hf : f < G.number_of_faces) : compute_grav_term G (fun _ => 0) fgrav f = 0 := by
  rw [compute_grav_term_apply]
  unfold vector_zero
  rw [if_pos hf, zero_add]
  apply sum_map_zero_of_forall
  intro e _
  unfold gravTerm
  split_ifs
  · rw [mul_zero]
  · rfl

/-- The solver data of an assembled system has as many rows as the matrix
that was constructed. -/
theorem constructedFor_m (G : UnstructuredGrid) (W : Option Wells) (h : ifs_tpfa_data)
    (hG : cellsInRange G) (hW : wellFormedWells G W) (hA : constructedFor G W h) :
    h.A.m = numUnknowns G W :=
  (constructedFor_built G W h hG hW hA).1

/-! ## The balance equation of a cell -/

/-- If `x` solves the assembled system exactly, then in every cell the
contributions of the interior faces, of the PRESSURE conditions and of the
doubling balance the right-hand side. -/
theorem solves_balance (G : UnstructuredGrid) (W : Option Wells) (F : Option ifs_tpfa_forces)
    (trans gpress : Nat → ℚ) (h : ifs_tpfa_data) (hG : wellFormedGrid G)
    (hW : wellFormedWells G W) (hA : constructedFor G W h) (hassert : forcesOnBoundary G F)
    (x : Nat → ℚ)
    (hx : solvesSystem (withSolution (ifs_tpfa_assemble G F trans gpress h) x))
    (c : Nat) (hc : c < G.number_of_cells) :
    ((cellFaceSlots G c).map (slotWeighted G trans c x)).sum
        + x c * pressureDiag G F trans c
        + (if noPressure F ∧ c = 0 then x 0 * (assemble_core G F trans gpress h).2.A.sa 0
          else 0)
      = -rhsGravity G trans (compute_grav_term G gpress h.fgrav) c
        + rhsBoundary G F trans (compute_grav_term G gpress h.fgrav) c
        + rhsSource F c := by
  have hm := constructedFor_m G W h (wellFormedGrid_cellsInRange G hG) hW hA
  have hcm : c < numUnknowns G W := by
    unfold numUnknowns
    omega
  have hf := assemble_frame G F trans gpress h
  have hrow := hx c (by
    show c < (ifs_tpfa_assemble G F trans gpress h).A.m
    rw [hf.1, show (assembleStart G gpress h).A.m = h.A.m from rfl, hm]
    exact hcm)
  have hrow2 : rowWeighted (ifs_tpfa_assemble G F trans gpress h).A c x
      = (ifs_tpfa_assemble G F trans gpress h).b c := hrow
  rw [rowWeighted_assemble G W F trans gpress h hG hW hA c hcm,
    rowWeighted_core G W F trans gpress h hG hW hA hassert c hcm, if_pos hc,
    assemble_b_cell G W F trans gpress h hG hassert hm c hc] at hrow2
  exact hrow2

/-! ## The one-cell scenario -/

theorem bcEntries_pressureAt (v : ℚ) : bcEntries (pressureAt v) = [(0, 0)] := by
  have h : bcEntries (pressureAt v) = bcEntries onePressure := rfl
  rw [h]
  decide

theorem forcesOnBoundary_pressureAt (v : ℚ) :
    forcesOnBoundary oneCellGrid (onlyBC (pressureAt v)) := by
  show bcOnBoundary oneCellGrid (pressureAt v)
  intro e he _
  rw [bcEntries_pressureAt, List.mem_singleton] at he
  subst he
  have hq : bcOnBoundary oneCellGrid onePressure := by decide
  exact hq (0, 0) (by decide) (Or.inl rfl)

theorem not_noPressure_pressureAt (v : ℚ) : ¬ noPressure (onlyBC (pressureAt v)) := by
  intro hno
  have h1 : ∀ i, i < (pressureAt v).nbc → (pressureAt v).type i ≠ FlowBCType.BC_PRESSURE := hno
  exact h1 0 (show 0 < 1 by decide) rfl

theorem pressureDiag_pressureAt (v : ℚ) (trans : Nat → ℚ) :
    pressureDiag oneCellGrid (onlyBC (pressureAt v)) trans 0 = trans 0 := by
  show ((bcEntriesAt oneCellGrid (pressureAt v) FlowBCType.BC_PRESSURE 0).map
    (fun e => trans ((pressureAt v).face e.2))).sum = trans 0
  have hE : bcEntriesAt oneCellGrid (pressureAt v) FlowBCType.BC_PRESSURE 0 = [(0, 0)] := by
    unfold bcEntriesAt
    rw [bcEntries_pressureAt]
    rfl
  rw [hE]
  simp [pressureAt]

theorem rhsBoundary_pressureAt (v : ℚ) (trans fg : Nat → ℚ) (hfg : fg 0 = 0) :
    rhsBoundary oneCellGrid (onlyBC (pressureAt v)) trans fg 0 = trans 0 * v := by
  show rhsPressure oneCellGrid (pressureAt v) trans fg 0 + rhsFlux oneCellGrid (pressureAt v) 0
    = trans 0 * v
  have hE : bcEntriesAt oneCellGrid (pressureAt v) FlowBCType.BC_PRESSURE 0 = [(0, 0)] := by
    unfold bcEntriesAt
    rw [bcEntries_pressureAt]
    rfl
  have hE2 : bcEntriesAt oneCellGrid (pressureAt v) FlowBCType.BC_FLUX_TOTVOL 0 = [] := by
    unfold bcEntriesAt
    rw [bcEntries_pressureAt]
    rfl
  unfold rhsPressure rhsFlux
  rw [hE, hE2]
  simp [pressureAt, hfg]

theorem rhsGravity_oneCell (trans fg : Nat → ℚ) (hfg : fg 0 = 0) :
    rhsGravity oneCellGrid trans fg 0 = 0 := by
  unfold rhsGravity
  have hs : cellFaceSlots oneCellGrid 0 = [0] := by decide
  rw [hs]
  simp [oneCellGrid, hfg]

theorem slots_oneCell (trans x : Nat → ℚ) :
    ((cellFaceSlots oneCellGrid 0).map (slotWeighted oneCellGrid trans 0 x)).sum = 0 := by
  have hs : cellFaceSlots oneCellGrid 0 = [0] := by decide
  have ho : ¬ 0 ≤ otherCell oneCellGrid 0 (oneCellGrid.cell_faces 0) := by decide
  rw [hs]
  unfold slotWeighted
  simp only [List.map_cons, List.map_nil, List.sum_cons, List.sum_nil, if_neg ho, add_zero]

/-! ## The value at storage position 0 -/

/-- Before the doubling, on a grid whose interior faces are listed once in
each of their two distinct cells, the value stored at the diagonal position
of a cell is the sum of the transmissibilities of its interior faces and of
its faces under a PRESSURE condition. -/
theorem core_diag_value (G : UnstructuredGrid) (W : Option Wells)
    (F : Option ifs_tpfa_forces) (trans gpress : Nat → ℚ) (h : ifs_tpfa_data)
    (hG : wellFormedGrid G) (hW : wellFormedWells G W) (hA : constructedFor G W h)
    (hassert : forcesOnBoundary G F) (honce : listedOnce G) (hself : noSelfFaces G)
    (c : Nat) (hc : c < G.number_of_cells) :
    (assemble_core G F trans gpress h).2.A.sa
        (csrmatrix_elm_index c c (assemble_core G F trans gpress h).2.A)
      = diagFaces G trans c + pressureDiag G F trans c
    ∧ (∀ p, (assemble_core G F trans gpress h).2.A.ia c ≤ p →
        p < (assemble_core G F trans gpress h).2.A.ia (c + 1) →
        (assemble_core G F trans gpress h).2.A.ja p = c →
        p = csrmatrix_elm_index c c (assemble_core G F trans gpress h).2.A) := by
  have hcm : c < numUnknowns G W := by
    unfold numUnknowns
    omega
  have hB := constructedFor_built G W h (wellFormedGrid_cellsInRange G hG) hW hA
  have hf := assemble_core_frame G F trans gpress h
  have hB2 : builtPattern (patternEvents G W) (numUnknowns G W)
      (assemble_core G F trans gpress h).2.A :=
    builtPattern_congr _ _ h.A _ hf.1 hf.2.1 hf.2.2.1 hf.2.2.2.1 hB
  obtain ⟨rest, hrest, hnot⟩ := rowCols_pattern_cell G W hW hself c hc
  obtain ⟨s1, s2⟩ := single_entry _ _ _ hB2 c c hcm rest hrest hnot
  refine ⟨?_, s2⟩
  rw [← s1, csrTotal_eq_rowWeighted,
    rowWeighted_core G W F trans gpress h hG hW hA hassert c hcm, if_pos hc, if_pos rfl,
    one_mul,
    sum_map_congr _ _ _ (fun i hi => slotWeighted_diag G trans hG hself c hc i hi)]
  congr 1
  exact sum_slots_eq_sum_faces G hG honce c hc
    (fun f => if interiorFace G f
        ∧ (G.face_cells (2 * f + 0) = (c : Int) ∨ G.face_cells (2 * f + 1) = (c : Int))
      then trans f else 0)
    (fun f _ hne => by
      by_contra hcon
      exact hne (if_neg hcon))

/-- The value that the doubling multiplies by two. -/
theorem core_sa_zero (G : UnstructuredGrid) (W : Option Wells)
    (F : Option ifs_tpfa_forces) (trans gpress : Nat → ℚ) (h : ifs_tpfa_data)
    (hG : wellFormedGrid G) (hW : wellFormedWells G W) (hA : constructedFor G W h)
    (hassert : forcesOnBoundary G F) (honce : listedOnce G) (hself : noSelfFaces G)
    (hc : 0 < G.number_of_cells) :
    (assemble_core G F trans gpress h).2.A.sa 0
      = diagFaces G trans 0 + pressureDiag G F trans 0 := by
  obtain ⟨h1, h2⟩ := core_diag_value G W F trans gpress h hG hW hA hassert honce hself 0 hc
  obtain ⟨_, hia0, hia1, hja0⟩ :=
    constructed_first G W h (wellFormedGrid_cellsInRange G hG) hW hA
  have hf := assemble_core_frame G F trans gpress h
  have hp : 0 = csrmatrix_elm_index 0 0 (assemble_core G F trans gpress h).2.A := by
    apply h2 0
    · rw [hf.2.2.1]
      exact Nat.le_of_eq hia0
    · rw [hf.2.2.1]
      exact hia1
    · rw [hf.2.2.2.1]
      exact hja0
  rw [← hp] at h1
  exact h1

/-! ## The two-cell scenario -/

theorem slots_twoCell_zero (trans x : Nat → ℚ) :
    ((cellFaceSlots twoCellGrid 0).map (slotWeighted twoCellGrid trans 0 x)).sum
      = x 0 * trans 0 - x 1 * trans 0 := by
  have hs : cellFaceSlots twoCellGrid 0 = [0, 1] := by decide
  have hf0 : twoCellGrid.cell_faces 0 = 0 := rfl
  have hf1 : twoCellGrid.cell_faces 1 = 1 := rfl
  have ho0 : otherCell twoCellGrid 0 0 = 1 := by decide
  have ho1 : otherCell twoCellGrid 0 1 = -1 := by decide
  rw [hs]
  unfold slotWeighted
  simp only [List.map_cons, List.map_nil, List.sum_cons, List.sum_nil, hf0, hf1, ho0, ho1]
  norm_num

theorem slots_twoCell_one (trans x : Nat → ℚ) :
    ((cellFaceSlots twoCellGrid 1).map (slotWeighted twoCellGrid trans 1 x)).sum
      = x 1 * trans 0 - x 0 * trans 0 := by
  have hs : cellFaceSlots twoCellGrid 1 = [2, 3] := by decide
  have hf0 : twoCellGrid.cell_faces 2 = 0 := rfl
  have hf1 : twoCellGrid.cell_faces 3 = 2 := rfl
  have ho0 : otherCell twoCellGrid 1 0 = 0 := by decide
  have ho1 : otherCell twoCellGrid 1 2 = -1 := by decide
  rw [hs]
  unfold slotWeighted
  simp only [List.map_cons, List.map_nil, List.sum_cons, List.sum_nil, hf0, hf1, ho0, ho1]
  norm_num

theorem diagFaces_twoCell (trans : Nat → ℚ) : diagFaces twoCellGrid trans 0 = trans 0 := by
  have h0 : interiorFace twoCellGrid 0
      ∧ (twoCellGrid.face_cells (2 * 0 + 0) = ((0 : Nat) : Int)
        ∨ twoCellGrid.face_cells (2 * 0 + 1) = ((0 : Nat) : Int)) := by decide
  have h1 : ¬ (interiorFace twoCellGrid 1
      ∧ (twoCellGrid.face_cells (2 * 1 + 0) = ((0 : Nat) : Int)
        ∨ twoCellGrid.face_cells (2 * 1 + 1) = ((0 : Nat) : Int))) := by decide
  have h2 : ¬ (interiorFace twoCellGrid 2
      ∧ (twoCellGrid.face_cells (2 * 2 + 0) = ((0 : Nat) : Int)
        ∨ twoCellGrid.face_cells (2 * 2 + 1) = ((0 : Nat) : Int))) := by decide
  unfold diagFaces
  have hr : List.range twoCellGrid.number_of_faces = [0, 1, 2] := by decide
  rw [hr]
  simp only [List.map_cons, List.map_nil, List.sum_cons, List.sum_nil, if_pos h0, if_neg h1,
    if_neg h2]
  ring

theorem rhsGravity_twoCell (trans fg : Nat → ℚ) (c : Nat) (hc : c < 2)
    (hfg : ∀ f, f < 3 → fg f = 0) : rhsGravity twoCellGrid trans fg c = 0 := by
  unfold rhsGravity
  apply sum_map_zero_of_forall
  intro i hi
  have hG : wellFormedGrid twoCellGrid := by decide
  have hlt := (hG.2.2.1 c hc i hi).1
  rw [hfg _ hlt]
  ring

/-- The two-cell system: rows, right-hand side, a solution, and the flux
across the shared face for every solution, for forces without PRESSURE
condition that leave face 0 unlisted and put `q` into cell 0 and `-q` into
cell 1. -/
theorem twoCell_system (F : Option ifs_tpfa_forces) (trans : Nat → ℚ) (h : ifs_tpfa_data)
    (q : ℚ) (hA : constructedFor twoCellGrid none h) (hassert : forcesOnBoundary twoCellGrid F)
    (hno : noPressure F)
    (hunl : ∀ bc, forcesBC F = some bc → ∀ e ∈ bcEntries bc, bcHandled bc e.1 →
      bc.face e.2 ≠ 0)
    (hrhs : ∀ fg : Nat → ℚ, rhsBoundary twoCellGrid F trans fg 0 + rhsSource F 0 = q
      ∧ rhsBoundary twoCellGrid F trans fg 1 + rhsSource F 1 = -q) :
    (∀ x, rowWeighted (ifs_tpfa_assemble twoCellGrid F trans (fun _ => 0) h).A 0 x
        = 2 * trans 0 * x 0 - trans 0 * x 1
      ∧ rowWeighted (ifs_tpfa_assemble twoCellGrid F trans (fun _ => 0) h).A 1 x
        = trans 0 * x 1 - trans 0 * x 0)
    ∧ (ifs_tpfa_assemble twoCellGrid F trans (fun _ => 0) h).b 0 = q
    ∧ (ifs_tpfa_assemble twoCellGrid F trans (fun _ => 0) h).b 1 = -q
    ∧ (ifs_tpfa_assemble twoCellGrid F trans (fun _ => 0) h).A.m = 2
    ∧ (∀ x soln, (ifs_tpfa_press_flux twoCellGrid F trans
          (withSolution (ifs_tpfa_assemble twoCellGrid F trans (fun _ => 0) h) x)
          soln).face_flux 0 = trans 0 * (x 0 - x 1)) := by
  have hG : wellFormedGrid twoCellGrid := by decide
  have hW : wellFormedWells twoCellGrid none := trivial
  have hm := constructedFor_m twoCellGrid none h (wellFormedGrid_cellsInRange _ hG) hW hA
  have hn : numUnknowns twoCellGrid none = 2 := by decide
  have hf := assemble_frame twoCellGrid F trans (fun _ => 0) h
  have hfg : ∀ f, f < 3 → compute_grav_term twoCellGrid (fun _ => 0) h.fgrav f = 0 :=
    fun f hf3 => compute_grav_term_zero twoCellGrid h.fgrav f hf3
  have hs0 := core_sa_zero twoCellGrid none F trans (fun _ => 0) h hG hW hA hassert
    (by decide) (by decide) (by decide)
  rw [diagFaces_twoCell, pressureDiag_noPressure _ _ _ _ hno, add_zero] at hs0
  refine ⟨fun x => ⟨?_, ?_⟩, ?_, ?_, ?_, ?_⟩
  · rw [rowWeighted_assemble twoCellGrid none F trans _ h hG hW hA 0 (by decide),
      rowWeighted_core twoCellGrid none F trans _ h hG hW hA hassert 0 (by decide),
      if_pos (by decide), slots_twoCell_zero, pressureDiag_noPressure _ _ _ _ hno,
      if_pos ⟨hno, rfl⟩, hs0]
    ring
  · rw [rowWeighted_assemble twoCellGrid none F trans _ h hG hW hA 1 (by decide),
      rowWeighted_core twoCellGrid none F trans _ h hG hW hA hassert 1 (by decide),
      if_pos (by decide), slots_twoCell_one, pressureDiag_noPressure _ _ _ _ hno,
      if_neg (fun hh => absurd hh.2 (by decide))]
    ring
  · rw [assemble_b_cell twoCellGrid none F trans _ h hG hassert hm 0 (by decide),
      rhsGravity_twoCell trans _ 0 (by decide) hfg, neg_zero, zero_add]
    exact (hrhs _).1
  · rw [assemble_b_cell twoCellGrid none F trans _ h hG hassert hm 1 (by decide),
      rhsGravity_twoCell trans _ 1 (by decide) hfg, neg_zero, zero_add]
    exact (hrhs _).2
  · rw [hf.1, show (assembleStart twoCellGrid (fun _ => 0) h).A.m = h.A.m from rfl, hm, hn]
  · intro x soln
    rw [press_flux_face_flux_unlisted twoCellGrid F trans _ soln 0 (by decide) hunl]
    unfold fluxVal
    have hint : 0 ≤ twoCellGrid.face_cells (2 * 0 + 0) ∧ 0 ≤ twoCellGrid.face_cells (2 * 0 + 1) := by
      decide
    rw [if_pos hint]
    have hfg0 : (withSolution (ifs_tpfa_assemble twoCellGrid F trans (fun _ => 0) h) x).fgrav 0
        = 0 := by
      show (ifs_tpfa_assemble twoCellGrid F trans (fun _ => 0) h).fgrav 0 = 0
      rw [assemble_fgrav]
      exact hfg 0 (by decide)
    rw [hfg0, press_flux_cell_press, press_flux_cell_press]
    have h0 : (twoCellGrid.face_cells (2 * 0 + 0)).toNat = 0 := by decide
    have h1 : (twoCellGrid.face_cells (2 * 0 + 1)).toNat = 1 := by decide
    rw [h0, h1, if_pos (by decide), if_pos (by decide)]
    show trans 0 * (x 0 - x 1 + 0) = trans 0 * (x 0 - x 1)
    ring

theorem bcEntries_twoCellFluxes (q : ℚ) : bcEntries (twoCellFluxes q) = [(0, 0), (1, 1)] := by
  have h : bcEntries (twoCellFluxes q) = bcEntries (twoCellFluxes 0) := rfl
  rw [h]
  decide

theorem twoCellFluxes_facts (q : ℚ) (trans : Nat → ℚ) :
    forcesOnBoundary twoCellGrid (onlyBC (twoCellFluxes q))
    ∧ noPressure (onlyBC (twoCellFluxes q))
    ∧ (∀ bc, forcesBC (onlyBC (twoCellFluxes q)) = some bc → ∀ e ∈ bcEntries bc,
        bcHandled bc e.1 → bc.face e.2 ≠ 0)
    ∧ (∀ fg : Nat → ℚ,
        rhsBoundary twoCellGrid (onlyBC (twoCellFluxes q)) trans fg 0
          + rhsSource (onlyBC (twoCellFluxes q)) 0 = q
        ∧ rhsBoundary twoCellGrid (onlyBC (twoCellFluxes q)) trans fg 1
          + rhsSource (onlyBC (twoCellFluxes q)) 1 = -q) := by
  have hq : bcOnBoundary twoCellGrid (twoCellFluxes 0) := by decide
  refine ⟨?_, ?_, ?_, ?_⟩
  · show bcOnBoundary twoCellGrid (twoCellFluxes q)
    intro e he _
    rw [bcEntries_twoCellFluxes] at he
    exact hq e (by rw [bcEntries_twoCellFluxes]; exact he) (Or.inr rfl)
  · show ∀ i, i < (twoCellFluxes q).nbc → (twoCellFluxes q).type i ≠ FlowBCType.BC_PRESSURE
    intro i _ hh
    have hne : ¬ FlowBCType.BC_FLUX_TOTVOL = FlowBCType.BC_PRESSURE := by decide
    exact hne hh
  · intro bc hbc e he _
    have hbc2 : twoCellFluxes q = bc := Option.some.inj hbc
    subst hbc2
    rw [bcEntries_twoCellFluxes] at he
    simp only [List.mem_cons, List.mem_singleton, List.not_mem_nil, or_false] at he
    rcases he with rfl | rfl
    · show (if (0 : Nat) = 0 then 1 else 2) ≠ 0
      decide
    · show (if (1 : Nat) = 0 then 1 else 2) ≠ 0
      decide
  · intro fg
    have hP : ∀ c, bcEntriesAt twoCellGrid (twoCellFluxes q) FlowBCType.BC_PRESSURE c = [] := by
      intro c
      unfold bcEntriesAt
      rw [bcEntries_twoCellFluxes, List.filter_eq_nil_iff]
      intro e _
      have : ¬ (twoCellFluxes q).type e.1 = FlowBCType.BC_PRESSURE := by
        show ¬ FlowBCType.BC_FLUX_TOTVOL = FlowBCType.BC_PRESSURE
        decide
      simp [this]
    have hF0 : bcEntriesAt twoCellGrid (twoCellFluxes q) FlowBCType.BC_FLUX_TOTVOL 0
        = [(0, 0)] := by
      unfold bcEntriesAt
      rw [bcEntries_twoCellFluxes]
      rfl
    have hF1 : bcEntriesAt twoCellGrid (twoCellFluxes q) FlowBCType.BC_FLUX_TOTVOL 1
        = [(1, 1)] := by
      unfold bcEntriesAt
      rw [bcEntries_twoCellFluxes]
      rfl
    constructor
    · show rhsPressure twoCellGrid (twoCellFluxes q) trans fg 0
        + rhsFlux twoCellGrid (twoCellFluxes q) 0 + 0 = q
      unfold rhsPressure rhsFlux
      rw [hP, hF0]
      simp [twoCellFluxes]
    · show rhsPressure twoCellGrid (twoCellFluxes q) trans fg 1
        + rhsFlux twoCellGrid (twoCellFluxes q) 1 + 0 = -q
      unfold rhsPressure rhsFlux
      rw [hP, hF1]
      simp [twoCellFluxes]

theorem twoCellSources_facts (q : ℚ) (trans : Nat → ℚ) :
    forcesOnBoundary twoCellGrid (twoCellSources q)
    ∧ noPressure (twoCellSources q)
    ∧ (∀ bc, forcesBC (twoCellSources q) = some bc → ∀ e ∈ bcEntries bc,
        bcHandled bc e.1 → bc.face e.2 ≠ 0)
    ∧ (∀ fg : Nat → ℚ,
        rhsBoundary twoCellGrid (twoCellSources q) trans fg 0
          + rhsSource (twoCellSources q) 0 = q
        ∧ rhsBoundary twoCellGrid (twoCellSources q) trans fg 1
          + rhsSource (twoCellSources q) 1 = -q) := by
  refine ⟨trivial, trivial, ?_, ?_⟩
  · intro bc hbc
    exact absurd hbc (by simp [forcesBC, twoCellSources])
  · intro fg
    constructor
    · show (0 : ℚ) + (if (0 : Nat) = 0 then q else -q) = q
      simp
    · show (0 : ℚ) + (if (1 : Nat) = 0 then q else -q) = -q
      simp

/-! ## Uniform PRESSURE conditions -/

theorem sum_map_nonneg {ι : Type} (f : ι → ℚ) :
    ∀ L : List ι, (∀ e ∈ L, 0 ≤ f e) → 0 ≤ (L.map f).sum := by
  intro L
  induction L with
  | nil => intro _; simp
  | cons e L ih =>
    intro h
    rw [List.map_cons, List.sum_cons]
    have h1 := h e (List.mem_cons_self _ _)
    have h2 := ih (fun e' he' => h e' (List.mem_cons_of_mem _ he'))
    linarith

theorem sum_map_eq_zero_of_nonneg {ι : Type} (f : ι → ℚ) :
    ∀ L : List ι, (∀ e ∈ L, 0 ≤ f e) → (L.map f).sum = 0 → ∀ e ∈ L, f e = 0 := by
  intro L
  induction L with
  | nil => intro _ _ e he; exact absurd he (List.not_mem_nil e)
  | cons a L ih =>
    intro h hs e he
    rw [List.map_cons, List.sum_cons] at hs
    have h1 := h a (List.mem_cons_self _ _)
    have h2 := sum_map_nonneg f L (fun e' he' => h e' (List.mem_cons_of_mem _ he'))
    rcases List.mem_cons.mp he with rfl | hmem
    · linarith
    · exact ih (fun e' he' => h e' (List.mem_cons_of_mem _ he')) (by linarith) e hmem

theorem sum_map_pos {ι : Type} (f : ι → ℚ) :
    ∀ L : List ι, L ≠ [] → (∀ e ∈ L, 0 < f e) → 0 < (L.map f).sum := by
  intro L
  induction L with
  | nil => intro h _; exact absurd rfl h
  | cons e L ih =>
    intro _ h
    rw [List.map_cons, List.sum_cons]
    have h1 := h e (List.mem_cons_self _ _)
    have h2 := sum_map_nonneg f L (fun e' he' => le_of_lt (h e' (List.mem_cons_of_mem _ he')))
    linarith

/-- With PRESSURE conditions that all prescribe `v` and gravity terms that
vanish on the faces of the grid, the boundary part of the right-hand side of
a cell is `v` times the sum of the transmissibilities of its PRESSURE
faces. -/
theorem rhsBoundary_uniform (G : UnstructuredGrid) (F : Option ifs_tpfa_forces)
    (trans fg : Nat → ℚ) (v : ℚ) (c : Nat) (hassert : forcesOnBoundary G F)
    (hall : allPressure F v) (hfg : ∀ f, f < G.number_of_faces → fg f = 0) :
    rhsBoundary G F trans fg c = v * pressureDiag G F trans c := by
  unfold rhsBoundary pressureDiag
  unfold forcesOnBoundary at hassert
  unfold allPressure at hall
  cases hbc : forcesBC F with
  | none =>
    simp only []
    rw [mul_zero]
  | some bc =>
    rw [hbc] at hassert hall
    simp only []
    have hflux : rhsFlux G bc c = 0 := by
      unfold rhsFlux
      apply sum_map_zero_of_forall
      intro e he
      unfold bcEntriesAt at he
      rw [List.mem_filter] at he
      have h1 := (of_decide_eq_true he.2).1
      have h2 := (hall e.1 (mem_bcEntries bc e he.1).1).1
      rw [h2] at h1
      exact absurd h1 (by decide)
    rw [hflux, add_zero]
    unfold rhsPressure
    rw [← sum_map_mul_left]
    apply sum_map_congr
    intro e he
    unfold bcEntriesAt at he
    rw [List.mem_filter] at he
    have h1 := (of_decide_eq_true he.2).1
    have hv := (hall e.1 (mem_bcEntries bc e he.1).1).2
    have hf := (hassert e he.1 (Or.inl h1)).1
    rw [hv, hfg _ hf]
    ring

/-- The balance of a cell for an exact solution when all PRESSURE conditions
prescribe `v`, gravity is zero and the cell has no source. -/
theorem solves_balance_uniform (G : UnstructuredGrid) (W : Option Wells)
    (F : Option ifs_tpfa_forces) (trans : Nat → ℚ) (h : ifs_tpfa_data) (v : ℚ)
    (hG : wellFormedGrid G) (hW : wellFormedWells G W) (hA : constructedFor G W h)
    (hassert : forcesOnBoundary G F) (hall : allPressure F v) (hsome : ¬ noPressure F)
    (x : Nat → ℚ)
    (hx : solvesSystem (withSolution (ifs_tpfa_assemble G F trans (fun _ => 0) h) x))
    (c : Nat) (hc : c < G.number_of_cells) (hsrc : rhsSource F c = 0) :
    ((cellFaceSlots G c).map (slotWeighted G trans c x)).sum
      + pressureDiag G F trans c * (x c - v) = 0 := by
  have hb := solves_balance G W F trans (fun _ => 0) h hG hW hA hassert x hx c hc
  have hfg : ∀ f, f < G.number_of_faces → compute_grav_term G (fun _ => 0) h.fgrav f = 0 :=
    fun f hf => compute_grav_term_zero G h.fgrav f hf
  have hgr : rhsGravity G trans (compute_grav_term G (fun _ => 0) h.fgrav) c = 0 := by
    unfold rhsGravity
    apply sum_map_zero_of_forall
    intro i hi
    rw [hfg _ (hG.2.2.1 c hc i hi).1]
    ring
  rw [if_neg (fun hh => hsome hh.1), hgr, rhsBoundary_uniform G F trans _ v c hassert hall hfg,
    hsrc] at hb
  linarith

/-! ## The discrete maximum principle -/

theorem pressureDiag_nonneg (G : UnstructuredGrid) (F : Option ifs_tpfa_forces)
    (trans : Nat → ℚ) (c : Nat) (hassert : forcesOnBoundary G F)
    (hpos : ∀ f, f < G.number_of_faces → 0 < trans f) : 0 ≤ pressureDiag G F trans c := by
  unfold pressureDiag
  unfold forcesOnBoundary at hassert
  cases hbc : forcesBC F with
  | none => exact le_refl _
  | some bc =>
    rw [hbc] at hassert
    simp only []
    apply sum_map_nonneg
    intro e he
    unfold bcEntriesAt at he
    rw [List.mem_filter] at he
    have h1 := (of_decide_eq_true he.2).1
    exact le_of_lt (hpos _ (hassert e he.1 (Or.inl h1)).1)

theorem pressureDiag_pos (G : UnstructuredGrid) (F : Option ifs_tpfa_forces)
    (trans : Nat → ℚ) (c : Nat) (hassert : forcesOnBoundary G F)
    (hpos : ∀ f, f < G.number_of_faces → 0 < trans f) (hface : hasPressureFace G F c) :
    0 < pressureDiag G F trans c := by
  unfold pressureDiag
  unfold forcesOnBoundary at hassert
  unfold hasPressureFace at hface
  cases hbc : forcesBC F with
  | none =>
    rw [hbc] at hface
    exact absurd hface (by simp)
  | some bc =>
    rw [hbc] at hassert hface
    simp only []
    apply sum_map_pos _ _ hface
    intro e he
    unfold bcEntriesAt at he
    rw [List.mem_filter] at he
    have h1 := (of_decide_eq_true he.2).1
    exact hpos _ (hassert e he.1 (Or.inl h1)).1

/-- The other cell of a face listed for a cell of a well-formed grid is a
cell of the grid when it is non-negative. -/
theorem otherCell_lt (G : UnstructuredGrid) (hG : wellFormedGrid G) (c : Nat)
    (hc : c < G.number_of_cells) (i : Nat) (hi : i ∈ cellFaceSlots G c)
    (ho : 0 ≤ otherCell G c (G.cell_faces i)) :
    (otherCell G c (G.cell_faces i)).toNat < G.number_of_cells := by
  have hf := (hG.2.2.1 c hc i hi).1
  have hr := hG.2.2.2 (G.cell_faces i) hf
  unfold otherCell at ho ⊢
  split_ifs at ho ⊢ <;> omega

/-- At a cell where `y` is maximal, every face slot contributes a
non-negative amount to the balance. -/
theorem slotWeighted_nonneg (G : UnstructuredGrid) (trans : Nat → ℚ) (hG : wellFormedGrid G)
    (hpos : ∀ f, f < G.number_of_faces → 0 < trans f) (y : Nat → ℚ) (c : Nat)
    (hc : c < G.number_of_cells) (hmax : ∀ c2, c2 < G.number_of_cells → y c2 ≤ y c)
    (i : Nat) (hi : i ∈ cellFaceSlots G c) : 0 ≤ slotWeighted G trans c y i := by
  unfold slotWeighted
  by_cases ho : 0 ≤ otherCell G c (G.cell_faces i)
  · rw [if_pos ho]
    have h1 := hmax _ (otherCell_lt G hG c hc i hi ho)
    have h2 := hpos _ (hG.2.2.1 c hc i hi).1
    nlinarith
  · rw [if_neg ho]

/-- At a cell where `y` is maximal and positive, the balance forces every
face slot to contribute zero and the cell to have no PRESSURE face. -/
theorem balance_at_max (G : UnstructuredGrid) (F : Option ifs_tpfa_forces)
    (trans : Nat → ℚ) (hG : wellFormedGrid G) (hassert : forcesOnBoundary G F)
    (hpos : ∀ f, f < G.number_of_faces → 0 < trans f) (y : Nat → ℚ)
    (hbal : ∀ c, c < G.number_of_cells →
      ((cellFaceSlots G c).map (slotWeighted G trans c y)).sum
        + pressureDiag G F trans c * y c = 0)
    (c : Nat) (hc : c < G.number_of_cells)
    (hmax : ∀ c2, c2 < G.number_of_cells → y c2 ≤ y c) (hy : 0 < y c) :
    (∀ i ∈ cellFaceSlots G c, slotWeighted G trans c y i = 0)
    ∧ pressureDiag G F trans c = 0 := by
  have h1 := sum_map_nonneg (slotWeighted G trans c y) (cellFaceSlots G c)
    (fun i hi => slotWeighted_nonneg G trans hG hpos y c hc hmax i hi)
  have h2 := pressureDiag_nonneg G F trans c hassert hpos
  have h3 := hbal c hc
  have h4 : 0 ≤ pressureDiag G F trans c * y c := mul_nonneg h2 (le_of_lt hy)
  have hs : ((cellFaceSlots G c).map (slotWeighted G trans c y)).sum = 0 := by linarith
  have hd : pressureDiag G F trans c * y c = 0 := by linarith
  refine ⟨sum_map_eq_zero_of_nonneg _ _
    (fun i hi => slotWeighted_nonneg G trans hG hpos y c hc hmax i hi) hs, ?_⟩
  rcases mul_eq_zero.mp hd with h | h
  · exact h
  · linarith

/-- A cell where `y` attains a positive maximum is not joined to a cell with
a PRESSURE face. -/
theorem not_joined_at_max (G : UnstructuredGrid) (F : Option ifs_tpfa_forces)
    (trans : Nat → ℚ) (hG : wellFormedGrid G) (hassert : forcesOnBoundary G F)
    (hpos : ∀ f, f < G.number_of_faces → 0 < trans f) (y : Nat → ℚ)
    (hbal : ∀ c, c < G.number_of_cells →
      ((cellFaceSlots G c).map (slotWeighted G trans c y)).sum
        + pressureDiag G F trans c * y c = 0)
    (M : ℚ) (hM : 0 < M) (hmax : ∀ c2, c2 < G.number_of_cells → y c2 ≤ M) :
    ∀ (k c : Nat), c < G.number_of_cells → y c = M → joinedToPressure G F k c = false := by
  have hno : ∀ c, c < G.number_of_cells → y c = M → ¬ hasPressureFace G F c := by
    intro c hc hyc hface
    have h1 := (balance_at_max G F trans hG hassert hpos y hbal c hc
      (fun c2 hc2 => by rw [hyc]; exact hmax c2 hc2) (by rw [hyc]; exact hM)).2
    have h2 := pressureDiag_pos G F trans c hassert hpos hface
    linarith
  intro k
  induction k with
  | zero =>
    intro c hc hyc
    unfold joinedToPressure
    exact decide_eq_false (hno c hc hyc)
  | succ k ih =>
    intro c hc hyc
    unfold joinedToPressure
    rw [decide_eq_false (hno c hc hyc), Bool.false_or, List.any_eq_false]
    intro i hi
    by_cases ho : 0 ≤ otherCell G c (G.cell_faces i)
    · have hlt := otherCell_lt G hG c hc i hi ho
      have hz := (balance_at_max G F trans hG hassert hpos y hbal c hc
        (fun c2 hc2 => by rw [hyc]; exact hmax c2 hc2) (by rw [hyc]; exact hM)).1 i hi
      unfold slotWeighted at hz
      rw [if_pos ho] at hz
      have htp := hpos _ (hG.2.2.1 c hc i hi).1
      have hyo : y (otherCell G c (G.cell_faces i)).toNat = M := by
        have : (y c - y (otherCell G c (G.cell_faces i)).toNat) * trans (G.cell_faces i)
            = 0 := by linarith
        rcases mul_eq_zero.mp this with h | h
        · linarith
        · linarith
      rw [ih _ hlt hyo]
      simp
    · simp [ho]

/-- The discrete maximum principle: a field that satisfies the homogeneous
balance of every cell is nowhere positive, when all transmissibilities are
positive and every cell is joined to a cell with a PRESSURE face. -/
theorem max_principle (G : UnstructuredGrid) (F : Option ifs_tpfa_forces)
    (trans : Nat → ℚ) (hG : wellFormedGrid G) (hassert : forcesOnBoundary G F)
    (hpos : ∀ f, f < G.number_of_faces → 0 < trans f)
    (hconn : ∀ c, c < G.number_of_cells → ∃ k, joinedToPressure G F k c = true)
    (y : Nat → ℚ)
    (hbal : ∀ c, c < G.number_of_cells →
      ((cellFaceSlots G c).map (slotWeighted G trans c y)).sum
        + pressureDiag G F trans c * y c = 0) :
    ∀ c, c < G.number_of_cells → y c ≤ 0 := by
  intro c hc
  by_contra hcon
  have hne : (Finset.range G.number_of_cells).Nonempty := ⟨c, Finset.mem_range.mpr hc⟩
  obtain ⟨cm, hcm, hmax⟩ := Finset.exists_max_image (Finset.range G.number_of_cells) y hne
  have hcm2 := Finset.mem_range.mp hcm
  have hM : 0 < y cm := by
    have := hmax c (Finset.mem_range.mpr hc)
    linarith
  obtain ⟨k, hk⟩ := hconn cm hcm2
  have := not_joined_at_max G F trans hG hassert hpos y hbal (y cm) hM
    (fun c2 hc2 => hmax c2 (Finset.mem_range.mpr hc2)) k cm hcm2 rfl
  rw [this] at hk
  exact absurd hk (by decide)

/-! ## Exact solutions under uniform PRESSURE conditions -/

/-- The right-hand side of a well unknown after `ifs_tpfa_assemble`. -/
theorem assemble_b_well (G : UnstructuredGrid) (W : Option Wells) (F : Option ifs_tpfa_forces)
    (trans gpress : Nat → ℚ) (h : ifs_tpfa_data) (hG : wellFormedGrid G)
    (hassert : forcesOnBoundary G F) (hm : h.A.m = numUnknowns G W) (k : Nat)
    (hk : G.number_of_cells ≤ k) (hkm : k < numUnknowns G W) :
    (ifs_tpfa_assemble G F trans gpress h).b k = 0 := by
  rw [assemble_b_closed, sum_faceRhsTerm_not_cell G trans _ k hk,
    bcRhsSum_not_cell G F trans _ k hG hassert hk, if_neg (by omega)]
  unfold vector_zero
  rw [if_pos (by rw [hm]; exact hkm)]
  simp

/-- No PRESSURE condition acts on an unknown that is not a cell. -/
theorem pressureDiag_not_cell (G : UnstructuredGrid) (F : Option ifs_tpfa_forces)
    (trans : Nat → ℚ) (k : Nat) (hG : wellFormedGrid G) (hassert : forcesOnBoundary G F)
    (hk : G.number_of_cells ≤ k) : pressureDiag G F trans k = 0 := by
  unfold pressureDiag
  unfold forcesOnBoundary at hassert
  cases hbc : forcesBC F with
  | none => rfl
  | some bc =>
    rw [hbc] at hassert
    simp only []
    apply sum_map_zero_of_forall
    intro e he
    unfold bcEntriesAt at he
    rw [List.mem_filter] at he
    have h1 := of_decide_eq_true he.2
    have h2 := hassert e he.1 (Or.inl h1.1)
    have h3 := bcCell_lt G _ hG h2.1 h2.2
    omega

theorem slotWeighted_const (G : UnstructuredGrid) (trans : Nat → ℚ) (c : Nat) (v : ℚ) (i : Nat) :
    slotWeighted G trans c (fun _ => v) i = 0 := by
  unfold slotWeighted
  split_ifs
  · ring
  · rfl

theorem slotWeighted_shift (G : UnstructuredGrid) (trans : Nat → ℚ) (c : Nat) (x : Nat → ℚ)
    (v : ℚ) (i : Nat) :
    slotWeighted G trans c (fun j => x j - v) i = slotWeighted G trans c x i := by
  unfold slotWeighted
  split_ifs
  · ring
  · rfl

theorem slotWeighted_flip (G : UnstructuredGrid) (trans : Nat → ℚ) (c : Nat) (x : Nat → ℚ)
    (v : ℚ) (i : Nat) :
    slotWeighted G trans c (fun j => v - x j) i = -slotWeighted G trans c x i := by
  unfold slotWeighted
  split_ifs
  · ring
  · simp

/-- When all PRESSURE conditions prescribe `v`, at least one is present, and
gravity and sources are zero, the constant vector `v` solves the assembled
system exactly. -/
theorem constant_solves (G : UnstructuredGrid) (W : Option Wells)
    (F : Option ifs_tpfa_forces) (trans : Nat → ℚ) (h : ifs_tpfa_data) (v : ℚ)
    (hG : wellFormedGrid G) (hW : wellFormedWells G W) (hA : constructedFor G W h)
    (hassert : forcesOnBoundary G F) (hall : allPressure F v) (hsome : ¬ noPressure F)
    (hsrc : ∀ c, c < G.number_of_cells → rhsSource F c = 0) :
    solvesSystem (withSolution (ifs_tpfa_assemble G F trans (fun _ => 0) h) (fun _ => v)) := by
  have hm := constructedFor_m G W h (wellFormedGrid_cellsInRange G hG) hW hA
  have hf := assemble_frame G F trans (fun _ => 0) h
  intro i hi
  have him : i < numUnknowns G W := by
    have h1 : i < (ifs_tpfa_assemble G F trans (fun _ => 0) h).A.m := hi
    rw [hf.1, show (assembleStart G (fun _ => 0) h).A.m = h.A.m from rfl, hm] at h1
    exact h1
  show rowWeighted (ifs_tpfa_assemble G F trans (fun _ => 0) h).A i (fun _ => v)
    = (ifs_tpfa_assemble G F trans (fun _ => 0) h).b i
  have hnd : (if noPressure F ∧ i = 0
      then v * (assemble_core G F trans (fun _ => 0) h).2.A.sa 0 else 0) = 0 :=
    if_neg (fun hh => hsome hh.1)
  rw [rowWeighted_assemble G W F trans _ h hG hW hA i him,
    rowWeighted_core G W F trans _ h hG hW hA hassert i him, hnd, add_zero]
  have hz : ((cellFaceSlots G i).map (slotWeighted G trans i (fun _ => v))).sum = 0 :=
    sum_map_zero_of_forall _ _ (fun j _ => slotWeighted_const G trans i v j)
  by_cases hc : i < G.number_of_cells
  · have hfg : ∀ f, f < G.number_of_faces → compute_grav_term G (fun _ => 0) h.fgrav f = 0 :=
      fun f hf => compute_grav_term_zero G h.fgrav f hf
    have hgr : rhsGravity G trans (compute_grav_term G (fun _ => 0) h.fgrav) i = 0 := by
      unfold rhsGravity
      apply sum_map_zero_of_forall
      intro j hj
      rw [hfg _ (hG.2.2.1 i hc j hj).1]
      ring
    rw [if_pos hc, hz, assemble_b_cell G W F trans _ h hG hassert hm i hc, hgr,
      rhsBoundary_uniform G F trans _ v i hassert hall hfg, hsrc i hc]
    ring
  · rw [if_neg hc, assemble_b_well G W F trans _ h hG hassert hm i (by omega) him,
      pressureDiag_not_cell G F trans i hG hassert (by omega)]
    ring

/-- When all PRESSURE conditions prescribe `v`, gravity and sources are
zero, all transmissibilities are positive and every cell is joined to a cell
with a PRESSURE face, every exact solution equals `v` in every cell. -/
theorem uniform_solution (G : UnstructuredGrid) (W : Option Wells)
    (F : Option ifs_tpfa_forces) (trans : Nat → ℚ) (h : ifs_tpfa_data) (v : ℚ)
    (hG : wellFormedGrid G) (hW : wellFormedWells G W) (hA : constructedFor G W h)
    (hassert : forcesOnBoundary G F) (hall : allPressure F v) (hsome : ¬ noPressure F)
    (hsrc : ∀ c, c < G.number_of_cells → rhsSource F c = 0)
    (hpos : ∀ f, f < G.number_of_faces → 0 < trans f)
    (hconn : ∀ c, c < G.number_of_cells → ∃ k, joinedToPressure G F k c = true)
    (x : Nat → ℚ)
    (hx : solvesSystem (withSolution (ifs_tpfa_assemble G F trans (fun _ => 0) h) x))
    (c : Nat) (hc : c < G.number_of_cells) : x c = v := by
  have hbal := fun c hc => solves_balance_uniform G W F trans h v hG hW hA hassert hall hsome
    x hx c hc (hsrc c hc)
  have h1 := max_principle G F trans hG hassert hpos hconn (fun j => x j - v)
    (fun c2 hc2 => by
      rw [sum_map_congr _ _ _ (fun i _ => slotWeighted_shift G trans c2 x v i)]
      exact hbal c2 hc2) c hc
  have h2 := max_principle G F trans hG hassert hpos hconn (fun j => v - x j)
    (fun c2 hc2 => by
      rw [sum_map_congr _ _ _ (fun i _ => slotWeighted_flip G trans c2 x v i), sum_map_neg]
      have := hbal c2 hc2
      show -((cellFaceSlots G c2).map (slotWeighted G trans c2 x)).sum
        + pressureDiag G F trans c2 * (v - x c2) = 0
      linarith) c hc
  have h1b : x c - v ≤ 0 := h1
  have h2b : v - x c ≤ 0 := h2
  linarith

/-! ## Small systems with a single cell -/

/-- The system assembled on the one-cell grid for forces whose boundary
conditions are a single PRESSURE condition with value `v` on face 0. -/
theorem oneCell_system (F : Option ifs_tpfa_forces) (v : ℚ) (trans : Nat → ℚ)
    (h : ifs_tpfa_data) (hF : forcesBC F = some (pressureAt v))
    (hA : constructedFor oneCellGrid none h) :
    (ifs_tpfa_assemble oneCellGrid F trans (fun _ => 0) h).A.m = 1
    ∧ (∀ x, rowWeighted (ifs_tpfa_assemble oneCellGrid F trans (fun _ => 0) h).A 0 x
        = trans 0 * x 0)
    ∧ (ifs_tpfa_assemble oneCellGrid F trans (fun _ => 0) h).b 0
        = trans 0 * v + rhsSource F 0 := by
  have hG : wellFormedGrid oneCellGrid := by decide
  have hW : wellFormedWells oneCellGrid none := trivial
  have hm := constructedFor_m oneCellGrid none h (wellFormedGrid_cellsInRange _ hG) hW hA
  have hn : numUnknowns oneCellGrid none = 1 := by decide
  have hf := assemble_frame oneCellGrid F trans (fun _ => 0) h
  have hassert : forcesOnBoundary oneCellGrid F := by
    unfold forcesOnBoundary
    rw [hF]
    exact forcesOnBoundary_pressureAt v
  have hno : ¬ noPressure F := by
    unfold noPressure
    rw [hF]
    exact not_noPressure_pressureAt v
  have hD : pressureDiag oneCellGrid F trans 0 = trans 0 := by
    unfold pressureDiag
    rw [hF]
    exact pressureDiag_pressureAt v trans
  have hfg : compute_grav_term oneCellGrid (fun _ => 0) h.fgrav 0 = 0 :=
    compute_grav_term_zero oneCellGrid h.fgrav 0 (by decide)
  have hB : rhsBoundary oneCellGrid F trans (compute_grav_term oneCellGrid (fun _ => 0) h.fgrav)
      0 = trans 0 * v := by
    unfold rhsBoundary
    rw [hF]
    exact rhsBoundary_pressureAt v trans _ hfg
  refine ⟨?_, ?_, ?_⟩
  · rw [hf.1, show (assembleStart oneCellGrid (fun _ => 0) h).A.m = h.A.m from rfl, hm, hn]
  · intro x
    have hnd : (if noPressure F ∧ (0 : Nat) = 0
        then x 0 * (assemble_core oneCellGrid F trans (fun _ => 0) h).2.A.sa 0 else 0) = 0 :=
      if_neg (fun hh => hno hh.1)
    rw [rowWeighted_assemble oneCellGrid none F trans _ h hG hW hA 0 (by decide),
      rowWeighted_core oneCellGrid none F trans _ h hG hW hA hassert 0 (by decide), hnd,
      if_pos (by decide), slots_oneCell, hD]
    ring
  · rw [assemble_b_cell oneCellGrid none F trans _ h hG hassert hm 0 (by decide),
      rhsGravity_oneCell trans _ hfg, hB]
    ring

/-- On the one-cell grid a vector solves the assembled system as soon as it
satisfies the equation of row 0. -/
theorem oneCell_solves (F : Option ifs_tpfa_forces) (v : ℚ) (trans : Nat → ℚ)
    (h : ifs_tpfa_data) (hF : forcesBC F = some (pressureAt v))
    (hA : constructedFor oneCellGrid none h) (x : Nat → ℚ)
    (hx : trans 0 * x 0 = trans 0 * v + rhsSource F 0) :
    solvesSystem (withSolution (ifs_tpfa_assemble oneCellGrid F trans (fun _ => 0) h) x) := by
  obtain ⟨hm, hrow, hb⟩ := oneCell_system F v trans h hF hA
  intro i hi
  have hi1 : i < (ifs_tpfa_assemble oneCellGrid F trans (fun _ => 0) h).A.m := hi
  have hi0 : i = 0 := by omega
  subst hi0
  show rowWeighted (ifs_tpfa_assemble oneCellGrid F trans (fun _ => 0) h).A 0 x
    = (ifs_tpfa_assemble oneCellGrid F trans (fun _ => 0) h).b 0
  rw [hrow, hb, hx]

/-- The system assembled on the cell with two boundary faces under the two
PRESSURE conditions with values 100 and 0, with unit transmissibilities. -/
theorem twoFace_system (h : ifs_tpfa_data) (hA : constructedFor twoFaceCell none h) :
    (ifs_tpfa_assemble twoFaceCell (onlyBC twoFacePressures) (fun _ => 1) (fun _ => 0) h).A.m
      = 1
    ∧ (∀ x, rowWeighted (ifs_tpfa_assemble twoFaceCell (onlyBC twoFacePressures) (fun _ => 1)
          (fun _ => 0) h).A 0 x = 2 * x 0)
    ∧ (ifs_tpfa_assemble twoFaceCell (onlyBC twoFacePressures) (fun _ => 1) (fun _ => 0) h).b 0
        = 100 := by
  have hG : wellFormedGrid twoFaceCell := by decide
  have hW : wellFormedWells twoFaceCell none := trivial
  have hm := constructedFor_m twoFaceCell none h (wellFormedGrid_cellsInRange _ hG) hW hA
  have hn : numUnknowns twoFaceCell none = 1 := by decide
  have hf := assemble_frame twoFaceCell (onlyBC twoFacePressures) (fun _ => 1) (fun _ => 0) h
  have hassert : forcesOnBoundary twoFaceCell (onlyBC twoFacePressures) := by decide
  have hno : ¬ noPressure (onlyBC twoFacePressures) := by decide
  have hE : bcEntriesAt twoFaceCell twoFacePressures FlowBCType.BC_PRESSURE 0
      = [(0, 0), (1, 1)] := by decide
  have hE2 : bcEntriesAt twoFaceCell twoFacePressures FlowBCType.BC_FLUX_TOTVOL 0 = [] := by
    decide
  have hD : pressureDiag twoFaceCell (onlyBC twoFacePressures) (fun _ => 1) 0 = 2 := by
    show ((bcEntriesAt twoFaceCell twoFacePressures FlowBCType.BC_PRESSURE 0).map
      (fun e => (fun _ => (1 : ℚ)) (twoFacePressures.face e.2))).sum = 2
    rw [hE]
    norm_num
  have hfg : ∀ f, f < 2 → compute_grav_term twoFaceCell (fun _ => 0) h.fgrav f = 0 :=
    fun f hf2 => compute_grav_term_zero twoFaceCell h.fgrav f hf2
  have hB : rhsBoundary twoFaceCell (onlyBC twoFacePressures) (fun _ => 1)
      (compute_grav_term twoFaceCell (fun _ => 0) h.fgrav) 0 = 100 := by
    show rhsPressure twoFaceCell twoFacePressures (fun _ => 1) _ 0
      + rhsFlux twoFaceCell twoFacePressures 0 = 100
    unfold rhsPressure rhsFlux
    rw [hE, hE2]
    simp only [List.map_cons, List.map_nil, List.sum_cons, List.sum_nil]
    rw [show twoFacePressures.face (0, 0).2 = 0 from rfl,
      show twoFacePressures.face (1, 1).2 = 1 from rfl, hfg 0 (by decide), hfg 1 (by decide)]
    norm_num [twoFacePressures]
  have hS : ∀ x : Nat → ℚ,
      ((cellFaceSlots twoFaceCell 0).map (slotWeighted twoFaceCell (fun _ => 1) 0 x)).sum
        = 0 := by
    intro x
    apply sum_map_zero_of_forall
    intro i hi
    have hs : cellFaceSlots twoFaceCell 0 = [0, 1] := by decide
    rw [hs] at hi
    have ho0 : ¬ 0 ≤ otherCell twoFaceCell 0 (twoFaceCell.cell_faces 0) := by decide
    have ho1 : ¬ 0 ≤ otherCell twoFaceCell 0 (twoFaceCell.cell_faces 1) := by decide
    simp only [List.mem_cons, List.mem_singleton, List.not_mem_nil, or_false] at hi
    unfold slotWeighted
    rcases hi with rfl | rfl
    · rw [if_neg ho0]
    · rw [if_neg ho1]
  have hG0 : rhsGravity twoFaceCell (fun _ => 1)
      (compute_grav_term twoFaceCell (fun _ => 0) h.fgrav) 0 = 0 := by
    unfold rhsGravity
    apply sum_map_zero_of_forall
    intro i hi
    rw [hfg _ (hG.2.2.1 0 (by decide) i hi).1]
    ring
  refine ⟨?_, ?_, ?_⟩
  · rw [hf.1, show (assembleStart twoFaceCell (fun _ => 0) h).A.m = h.A.m from rfl, hm, hn]
  · intro x
    have hnd : (if noPressure (onlyBC twoFacePressures) ∧ (0 : Nat) = 0
        then x 0 * (assemble_core twoFaceCell (onlyBC twoFacePressures) (fun _ => 1)
          (fun _ => 0) h).2.A.sa 0 else 0) = 0 :=
      if_neg (fun hh => hno hh.1)
    rw [rowWeighted_assemble twoFaceCell none _ _ _ h hG hW hA 0 (by decide),
      rowWeighted_core twoFaceCell none _ _ _ h hG hW hA hassert 0 (by decide), hnd,
      if_pos (by decide), hS, hD]
    ring
  · rw [assemble_b_cell twoFaceCell none _ _ _ h hG hassert hm 0 (by decide), hG0, hB]
    show -0 + 100 + 0 = (100 : ℚ)
    norm_num

/-! ## The individual checks of `activeProductionConstraint` -/

/-- The cascade of `activeProductionConstraint` in terms of its checks. -/
theorem activeProductionConstraint_cascade (w : WellContext) (ws : SingleWellState)
    (flag : Bool) :
    activeProductionConstraint w ws flag
      = if bhpTriggers w ws then (ProducerCMode.BHP, flag)
        else if oratTriggers w ws then (ProducerCMode.ORAT, flag)
        else if wratTriggers w ws then (ProducerCMode.WRAT, flag)
        else if gratTriggers w ws then (ProducerCMode.GRAT, flag)
        else if lratTriggers w ws then (ProducerCMode.LRAT, flag)
        else if resvTriggers w ws then (ProducerCMode.RESV, flag)
        else if w.productionControls.hasControl ProducerCMode.THP
            ∧ ws.production_cmode ≠ ProducerCMode.THP
            ∧ w.thpConstraint > ws.thp ∧ ws.trivial_target = false then
          (if w.wvfpexp_prevent = false
              ∨ (if w.wvfpexp_prevent then
                  rateLessThanPotential w.number_of_phases (fun p => -ws.surface_rates p)
                    ws.well_potentials
                else true) = false then
            (ProducerCMode.THP, false)
          else (ws.production_cmode, true))
        else (ws.production_cmode, flag) := rfl

/-- The loop over the phases keeps `true` exactly when every rate is within
its potential. -/
theorem rateLessThanPotential_iff (rate potential : Nat → ℚ) :
    ∀ np : Nat, rateLessThanPotential np rate potential = true
      ↔ ∀ p, p < np → rate p ≤ potential p := by
  intro np
  unfold rateLessThanPotential
  induction np with
  | zero => simp
  | succ n ih =>
    rw [List.range_succ, List.foldl_append, List.foldl_cons, List.foldl_nil,
      Bool.and_eq_true, ih, decide_eq_true_eq]
    constructor
    · intro h p hp
      by_cases hpn : p = n
      · rw [hpn]
        exact h.2
      · exact h.1 p (by omega)
    · intro h
      exact ⟨fun p hp => h p (by omega), h n (by omega)⟩

theorem foldl_add_eq_sum (v : Nat → ℚ) :
    ∀ n : Nat, (List.range n).foldl (fun acc p => acc + v p) 0 = ((List.range n).map v).sum := by
  intro n
  induction n with
  | zero => rfl
  | succ n ih =>
    rw [List.range_succ, List.foldl_append, List.foldl_cons, List.foldl_nil, ih,
      List.map_append, List.sum_append]
    simp
/-! ## Conditions of another type are skipped -/

theorem bc_contrib_step_other (G : UnstructuredGrid) (bc : FlowBoundaryConditions)
    (trans : Nat → ℚ) (st : Bool × ifs_tpfa_data) (i : Nat)
    (hp : bc.type i ≠ FlowBCType.BC_PRESSURE) (hf : bc.type i ≠ FlowBCType.BC_FLUX_TOTVOL) :
    bc_contrib_step G bc trans st i = st := by
  unfold bc_contrib_step
  cases ht : bc.type i with
  | BC_NOFLOW => rfl
  | BC_PRESSURE => exact absurd ht hp
  | BC_FLUX_TOTVOL => exact absurd ht hf

theorem bflux_step_other (G : UnstructuredGrid) (bc : FlowBoundaryConditions)
    (trans cpress fgrav fflux : Nat → ℚ) (i : Nat)
    (hp : bc.type i ≠ FlowBCType.BC_PRESSURE) (hf : bc.type i ≠ FlowBCType.BC_FLUX_TOTVOL) :
    bflux_step G bc trans cpress fgrav fflux i = fflux := by
  unfold bflux_step
  cases ht : bc.type i with
  | BC_NOFLOW => rfl
  | BC_PRESSURE => exact absurd ht hp
  | BC_FLUX_TOTVOL => exact absurd ht hf

theorem foldl_fixed {α β : Type} (f : α → β → α) (l : List β) (a : α)
    (h : ∀ x ∈ l, ∀ a, f a x = a) : l.foldl f a = a := by
  induction l generalizing a with
  | nil => rfl
  | cons x l ih =>
    rw [List.foldl_cons, h x (List.mem_cons_self _ _)]
    exact ih a (fun y hy => h y (List.mem_cons_of_mem _ hy))

theorem assemble_bc_contrib_other (G : UnstructuredGrid) (bc : FlowBoundaryConditions)
    (trans : Nat → ℚ) (h : ifs_tpfa_data) (hbc : onlyOtherTypes bc) :
    assemble_bc_contrib G bc trans h = (true, h) := by
  unfold assemble_bc_contrib
  apply foldl_fixed
  intro i hi st
  have hlt := List.mem_range.mp hi
  exact bc_contrib_step_other G bc trans st i (hbc i hlt).1 (hbc i hlt).2

theorem boundary_fluxes_other (G : UnstructuredGrid) (bc : FlowBoundaryConditions)
    (trans cpress fgrav fflux : Nat → ℚ) (hbc : onlyOtherTypes bc) :
    boundary_fluxes G bc trans cpress fgrav fflux = fflux := by
  unfold boundary_fluxes
  apply foldl_fixed
  intro i hi st
  have hlt := List.mem_range.mp hi
  exact bflux_step_other G bc trans cpress fgrav st i (hbc i hlt).1 (hbc i hlt).2

theorem assemble_other (G : UnstructuredGrid) (src : Option (Nat → ℚ))
    (bc : FlowBoundaryConditions) (trans gpress : Nat → ℚ) (h : ifs_tpfa_data)
    (hbc : onlyOtherTypes bc) :
    ifs_tpfa_assemble G (some { src := src, bc := some bc }) trans gpress h
      = ifs_tpfa_assemble G (some { src := src, bc := none }) trans gpress h := by
  unfold ifs_tpfa_assemble assemble_core assemble_bc
  simp only [assemble_bc_contrib_other G bc trans _ hbc]
  rfl

theorem press_flux_other (G : UnstructuredGrid) (src : Option (Nat → ℚ))
    (bc : FlowBoundaryConditions) (trans : Nat → ℚ) (h : ifs_tpfa_data)
    (soln : ifs_tpfa_solution) (hbc : onlyOtherTypes bc) :
    ifs_tpfa_press_flux G (some { src := src, bc := some bc }) trans h soln
      = ifs_tpfa_press_flux G (some { src := src, bc := none }) trans h soln := by
  unfold ifs_tpfa_press_flux
  simp only [boundary_fluxes_other G bc trans _ _ _ hbc]

theorem onlyOtherTypes_oneNoflow : onlyOtherTypes oneNoflow := by
  intro i _
  exact ⟨by simp [oneNoflow], by simp [oneNoflow]⟩

/-! ## The number of stored entries -/

theorem rowStart_eq_length (es : List (Nat × Nat)) (m : Nat) (hrows : ∀ e ∈ es, e.1 < m) :
    rowStart es m = es.length := by
  have hperm := (flatMap_rowEvents_perm es m).length_eq
  have hfilter : es.filter (fun e => decide (e.1 < m)) = es := by
    rw [List.filter_eq_self]
    intro e he
    simpa using hrows e he
  rw [hfilter] at hperm
  rw [← hperm, List.length_flatMap]
  rfl

theorem diagEvents_length (n : Nat) : (diagEvents n).length = n := by
  induction n with
  | zero => rfl
  | succ n ih => rw [diagEvents_succ, List.length_append, ih]; rfl

theorem faceEvents_length_aux (G : UnstructuredGrid) (n : Nat) :
    ((List.range n).flatMap (fun f =>
      if 0 ≤ G.face_cells (2 * f + 0) ∧ 0 ≤ G.face_cells (2 * f + 1) then
        [((G.face_cells (2 * f + 0)).toNat, (G.face_cells (2 * f + 1)).toNat),
         ((G.face_cells (2 * f + 1)).toNat, (G.face_cells (2 * f + 0)).toNat)]
      else [])).length
      = 2 * ((List.range n).filter (fun f => decide (interiorFace G f))).length := by
  induction n with
  | zero => rfl
  | succ n ih =>
    rw [List.range_succ, List.flatMap_append, List.length_append, ih, List.filter_append,
      List.length_append, List.flatMap_singleton]
    by_cases h : interiorFace G n
    · have h2 : 0 ≤ G.face_cells (2 * n + 0) ∧ 0 ≤ G.face_cells (2 * n + 1) := h
      rw [if_pos h2, List.filter_cons_of_pos (by simpa using h)]
      simp
      omega
    · have h2 : ¬ (0 ≤ G.face_cells (2 * n + 0) ∧ 0 ≤ G.face_cells (2 * n + 1)) := h
      rw [if_neg h2, List.filter_cons_of_neg (by simpa using h)]
      simp

theorem faceEvents_length (G : UnstructuredGrid) :
    (faceEvents G).length = 2 * numInteriorFaces G :=
  faceEvents_length_aux G G.number_of_faces

theorem segments_length (pos : Nat → Nat) (n : Nat)
    (hmono : ∀ c, c < n → pos c ≤ pos (c + 1)) :
    ((List.range n).flatMap (fun c =>
      (List.range' (pos c) (pos (c + 1) - pos c)).map (fun j => (c, j)))).length + pos 0
      = pos n := by
  induction n with
  | zero => simp
  | succ n ih =>
    have h1 := ih (fun c hc => hmono c (by omega))
    rw [List.range_succ, List.flatMap_append, List.length_append, List.flatMap_singleton,
      List.length_map, List.length_range']
    have := hmono n (by omega)
    omega

theorem segLoop_length (n : Nat) (pos : Nat → Nat) (h0 : pos 0 = 0)
    (hmono : ∀ c, c < n → pos c ≤ pos (c + 1)) : (segLoop n pos).length = pos n := by
  rw [segLoop_eq_flatMap n pos h0 hmono]
  have := segments_length pos n hmono
  omega

theorem flatMap_pair_length {α β : Type} (l : List α) (f g : α → β) :
    (l.flatMap (fun a => [f a, g a])).length = 2 * l.length := by
  induction l with
  | nil => rfl
  | cons a l ih =>
    rw [List.flatMap_cons, List.length_append, ih, List.length_cons]
    simp
    omega

theorem wellEvents_length (G : UnstructuredGrid) (W : Option Wells)
    (hW : wellFormedWells G W) : (wellEvents G W).length = 2 * numPerforations W := by
  cases W with
  | none => rfl
  | some w =>
    obtain ⟨h0, hmono, _⟩ := hW
    show ((segLoop w.number_of_wells w.well_connpos).flatMap _).length = _
    rw [flatMap_pair_length, segLoop_length _ _ h0 hmono]
    rfl

theorem patternEvents_length (G : UnstructuredGrid) (W : Option Wells)
    (hW : wellFormedWells G W) :
    (patternEvents G W).length
      = numUnknowns G W + 2 * numInteriorFaces G + 2 * numPerforations W := by
  unfold patternEvents
  rw [List.length_append, List.length_append, diagEvents_length, faceEvents_length,
    wellEvents_length G W hW]

/-- The count that `ifs_tpfa_construct_matrix` computes is the number of
pattern entries. -/
theorem constructNnz_eq (G : UnstructuredGrid) (W : Option Wells) (hG : cellsInRange G)
    (hW : wellFormedWells G W) :
    constructNnz G W = numUnknowns G W + 2 * numInteriorFaces G + 2 * numPerforations W := by
  have hcount := construct_count_eq G W (fun _ => 0) (fun _ => rfl)
  have hspec := filled_spec (patternEvents G W) (numUnknowns G W)
    { csrmatrix_new_count_nnz (numUnknowns G W) with
      ia := construct_count G W (csrmatrix_new_count_nnz (numUnknowns G W)).ia }
    (fun e he => (patternEvents_rows G W hG hW e he).1) rfl
    (by
      show construct_count G W (fun _ => 0) 0 = 0
      rw [hcount, countFold_zero])
    (by
      intro r
      show construct_count G W (fun _ => 0) (r + 1) = _
      rw [hcount, countFold_succ]
      simp)
  unfold constructNnz
  simp only []
  rw [hspec.2.2.1, rowStart_eq_length _ _ (fun e he => (patternEvents_rows G W hG hW e he).1),
    patternEvents_length G W hW]

theorem fillFold_nnz (es : List (Nat × Nat)) : ∀ A : CSRMatrix, (fillFold es A).nnz = A.nnz := by
  induction es with
  | nil => intro A; rfl
  | cons e es ih =>
    intro A
    rw [fillFold_cons, ih]
    rfl

theorem construct_matrix_of_nnz (G : UnstructuredGrid) (W : Option Wells) :
    (constructNnz G W = 0 → ifs_tpfa_construct_matrix G W = none)
    ∧ (constructNnz G W ≠ 0 →
        ∃ A, ifs_tpfa_construct_matrix G W = some A ∧ A.nnz = constructNnz G W) := by
  constructor
  · intro hz
    exact if_pos hz
  · intro hz
    refine ⟨_, if_neg hz, ?_⟩
    rw [construct_fill_eq]
    show (fillFold _ _).nnz = _
    rw [fillFold_nnz]
    rfl

/-! ## Stored values in the rows and columns of the wells -/

theorem pos_chain (pos : Nat → Nat) (n : Nat) (hmono : ∀ k, k < n → pos k ≤ pos (k + 1))
    (a b : Nat) (hab : a ≤ b) (hb : b ≤ n) : pos a ≤ pos b := by
  induction b with
  | zero =>
    have : a = 0 := by omega
    rw [this]
  | succ b ih =>
    by_cases h : a = b + 1
    · rw [h]
    · have h1 := ih (by omega) (by omega)
      have h2 := hmono b (by omega)
      omega

theorem otherCell_lt_cells (G : UnstructuredGrid) (hG : wellFormedGrid G) (c f : Nat)
    (hf : f < G.number_of_faces) : otherCell G c f < (G.number_of_cells : Int) := by
  have := hG.2.2.2 f hf
  unfold otherCell
  split_ifs
  · exact this.2
  · exact this.1

/-- Assembly before the doubling stores zero at every position of a well row
and at every position whose column is a well. -/
theorem core_sa_well (G : UnstructuredGrid) (W : Option Wells) (F : Option ifs_tpfa_forces)
    (trans gpress : Nat → ℚ) (h : ifs_tpfa_data) (hG : wellFormedGrid G)
    (hW : wellFormedWells G W) (hA : constructedFor G W h) (hassert : forcesOnBoundary G F)
    (r p : Nat) (hr : r < numUnknowns G W) (hp : h.A.ia r ≤ p ∧ p < h.A.ia (r + 1))
    (hout : G.number_of_cells ≤ r ∨ G.number_of_cells ≤ h.A.ja p) :
    (assemble_core G F trans gpress h).2.A.sa p = 0 := by
  have hB := constructedFor_built G W h (wellFormedGrid_cellsInRange G hG) hW hA
  have hcell : ∀ r2 col, r2 < G.number_of_cells → col < G.number_of_cells →
      (r2, col) ∈ patternEvents G W → p ≠ csrmatrix_elm_index r2 col h.A := by
    intro r2 col hr2 hcol hmem hcon
    have hr2m : r2 < numUnknowns G W := by
      unfold numUnknowns
      omega
    obtain ⟨a1, a2, a3⟩ := elm_index_spec _ _ h.A hB r2 col hr2m hmem
    rw [← hcon] at a1 a2 a3
    have := built_row_unique _ _ h.A hB r r2 p hr hr2m hp ⟨a1, a2⟩
    omega
  rw [assemble_core_sa]
  have h1 : vector_zero h.A.nnz h.A.sa p = 0 := by
    unfold vector_zero
    rw [if_pos (built_row_lt_nnz _ _ h.A hB r p hr hp.2)]
  have h2 : ((segLoop G.number_of_cells G.cell_facepos).map (fun e =>
      faceSaTerm G trans h.A e p)).sum = 0 := by
    apply sum_map_zero_of_forall
    intro e he
    obtain ⟨he1, he2⟩ := mem_segLoop_grid G hG e he
    have hem : e.1 < numUnknowns G W := by
      unfold numUnknowns
      omega
    unfold faceSaTerm
    by_cases ho : 0 ≤ otherCell G e.1 (G.cell_faces e.2)
    · have hlt := otherCell_lt_cells G hG e.1 (G.cell_faces e.2) (hG.2.2.1 e.1 he1 e.2 he2).1
      rw [if_pos ho,
        if_neg (hcell e.1 e.1 he1 he1 (diag_mem_patternEvents G W e.1 hem)),
        if_neg (hcell e.1 _ he1 (by omega)
          (other_mem_patternEvents G W hG e.1 e.2 he1 he2 ho)), add_zero]
    · rw [if_neg ho]
  have h3 : bcSaSum G F trans h.A p = 0 := by
    unfold bcSaSum
    unfold forcesOnBoundary at hassert
    cases hbc : forcesBC F with
    | none => rfl
    | some bc =>
      rw [hbc] at hassert
      simp only [] at hassert ⊢
      apply sum_map_zero_of_forall
      intro e he
      unfold bcSaTerm
      rw [if_neg]
      rintro ⟨hP, hpe⟩
      have hb := hassert e he (Or.inl hP)
      have hlt := bcCell_lt G (bc.face e.2) hG hb.1 hb.2
      have hm : bcCell G (bc.face e.2) < numUnknowns G W := by
        unfold numUnknowns
        omega
      exact hcell _ _ hlt hlt (diag_mem_patternEvents G W _ hm) hpe
  rw [h1, h2, h3]
  norm_num

/-- The same after `ifs_tpfa_assemble`: doubling a zero leaves it zero. -/
theorem assemble_sa_well (G : UnstructuredGrid) (W : Option Wells) (F : Option ifs_tpfa_forces)
    (trans gpress : Nat → ℚ) (h : ifs_tpfa_data) (hG : wellFormedGrid G)
    (hW : wellFormedWells G W) (hA : constructedFor G W h) (hassert : forcesOnBoundary G F)
    (r p : Nat) (hr : r < numUnknowns G W) (hp : h.A.ia r ≤ p ∧ p < h.A.ia (r + 1))
    (hout : G.number_of_cells ≤ r ∨ G.number_of_cells ≤ h.A.ja p) :
    (ifs_tpfa_assemble G F trans gpress h).A.sa p = 0 := by
  have hcore := core_sa_well G W F trans gpress h hG hW hA hassert r p hr hp hout
  rw [assemble_sa]
  split_ifs with hh
  · rw [← hh.2, hcore, zero_mul]
  · exact hcore

theorem assemble_ia_ja (G : UnstructuredGrid) (F : Option ifs_tpfa_forces)
    (trans gpress : Nat → ℚ) (h : ifs_tpfa_data) :
    (ifs_tpfa_assemble G F trans gpress h).A.ia = h.A.ia
    ∧ (ifs_tpfa_assemble G F trans gpress h).A.ja = h.A.ja := by
  have hf := assemble_frame G F trans gpress h
  exact ⟨hf.2.2.1, hf.2.2.2.1⟩

/-- The total value stored at `(r, col)` after `ifs_tpfa_assemble` is zero
when the row or the column is a well. -/
theorem assemble_csrTotal_well (G : UnstructuredGrid) (W : Option Wells)
    (F : Option ifs_tpfa_forces) (trans gpress : Nat → ℚ) (h : ifs_tpfa_data)
    (hG : wellFormedGrid G) (hW : wellFormedWells G W) (hA : constructedFor G W h)
    (hassert : forcesOnBoundary G F) (r col : Nat) (hr : r < numUnknowns G W)
    (hout : G.number_of_cells ≤ r ∨ G.number_of_cells ≤ col) :
    csrTotal (ifs_tpfa_assemble G F trans gpress h).A r col = 0 := by
  obtain ⟨hia, hja⟩ := assemble_ia_ja G F trans gpress h
  unfold csrTotal
  apply sum_map_zero_of_forall
  intro p hp
  unfold rowPositions at hp
  rw [hia, List.mem_range'_1] at hp
  split_ifs with hcol
  · rw [hja] at hcol
    have hle : h.A.ia r ≤ h.A.ia (r + 1) := by omega
    exact assemble_sa_well G W F trans gpress h hG hW hA hassert r p hr ⟨hp.1, by omega⟩
      (by rw [hcol]; exact hout)
  · rfl

/-- The pair of entries of a perforation belongs to the pattern. -/
theorem perforation_mem_patternEvents (G : UnstructuredGrid) (w : Wells)
    (hW : wellFormedWells G (some w)) (k i : Nat) (hk : k < w.number_of_wells)
    (hi : w.well_connpos k ≤ i ∧ i < w.well_connpos (k + 1)) :
    w.well_cells i < G.number_of_cells
    ∧ (w.well_cells i, G.number_of_cells + k) ∈ patternEvents G (some w)
    ∧ (G.number_of_cells + k, w.well_cells i) ∈ patternEvents G (some w) := by
  obtain ⟨h0, hmono, hcells⟩ := hW
  have hlast := pos_chain w.well_connpos w.number_of_wells hmono (k + 1) w.number_of_wells
    (by omega) (le_refl _)
  have hseg : (k, i) ∈ segLoop w.number_of_wells w.well_connpos := by
    rw [segLoop_eq_flatMap _ _ h0 hmono, List.mem_flatMap]
    refine ⟨k, List.mem_range.mpr hk, ?_⟩
    rw [List.mem_map]
    refine ⟨i, ?_, rfl⟩
    rw [List.mem_range'_1]
    omega
  have hmem : ∀ e, e ∈ [(w.well_cells i, G.number_of_cells + k),
      (G.number_of_cells + k, w.well_cells i)] → e ∈ patternEvents G (some w) := by
    intro e he
    unfold patternEvents wellEvents
    rw [List.mem_append]
    right
    simp only []
    rw [List.mem_flatMap]
    exact ⟨(k, i), hseg, he⟩
  exact ⟨hcells i (by omega), hmem _ (List.mem_cons_self _ _),
    hmem _ (List.mem_cons_of_mem _ (List.mem_singleton.mpr rfl))⟩

/-! ## A pattern without repeated entries -/

theorem mem_segLoop_iff (n : Nat) (pos : Nat → Nat) (h0 : pos 0 = 0)
    (hmono : ∀ c, c < n → pos c ≤ pos (c + 1)) (e : Nat × Nat) :
    e ∈ segLoop n pos ↔ e.1 < n ∧ pos e.1 ≤ e.2 ∧ e.2 < pos (e.1 + 1) := by
  rw [segLoop_eq_flatMap n pos h0 hmono, List.mem_flatMap]
  constructor
  · rintro ⟨c, hc, hec⟩
    rw [List.mem_map] at hec
    obtain ⟨i, hi, rfl⟩ := hec
    rw [List.mem_range'_1] at hi
    have := hmono c (List.mem_range.mp hc)
    exact ⟨List.mem_range.mp hc, hi.1, by simp only []; omega⟩
  · rintro ⟨h1, h2, h3⟩
    refine ⟨e.1, List.mem_range.mpr h1, ?_⟩
    rw [List.mem_map]
    refine ⟨e.2, ?_, rfl⟩
    rw [List.mem_range'_1]
    omega

theorem segLoop_nodup (n : Nat) (pos : Nat → Nat) (h0 : pos 0 = 0)
    (hmono : ∀ c, c < n → pos c ≤ pos (c + 1)) : (segLoop n pos).Nodup := by
  rw [segLoop_eq_flatMap n pos h0 hmono, List.nodup_flatMap]
  constructor
  · intro c _
    apply List.Nodup.map_on
    · intro x _ y _ hxy
      exact congrArg Prod.snd hxy
    · exact List.nodup_range' _ _
  · apply List.Nodup.pairwise_of_forall_ne (List.nodup_range n)
    intro a _ b _ hab
    show List.Disjoint _ _
    rw [List.disjoint_left]
    intro e hea heb
    rw [List.mem_map] at hea heb
    obtain ⟨_, _, rfl⟩ := hea
    obtain ⟨_, _, hb⟩ := heb
    exact hab (congrArg Prod.fst hb).symm

theorem diagEvents_nodup (n : Nat) : (diagEvents n).Nodup := by
  unfold diagEvents
  rw [List.nodup_flatMap]
  constructor
  · intro i _
    exact List.nodup_singleton _
  · apply List.Nodup.pairwise_of_forall_ne (List.nodup_range n)
    intro a _ b _ hab
    show List.Disjoint _ _
    rw [List.disjoint_left]
    intro e hea heb
    rw [List.mem_singleton] at hea heb
    rw [hea] at heb
    exact hab (congrArg Prod.fst heb)

/-- Membership in the entries of the faces. -/
theorem mem_faceEvents (G : UnstructuredGrid) (e : Nat × Nat) :
    e ∈ faceEvents G ↔ ∃ f, f < G.number_of_faces ∧ interiorFace G f
      ∧ (e = ((G.face_cells (2 * f + 0)).toNat, (G.face_cells (2 * f + 1)).toNat)
        ∨ e = ((G.face_cells (2 * f + 1)).toNat, (G.face_cells (2 * f + 0)).toNat)) := by
  unfold faceEvents
  rw [List.mem_flatMap]
  constructor
  · rintro ⟨f, hf, hef⟩
    split_ifs at hef with hint
    · refine ⟨f, List.mem_range.mp hf, hint, ?_⟩
      simpa using hef
    · simp at hef
  · rintro ⟨f, hf, hint, hef⟩
    refine ⟨f, List.mem_range.mpr hf, ?_⟩
    have hint2 : 0 ≤ G.face_cells (2 * f + 0) ∧ 0 ≤ G.face_cells (2 * f + 1) := hint
    rw [if_pos hint2]
    simpa using hef

theorem faceEvents_nodup (G : UnstructuredGrid) (hpar : noParallelFaces G)
    (hself : noSelfFaces G) : (faceEvents G).Nodup := by
  unfold faceEvents
  rw [List.nodup_flatMap]
  constructor
  · intro f hf
    split_ifs with hint
    · have hne := hself f (List.mem_range.mp hf) hint
      have h1 : (G.face_cells (2 * f + 0)).toNat ≠ (G.face_cells (2 * f + 1)).toNat := by
        have := hint.1
        have := hint.2
        omega
      rw [List.nodup_cons]
      refine ⟨?_, List.nodup_singleton _⟩
      rw [List.mem_singleton]
      intro hcon
      exact h1 (congrArg Prod.fst hcon)
    · exact List.nodup_nil
  · apply List.Nodup.pairwise_of_forall_ne (List.nodup_range _)
    intro f hf g hg hfg
    show List.Disjoint _ _
    rw [List.disjoint_left]
    intro e hef heg
    beta_reduce at hef heg
    split_ifs at hef with hf1
    · split_ifs at heg with hg1
      · have a1 := hf1.1
        have a2 := hf1.2
        have b1 := hg1.1
        have b2 := hg1.2
        apply hfg
        apply hpar f (List.mem_range.mp hf) hf1 g (List.mem_range.mp hg) hg1
        unfold joinSamePair
        simp only [List.mem_cons, List.mem_singleton, List.not_mem_nil, or_false] at hef heg
        rcases hef with rfl | rfl
        · rcases heg with heq | heq
          · have e1 := congrArg Prod.fst heq
            have e2 := congrArg Prod.snd heq
            simp only [] at e1 e2
            left
            constructor <;> omega
          · have e1 := congrArg Prod.fst heq
            have e2 := congrArg Prod.snd heq
            simp only [] at e1 e2
            right
            constructor <;> omega
        · rcases heg with heq | heq
          · have e1 := congrArg Prod.fst heq
            have e2 := congrArg Prod.snd heq
            simp only [] at e1 e2
            right
            constructor <;> omega
          · have e1 := congrArg Prod.fst heq
            have e2 := congrArg Prod.snd heq
            simp only [] at e1 e2
            left
            constructor <;> omega
      · simp at heg
    · simp at hef

theorem wellEvents_nodup (G : UnstructuredGrid) (W : Option Wells)
    (hW : wellFormedWells G W) (hperf : noDoublePerforation W) : (wellEvents G W).Nodup := by
  cases W with
  | none => exact List.nodup_nil
  | some w =>
    obtain ⟨h0, hmono, hcells⟩ := hW
    have hcell : ∀ a ∈ segLoop w.number_of_wells w.well_connpos,
        w.well_cells a.2 < G.number_of_cells := by
      intro a ha
      rw [mem_segLoop_iff _ _ h0 hmono] at ha
      have := pos_chain w.well_connpos w.number_of_wells hmono (a.1 + 1) w.number_of_wells
        (by omega) (le_refl _)
      exact hcells a.2 (by omega)
    have hsame : ∀ a ∈ segLoop w.number_of_wells w.well_connpos,
        ∀ b ∈ segLoop w.number_of_wells w.well_connpos,
        a.1 = b.1 → w.well_cells a.2 = w.well_cells b.2 → a = b := by
      intro a ha b hb h1 h2
      rw [mem_segLoop_iff _ _ h0 hmono] at ha hb
      have hnd := hperf a.1 ha.1
      unfold perforatedCells at hnd
      have h3 := List.inj_on_of_nodup_map hnd
        (List.mem_range'_1.mpr ⟨ha.2.1, by omega⟩)
        (List.mem_range'_1.mpr ⟨by rw [h1]; exact hb.2.1, by rw [h1]; omega⟩) h2
      exact Prod.ext h1 h3
    show ((segLoop w.number_of_wells w.well_connpos).flatMap _).Nodup
    rw [List.nodup_flatMap]
    constructor
    · intro a ha
      have := hcell a ha
      rw [List.nodup_cons]
      refine ⟨?_, List.nodup_singleton _⟩
      rw [List.mem_singleton]
      intro hcon
      have := congrArg Prod.fst hcon
      simp only [] at this
      omega
    · apply List.Nodup.pairwise_of_forall_ne (segLoop_nodup _ _ h0 hmono)
      intro a ha b hb hab
      show List.Disjoint _ _
      rw [List.disjoint_left]
      intro e hea heb
      have hca := hcell a ha
      have hcb := hcell b hb
      simp only [List.mem_cons, List.mem_singleton, List.not_mem_nil, or_false] at hea heb
      apply hab
      rcases hea with rfl | rfl
      · rcases heb with heq | heq
        · have e1 := congrArg Prod.fst heq
          have e2 := congrArg Prod.snd heq
          simp only [] at e1 e2
          exact hsame a ha b hb (by omega) e1
        · have e1 := congrArg Prod.fst heq
          simp only [] at e1
          omega
      · rcases heb with heq | heq
        · have e1 := congrArg Prod.fst heq
          simp only [] at e1
          omega
        · have e1 := congrArg Prod.fst heq
          have e2 := congrArg Prod.snd heq
          simp only [] at e1 e2
          exact hsame a ha b hb (by omega) e2

/-- Without parallel faces, self faces and double perforations no entry of
the pattern is repeated. -/
theorem patternEvents_nodup (G : UnstructuredGrid) (W : Option Wells) (hG : cellsInRange G)
    (hW : wellFormedWells G W) (hpar : noParallelFaces G) (hself : noSelfFaces G)
    (hperf : noDoublePerforation W) : (patternEvents G W).Nodup := by
  have hface : ∀ e ∈ faceEvents G,
      e.1 ≠ e.2 ∧ e.1 < G.number_of_cells ∧ e.2 < G.number_of_cells := by
    intro e he
    rw [mem_faceEvents] at he
    obtain ⟨f, hf, hint, hef⟩ := he
    have hne := hself f hf hint
    have hr := hG f hf
    have a1 := hint.1
    have a2 := hint.2
    rcases hef with rfl | rfl
    · refine ⟨?_, ?_, ?_⟩ <;> simp only [] <;> omega
    · refine ⟨?_, ?_, ?_⟩ <;> simp only [] <;> omega
  unfold patternEvents
  rw [List.nodup_append, List.nodup_append]
  refine ⟨⟨diagEvents_nodup _, faceEvents_nodup G hpar hself, ?_⟩,
    wellEvents_nodup G W hW hperf, ?_⟩
  · rw [List.disjoint_left]
    intro e hd hf
    exact (hface e hf).1 (diagEvents_row_lt _ e hd).2.symm
  · rw [List.disjoint_left]
    intro e hdf hw
    have hwm := wellEvents_mem G W hW e hw
    rw [List.mem_append] at hdf
    rcases hdf with hd | hf
    · have := (diagEvents_row_lt _ e hd).2
      omega
    · have := hface e hf
      omega

theorem rowCols_nodup (es : List (Nat × Nat)) (r : Nat) (hes : es.Nodup) :
    (rowCols es r).Nodup := by
  unfold rowCols rowEvents
  apply List.Nodup.map_on
  · intro x hx y hy hxy
    have h1 := (List.mem_filter.mp hx).2
    have h2 := (List.mem_filter.mp hy).2
    simp only [decide_eq_true_eq] at h1 h2
    exact Prod.ext (by rw [h1, h2]) hxy
  · exact List.Nodup.filter _ hes

/-- In a matrix that stores a pattern without repeated entries, the columns
of every row are strictly ascending and no two storage positions of a row
hold the same column. -/
theorem built_strict (es : List (Nat × Nat)) (m : Nat) (A : CSRMatrix)
    (hA : builtPattern es m A) (hes : es.Nodup) (r : Nat) (hr : r < m) :
    List.Sorted (· < ·) ((rowPositions A r).map A.ja)
    ∧ ∀ p ∈ rowPositions A r, ∀ q ∈ rowPositions A r, A.ja p = A.ja q → p = q := by
  obtain ⟨hsorted, hperm⟩ := hA.2.2.2 r hr
  have hnd : ((rowPositions A r).map A.ja).Nodup :=
    hperm.nodup_iff.mpr (rowCols_nodup es r hes)
  exact ⟨hsorted.lt_of_le hnd, fun p hp q hq hpq => List.inj_on_of_nodup_map hnd hp hq hpq⟩

/-! ## Summing the cell rows -/

/-- The contribution of face `f` to the weighted sum of the row of cell `c`,
for a face of the grid that need not be a face of `c`. -/
theorem slotWeighted_eq_face (G : UnstructuredGrid) (trans : Nat → ℚ) (hG : wellFormedGrid G)
    (c : Nat) (hc : c < G.number_of_cells) (x : Nat → ℚ) (i : Nat)
    (hi : i ∈ cellFaceSlots G c) :
    slotWeighted G trans c x i
      = (fun f => if interiorFace G f
            ∧ (G.face_cells (2 * f + 0) = (c : Int) ∨ G.face_cells (2 * f + 1) = (c : Int))
          then x c * trans f - x (otherCell G c f).toNat * trans f else 0) (G.cell_faces i) := by
  obtain ⟨_, hcons⟩ := hG.2.2.1 c hc i hi
  unfold slotWeighted
  beta_reduce
  by_cases ho : 0 ≤ otherCell G c (G.cell_faces i)
  · rw [if_pos ho, if_pos]
    refine ⟨?_, hcons⟩
    unfold interiorFace
    unfold otherCell at ho
    split_ifs at ho with h1
    · exact ⟨by omega, ho⟩
    · rcases hcons with h | h
      · exact absurd h h1
      · exact ⟨ho, by omega⟩
  · rw [if_neg ho, if_neg]
    rintro ⟨hint, _⟩
    apply ho
    unfold otherCell
    split_ifs
    · exact hint.2
    · exact hint.1

/-- The contributions of one interior face to the rows of all cells cancel. -/
theorem sum_cells_face (G : UnstructuredGrid) (trans : Nat → ℚ) (hG : wellFormedGrid G)
    (x : Nat → ℚ) (f : Nat) (hf : f < G.number_of_faces) :
    ((List.range G.number_of_cells).map (fun c : Nat =>
      if interiorFace G f
          ∧ (G.face_cells (2 * f + 0) = (c : Int) ∨ G.face_cells (2 * f + 1) = (c : Int))
      then x c * trans f - x (otherCell G c f).toNat * trans f else 0)).sum = 0 := by
  by_cases hint : interiorFace G f
  · obtain ⟨a, ha⟩ : ∃ a : Nat, G.face_cells (2 * f + 0) = (a : Int) :=
      ⟨(G.face_cells (2 * f + 0)).toNat, by have := hint.1; omega⟩
    obtain ⟨b, hb⟩ : ∃ b : Nat, G.face_cells (2 * f + 1) = (b : Int) :=
      ⟨(G.face_cells (2 * f + 1)).toNat, by have := hint.2; omega⟩
    have hr := hG.2.2.2 f hf
    have haN : a < G.number_of_cells := by omega
    have hbN : b < G.number_of_cells := by omega
    have hfun : ∀ c ∈ List.range G.number_of_cells,
        (if interiorFace G f
            ∧ (G.face_cells (2 * f + 0) = (c : Int) ∨ G.face_cells (2 * f + 1) = (c : Int))
          then x c * trans f - x (otherCell G c f).toNat * trans f else 0)
        = (if c = a then (fun c => x c * trans f - x b * trans f) c else 0)
          + (if c = b then (fun c => if a = b then 0 else x c * trans f - x a * trans f) c
              else 0) := by
      intro c _
      unfold otherCell
      rw [ha, hb]
      by_cases h1 : c = a
      · subst h1
        by_cases h2 : c = b
        · subst h2
          simp [hint]
        · have h3 : ¬ b = c := fun hh => h2 hh.symm
          simp [hint, h2, h3]
      · by_cases h2 : c = b
        · subst h2
          have h3 : ¬ a = c := fun hh => h1 hh.symm
          simp [hint, h1, h3]
        · have h3 : ¬ a = c := fun hh => h1 hh.symm
          have h4 : ¬ b = c := fun hh => h2 hh.symm
          simp [h1, h2, h3, h4]
    rw [sum_map_congr _ _ _ hfun, sum_map_add_eq, sum_range_single, sum_range_single,
      if_pos haN, if_pos hbN]
    by_cases hab : a = b
    · subst hab
      simp
    · simp only [if_neg hab]
      ring
  · apply sum_map_zero_of_forall
    intro c _
    rw [if_neg (fun hh => hint hh.1)]

/-- The contributions of the face slots to the rows of all cells sum to zero
when every interior face is listed once for each of its cells. -/
theorem sum_cells_slotWeighted (G : UnstructuredGrid) (trans : Nat → ℚ)
    (hG : wellFormedGrid G) (honce : listedOnce G) (x : Nat → ℚ) :
    ((List.range G.number_of_cells).map (fun c =>
      ((cellFaceSlots G c).map (slotWeighted G trans c x)).sum)).sum = 0 := by
  have h1 : ∀ c ∈ List.range G.number_of_cells,
      ((cellFaceSlots G c).map (slotWeighted G trans c x)).sum
        = ((List.range G.number_of_faces).map (fun f : Nat =>
            if interiorFace G f
              ∧ (G.face_cells (2 * f + 0) = (c : Int) ∨ G.face_cells (2 * f + 1) = (c : Int))
            then x c * trans f - x (otherCell G c f).toNat * trans f else 0)).sum := by
    intro c hc
    rw [List.mem_range] at hc
    rw [sum_map_congr _ _ _ (fun i hi => slotWeighted_eq_face G trans hG c hc x i hi)]
    exact sum_slots_eq_sum_faces G hG honce c hc
      (fun f : Nat => if interiorFace G f
          ∧ (G.face_cells (2 * f + 0) = (c : Int) ∨ G.face_cells (2 * f + 1) = (c : Int))
        then x c * trans f - x (otherCell G c f).toNat * trans f else 0)
      (fun f _ hne => by
        by_contra hcon
        exact hne (if_neg hcon))
  rw [sum_map_congr _ _ _ h1, sum_map_sum_comm]
  apply sum_map_zero_of_forall
  intro f hf
  exact sum_cells_face G trans hG x f (List.mem_range.mp hf)

/-! ## The two-cell system with sources 5 and -5 -/

/-- The two-cell system with transmissibility 2 and sources 5 and -5: the
right-hand sides sum to zero, the value at position 0 before the doubling is
2, and `x = (0, -5/2)` solves the assembled system. -/
theorem twoCell_doubled_example :
    ((List.range twoCellGrid.number_of_cells).map
      (fun c => (ifs_tpfa_assemble twoCellGrid (twoCellSources 5) (fun _ => 2) (fun _ => 0)
        twoCellData).b c)).sum = 0
    ∧ (assemble_core twoCellGrid (twoCellSources 5) (fun _ => 2) (fun _ => 0)
        twoCellData).2.A.sa 0 ≠ 0
    ∧ solvesSystem (withSolution
        (ifs_tpfa_assemble twoCellGrid (twoCellSources 5) (fun _ => 2) (fun _ => 0) twoCellData)
        (fun c => if c = 0 then 0 else -5 / 2)) := by
  have hG : wellFormedGrid twoCellGrid := by decide
  have hA : constructedFor twoCellGrid none twoCellData :=
    ⟨(ifs_tpfa_construct_matrix twoCellGrid none).getD (csrmatrix_new_count_nnz 0),
      by rfl, rfl, rfl, rfl, rfl⟩
  obtain ⟨hassert, hno, hunl, hrhs⟩ := twoCellSources_facts 5 (fun _ => 2)
  obtain ⟨hrows, hb0, hb1, hm, _⟩ :=
    twoCell_system (twoCellSources 5) (fun _ => 2) twoCellData 5 hA hassert hno hunl hrhs
  have hs0 := core_sa_zero twoCellGrid none (twoCellSources 5) (fun _ => 2) (fun _ => 0)
    twoCellData hG trivial hA hassert (by decide) (by decide) (by decide)
  rw [diagFaces_twoCell, pressureDiag_noPressure _ _ _ _ hno, add_zero] at hs0
  refine ⟨?_, ?_, ?_⟩
  · have hr : List.range twoCellGrid.number_of_cells = [0, 1] := by decide
    rw [hr]
    simp only [List.map_cons, List.map_nil, List.sum_cons, List.sum_nil, hb0, hb1]
    norm_num
  · rw [hs0]
    norm_num
  · intro i hi
    have hi2 : i < 2 := by
      have : i < (ifs_tpfa_assemble twoCellGrid (twoCellSources 5) (fun _ => 2) (fun _ => 0)
        twoCellData).A.m := hi
      omega
    have hcases : i = 0 ∨ i = 1 := by omega
    rcases hcases with rfl | rfl
    · show rowWeighted (ifs_tpfa_assemble twoCellGrid (twoCellSources 5) (fun _ => 2)
          (fun _ => 0) twoCellData).A 0 (fun c => if c = 0 then 0 else -5 / 2)
        = (ifs_tpfa_assemble twoCellGrid (twoCellSources 5) (fun _ => 2) (fun _ => 0)
          twoCellData).b 0
      rw [(hrows _).1, hb0]
      norm_num
    · show rowWeighted (ifs_tpfa_assemble twoCellGrid (twoCellSources 5) (fun _ => 2)
          (fun _ => 0) twoCellData).A 1 (fun c => if c = 0 then 0 else -5 / 2)
        = (ifs_tpfa_assemble twoCellGrid (twoCellSources 5) (fun _ => 2) (fun _ => 0)
          twoCellData).b 1
      rw [(hrows _).2, hb1]
      norm_num

/-! ## Fluxes and the row of a cell -/

/-- The gravity term of a face with an exterior cell is zero. -/
theorem compute_grav_term_boundary (G : UnstructuredGrid) (gpress fgrav : Nat → ℚ) (f : Nat)
    (hf : f < G.number_of_faces) (hb : ¬ interiorFace G f) :
    compute_grav_term G gpress fgrav f = 0 := by
  rw [compute_grav_term_apply]
  unfold vector_zero
  rw [if_pos hf, zero_add]
  apply sum_map_zero_of_forall
  intro e _
  unfold gravTerm
  rw [if_neg]
  rintro ⟨h1, h2⟩
  rw [h1] at h2
  exact hb h2

/-- The flux stored for a face that at most one face slot of a handled
condition lists: the flux of the face loop for an interior face, plus the
flux of the condition that lists the face. -/
theorem press_flux_one_condition (G : UnstructuredGrid) (F : Option ifs_tpfa_forces)
    (trans : Nat → ℚ) (h : ifs_tpfa_data) (soln : ifs_tpfa_solution)
    (hassert : forcesOnBoundary G F) (hone : oneConditionPerFace G F) (f : Nat)
    (hf : f < G.number_of_faces) :
    (ifs_tpfa_press_flux G F trans h soln).face_flux f
      = (if interiorFace G f then
            fluxVal G trans (ifs_tpfa_press_flux G F trans h soln).cell_press h.fgrav f
          else 0)
        + match forcesBC F with
          | some bc => ((bcEntries bc).map (fun e =>
              if listsFace bc f e = true then
                bfluxVal G bc trans (ifs_tpfa_press_flux G F trans h soln).cell_press h.fgrav e
              else 0)).sum
          | none => 0 := by
  have hval : ¬ interiorFace G f →
      fluxVal G trans (ifs_tpfa_press_flux G F trans h soln).cell_press h.fgrav f = 0 := by
    intro hb
    unfold fluxVal
    exact if_neg hb
  unfold forcesOnBoundary at hassert
  unfold oneConditionPerFace at hone
  cases hbc : forcesBC F with
  | none =>
    simp only []
    rw [press_flux_face_flux_unlisted G F trans h soln f hf
      (fun bc hbc2 => by rw [hbc] at hbc2; exact absurd hbc2 (by simp)), add_zero]
    by_cases hint : interiorFace G f
    · rw [if_pos hint]
    · rw [if_neg hint, hval hint]
  | some bc =>
    rw [hbc] at hassert hone
    simp only [] at hassert hone ⊢
    have hlen := hone f hf
    rw [sum_map_ite_eq_filter (fun e => listsFace bc f e = true)]
    have hfilt : (bcEntries bc).filter (fun e => decide (listsFace bc f e = true))
        = (bcEntries bc).filter (listsFace bc f) := by
      congr 1
      funext e
      simp
    rw [hfilt]
    cases hl : (bcEntries bc).filter (listsFace bc f) with
    | nil =>
      rw [List.filter_eq_nil_iff] at hl
      rw [press_flux_face_flux_unlisted G F trans h soln f hf (fun bc2 hbc2 e he hh hface => by
        rw [hbc] at hbc2
        have := Option.some.inj hbc2
        subst this
        apply hl e he
        unfold listsFace
        simp [hh, hface])]
      simp only [List.map_nil, List.sum_nil, add_zero]
      by_cases hint : interiorFace G f
      · rw [if_pos hint]
      · rw [if_neg hint, hval hint]
    | cons e0 rest =>
      have hrest : rest = [] := by
        rw [hl] at hlen
        simp only [List.length_cons] at hlen
        exact List.length_eq_zero.mp (by omega)
      subst hrest
      have hmem0 : e0 ∈ (bcEntries bc).filter (listsFace bc f) := by
        rw [hl]
        exact List.mem_singleton.mpr rfl
      obtain ⟨he0, hp0⟩ := List.mem_filter.mp hmem0
      have hp0b := hp0
      unfold listsFace at hp0b
      simp only [Bool.and_eq_true, decide_eq_true_eq] at hp0b
      have hbnd := hassert e0 he0 hp0b.1
      have hnint : ¬ interiorFace G f := by
        rw [← hp0b.2]
        unfold interiorFace
        omega
      have hlast : lastListing bc f = some e0 := by
        unfold lastListing
        cases hfind : (bcEntries bc).reverse.find? (listsFace bc f) with
        | none =>
          rw [List.find?_eq_none] at hfind
          exact absurd hp0 (hfind e0 (List.mem_reverse.mpr he0))
        | some e1 =>
          have h1 := List.find?_some hfind
          have h2 := List.mem_reverse.mp (List.mem_of_find?_eq_some hfind)
          have h3 : e1 ∈ (bcEntries bc).filter (listsFace bc f) :=
            List.mem_filter.mpr ⟨h2, h1⟩
          rw [hl, List.mem_singleton] at h3
          rw [h3]
      rw [press_flux_face_flux_listed G F trans h soln bc hbc f e0 hlast, if_neg hnint]
      simp

/-- For an interior face of cell `c`, the signed flux of the face loop is the
contribution of the face to the row of `c` plus its gravity term. -/
theorem slot_interior (G : UnstructuredGrid) (trans cp fg x : Nat → ℚ) (hG : wellFormedGrid G)
    (hcp : ∀ c2, c2 < G.number_of_cells → cp c2 = x c2)
    (c : Nat) (hc : c < G.number_of_cells) (i : Nat) (hi : i ∈ cellFaceSlots G c)
    (hint : interiorFace G (G.cell_faces i)) :
    faceSign G c (G.cell_faces i) * fluxVal G trans cp fg (G.cell_faces i)
      = slotWeighted G trans c x i
        + trans (G.cell_faces i) * (faceSign G c (G.cell_faces i) * fg (G.cell_faces i)) := by
  obtain ⟨hf, hcons⟩ := hG.2.2.1 c hc i hi
  have hr := hG.2.2.2 _ hf
  have h1 := hint.1
  have h2 := hint.2
  have hint2 : 0 ≤ G.face_cells (2 * G.cell_faces i + 0)
      ∧ 0 ≤ G.face_cells (2 * G.cell_faces i + 1) := hint
  unfold fluxVal slotWeighted faceSign otherCell signOf
  rw [if_pos hint2, hcp _ (by omega), hcp _ (by omega)]
  by_cases hc1 : G.face_cells (2 * G.cell_faces i + 0) = (c : Int)
  · have e1 : (G.face_cells (2 * G.cell_faces i + 0)).toNat = c := by omega
    rw [if_pos hc1, if_pos h2, decide_eq_true hc1, e1]
    simp only [if_true]
    ring
  · have hc2 : G.face_cells (2 * G.cell_faces i + 1) = (c : Int) := by
      rcases hcons with h | h
      · exact absurd h hc1
      · exact h
    have e2 : (G.face_cells (2 * G.cell_faces i + 1)).toNat = c := by omega
    rw [if_neg hc1, if_pos h1, decide_eq_false hc1, e2]
    simp only [Bool.false_eq_true, if_false]
    ring

/-- A face of cell `c` with an exterior cell contributes nothing to the
matrix row of `c`. -/
theorem slot_boundary (G : UnstructuredGrid) (trans x : Nat → ℚ) (hG : wellFormedGrid G)
    (c : Nat) (hc : c < G.number_of_cells) (i : Nat) (hi : i ∈ cellFaceSlots G c)
    (hb : ¬ interiorFace G (G.cell_faces i)) : slotWeighted G trans c x i = 0 := by
  obtain ⟨_, hcons⟩ := hG.2.2.1 c hc i hi
  unfold slotWeighted
  rw [if_neg]
  intro ho
  apply hb
  unfold interiorFace
  unfold otherCell at ho
  split_ifs at ho with h1
  · exact ⟨by omega, ho⟩
  · rcases hcons with h | h
    · exact absurd h h1
    · exact ⟨ho, by omega⟩

/-- The signed flux that `boundary_fluxes` stores for a face slot of a
handled condition acting on cell `c`, against what `assemble_bc_contrib` did
to the row and the right-hand side of `c` for it. -/
theorem bc_term (G : UnstructuredGrid) (bc : FlowBoundaryConditions) (trans cp fg x : Nat → ℚ)
    (hcp : ∀ c2, c2 < G.number_of_cells → cp c2 = x c2) (c : Nat)
    (hc : c < G.number_of_cells) (e : Nat × Nat) (hh : bcHandled bc e.1)
    (hb : (G.face_cells (2 * bc.face e.2 + 0) < 0 ∧ 0 ≤ G.face_cells (2 * bc.face e.2 + 1))
      ∨ (0 ≤ G.face_cells (2 * bc.face e.2 + 0) ∧ G.face_cells (2 * bc.face e.2 + 1) < 0))
    (hcell : bcCell G (bc.face e.2) = c) :
    faceSign G c (bc.face e.2) * bfluxVal G bc trans cp fg e
      = (if bc.type e.1 = FlowBCType.BC_PRESSURE ∧ bcCell G (bc.face e.2) = c then
            x c * trans (bc.face e.2) else 0)
        - bcRhsTerm G bc trans fg e c := by
  have hsign := bc_sign_eq_faceSign G (bc.face e.2) hb
  rw [hcell] at hsign
  have hcpc := hcp c hc
  have hcell2 := hcell
  unfold bcCell at hcell2
  have hfs : faceSign G c (bc.face e.2)
      = if G.face_cells (2 * bc.face e.2 + 0) < 0 then -1 else 1 := by
    unfold faceSign signOf
    rcases hb with ⟨h1, h2⟩ | ⟨h1, h2⟩
    · have hne : ¬ G.face_cells (2 * bc.face e.2 + 0) = (c : Int) := by omega
      rw [decide_eq_false hne, if_pos h1]
      norm_num
    · rw [if_pos h1] at hcell2
      have heq : G.face_cells (2 * bc.face e.2 + 0) = (c : Int) := by omega
      have hnl : ¬ G.face_cells (2 * bc.face e.2 + 0) < 0 := by omega
      rw [decide_eq_true heq, if_neg hnl]
      norm_num
  have hcpv : (if G.face_cells (2 * bc.face e.2 + 0) < 0 then
        bc.value e.1 - cp (G.face_cells (2 * bc.face e.2 + 1)).toNat
      else cp (G.face_cells (2 * bc.face e.2 + 0)).toNat - bc.value e.1)
      = if G.face_cells (2 * bc.face e.2 + 0) < 0 then bc.value e.1 - x c
        else x c - bc.value e.1 := by
    rcases hb with ⟨h1, h2⟩ | ⟨h1, h2⟩
    · have hn0 : ¬ 0 ≤ G.face_cells (2 * bc.face e.2 + 0) := by omega
      rw [if_neg hn0] at hcell2
      rw [if_pos h1, if_pos h1, hcell2, hcpc]
    · rw [if_pos h1] at hcell2
      have hnl : ¬ G.face_cells (2 * bc.face e.2 + 0) < 0 := by omega
      rw [if_neg hnl, if_neg hnl, hcell2, hcpc]
  have hsg : signOf (decide (G.face_cells (2 * bc.face e.2 + 0) < 0))
      = if G.face_cells (2 * bc.face e.2 + 0) < 0 then 1 else -1 := by
    unfold signOf
    by_cases h1 : G.face_cells (2 * bc.face e.2 + 0) < 0
    · rw [decide_eq_true h1, if_pos h1]
      norm_num
    · rw [decide_eq_false h1, if_neg h1]
      norm_num
  unfold bcRhsTerm bfluxVal
  rw [hsign, hcpv, hsg, hfs]
  by_cases hP : bc.type e.1 = FlowBCType.BC_PRESSURE
  · have hPc : bc.type e.1 = FlowBCType.BC_PRESSURE ∧ bcCell G (bc.face e.2) = c :=
      ⟨hP, hcell⟩
    simp only [if_pos hP, if_pos hPc]
    split_ifs <;> ring
  · have hF : bc.type e.1 = FlowBCType.BC_FLUX_TOTVOL := by
      rcases hh with h | h
      · exact absurd h hP
      · exact h
    have hn : ¬ (bc.type e.1 = FlowBCType.BC_PRESSURE ∧ bcCell G (bc.face e.2) = c) :=
      fun hh2 => hP hh2.1
    have hFc : bc.type e.1 = FlowBCType.BC_FLUX_TOTVOL ∧ bcCell G (bc.face e.2) = c :=
      ⟨hF, hcell⟩
    simp only [if_neg hP, if_neg hn, if_pos hFc]
    split_ifs <;> ring

/-- How often a face with exactly one cell of the grid is listed among the
faces of cell `c`: once for its cell, never for another cell. -/
theorem listedCount_boundary (G : UnstructuredGrid) (hG : wellFormedGrid G)
    (hlist : boundaryListedOnce G) (c : Nat) (hc : c < G.number_of_cells) (f : Nat)
    (hf : f < G.number_of_faces)
    (hb : (G.face_cells (2 * f + 0) < 0 ∧ 0 ≤ G.face_cells (2 * f + 1))
      ∨ (0 ≤ G.face_cells (2 * f + 0) ∧ G.face_cells (2 * f + 1) < 0)) :
    listedCount G c f = if bcCell G f = c then 1 else 0 := by
  have hnint : ¬ interiorFace G f := by
    unfold interiorFace
    omega
  by_cases hcell : bcCell G f = c
  · rw [if_pos hcell, ← hcell]
    exact hlist f hf hnint (by omega)
  · rw [if_neg hcell]
    unfold listedCount
    rw [List.length_eq_zero, List.filter_eq_nil_iff]
    intro i hi hfi
    simp only [decide_eq_true_eq] at hfi
    obtain ⟨_, hcons⟩ := hG.2.2.1 c hc i hi
    rw [hfi] at hcons
    apply hcell
    unfold bcCell
    rcases hb with ⟨h1, h2⟩ | ⟨h1, h2⟩
    · rw [if_neg (by omega)]
      omega
    · rw [if_pos h1]
      omega

/-- The signed fluxes of the conditions on the faces of cell `c` add up to
what `assemble_bc_contrib` did to the row and the right-hand side of `c`. -/
theorem boundary_sum (G : UnstructuredGrid) (F : Option ifs_tpfa_forces)
    (trans cp fg x : Nat → ℚ) (hG : wellFormedGrid G) (hlist : boundaryListedOnce G)
    (hassert : forcesOnBoundary G F)
    (hcp : ∀ c2, c2 < G.number_of_cells → cp c2 = x c2) (c : Nat)
    (hc : c < G.number_of_cells) :
    ((cellFaceSlots G c).map (fun i => faceSign G c (G.cell_faces i) *
        match forcesBC F with
        | some bc => ((bcEntries bc).map (fun e =>
            if listsFace bc (G.cell_faces i) e = true then bfluxVal G bc trans cp fg e
            else 0)).sum
        | none => 0)).sum
      = x c * pressureDiag G F trans c - bcRhsSum G F trans fg c := by
  unfold pressureDiag bcRhsSum
  unfold forcesOnBoundary at hassert
  cases hbc : forcesBC F with
  | none => simp
  | some bc =>
    rw [hbc] at hassert
    simp only [] at hassert ⊢
    have h1 : ∀ i ∈ cellFaceSlots G c,
        faceSign G c (G.cell_faces i) * ((bcEntries bc).map (fun e =>
            if listsFace bc (G.cell_faces i) e = true then bfluxVal G bc trans cp fg e
            else 0)).sum
        = ((bcEntries bc).map (fun e =>
            (fun i e => if listsFace bc (G.cell_faces i) e = true then
              faceSign G c (G.cell_faces i) * bfluxVal G bc trans cp fg e else 0) i e)).sum := by
      intro i _
      rw [← sum_map_mul_left]
      apply sum_map_congr
      intro e _
      beta_reduce
      split_ifs
      · rfl
      · exact mul_zero _
    have hper : ∀ e ∈ bcEntries bc,
        ((cellFaceSlots G c).map (fun i =>
          (fun i e => if listsFace bc (G.cell_faces i) e = true then
            faceSign G c (G.cell_faces i) * bfluxVal G bc trans cp fg e else 0) i e)).sum
        = (if bc.type e.1 = FlowBCType.BC_PRESSURE ∧ bcCell G (bc.face e.2) = c then
              (fun e : Nat × Nat => x c * trans (bc.face e.2)) e else 0)
          + -bcRhsTerm G bc trans fg e c := by
      intro e he
      beta_reduce
      by_cases hh : bcHandled bc e.1
      · obtain ⟨hf, hb⟩ := hassert e he hh
        have hterm : ∀ i ∈ cellFaceSlots G c,
            (if listsFace bc (G.cell_faces i) e = true then
              faceSign G c (G.cell_faces i) * bfluxVal G bc trans cp fg e else 0)
            = if G.cell_faces i = bc.face e.2 then
                faceSign G c (bc.face e.2) * bfluxVal G bc trans cp fg e else 0 := by
          intro i _
          by_cases hfi : G.cell_faces i = bc.face e.2
          · have hl : listsFace bc (G.cell_faces i) e = true := by
              unfold listsFace
              simp [hh, hfi]
            rw [if_pos hl, if_pos hfi, hfi]
          · have hl : ¬ listsFace bc (G.cell_faces i) e = true := by
              unfold listsFace
              simp only [Bool.and_eq_true, decide_eq_true_eq, not_and]
              intro _ hh2
              exact hfi hh2.symm
            rw [if_neg hl, if_neg hfi]
        rw [sum_map_congr _ _ _ hterm,
          sum_map_ite_const (fun i => G.cell_faces i = bc.face e.2)]
        have hcount := listedCount_boundary G hG hlist c hc (bc.face e.2) hf hb
        unfold listedCount at hcount
        rw [hcount]
        by_cases hcell : bcCell G (bc.face e.2) = c
        · rw [if_pos hcell, bc_term G bc trans cp fg x hcp c hc e hh hb hcell]
          push_cast
          ring
        · have hn1 : ¬ (bc.type e.1 = FlowBCType.BC_PRESSURE ∧ bcCell G (bc.face e.2) = c) :=
            fun h2 => hcell h2.2
          have hn2 : ¬ (bc.type e.1 = FlowBCType.BC_FLUX_TOTVOL
              ∧ bcCell G (bc.face e.2) = c) := fun h2 => hcell h2.2
          unfold bcRhsTerm
          simp only [if_neg hcell, if_neg hn1, if_neg hn2]
          push_cast
          ring
      · have hterm : ∀ i ∈ cellFaceSlots G c,
            (if listsFace bc (G.cell_faces i) e = true then
              faceSign G c (G.cell_faces i) * bfluxVal G bc trans cp fg e else 0) = 0 := by
          intro i _
          have hl : ¬ listsFace bc (G.cell_faces i) e = true := by
            unfold listsFace
            simp only [Bool.and_eq_true, decide_eq_true_eq, not_and]
            intro h2
            exact absurd h2 hh
          rw [if_neg hl]
        have hn1 : ¬ (bc.type e.1 = FlowBCType.BC_PRESSURE ∧ bcCell G (bc.face e.2) = c) :=
          fun h2 => hh (Or.inl h2.1)
        have hn2 : ¬ (bc.type e.1 = FlowBCType.BC_FLUX_TOTVOL
            ∧ bcCell G (bc.face e.2) = c) := fun h2 => hh (Or.inr h2.1)
        rw [sum_map_zero_of_forall _ _ hterm]
        unfold bcRhsTerm
        simp only [if_neg hn1, if_neg hn2]
        norm_num
    rw [sum_map_congr _ _ _ h1,
      sum_map_sum_comm (fun i e => if listsFace bc (G.cell_faces i) e = true then
        faceSign G c (G.cell_faces i) * bfluxVal G bc trans cp fg e else 0)
        (bcEntries bc) (cellFaceSlots G c),
      sum_map_congr _ _ _ hper, sum_map_add_eq, sum_map_neg,
      sum_map_ite_eq_filter (fun e : Nat × Nat => bc.type e.1 = FlowBCType.BC_PRESSURE
        ∧ bcCell G (bc.face e.2) = c) (fun e : Nat × Nat => x c * trans (bc.face e.2)),
      sum_map_mul_left]
    unfold bcEntriesAt
    ring

/-- The net outflow of cell `c` recovered by `ifs_tpfa_press_flux`, in terms
of the row of `c` and of its right-hand side. -/
theorem cellOutflow_eq (G : UnstructuredGrid) (F : Option ifs_tpfa_forces) (trans : Nat → ℚ)
    (hd : ifs_tpfa_data) (soln : ifs_tpfa_solution) (hG : wellFormedGrid G)
    (hlist : boundaryListedOnce G) (hassert : forcesOnBoundary G F)
    (hone : oneConditionPerFace G F)
    (hfg : ∀ f, f < G.number_of_faces → ¬ interiorFace G f → hd.fgrav f = 0)
    (c : Nat) (hc : c < G.number_of_cells) :
    cellOutflow G c (ifs_tpfa_press_flux G F trans hd soln).face_flux
      = ((cellFaceSlots G c).map (slotWeighted G trans c hd.x)).sum
        + rhsGravity G trans hd.fgrav c
        + hd.x c * pressureDiag G F trans c
        - bcRhsSum G F trans hd.fgrav c := by
  have hcp : ∀ c2, c2 < G.number_of_cells →
      (ifs_tpfa_press_flux G F trans hd soln).cell_press c2 = hd.x c2 := by
    intro c2 hc2
    rw [press_flux_cell_press, if_pos hc2]
  have hslot : ∀ i ∈ cellFaceSlots G c,
      faceSign G c (G.cell_faces i)
          * (ifs_tpfa_press_flux G F trans hd soln).face_flux (G.cell_faces i)
      = (slotWeighted G trans c hd.x i
          + (fun i => trans (G.cell_faces i)
              * (faceSign G c (G.cell_faces i) * hd.fgrav (G.cell_faces i))) i)
        + (fun i => faceSign G c (G.cell_faces i) *
            match forcesBC F with
            | some bc => ((bcEntries bc).map (fun e =>
                if listsFace bc (G.cell_faces i) e = true then
                  bfluxVal G bc trans (ifs_tpfa_press_flux G F trans hd soln).cell_press
                    hd.fgrav e
                else 0)).sum
            | none => 0) i := by
    intro i hi
    have hf := (hG.2.2.1 c hc i hi).1
    rw [press_flux_one_condition G F trans hd soln hassert hone _ hf, mul_add]
    beta_reduce
    congr 1
    by_cases hint : interiorFace G (G.cell_faces i)
    · rw [if_pos hint]
      exact slot_interior G trans _ hd.fgrav hd.x hG hcp c hc i hi hint
    · rw [if_neg hint, slot_boundary G trans hd.x hG c hc i hi hint, hfg _ hf hint]
      ring
  unfold cellOutflow
  rw [sum_map_congr _ _ _ hslot, sum_map_add_eq, sum_map_add_eq,
    boundary_sum G F trans _ hd.fgrav hd.x hG hlist hassert hcp c hc]
  unfold rhsGravity
  ring

/-- The two-cell system with transmissibility 2 and FLUX_TOTVOL conditions 5
and -5 on the boundary faces: `x = (0, -5/2)` satisfies row 1. -/
theorem twoCell_fluxes_row :
    forcesOnBoundary twoCellGrid (onlyBC (twoCellFluxes 5))
    ∧ rowWeighted (ifs_tpfa_assemble twoCellGrid (onlyBC (twoCellFluxes 5)) (fun _ => 2)
        (fun _ => 0) twoCellData).A 1 (fun c => if c = 0 then 0 else -5 / 2)
      = (ifs_tpfa_assemble twoCellGrid (onlyBC (twoCellFluxes 5)) (fun _ => 2)
        (fun _ => 0) twoCellData).b 1 := by
  have hA : constructedFor twoCellGrid none twoCellData :=
    ⟨(ifs_tpfa_construct_matrix twoCellGrid none).getD (csrmatrix_new_count_nnz 0),
      by rfl, rfl, rfl, rfl, rfl⟩
  obtain ⟨hassert, hno, hunl, hrhs⟩ := twoCellFluxes_facts 5 (fun _ => 2)
  obtain ⟨hrows, _, hb1, _, _⟩ :=
    twoCell_system (onlyBC (twoCellFluxes 5)) (fun _ => 2) twoCellData 5 hA hassert hno hunl hrhs
  refine ⟨hassert, ?_⟩
  rw [(hrows _).2, hb1]
  norm_num

/-! ## `checkIndividualConstraints` for a producer and for an injector -/

theorem with_production_cmode_self (ws : SingleWellState) (m : ProducerCMode)
    (h : m = ws.production_cmode) : { ws with production_cmode := m } = ws := by
  subst h
  rfl

theorem with_injection_cmode_self (ws : SingleWellState) (m : InjectorCMode)
    (h : m = ws.injection_cmode) : { ws with injection_cmode := m } = ws := by
  subst h
  rfl

theorem individualInjectorCheck_not_injector (w : WellContext) (ws : SingleWellState)
    (flag : Bool) (hI : w.isInjector = false) :
    individualInjectorCheck w ws flag = Except.ok (false, ws, flag) := by
  unfold individualInjectorCheck
  rw [if_neg (by rw [hI]; decide)]

theorem individualInjectorCheck_ok (w : WellContext) (ws : SingleWellState)
    (flag : Bool) (hI : w.isInjector = true) (r : InjectorCMode × Bool)
    (hr : activeInjectionConstraint w ws flag = Except.ok r) :
    individualInjectorCheck w ws flag
      = Except.ok (decide (r.1 ≠ ws.injection_cmode), { ws with injection_cmode := r.1 },
          r.2) := by
  unfold individualInjectorCheck
  rw [if_pos hI, hr]
  simp only []
  by_cases hne : r.1 ≠ ws.injection_cmode
  · rw [if_pos hne, decide_eq_true hne]
  · rw [if_neg hne, decide_eq_false hne, with_injection_cmode_self ws r.1 (not_not.mp hne)]

theorem individualInjectorCheck_error (w : WellContext) (ws : SingleWellState)
    (flag : Bool) (hI : w.isInjector = true) (e : String)
    (hr : activeInjectionConstraint w ws flag = Except.error e) :
    individualInjectorCheck w ws flag = Except.error e := by
  unfold individualInjectorCheck
  rw [if_pos hI, hr]

/-- A producer: the mode becomes the value of `activeProductionConstraint`,
and the call returns whether it differs from the current mode. -/
theorem checkIndividual_producer (w : WellContext) (ws : SingleWellState) (flag : Bool)
    (hP : w.isProducer = true) (hI : w.isInjector = false) :
    checkIndividualConstraints w ws flag
      = Except.ok (decide ((activeProductionConstraint w ws flag).1 ≠ ws.production_cmode),
          { ws with production_cmode := (activeProductionConstraint w ws flag).1 },
          (activeProductionConstraint w ws flag).2) := by
  unfold checkIndividualConstraints
  rw [if_pos hP]
  simp only []
  by_cases hne : (activeProductionConstraint w ws flag).1 ≠ ws.production_cmode
  · rw [if_pos hne, decide_eq_true hne]
  · rw [if_neg hne, decide_eq_false hne, individualInjectorCheck_not_injector w ws _ hI,
      with_production_cmode_self ws _ (not_not.mp hne)]

/-- The state after `checkIndividualConstraints` differs from the state
before in the two control modes at most. -/
theorem checkIndividual_frame (w : WellContext) (ws ws1 : SingleWellState) (flag b f : Bool)
    (h : checkIndividualConstraints w ws flag = Except.ok (b, ws1, f)) :
    ∃ pm im, ws1 = { ws with production_cmode := pm, injection_cmode := im } := by
  have hinj : ∀ fl, individualInjectorCheck w ws fl = Except.ok (b, ws1, f) →
      ∃ pm im, ws1 = { ws with production_cmode := pm, injection_cmode := im } := by
    intro fl h2
    unfold individualInjectorCheck at h2
    split_ifs at h2 with hI
    · cases hr : activeInjectionConstraint w ws fl with
      | error e => rw [hr] at h2; exact absurd h2 (by simp)
      | ok r =>
        rw [hr] at h2
        simp only [] at h2
        split_ifs at h2 with hne
        · have := Except.ok.inj h2
          exact ⟨ws.production_cmode, r.1, (congrArg (fun t => t.2.1) this).symm⟩
        · have := Except.ok.inj h2
          exact ⟨ws.production_cmode, ws.injection_cmode,
            (congrArg (fun t => t.2.1) this).symm⟩
    · have := Except.ok.inj h2
      exact ⟨ws.production_cmode, ws.injection_cmode, (congrArg (fun t => t.2.1) this).symm⟩
  unfold checkIndividualConstraints at h
  by_cases hP : w.isProducer = true
  · rw [if_pos hP] at h
    simp only [] at h
    by_cases hne : (activeProductionConstraint w ws flag).1 ≠ ws.production_cmode
    · rw [if_pos hne] at h
      have := Except.ok.inj h
      exact ⟨(activeProductionConstraint w ws flag).1, ws.injection_cmode,
        (congrArg (fun t => t.2.1) this).symm⟩
    · rw [if_neg hne] at h
      exact hinj _ h
  · rw [if_neg hP] at h
    exact hinj _ h

/-- The cascade of `activeInjectionConstraint` in terms of its checks. -/
theorem activeInjectionConstraint_cascade (w : WellContext) (ws : SingleWellState)
    (flag : Bool) :
    activeInjectionConstraint w ws flag
      = if injBhpTriggers w ws then Except.ok (InjectorCMode.BHP, flag)
        else
          match injRateCheck w ws with
          | Except.error e => Except.error e
          | Except.ok true => Except.ok (InjectorCMode.RATE, flag)
          | Except.ok false =>
            if injResvTriggers w ws then Except.ok (InjectorCMode.RESV, flag)
            else if w.injectionControls.hasControl InjectorCMode.THP
                ∧ ws.injection_cmode ≠ InjectorCMode.THP ∧ w.thpConstraint < ws.thp then
              (if rateLessThanPotential w.number_of_phases ws.surface_rates ws.well_potentials
                  = false then
                Except.ok (InjectorCMode.THP, false)
              else Except.ok (ws.injection_cmode, true))
            else Except.ok (ws.injection_cmode, flag) := rfl

/-- The scenario producer (BHP limit 2000, ORAT limit 500) at bhp 1800
producing 600 of oil: in BHP mode the ORAT check returns, in every other mode
the BHP check returns. -/
theorem scenario_switch (mode : ProducerCMode) (flag : Bool) :
    activeProductionConstraint scenarioProducer (scenarioProducerState mode) flag
      = if mode = ProducerCMode.BHP then (ProducerCMode.ORAT, flag)
        else (ProducerCMode.BHP, flag) := by
  rw [activeProductionConstraint_cascade]
  by_cases hm : mode = ProducerCMode.BHP
  · have h1 : ¬ bhpTriggers scenarioProducer (scenarioProducerState mode) :=
      fun hh => hh.2.1 hm
    have h2 : oratTriggers scenarioProducer (scenarioProducerState mode) := by
      refine ⟨rfl, ?_, ?_⟩
      · show mode ≠ ProducerCMode.ORAT
        rw [hm]
        decide
      · norm_num [scenarioProducer, scenarioProducerState, threePhase]
    rw [if_neg h1, if_pos h2, if_pos hm]
  · have h1 : bhpTriggers scenarioProducer (scenarioProducerState mode) := by
      refine ⟨rfl, hm, ?_⟩
      norm_num [scenarioProducer, scenarioProducerState]
    rw [if_pos h1, if_neg hm]

/-! ## Off-diagonal totals -/

/-- The total value stored at `(c, c2)` for two different cells before the
doubling: minus the sum of `trans[f]` over the interior faces joining them. -/
theorem core_offdiag_total (G : UnstructuredGrid) (W : Option Wells)
    (F : Option ifs_tpfa_forces) (trans gpress : Nat → ℚ) (h : ifs_tpfa_data)
    (hG : wellFormedGrid G) (hW : wellFormedWells G W) (hA : constructedFor G W h)
    (hassert : forcesOnBoundary G F) (honce : listedOnce G) (c c2 : Nat)
    (hc : c < G.number_of_cells) (hne : c2 ≠ c) :
    csrTotal (assemble_core G F trans gpress h).2.A c c2 = -joiningFaces G trans c c2 := by
  have hcm : c < numUnknowns G W := by
    unfold numUnknowns
    omega
  rw [csrTotal_eq_rowWeighted,
    rowWeighted_core G W F trans gpress h hG hW hA hassert c hcm, if_pos hc,
    if_neg (fun hh : c = c2 => hne hh.symm), zero_mul, add_zero,
    sum_map_congr _ _ _ (fun i hi => slotWeighted_offdiag G trans hG c c2 hc hne i hi),
    sum_map_neg]
  congr 1
  exact sum_slots_eq_sum_faces G hG honce c hc
    (fun f => if interiorFace G f
        ∧ ((G.face_cells (2 * f + 0) = (c : Int) ∧ G.face_cells (2 * f + 1) = (c2 : Int))
          ∨ (G.face_cells (2 * f + 0) = (c2 : Int) ∧ G.face_cells (2 * f + 1) = (c : Int)))
      then trans f else 0)
    (fun f _ hne2 => by
      by_contra hcon
      apply hne2
      beta_reduce
      rw [if_neg]
      rintro ⟨h1, h2 | h2⟩
      · exact hcon ⟨h1, Or.inl h2.1⟩
      · exact hcon ⟨h1, Or.inr h2.2⟩)

theorem joiningFaces_comm (G : UnstructuredGrid) (trans : Nat → ℚ) (c c2 : Nat) :
    joiningFaces G trans c c2 = joiningFaces G trans c2 c := by
  unfold joiningFaces
  apply sum_map_congr
  intro f _
  by_cases hcond : interiorFace G f
      ∧ ((G.face_cells (2 * f + 0) = (c : Int) ∧ G.face_cells (2 * f + 1) = (c2 : Int))
        ∨ (G.face_cells (2 * f + 0) = (c2 : Int) ∧ G.face_cells (2 * f + 1) = (c : Int)))
  · rw [if_pos hcond, if_pos ⟨hcond.1, hcond.2.symm⟩]
  · rw [if_neg hcond, if_neg (fun hh => hcond ⟨hh.1, hh.2.symm⟩)]

/-- The total value stored at `(c, c2)` for two different cells after
`ifs_tpfa_assemble`: the doubling does not touch it. -/
theorem assemble_offdiag_total (G : UnstructuredGrid) (W : Option Wells)
    (F : Option ifs_tpfa_forces) (trans gpress : Nat → ℚ) (h : ifs_tpfa_data)
    (hG : wellFormedGrid G) (hW : wellFormedWells G W) (hA : constructedFor G W h)
    (hassert : forcesOnBoundary G F) (honce : listedOnce G) (c c2 : Nat)
    (hc : c < G.number_of_cells) (hne : c2 ≠ c) :
    csrTotal (ifs_tpfa_assemble G F trans gpress h).A c c2 = -joiningFaces G trans c c2 := by
  have hcm : c < numUnknowns G W := by
    unfold numUnknowns
    omega
  rw [csrTotal_eq_rowWeighted, rowWeighted_assemble G W F trans gpress h hG hW hA c hcm,
    ← csrTotal_eq_rowWeighted,
    core_offdiag_total G W F trans gpress h hG hW hA hassert honce c c2 hc hne]
  by_cases hd : noPressure F ∧ c = 0
  · have h0 : ¬ (0 : Nat) = c2 := by
      intro hh
      apply hne
      rw [← hh, hd.2]
    rw [if_pos hd, if_neg h0, zero_mul, add_zero]
  · rw [if_neg hd, add_zero]

/-! ## The gravity term of a face -/

/-- The gravity term of an interior face: the signed sum of the gravity
potentials of the face slots that list it. -/
theorem compute_grav_term_interior (G : UnstructuredGrid) (gpress fgrav : Nat → ℚ) (f : Nat)
    (hf : f < G.number_of_faces) (hint : interiorFace G f) :
    compute_grav_term G gpress fgrav f
      = ((segLoop G.number_of_cells G.cell_facepos).map (fun e =>
          if G.cell_faces e.2 = f then faceSign G e.1 f * gpress e.2 else 0)).sum := by
  rw [compute_grav_term_apply]
  unfold vector_zero
  rw [if_pos hf, zero_add]
  apply sum_map_congr
  intro e _
  unfold gravTerm
  by_cases he : G.cell_faces e.2 = f
  · rw [if_pos he, if_pos ⟨he, by rw [he]; exact hint⟩, he]
  · rw [if_neg he, if_neg (fun hh => he hh.1)]

/-- The gravity terms depend on the gravity potentials of the slots of
interior faces only. -/
theorem compute_grav_term_congr (G : UnstructuredGrid) (gpress gpress2 fgrav : Nat → ℚ)
    (hagree : ∀ e ∈ segLoop G.number_of_cells G.cell_facepos,
      interiorFace G (G.cell_faces e.2) → gpress e.2 = gpress2 e.2) :
    compute_grav_term G gpress fgrav = compute_grav_term G gpress2 fgrav := by
  funext f
  rw [compute_grav_term_apply, compute_grav_term_apply]
  congr 1
  apply sum_map_congr
  intro e he
  unfold gravTerm
  by_cases hc : G.cell_faces e.2 = f ∧ interiorFace G (G.cell_faces e.2)
  · rw [if_pos hc, if_pos hc, hagree e he hc.2]
  · rw [if_neg hc, if_neg hc]

theorem assemble_congr_gpress (G : UnstructuredGrid) (F : Option ifs_tpfa_forces)
    (trans gpress gpress2 : Nat → ℚ) (h : ifs_tpfa_data)
    (hagree : ∀ e ∈ segLoop G.number_of_cells G.cell_facepos,
      interiorFace G (G.cell_faces e.2) → gpress e.2 = gpress2 e.2) :
    ifs_tpfa_assemble G F trans gpress h = ifs_tpfa_assemble G F trans gpress2 h := by
  unfold ifs_tpfa_assemble assemble_core assemble_faces
  rw [compute_grav_term_congr G gpress gpress2 h.fgrav hagree]

/-- On a grid in which the interior face `f` joins two different cells and is
listed once for each of them, the gravity term is the potential of its slot
in the first cell minus the potential of its slot in the second cell. -/
theorem compute_grav_term_two_slots (G : UnstructuredGrid) (gpress fgrav : Nat → ℚ)
    (hG : wellFormedGrid G) (honce : listedOnce G) (f : Nat) (hf : f < G.number_of_faces)
    (hint : interiorFace G f)
    (hne : G.face_cells (2 * f + 0) ≠ G.face_cells (2 * f + 1)) :
    ∃ i1 i2, i1 ∈ cellFaceSlots G (G.face_cells (2 * f + 0)).toNat
      ∧ i2 ∈ cellFaceSlots G (G.face_cells (2 * f + 1)).toNat
      ∧ G.cell_faces i1 = f ∧ G.cell_faces i2 = f
      ∧ compute_grav_term G gpress fgrav f = gpress i1 - gpress i2 := by
  obtain ⟨ho1, ho2⟩ := honce f hf hint
  unfold listedCount at ho1 ho2
  obtain ⟨i1, hi1⟩ := List.length_eq_one.mp ho1
  obtain ⟨i2, hi2⟩ := List.length_eq_one.mp ho2
  have hm1 : i1 ∈ (cellFaceSlots G (G.face_cells (2 * f + 0)).toNat).filter
      (fun i => decide (G.cell_faces i = f)) := by
    rw [hi1]
    exact List.mem_singleton.mpr rfl
  have hm2 : i2 ∈ (cellFaceSlots G (G.face_cells (2 * f + 1)).toNat).filter
      (fun i => decide (G.cell_faces i = f)) := by
    rw [hi2]
    exact List.mem_singleton.mpr rfl
  obtain ⟨hs1, hf1⟩ := List.mem_filter.mp hm1
  obtain ⟨hs2, hf2⟩ := List.mem_filter.mp hm2
  simp only [decide_eq_true_eq] at hf1 hf2
  refine ⟨i1, i2, hs1, hs2, hf1, hf2, ?_⟩
  have h1 := hint.1
  have h2 := hint.2
  have hr := hG.2.2.2 f hf
  have haN : (G.face_cells (2 * f + 0)).toNat < G.number_of_cells := by omega
  have hbN : (G.face_cells (2 * f + 1)).toNat < G.number_of_cells := by omega
  have hab : (G.face_cells (2 * f + 0)).toNat ≠ (G.face_cells (2 * f + 1)).toNat := by omega
  rw [compute_grav_term_interior G gpress fgrav f hf hint,
    segLoop_eq_flatMap _ _ hG.1 hG.2.1, sum_map_flatMap]
  have hcell : ∀ c ∈ List.range G.number_of_cells,
      (((List.range' (G.cell_facepos c) (G.cell_facepos (c + 1) - G.cell_facepos c)).map
          (fun j => (c, j))).map (fun e : Nat × Nat =>
            if G.cell_faces e.2 = f then faceSign G e.1 f * gpress e.2 else 0)).sum
      = (if c = (G.face_cells (2 * f + 0)).toNat then (fun _ => gpress i1) c else 0)
        + (if c = (G.face_cells (2 * f + 1)).toNat then (fun _ => -gpress i2) c else 0) := by
    intro c hc
    rw [List.mem_range] at hc
    rw [List.map_map]
    have hsum : ((List.range' (G.cell_facepos c) (G.cell_facepos (c + 1) - G.cell_facepos c)).map
          ((fun e : Nat × Nat =>
            if G.cell_faces e.2 = f then faceSign G e.1 f * gpress e.2 else 0)
            ∘ fun j => (c, j))).sum
        = (((cellFaceSlots G c).filter (fun i => decide (G.cell_faces i = f))).map
            (fun i => faceSign G c f * gpress i)).sum := by
      rw [← sum_map_ite_eq_filter (fun i => G.cell_faces i = f)]
      rfl
    rw [hsum]
    by_cases hca : c = (G.face_cells (2 * f + 0)).toNat
    · have hcb : ¬ c = (G.face_cells (2 * f + 1)).toNat := fun hh => hab (hca ▸ hh)
      have hsign : faceSign G c f = 1 := by
        unfold faceSign signOf
        have : G.face_cells (2 * f + 0) = (c : Int) := by omega
        rw [decide_eq_true this]
        norm_num
      rw [if_pos hca, if_neg hcb, hca, hi1, ← hca, hsign]
      simp
    · by_cases hcb : c = (G.face_cells (2 * f + 1)).toNat
      · have hsign : faceSign G c f = -1 := by
          unfold faceSign signOf
          have : ¬ G.face_cells (2 * f + 0) = (c : Int) := by omega
          rw [decide_eq_false this]
          norm_num
        rw [if_neg hca, if_pos hcb, hcb, hi2, ← hcb, hsign]
        simp
      · rw [if_neg hca, if_neg hcb]
        have hnil : (cellFaceSlots G c).filter (fun i => decide (G.cell_faces i = f)) = [] := by
          rw [List.filter_eq_nil_iff]
          intro i hi hfi
          simp only [decide_eq_true_eq] at hfi
          obtain ⟨_, hcons⟩ := hG.2.2.1 c hc i hi
          rw [hfi] at hcons
          rcases hcons with hh | hh
          · exact hca (by omega)
          · exact hcb (by omega)
        rw [hnil]
        simp
  rw [sum_map_congr _ _ _ hcell, sum_map_add_eq, sum_range_single, sum_range_single,
    if_pos haN, if_pos hbN]
  ring

/-! ## The column scan of `directVerticalNeighbors` -/

/-- The loop with `m` tests to go before `gi` reaches `large`: with enough
fuel it ends, and it returns true exactly when none of the `m` cells it
visits is active. -/
theorem scanColumn_spec (cartesianToActive : Int → Option Int) (step large : Int) :
    ∀ (m fuel : Nat) (gi : Int), 0 < step → large = gi + step * m → m < fuel →
      ∃ b, scanColumn cartesianToActive step large fuel gi = some b
        ∧ (b = true ↔ ∀ t : Nat, t < m → cartesianToActive (gi + step * t) = none) := by
  intro m
  induction m with
  | zero =>
    intro fuel gi _ hl hfuel
    obtain ⟨fuel1, rfl⟩ : ∃ f, fuel = f + 1 := ⟨fuel - 1, by omega⟩
    refine ⟨true, ?_, ?_⟩
    · unfold scanColumn
      rw [if_neg]
      simp at hl
      omega
    · simp
  | succ m ih =>
    intro fuel gi hs hl hfuel
    obtain ⟨fuel1, rfl⟩ : ∃ f, fuel = f + 1 := ⟨fuel - 1, by omega⟩
    have hlt : gi < large := by
      have : 0 < step * ((m + 1 : Nat) : Int) := by positivity
      omega
    unfold scanColumn
    rw [if_pos hlt]
    cases hact : cartesianToActive gi with
    | some a =>
      refine ⟨false, by simp, ?_⟩
      constructor
      · intro hcon
        exact absurd hcon (by decide)
      · intro hall
        have := hall 0 (by omega)
        simp only [Nat.cast_zero, mul_zero, add_zero] at this
        rw [hact] at this
        exact absurd this (by simp)
    | none =>
      have hl2 : large = (gi + step) + step * (m : Nat) := by
        rw [hl]
        push_cast
        ring
      obtain ⟨b, hb, hiff⟩ := ih fuel1 (gi + step) hs hl2 (by omega)
      refine ⟨b, by simpa using hb, ?_⟩
      rw [hiff]
      constructor
      · intro hall t ht
        cases t with
        | zero =>
          simp only [Nat.cast_zero, mul_zero, add_zero]
          exact hact
        | succ t =>
          have := hall t (by omega)
          rw [show gi + step * ((t + 1 : Nat) : Int) = gi + step + step * (t : Int) by
            push_cast
            ring]
          exact this
      · intro hall t ht
        have := hall (t + 1) (by omega)
        rw [show gi + step * ((t + 1 : Nat) : Int) = gi + step + step * (t : Int) by
          push_cast
          ring] at this
        exact this

/-- The decomposition of a non-negative index. -/
theorem globalToIjk_spec (cartDims : Nat → Int) (gc : Int) (hx : 0 < cartDims 0)
    (hy : 0 < cartDims 1) (hgc : 0 ≤ gc) :
    gc = cartesianIndex cartDims (globalToIjk cartDims gc).1 (globalToIjk cartDims gc).2.1
      (globalToIjk cartDims gc).2.2
    ∧ 0 ≤ (globalToIjk cartDims gc).1 ∧ (globalToIjk cartDims gc).1 < cartDims 0
    ∧ 0 ≤ (globalToIjk cartDims gc).2.1 ∧ (globalToIjk cartDims gc).2.1 < cartDims 1
    ∧ 0 ≤ (globalToIjk cartDims gc).2.2 := by
  have hq : 0 ≤ gc / cartDims 0 := Int.ediv_nonneg hgc (le_of_lt hx)
  have e1 : Int.tmod gc (cartDims 0) = gc % cartDims 0 := Int.tmod_eq_emod hgc (le_of_lt hx)
  have e2 : Int.tdiv gc (cartDims 0) = gc / cartDims 0 := Int.tdiv_eq_ediv hgc (le_of_lt hx)
  have e3 : Int.tmod (gc / cartDims 0) (cartDims 1) = gc / cartDims 0 % cartDims 1 :=
    Int.tmod_eq_emod hq (le_of_lt hy)
  have e4 : Int.tdiv (gc / cartDims 0) (cartDims 1) = gc / cartDims 0 / cartDims 1 :=
    Int.tdiv_eq_ediv hq (le_of_lt hy)
  unfold globalToIjk cartesianIndex
  simp only [e1, e2, e3, e4]
  have d1 := Int.emod_add_ediv gc (cartDims 0)
  have d2 := Int.emod_add_ediv (gc / cartDims 0) (cartDims 1)
  refine ⟨?_, Int.emod_nonneg _ (ne_of_gt hx), Int.emod_lt_of_pos _ hx,
    Int.emod_nonneg _ (ne_of_gt hy), Int.emod_lt_of_pos _ hy,
    Int.ediv_nonneg hq (le_of_lt hy)⟩
  rw [d2, d1]

/-- What `directVerticalNeighbors` computes.  For dimensions `nx, ny ≥ 1`
and indices `0 ≤ small ≤ large`, decomposed as `index = i + nx * (j + ny * k)`
by `globalToIjk`, the function (with enough fuel for its loop) returns a
value, and the value is true exactly when the test of line 105 holds (same
`i`, same `j`, `k2 - k1 > 1`) and every Cartesian cell strictly between the
two in that column is absent from `cartesianToActive`. -/
theorem directVerticalNeighbors_spec (fuel : Nat) (cartDims : Nat → Int)
    (cartesianToActive : Int → Option Int) (small large : Int)
    (hx : 0 < cartDims 0) (hy : 0 < cartDims 1) (h0 : 0 ≤ small) (hle : small ≤ large)
    (hfuel : (large - small).toNat < fuel) :
    small = cartesianIndex cartDims (globalToIjk cartDims small).1
        (globalToIjk cartDims small).2.1 (globalToIjk cartDims small).2.2
    ∧ large = cartesianIndex cartDims (globalToIjk cartDims large).1
        (globalToIjk cartDims large).2.1 (globalToIjk cartDims large).2.2
    ∧ ∃ b, directVerticalNeighbors fuel cartDims cartesianToActive small large = some b
      ∧ (b = true ↔
        ((globalToIjk cartDims small).1 = (globalToIjk cartDims large).1
          ∧ (globalToIjk cartDims small).2.1 = (globalToIjk cartDims large).2.1
          ∧ (globalToIjk cartDims large).2.2 - (globalToIjk cartDims small).2.2 > 1
          ∧ ∀ k, (globalToIjk cartDims small).2.2 < k → k < (globalToIjk cartDims large).2.2 →
              cartesianToActive (cartesianIndex cartDims (globalToIjk cartDims small).1
                (globalToIjk cartDims small).2.1 k) = none)) := by
  obtain ⟨s1, _, _, _, _, _⟩ := globalToIjk_spec cartDims small hx hy h0
  obtain ⟨s2, _, _, _, _, _⟩ := globalToIjk_spec cartDims large hx hy (by omega)
  refine ⟨s1, s2, ?_⟩
  unfold directVerticalNeighbors
  simp only []
  generalize globalToIjk cartDims small = g1 at s1 ⊢
  generalize globalToIjk cartDims large = g2 at s2 ⊢
  unfold cartesianIndex at s1 s2 ⊢
  by_cases hc : g1.1 = g2.1 ∧ g1.2.1 = g2.2.1 ∧ g2.2.2 - g1.2.2 > 1
  · rw [if_pos hc]
    obtain ⟨hi, hj, hk⟩ := hc
    have hs : 0 < cartDims 0 * cartDims 1 := mul_pos hx hy
    have hdiff : large = small + cartDims 0 * cartDims 1 * (g2.2.2 - g1.2.2) := by
      rw [← hi, ← hj] at s2
      linear_combination s2 - s1
    obtain ⟨m, hm⟩ : ∃ m : Nat, (m : Int) = g2.2.2 - g1.2.2 - 1 :=
      ⟨(g2.2.2 - g1.2.2 - 1).toNat, by omega⟩
    have hl : large = small + cartDims 0 * cartDims 1 + cartDims 0 * cartDims 1 * (m : Int) := by
      rw [hm]
      linear_combination hdiff
    have hmf : m < fuel := by
      have h1 : g2.2.2 - g1.2.2 ≤ cartDims 0 * cartDims 1 * (g2.2.2 - g1.2.2) :=
        le_mul_of_one_le_left (by omega) (by omega)
      omega
    obtain ⟨b, hb, hiff⟩ := scanColumn_spec cartesianToActive (cartDims 0 * cartDims 1) large
      m fuel (small + cartDims 0 * cartDims 1) hs hl hmf
    refine ⟨b, hb, ?_⟩
    rw [hiff]
    constructor
    · intro hall
      refine ⟨hi, hj, hk, ?_⟩
      intro k hk1 hk2
      obtain ⟨t, ht⟩ : ∃ t : Nat, (t : Int) = k - g1.2.2 - 1 :=
        ⟨(k - g1.2.2 - 1).toNat, by omega⟩
      have := hall t (by omega)
      rw [show small + cartDims 0 * cartDims 1 + cartDims 0 * cartDims 1 * (t : Int)
          = g1.1 + cartDims 0 * (g1.2.1 + cartDims 1 * k) by
        rw [ht]
        linear_combination s1] at this
      exact this
    · rintro ⟨_, _, _, hall⟩ t ht
      have := hall (g1.2.2 + 1 + t) (by omega) (by omega)
      rw [show g1.1 + cartDims 0 * (g1.2.1 + cartDims 1 * (g1.2.2 + 1 + (t : Int)))
          = small + cartDims 0 * cartDims 1 + cartDims 0 * cartDims 1 * (t : Int) by
        linear_combination -s1] at this
      exact this
  · rw [if_neg hc]
    refine ⟨false, rfl, ?_⟩
    constructor
    · intro hcon
      exact absurd hcon (by decide)
    · intro hh
      exact absurd ⟨hh.1, hh.2.1, hh.2.2.1⟩ hc

/-- A column of three cells (dimensions 1 x 1 x 3) in which no cell is
active: the cells 0 and 2 have the same `i` and `j`, their layers differ by
two and the cell between them is inactive, so the function returns true. -/
theorem directVerticalNeighbors_separated :
    directVerticalNeighbors 5 threeLayerDims (fun _ => none) 0 2 = some true := by
  obtain ⟨b, hb, hiff⟩ := (directVerticalNeighbors_spec 5 threeLayerDims (fun _ => none) 0 2
    (by decide) (by decide) (by decide) (by decide) (by decide)).2.2
  have hbt : b = true := hiff.mpr ⟨by decide, by decide, by decide, fun _ _ _ => rfl⟩
  rw [hb, hbt]
/-! ## The ring of three cells -/

/-- The data `ringData` hold the matrix constructed for the ring. -/
theorem ringGrid_constructed : constructedFor ringGrid none ringData :=
  ⟨(ifs_tpfa_construct_matrix ringGrid none).getD (csrmatrix_new_count_nnz 0),
      by rfl, rfl, rfl, rfl, rfl⟩

/-- On the ring with transmissibilities 1, 2 and 3 the assembled row of cell 1
holds -1 in column 0 and -2 in column 2, and the value at storage position 0
before the doubling is 1 + 3 = 4. -/
theorem ringGrid_entries :
    csrTotal (ifs_tpfa_assemble ringGrid zeroSources ringTrans (fun _ => 0) ringData).A 1 0 = -1
    ∧ csrTotal (ifs_tpfa_assemble ringGrid zeroSources ringTrans (fun _ => 0) ringData).A 1 2
      = -2
    ∧ (assemble_core ringGrid zeroSources ringTrans (fun _ => 0) ringData).2.A.sa 0 = 4 := by
  refine ⟨?_, ?_, ?_⟩
  · rw [assemble_offdiag_total ringGrid none zeroSources ringTrans (fun _ => 0) ringData
      (by decide) trivial ringGrid_constructed trivial (by decide) 1 0 (by decide) (by decide)]
    norm_num [joiningFaces, ringGrid, ringTrans, interiorFace, List.range, List.range.loop]
  · rw [assemble_offdiag_total ringGrid none zeroSources ringTrans (fun _ => 0) ringData
      (by decide) trivial ringGrid_constructed trivial (by decide) 1 2 (by decide) (by decide)]
    norm_num [joiningFaces, ringGrid, ringTrans, interiorFace, List.range, List.range.loop]
  · have h := (core_diag_value ringGrid none zeroSources ringTrans (fun _ => 0) ringData
      (by decide) trivial ringGrid_constructed trivial (by decide) (by decide) 0 (by decide)).1
    have hidx : csrmatrix_elm_index 0 0
        (assemble_core ringGrid zeroSources ringTrans (fun _ => 0) ringData).2.A = 0 := by
      rfl
    rw [hidx] at h
    rw [h, pressureDiag_noPressure ringGrid zeroSources ringTrans 0 trivial]
    norm_num [diagFaces, ringGrid, ringTrans, interiorFace, List.range, List.range.loop]


theorem activeProductionConstraint_fst_eq_table (w : WellContext) (ws : SingleWellState)
    (flag : Bool) :
    (activeProductionConstraint w ws flag).1 = activeProductionConstraint_table w ws := by
  simp only [activeProductionConstraint_table, producerPriority, firstViolated_cons,
    firstViolated_nil, activeProductionConstraint]
  rw [apply_ite Prod.fst]
  refine if_congr (by simp [producerLimitSwitches]) rfl ?_
  rw [apply_ite Prod.fst]
  refine if_congr (by simp [producerLimitSwitches]) rfl ?_
  rw [apply_ite Prod.fst]
  refine if_congr (by simp [producerLimitSwitches]) rfl ?_
  rw [apply_ite Prod.fst]
  refine if_congr (by simp [producerLimitSwitches]) rfl ?_
  rw [apply_ite Prod.fst]
  refine if_congr (by simp [producerLimitSwitches, imp_iff_not_or]) rfl ?_
  rw [apply_ite Prod.fst]
  refine if_congr ?_ rfl ?_
  · simp only [producerLimitSwitches]
    cases w.productionControls.prediction_mode <;> simp
  by_cases hT : w.productionControls.hasControl ProducerCMode.THP = true ∧
      ws.production_cmode ≠ ProducerCMode.THP ∧ w.thpConstraint > ws.thp ∧
      ws.trivial_target = false
  · rw [if_pos hT]
    cases hp : w.wvfpexp_prevent <;>
      cases hr : rateLessThanPotential w.number_of_phases (fun p => -ws.surface_rates p)
        ws.well_potentials <;>
      simp [producerLimitSwitches, hT.1, hT.2.1, hT.2.2.1, hT.2.2.2, hp, hr]
  · rw [if_neg hT]
    have : ¬ (w.productionControls.hasControl ProducerCMode.THP = true ∧
        ws.production_cmode ≠ ProducerCMode.THP ∧
        producerLimitSwitches w ws ProducerCMode.THP = true) := by
      intro hc
      apply hT
      have h3 := hc.2.2
      simp only [producerLimitSwitches, Bool.and_eq_true, decide_eq_true_eq,
        Bool.not_eq_true'] at h3
      exact ⟨hc.1, hc.2.1, h3.1.1, h3.1.2⟩
    rw [if_neg this]

/-- C7, as stated, fails.  The producer has BHP (limit 2000), ORAT (limit
500) and THP (limit 100) controls and its prevent flag set; it is in ORAT
mode at bhp 2500 and thp 50, producing 400 of oil with potentials 700.  The
code keeps the current mode ORAT and sets the flag "thp limit violated but
not switched".  The walk over [BHP, ORAT, WRAT, GRAT, LRAT, RESV, THP]
selects BHP when a limit counts as violated once the current value exceeds
it (bhp 2500 is above 2000), and THP when a pressure limit counts as
violated once the pressure is below it (thp 50 is below 100): in neither
reading is the code's result the first violated mode.  With the prevent flag
cleared and a trivial target the code again keeps ORAT, although thp is
below the THP limit, and the walk selects THP. -/
theorem activeProductionConstraint_not_first_violated :
    activeProductionConstraint suppressedProducer suppressedState false
        = (ProducerCMode.ORAT, true)
      ∧ firstViolated producerPriority suppressedProducer.productionControls.hasControl
          (producerLimitExceeded suppressedProducer suppressedState)
          suppressedState.production_cmode = ProducerCMode.BHP
      ∧ firstViolated producerPriority suppressedProducer.productionControls.hasControl
          (producerLimitViolated suppressedProducer suppressedState)
          suppressedState.production_cmode = ProducerCMode.THP
      ∧ activeProductionConstraint unpreventedProducer trivialTargetState false
        = (ProducerCMode.ORAT, false)
      ∧ firstViolated producerPriority unpreventedProducer.productionControls.hasControl
          (producerLimitViolated unpreventedProducer trivialTargetState)
          trivialTargetState.production_cmode = ProducerCMode.THP := by
  refine ⟨?_, ?_, ?_, ?_, ?_⟩
  · norm_num [activeProductionConstraint, suppressedProducer, suppressedState, threePhase,
      rateLessThanPotential, List.range, List.range.loop]
    decide
  · simp only [producerPriority, firstViolated_cons, firstViolated_nil]
    norm_num [producerLimitExceeded, suppressedProducer, suppressedState, threePhase]
  · simp only [producerPriority, firstViolated_cons, firstViolated_nil]
    norm_num [producerLimitViolated, producerLimitExceeded, suppressedProducer,
      suppressedState, threePhase]
  · norm_num [activeProductionConstraint, unpreventedProducer, trivialTargetState,
      suppressedProducer, suppressedState, threePhase]
  · simp only [producerPriority, firstViolated_cons, firstViolated_nil]
    norm_num [producerLimitViolated, producerLimitExceeded, unpreventedProducer,
      trivialTargetState, suppressedProducer, suppressedState, threePhase]

/-- C7 (amended): the control mode returned by `activeProductionConstraint`
is the first mode of [BHP, ORAT, WRAT, GRAT, LRAT, RESV, THP] that is
available, is not the current mode, and whose switch condition holds, and
the current mode if there is none.  The switch conditions are those of
`producerLimitSwitches`: bhp below the BHP limit; the produced rate above
the ORAT, WRAT, GRAT, LRAT or RESV limit (LRAT not when the liquid-rate
limit equals the oil-rate limit and the water rate is below 1e-12 in
absolute value); thp below the THP limit with a non-trivial target, unless
the prevent flag is set and every phase rate is within its well potential.
In particular a producer in BHP mode whose ORAT and LRAT controls are both
available, with the produced oil rate above the ORAT limit and the produced
liquid rate above the LRAT limit, is switched to ORAT, not LRAT. -/
theorem activeProductionConstraint_first_switching (w : WellContext) (ws : SingleWellState)
    (flag : Bool) :
    (activeProductionConstraint w ws flag).1
        = firstViolated producerPriority w.productionControls.hasControl
            (producerLimitSwitches w ws) ws.production_cmode
    ∧ (ws.production_cmode = ProducerCMode.BHP →
        w.productionControls.hasControl ProducerCMode.ORAT = true →
        w.productionControls.hasControl ProducerCMode.LRAT = true →
        w.productionControls.oil_rate
          < -ws.surface_rates (w.phaseUsage.phase_pos BlackoilPhases.Liquid) →
        w.productionControls.liquid_rate
          < -ws.surface_rates (w.phaseUsage.phase_pos BlackoilPhases.Liquid)
            - ws.surface_rates (w.phaseUsage.phase_pos BlackoilPhases.Aqua) →
        (activeProductionConstraint w ws flag).1 = ProducerCMode.ORAT
        ∧ (activeProductionConstraint w ws flag).1 ≠ ProducerCMode.LRAT) := by
  refine ⟨activeProductionConstraint_fst_eq_table w ws flag, ?_⟩
  intro hcur hO _ hvO _
  rw [activeProductionConstraint_fst_eq_table]
  have hsw : producerLimitSwitches w ws ProducerCMode.ORAT = true := by
    simp only [producerLimitSwitches]
    exact decide_eq_true hvO
  have : activeProductionConstraint_table w ws = ProducerCMode.ORAT := by
    simp only [activeProductionConstraint_table, producerPriority, firstViolated_cons, hcur]
    rw [if_neg (fun h => h.2.1 rfl), if_pos ⟨hO, by decide, hsw⟩]
  rw [this]
  exact ⟨rfl, by decide⟩

/-- Witness for C7 (amended): the example producer is in BHP mode, produces
600 of oil against the ORAT limit 500 and 610 of liquid against the LRAT
limit 550, and is switched to ORAT. -/
theorem activeProductionConstraint_first_switching_witness :
    (activeProductionConstraint exampleProducer exampleProducerState false).1
        = ProducerCMode.ORAT
      ∧ (activeProductionConstraint exampleProducer exampleProducerState false).1
        ≠ ProducerCMode.LRAT :=
  (activeProductionConstraint_first_switching exampleProducer exampleProducerState false).2
    rfl rfl rfl
    (by norm_num [exampleProducer, exampleProducerState, threePhase])
    (by norm_num [exampleProducer, exampleProducerState, threePhase])

/-- C8, as stated, fails: the example injector has THP available, is not in
THP mode and its thp (150) is above the THP limit (100), so the walk over
[BHP, RATE, RESV, THP] with the plain limit checks selects THP; the code keeps
the current mode BHP (and sets the not-switched flag) because no phase rate
exceeds its well potential. -/
theorem activeInjectionConstraint_thp_not_returned :
    firstViolated injectorPriority exampleInjector.injectionControls.hasControl
        (injectorLimitExceeded exampleInjector exampleInjectorState)
        exampleInjectorState.injection_cmode = InjectorCMode.THP
      ∧ activeInjectionConstraint exampleInjector exampleInjectorState false
        = Except.ok (InjectorCMode.BHP, true) := by
  constructor
  · simp only [injectorPriority, firstViolated_cons, firstViolated_nil]
    norm_num [injectorLimitExceeded, exampleInjector, exampleInjectorState, threePhase,
      injectedSurfaceRate, injectedResvRate]
  · norm_num [activeInjectionConstraint, exampleInjector, exampleInjectorState, threePhase,
      injectedResvRate, rateLessThanPotential, List.range, List.range.loop]
    decide

/-- C8 (amended): for an injector of type WATER, OIL or GAS,
`activeInjectionConstraint` does not fail and returns the first mode in the
order BHP, RATE, RESV, THP that is available, is not the current mode, and
whose limit is exceeded, where the THP limit counts only if in addition some
phase's surface rate is above its well potential; if there is none it
returns the current mode.  In particular a water injector with RATE limit
300 and current water rate 250 is not switched to RATE. -/
theorem activeInjectionConstraint_first_switching (w : WellContext) (ws : SingleWellState)
    (flag : Bool) (hty : w.injectionControls.injector_type ≠ InjectorType.MULTI) :
    (∃ flag1, activeInjectionConstraint w ws flag
      = Except.ok (firstViolated injectorPriority w.injectionControls.hasControl
          (injectorLimitSwitches w ws) ws.injection_cmode, flag1))
    ∧ (w.injectionControls.injector_type = InjectorType.WATER →
        w.injectionControls.surface_rate = 300 →
        ws.surface_rates (w.phaseUsage.phase_pos BlackoilPhases.Aqua) = 250 →
        ws.injection_cmode ≠ InjectorCMode.RATE →
        ∀ r, activeInjectionConstraint w ws flag = Except.ok r → r.1 ≠ InjectorCMode.RATE) := by
  refine ⟨aic_walk w ws flag hty, ?_⟩
  intro hW hlim hrate hcur r hr
  obtain ⟨flag1, h⟩ := aic_walk w ws flag hty
  rw [h] at hr
  have hr1 : r.1 = firstViolated injectorPriority w.injectionControls.hasControl
      (injectorLimitSwitches w ws) ws.injection_cmode := by
    cases hr
    rfl
  rw [hr1]
  have hnot : injectorLimitSwitches w ws InjectorCMode.RATE = false := by
    simp only [injectorLimitSwitches, injectorLimitExceeded, injectedSurfaceRate, hW, hlim,
      hrate]
    norm_num
  simp only [injectorPriority, firstViolated_cons, firstViolated_nil, hnot]
  split_ifs <;> first | exact hcur | decide | simp_all

/-- Witness for C8 (amended): the example water injector (RATE limit 300,
water rate 250, thp above the THP limit, rates below potentials). -/
theorem activeInjectionConstraint_first_switching_witness :
    ∃ flag1, activeInjectionConstraint exampleInjector exampleInjectorState false
      = Except.ok (firstViolated injectorPriority exampleInjector.injectionControls.hasControl
          (injectorLimitSwitches exampleInjector exampleInjectorState)
          exampleInjectorState.injection_cmode, flag1) :=
  (activeInjectionConstraint_first_switching exampleInjector exampleInjectorState false
    (by decide)).1

/-- C9: `ifs_tpfa_press_flux` sets the pressure of every cell to the entry of
the solution vector `x` with the same index and copies nothing beyond the
cells; it sets the flux of every interior face `f = (c1, c2)` to
`trans[f] * (p[c1] - p[c2] + fgrav[f])`; and it sets the flux of every face
with an exterior cell that carries no boundary condition to zero.  The
hypothesis is the assertion of the code that boundary conditions are given
on faces with exactly one exterior cell. -/
theorem ifs_tpfa_press_flux_interior (G : UnstructuredGrid) (F : Option ifs_tpfa_forces)
    (trans : Nat → ℚ) (h : ifs_tpfa_data) (soln : ifs_tpfa_solution)
    (hassert : forcesOnBoundary G F) :
    (∀ c, c < G.number_of_cells →
      (ifs_tpfa_press_flux G F trans h soln).cell_press c = h.x c)
    ∧ (∀ c, G.number_of_cells ≤ c →
      (ifs_tpfa_press_flux G F trans h soln).cell_press c = soln.cell_press c)
    ∧ (∀ f, f < G.number_of_faces → interiorFace G f →
      (ifs_tpfa_press_flux G F trans h soln).face_flux f
        = trans f *
          ((ifs_tpfa_press_flux G F trans h soln).cell_press (G.face_cells (2 * f + 0)).toNat
            - (ifs_tpfa_press_flux G F trans h soln).cell_press
                (G.face_cells (2 * f + 1)).toNat
            + h.fgrav f))
    ∧ (∀ f, f < G.number_of_faces → ¬ interiorFace G f → noCondition F f →
      (ifs_tpfa_press_flux G F trans h soln).face_flux f = 0) := by
  refine ⟨?_, ?_, ?_, ?_⟩
  · intro c hc
    rw [press_flux_cell_press, if_pos hc]
  · intro c hc
    rw [press_flux_cell_press, if_neg (by omega)]
  · intro f hf hint
    rw [press_flux_face_flux_unlisted G F trans h soln f hf]
    · exact if_pos hint
    · intro bc hbc e he hh hface
      unfold forcesOnBoundary at hassert
      rw [hbc] at hassert
      have hb := (hassert e he hh).2
      rw [hface] at hb
      unfold interiorFace at hint
      omega
  · intro f hf hint hno
    rw [press_flux_face_flux_unlisted G F trans h soln f hf]
    · exact if_neg hint
    · intro bc hbc e he _
      unfold noCondition at hno
      rw [hbc] at hno
      exact hno e he

/-- Witness for C9: the one-cell grid with a PRESSURE condition on its
boundary face satisfies the assertion of the code. -/
theorem ifs_tpfa_press_flux_interior_witness :
    (ifs_tpfa_press_flux oneCellGrid (onlyBC onePressure) (fun _ => 1) zeroData
      zeroSolution).cell_press 0 = zeroData.x 0 :=
  (ifs_tpfa_press_flux_interior oneCellGrid (onlyBC onePressure) (fun _ => 1) zeroData
    zeroSolution (by decide)).1 0 (by decide)

/-- C10, as stated, fails: on the one-cell grid, face 0 is a boundary face
whose second cell is exterior and it is listed under the PRESSURE condition
0 with value 100, but it is listed again under the later PRESSURE condition
with value 200, and the recovered flux is the one of the later condition. -/
theorem boundary_pressure_flux_overwritten :
    (0, 0) ∈ bcEntries twoPressures
      ∧ twoPressures.type 0 = FlowBCType.BC_PRESSURE
      ∧ twoPressures.face 0 = 0
      ∧ twoPressures.value 0 = 100
      ∧ 0 ≤ oneCellGrid.face_cells (2 * 0 + 0)
      ∧ oneCellGrid.face_cells (2 * 0 + 1) < 0
      ∧ (ifs_tpfa_press_flux oneCellGrid (onlyBC twoPressures) (fun _ => 1) zeroData
          zeroSolution).face_flux 0
        ≠ (fun _ => (1 : ℚ)) 0 *
          ((ifs_tpfa_press_flux oneCellGrid (onlyBC twoPressures) (fun _ => 1) zeroData
              zeroSolution).cell_press (oneCellGrid.face_cells (2 * 0 + 0)).toNat
            - 100 + zeroData.fgrav 0) := by
  refine ⟨by decide, rfl, rfl, rfl, by decide, by decide, ?_⟩
  rw [press_flux_face_flux_listed oneCellGrid (onlyBC twoPressures) (fun _ => 1) zeroData
    zeroSolution twoPressures rfl 0 (1, 1) (by decide)]
  have hp : ∀ c, (ifs_tpfa_press_flux oneCellGrid (onlyBC twoPressures) (fun _ => 1) zeroData
      zeroSolution).cell_press c = 0 := by
    intro c
    rw [press_flux_cell_press]
    split_ifs <;> rfl
  simp only [bfluxVal, hp]
  norm_num [twoPressures, oneCellGrid, zeroData]

/-- C10 (amended): for every boundary face `f` whose last listing under a
PRESSURE or FLUX_TOTVOL condition is under a PRESSURE condition `i`,
`ifs_tpfa_press_flux` sets `flux[f] = trans[f] * (value[i] - p[c2] + fgrav[f])`
when the first cell of the face is exterior and
`flux[f] = trans[f] * (p[c1] - value[i] + fgrav[f])` when its second cell is
exterior. -/
theorem boundary_pressure_flux (G : UnstructuredGrid) (F : Option ifs_tpfa_forces)
    (trans : Nat → ℚ) (h : ifs_tpfa_data) (soln : ifs_tpfa_solution)
    (bc : FlowBoundaryConditions) (hbc : forcesBC F = some bc) (f i j : Nat)
    (hlast : lastListing bc f = some (i, j)) (hP : bc.type i = FlowBCType.BC_PRESSURE) :
    (G.face_cells (2 * f + 0) < 0 → 0 ≤ G.face_cells (2 * f + 1) →
      (ifs_tpfa_press_flux G F trans h soln).face_flux f
        = trans f * (bc.value i
            - (ifs_tpfa_press_flux G F trans h soln).cell_press (G.face_cells (2 * f + 1)).toNat
            + h.fgrav f))
    ∧ (0 ≤ G.face_cells (2 * f + 0) → G.face_cells (2 * f + 1) < 0 →
      (ifs_tpfa_press_flux G F trans h soln).face_flux f
        = trans f * ((ifs_tpfa_press_flux G F trans h soln).cell_press
              (G.face_cells (2 * f + 0)).toNat
            - bc.value i + h.fgrav f)) := by
  have hface : bc.face j = f := by
    unfold lastListing at hlast
    have := (List.find?_eq_some.mp hlast).1
    simp only [listsFace, Bool.and_eq_true, decide_eq_true_eq] at this
    exact this.2
  rw [press_flux_face_flux_listed G F trans h soln bc hbc f (i, j) hlast]
  unfold bfluxVal
  simp only [hP, hface, if_true]
  constructor
  · intro h1 _
    rw [if_pos h1]
  · intro h1 _
    rw [if_neg (by omega)]

/-- Witness for C10 (amended): on the one-cell grid with two PRESSURE
conditions on face 0, the last listing of face 0 is under condition 1. -/
theorem boundary_pressure_flux_witness :
    (ifs_tpfa_press_flux oneCellGrid (onlyBC twoPressures) (fun _ => 1) zeroData
          zeroSolution).face_flux 0
        = (fun _ => (1 : ℚ)) 0 *
          ((ifs_tpfa_press_flux oneCellGrid (onlyBC twoPressures) (fun _ => 1) zeroData
              zeroSolution).cell_press (oneCellGrid.face_cells (2 * 0 + 0)).toNat
            - twoPressures.value 1 + zeroData.fgrav 0) :=
  (boundary_pressure_flux oneCellGrid (onlyBC twoPressures) (fun _ => 1) zeroData
    zeroSolution twoPressures rfl 0 1 1 (by decide) rfl).2 (by decide) (by decide)

/-- C3: after `ifs_tpfa_assemble` on a well-formed grid, with the matrix sized
for the cells and the wells and the boundary conditions on boundary faces,
the right-hand side of every cell `c` is: minus the sum over the faces `f` of
`c` of `trans[f] * (s * fgrav[f])` (`s = +1` if `c` is the first cell of `f`,
else `-1`), plus for every face of `c` under a PRESSURE condition with value
`v` the amount `trans[f] * v - s * trans[f] * fgrav[f]`, plus for every face
of `c` under a FLUX_TOTVOL condition its value, plus `src[c]` when source
terms are supplied; and the right-hand side of every well unknown is zero. -/
theorem ifs_tpfa_assemble_rhs (G : UnstructuredGrid) (W : Option Wells)
    (F : Option ifs_tpfa_forces) (trans gpress : Nat → ℚ) (h : ifs_tpfa_data)
    (hG : wellFormedGrid G) (hassert : forcesOnBoundary G F)
    (hm : h.A.m = numUnknowns G W) :
    (∀ c, c < G.number_of_cells →
      (ifs_tpfa_assemble G F trans gpress h).b c
        = -rhsGravity G trans (ifs_tpfa_assemble G F trans gpress h).fgrav c
          + rhsBoundary G F trans (ifs_tpfa_assemble G F trans gpress h).fgrav c
          + rhsSource F c)
    ∧ (∀ k, G.number_of_cells ≤ k → k < numUnknowns G W →
      (ifs_tpfa_assemble G F trans gpress h).b k = 0) := by
  constructor
  · intro c hc
    have hcm : c < h.A.m := by
      rw [hm]
      unfold numUnknowns
      omega
    rw [assemble_b_closed, assemble_fgrav, sum_faceRhsTerm_cell G trans _ c hG hc,
      bcRhsSum_eq G F trans _ c hassert, if_pos hc]
    unfold vector_zero
    rw [if_pos hcm, zero_add]
  · intro k hk hkm
    rw [assemble_b_closed, sum_faceRhsTerm_not_cell G trans _ k hk,
      bcRhsSum_not_cell G F trans _ k hG hassert hk, if_neg (by omega)]
    unfold vector_zero
    rw [if_pos (by rw [hm]; exact hkm)]
    simp

/-- Witness for C3: the one-cell grid with a PRESSURE condition on its
boundary face, and solver data whose matrix has one row. -/
theorem ifs_tpfa_assemble_rhs_witness :
    (ifs_tpfa_assemble oneCellGrid (onlyBC onePressure) (fun _ => 1) (fun _ => 0)
          oneRowData).b 0
        = -rhsGravity oneCellGrid (fun _ => 1)
            (ifs_tpfa_assemble oneCellGrid (onlyBC onePressure) (fun _ => 1) (fun _ => 0)
              oneRowData).fgrav 0
          + rhsBoundary oneCellGrid (onlyBC onePressure) (fun _ => 1)
            (ifs_tpfa_assemble oneCellGrid (onlyBC onePressure) (fun _ => 1) (fun _ => 0)
              oneRowData).fgrav 0
          + rhsSource (onlyBC onePressure) 0 :=
  (ifs_tpfa_assemble_rhs oneCellGrid none (onlyBC onePressure) (fun _ => 1) (fun _ => 0)
    oneRowData (by decide) (by decide) rfl).1 0 (by decide)

/-- C1: for a grid with `N` cells whose faces refer to cells of the grid or
to the exterior, and a (possibly absent) well set with `W` wells perforating
cells of the grid, when `ifs_tpfa_construct_matrix` succeeds the matrix has
`N + W` rows and its stored (row, column) positions, with multiplicity, are
exactly: `(i, i)` once for each unknown; `(c1, c2)` and `(c2, c1)` once for
each face whose two cells are both non-negative; `(c, N + w)` and
`(N + w, c)` once for each perforation of well `w` in cell `c`.  Faces with
an exterior cell add no entry, and the pattern is symmetric: exchanging row
and column in every stored position gives the same positions, with the same
multiplicities. -/
theorem ifs_tpfa_construct_matrix_pattern (G : UnstructuredGrid) (W : Option Wells)
    (A : CSRMatrix) (hG : cellsInRange G) (hW : wellFormedWells G W)
    (hA : ifs_tpfa_construct_matrix G W = some A) :
    A.m = numUnknowns G W
    ∧ (csrPositions A).Perm (expectedPattern G W)
    ∧ ((csrPositions A).map Prod.swap).Perm (csrPositions A) := by
  have hb := (construct_matrix_spec G W hG hW).2.1 A hA
  have hperm := csrPositions_perm (patternEvents G W) (numUnknowns G W) A
    (fun e he => (patternEvents_rows G W hG hW e he).1) hb
  refine ⟨hb.1, ?_, ?_⟩
  · rw [← patternEvents_eq_expected G W hW]
    exact hperm
  · exact ((hperm.map Prod.swap).trans (patternEvents_swap G W)).trans hperm.symm

/-- Witness for C1: the one-cell grid with one well perforating the cell. -/
theorem ifs_tpfa_construct_matrix_pattern_witness :
    oneCellMatrix.m = numUnknowns oneCellGrid (some oneWell)
    ∧ (csrPositions oneCellMatrix).Perm (expectedPattern oneCellGrid (some oneWell))
    ∧ ((csrPositions oneCellMatrix).map Prod.swap).Perm (csrPositions oneCellMatrix) :=
  ifs_tpfa_construct_matrix_pattern oneCellGrid (some oneWell) oneCellMatrix (by decide)
    (by decide) (by rfl)

/-- C6: on a well-formed grid with boundary conditions on boundary faces, the
outputs of `ifs_tpfa_assemble` (the stored matrix values, the right-hand
side and the face gravity terms) do not depend on the values held in the
matrix, right-hand side and gravity buffers before the call, and calling it
twice in a row with the same inputs leaves the same outputs as calling it
once. -/
theorem ifs_tpfa_assemble_idempotent (G : UnstructuredGrid) (F : Option ifs_tpfa_forces)
    (trans gpress : Nat → ℚ) (h h2 : ifs_tpfa_data) (hG : wellFormedGrid G)
    (hassert : forcesOnBoundary G F) (hp : samePattern h.A h2.A) :
    sameOutputs G (ifs_tpfa_assemble G F trans gpress h)
      (ifs_tpfa_assemble G F trans gpress h2)
    ∧ sameOutputs G
      (ifs_tpfa_assemble G F trans gpress (ifs_tpfa_assemble G F trans gpress h))
      (ifs_tpfa_assemble G F trans gpress h) := by
  refine ⟨assemble_independent G F trans gpress h h2 hG hassert hp, ?_⟩
  apply assemble_independent G F trans gpress _ h hG hassert
  obtain ⟨h1, h2, h3, h4⟩ := assemble_samePattern G F trans gpress h
  exact ⟨h1.symm, h2.symm, h3.symm, h4.symm⟩

/-- Witness for C6: the one-cell grid with a PRESSURE condition, started from
two different buffer contents with the same one-row pattern. -/
theorem ifs_tpfa_assemble_idempotent_witness :
    sameOutputs oneCellGrid
      (ifs_tpfa_assemble oneCellGrid (onlyBC onePressure) (fun _ => 1) (fun _ => 0) oneRowData)
      (ifs_tpfa_assemble oneCellGrid (onlyBC onePressure) (fun _ => 1) (fun _ => 0)
        { oneRowData with b := fun _ => 3, fgrav := fun _ => 5 })
    ∧ sameOutputs oneCellGrid
      (ifs_tpfa_assemble oneCellGrid (onlyBC onePressure) (fun _ => 1) (fun _ => 0)
        (ifs_tpfa_assemble oneCellGrid (onlyBC onePressure) (fun _ => 1) (fun _ => 0)
          oneRowData))
      (ifs_tpfa_assemble oneCellGrid (onlyBC onePressure) (fun _ => 1) (fun _ => 0)
        oneRowData) :=
  ifs_tpfa_assemble_idempotent oneCellGrid (onlyBC onePressure) (fun _ => 1) (fun _ => 0)
    oneRowData { oneRowData with b := fun _ => 3, fgrav := fun _ => 5 } (by decide) (by decide)
    ⟨rfl, rfl, rfl, rfl⟩

/-- C4: `ifs_tpfa_assemble` doubles a stored value exactly when no boundary
condition of type PRESSURE is present (in particular when no forces or no
boundary conditions are supplied); the value doubled is the one at storage
position 0 and every other stored value is left as assembled; and for a
matrix built by `ifs_tpfa_construct_matrix` position 0 belongs to row 0 and
holds column 0, and when no face joins cell 0 to itself it is the only
position of row 0 that holds column 0, that is, the diagonal entry (0,0). -/
theorem ifs_tpfa_assemble_doubling (G : UnstructuredGrid) (W : Option Wells)
    (F : Option ifs_tpfa_forces) (trans gpress : Nat → ℚ) (h : ifs_tpfa_data)
    (hG : cellsInRange G) (hW : wellFormedWells G W) (hA : constructedFor G W h) :
    ((assemble_core G F trans gpress h).1 = true ↔ noPressure F)
    ∧ (forcesBC F = none → noPressure F)
    ∧ (noPressure F → ∀ p, (ifs_tpfa_assemble G F trans gpress h).A.sa p
        = if p = 0 then (assemble_core G F trans gpress h).2.A.sa 0 * 2
          else (assemble_core G F trans gpress h).2.A.sa p)
    ∧ (¬ noPressure F → ∀ p, (ifs_tpfa_assemble G F trans gpress h).A.sa p
        = (assemble_core G F trans gpress h).2.A.sa p)
    ∧ ((ifs_tpfa_assemble G F trans gpress h).A.ia 0 = 0
        ∧ 0 < (ifs_tpfa_assemble G F trans gpress h).A.ia 1
        ∧ (ifs_tpfa_assemble G F trans gpress h).A.ja 0 = 0)
    ∧ (noSelfFaceAtZero G → ∀ p, p < (ifs_tpfa_assemble G F trans gpress h).A.ia 1 →
        (ifs_tpfa_assemble G F trans gpress h).A.ja p = 0 → p = 0) := by
  have hf := assemble_frame G F trans gpress h
  have hia : (ifs_tpfa_assemble G F trans gpress h).A.ia = h.A.ia := hf.2.2.1
  have hja : (ifs_tpfa_assemble G F trans gpress h).A.ja = h.A.ja := hf.2.2.2.1
  obtain ⟨_, h1, h2, h3⟩ := constructed_first G W h hG hW hA
  refine ⟨assemble_core_fst G F trans gpress h, ?_, ?_, ?_, ?_, ?_⟩
  · intro hnone
    unfold noPressure
    rw [hnone]
    trivial
  · intro hn p
    rw [assemble_sa]
    by_cases hp : p = 0
    · rw [if_pos ⟨hn, hp⟩, if_pos hp]
    · rw [if_neg (fun hh => hp hh.2), if_neg hp]
  · intro hn p
    rw [assemble_sa, if_neg (fun hh => hn hh.1)]
  · rw [hia, hja]
    exact ⟨h1, h2, h3⟩
  · intro hself p hp hj
    rw [hia] at hp
    rw [hja] at hj
    exact constructed_first_unique G W h hG hW hA hself p hp hj

/-- Witness for C4: the one-cell grid with one well, and solver data holding
the matrix constructed for them. -/
theorem ifs_tpfa_assemble_doubling_witness :
    (assemble_core oneCellGrid none (fun _ => 1) (fun _ => 0) oneCellData).1 = true
      ↔ noPressure none :=
  (ifs_tpfa_assemble_doubling oneCellGrid (some oneWell) none (fun _ => 1) (fun _ => 0)
    oneCellData (by decide) (by decide) ⟨oneCellMatrix, by rfl, rfl, rfl, rfl, rfl⟩).1

/-- C5: on a well-formed grid, with the matrix built for the grid and the
wells and no PRESSURE boundary condition (in particular with no boundary
conditions at all), whatever the sources, every row `c ≠ 0` of the matrix
assembled by `ifs_tpfa_assemble` sums to zero, and the sum of row 0 equals
the un-doubled value of its diagonal entry at storage position 0, so row 0
sums to zero once the doubling is discounted. -/
theorem ifs_tpfa_assemble_row_sums (G : UnstructuredGrid) (W : Option Wells)
    (F : Option ifs_tpfa_forces) (trans gpress : Nat → ℚ) (h : ifs_tpfa_data)
    (hG : wellFormedGrid G) (hW : wellFormedWells G W) (hA : constructedFor G W h)
    (hassert : forcesOnBoundary G F) (hno : noPressure F) :
    (∀ c, c < numUnknowns G W → c ≠ 0 →
      rowSum (ifs_tpfa_assemble G F trans gpress h).A c = 0)
    ∧ rowSum (ifs_tpfa_assemble G F trans gpress h).A 0
        = (assemble_core G F trans gpress h).2.A.sa 0
    ∧ rowSum (ifs_tpfa_assemble G F trans gpress h).A 0
        - (assemble_core G F trans gpress h).2.A.sa 0 = 0
    ∧ (ifs_tpfa_assemble G F trans gpress h).A.sa 0
        = (assemble_core G F trans gpress h).2.A.sa 0 * 2 := by
  obtain ⟨hm, _, _, _⟩ := constructed_first G W h (wellFormedGrid_cellsInRange G hG) hW hA
  have h0 : rowSum (ifs_tpfa_assemble G F trans gpress h).A 0
      = (assemble_core G F trans gpress h).2.A.sa 0 := by
    rw [rowSum_assemble G W F trans gpress h hG hW hA 0 hm,
      rowSum_core G W F trans gpress h hG hW hA hassert 0 hm,
      pressureDiag_noPressure G F trans 0 hno, if_pos ⟨hno, rfl⟩, zero_add]
  refine ⟨?_, h0, ?_, ?_⟩
  · intro c hc hc0
    rw [rowSum_assemble G W F trans gpress h hG hW hA c hc,
      rowSum_core G W F trans gpress h hG hW hA hassert c hc,
      pressureDiag_noPressure G F trans c hno, if_neg (fun hh => hc0 hh.2), add_zero]
  · rw [h0, sub_self]
  · rw [assemble_sa, if_pos ⟨hno, rfl⟩]

/-- Witness for C5: the ring of three cells, all of whose faces are interior
and listed once in both of their cells, with transmissibilities 1, 2 and 3,
zero sources and no boundary conditions.  The row of cell 1 holds -1 and -2
off the diagonal and sums to zero; the row of cell 0 sums to the un-doubled
value 4 of its diagonal entry. -/
theorem ifs_tpfa_assemble_row_sums_witness :
    allInterior ringGrid ∧ listedOnce ringGrid
      ∧ csrTotal (ifs_tpfa_assemble ringGrid zeroSources ringTrans (fun _ => 0) ringData).A
          1 0 = -1
      ∧ csrTotal (ifs_tpfa_assemble ringGrid zeroSources ringTrans (fun _ => 0) ringData).A
          1 2 = -2
      ∧ rowSum (ifs_tpfa_assemble ringGrid zeroSources ringTrans (fun _ => 0) ringData).A 1
          = 0
      ∧ rowSum (ifs_tpfa_assemble ringGrid zeroSources ringTrans (fun _ => 0) ringData).A 0
          = 4 :=
  ⟨by decide, by decide, ringGrid_entries.1, ringGrid_entries.2.1,
    (ifs_tpfa_assemble_row_sums ringGrid none zeroSources ringTrans (fun _ => 0) ringData
      (by decide) trivial ringGrid_constructed trivial trivial).1 1 (by decide) (by decide),
    (ifs_tpfa_assemble_row_sums ringGrid none zeroSources ringTrans (fun _ => 0) ringData
      (by decide) trivial ringGrid_constructed trivial trivial).2.1.trans ringGrid_entries.2.2⟩

/-- C2, as stated, fails: on the grid with one cell and one face joining the
cell to itself, the face is interior and is listed exactly once among the
faces of its (single) cell, and the transmissibility is 1, so the sum of
`trans[f]` over the interior faces of cell 0 is 1; the assembled value
stored at `(0, 0)` is 0, because the code adds `trans[f]` to and subtracts
it from the same stored entry; indeed every stored value is 0. -/
theorem assemble_diag_self_face :
    wellFormedGrid selfFaceGrid
      ∧ listedOnce selfFaceGrid
      ∧ constructedFor selfFaceGrid none selfFaceData
      ∧ diagFaces selfFaceGrid (fun _ => 1) 0 = 1
      ∧ csrTotal (assemble_core selfFaceGrid none (fun _ => 1) (fun _ => 0) selfFaceData).2.A
          0 0 = 0
      ∧ ∀ p, (assemble_core selfFaceGrid none (fun _ => 1) (fun _ => 0) selfFaceData).2.A.sa p
          = 0 := by
  have hG : wellFormedGrid selfFaceGrid := by decide
  have hA : constructedFor selfFaceGrid none selfFaceData :=
    ⟨_, by rfl, rfl, rfl, rfl, rfl⟩
  refine ⟨hG, by decide, hA, ?_, ?_, ?_⟩
  · simp [diagFaces, selfFaceGrid, interiorFace, List.range, List.range.loop]
  · rw [csrTotal_eq_rowWeighted,
      rowWeighted_core selfFaceGrid none none (fun _ => 1) (fun _ => 0) selfFaceData hG
        trivial hA trivial 0 (by decide)]
    simp [pressureDiag, forcesBC, cellFaceSlots, slotWeighted, otherCell, selfFaceGrid]
  · intro p
    rw [assemble_core_sa]
    have hseg : segLoop selfFaceGrid.number_of_cells selfFaceGrid.cell_facepos = [(0, 0)] := by
      decide
    have hsa : selfFaceData.A.sa = fun _ => 0 := by rfl
    have ho : otherCell selfFaceGrid 0 (selfFaceGrid.cell_faces 0) = 0 := by decide
    have hv : vector_zero selfFaceData.A.nnz selfFaceData.A.sa p = 0 := by
      rw [hsa]
      unfold vector_zero
      split_ifs <;> rfl
    rw [hseg, hv]
    unfold bcSaSum forcesBC faceSaTerm
    simp only [List.map_cons, List.map_nil, List.sum_cons, List.sum_nil, ho, Int.toNat_zero]
    by_cases hp : p = csrmatrix_elm_index 0 0 selfFaceData.A <;> simp [hp]

/-- C2 (amended): on a well-formed grid in which each interior face
`f = (c1, c2)` is listed exactly once among the faces of `c1` and once among
the faces of `c2` and no interior face joins a cell to itself, after
`ifs_tpfa_assemble` and before the pure-Neumann doubling, for each cell `c`:
the value stored at `(c, c)`, which is held by a single storage position,
equals the sum of `trans[f]` over the interior faces of `c` plus the sum of
`trans[f]` over the faces of `c` listed under a PRESSURE condition; and the
total value stored at `(c, c2)` for `c2 ≠ c` equals minus the sum of
`trans[f]` over the interior faces joining `c` and `c2`. -/
theorem ifs_tpfa_assemble_matrix_values (G : UnstructuredGrid) (W : Option Wells)
    (F : Option ifs_tpfa_forces) (trans gpress : Nat → ℚ) (h : ifs_tpfa_data)
    (hG : wellFormedGrid G) (hW : wellFormedWells G W) (hA : constructedFor G W h)
    (hassert : forcesOnBoundary G F) (honce : listedOnce G) (hself : noSelfFaces G)
    (c : Nat) (hc : c < G.number_of_cells) :
    (assemble_core G F trans gpress h).2.A.sa
        (csrmatrix_elm_index c c (assemble_core G F trans gpress h).2.A)
      = diagFaces G trans c + pressureDiag G F trans c
    ∧ (∀ p, (assemble_core G F trans gpress h).2.A.ia c ≤ p →
        p < (assemble_core G F trans gpress h).2.A.ia (c + 1) →
        (assemble_core G F trans gpress h).2.A.ja p = c →
        p = csrmatrix_elm_index c c (assemble_core G F trans gpress h).2.A)
    ∧ (∀ c2, c2 ≠ c →
        csrTotal (assemble_core G F trans gpress h).2.A c c2 = -joiningFaces G trans c c2) := by
  have hcm : c < numUnknowns G W := by
    unfold numUnknowns
    omega
  have hB := constructedFor_built G W h (wellFormedGrid_cellsInRange G hG) hW hA
  have hf := assemble_core_frame G F trans gpress h
  have hB2 : builtPattern (patternEvents G W) (numUnknowns G W)
      (assemble_core G F trans gpress h).2.A :=
    builtPattern_congr _ _ h.A _ hf.1 hf.2.1 hf.2.2.1 hf.2.2.2.1 hB
  obtain ⟨rest, hrest, hnot⟩ := rowCols_pattern_cell G W hW hself c hc
  obtain ⟨s1, s2⟩ := single_entry _ _ _ hB2 c c hcm rest hrest hnot
  refine ⟨?_, s2, ?_⟩
  · rw [← s1, csrTotal_eq_rowWeighted,
      rowWeighted_core G W F trans gpress h hG hW hA hassert c hcm, if_pos hc, if_pos rfl,
      one_mul,
      sum_map_congr _ _ _ (fun i hi => slotWeighted_diag G trans hG hself c hc i hi)]
    congr 1
    exact sum_slots_eq_sum_faces G hG honce c hc
      (fun f => if interiorFace G f
          ∧ (G.face_cells (2 * f + 0) = (c : Int) ∨ G.face_cells (2 * f + 1) = (c : Int))
        then trans f else 0)
      (fun f _ hne => by
        by_contra hcon
        exact hne (if_neg hcon))
  · intro c2 hne
    rw [csrTotal_eq_rowWeighted,
      rowWeighted_core G W F trans gpress h hG hW hA hassert c hcm, if_pos hc,
      if_neg (fun hh : c = c2 => hne hh.symm), zero_mul, add_zero,
      sum_map_congr _ _ _ (fun i hi => slotWeighted_offdiag G trans hG c c2 hc hne i hi),
      sum_map_neg]
    congr 1
    exact sum_slots_eq_sum_faces G hG honce c hc
      (fun f => if interiorFace G f
          ∧ ((G.face_cells (2 * f + 0) = (c : Int) ∧ G.face_cells (2 * f + 1) = (c2 : Int))
            ∨ (G.face_cells (2 * f + 0) = (c2 : Int) ∧ G.face_cells (2 * f + 1) = (c : Int)))
        then trans f else 0)
      (fun f _ hne2 => by
        by_contra hcon
        apply hne2
        beta_reduce
        rw [if_neg]
        rintro ⟨h1, h2 | h2⟩
        · exact hcon ⟨h1, Or.inl h2.1⟩
        · exact hcon ⟨h1, Or.inr h2.2⟩)

/-- Witness for C2 (amended): the one-cell grid with one well and a PRESSURE
condition on the boundary face of the cell. -/
theorem ifs_tpfa_assemble_matrix_values_witness :
    (assemble_core oneCellGrid (onlyBC onePressure) (fun _ => 1) (fun _ => 0)
        oneCellData).2.A.sa
        (csrmatrix_elm_index 0 0 (assemble_core oneCellGrid (onlyBC onePressure) (fun _ => 1)
          (fun _ => 0) oneCellData).2.A)
      = diagFaces oneCellGrid (fun _ => 1) 0
        + pressureDiag oneCellGrid (onlyBC onePressure) (fun _ => 1) 0 :=
  (ifs_tpfa_assemble_matrix_values oneCellGrid (some oneWell) (onlyBC onePressure) (fun _ => 1)
    (fun _ => 0) oneCellData (by decide) (by decide) ⟨oneCellMatrix, by rfl, rfl, rfl, rfl, rfl⟩
    (by decide) (by decide) (by decide) 0 (by decide)).1

/-- C11, as stated, fails: on the one-cell grid, face 0 has the interior cell
0 as its first endpoint and the exterior as its second; listed under a single
FLUX_TOTVOL condition with value 5 the recovered flux is -5, not 5; and
listed under two FLUX_TOTVOL conditions with values 5 and 7 the recovered
flux is -7, which is neither 5 nor -5. -/
theorem boundary_flux_sign_reversed :
    0 ≤ oneCellGrid.face_cells (2 * 0 + 0)
      ∧ oneCellGrid.face_cells (2 * 0 + 1) < 0
      ∧ ((0, 0) ∈ bcEntries oneFlux ∧ oneFlux.type 0 = FlowBCType.BC_FLUX_TOTVOL
        ∧ oneFlux.face 0 = 0 ∧ oneFlux.value 0 = 5)
      ∧ (ifs_tpfa_press_flux oneCellGrid (onlyBC oneFlux) (fun _ => 1) zeroData
          zeroSolution).face_flux 0 = -5
      ∧ (-5 : ℚ) ≠ oneFlux.value 0
      ∧ ((0, 0) ∈ bcEntries twoFluxes ∧ twoFluxes.type 0 = FlowBCType.BC_FLUX_TOTVOL
        ∧ twoFluxes.face 0 = 0 ∧ twoFluxes.value 0 = 5)
      ∧ (ifs_tpfa_press_flux oneCellGrid (onlyBC twoFluxes) (fun _ => 1) zeroData
          zeroSolution).face_flux 0 = -7 := by
  refine ⟨by decide, by decide, ⟨by decide, rfl, rfl, rfl⟩, ?_, by norm_num [oneFlux],
    ⟨by decide, rfl, rfl, rfl⟩, ?_⟩
  · rw [press_flux_face_flux_listed oneCellGrid (onlyBC oneFlux) (fun _ => 1) zeroData
      zeroSolution oneFlux rfl 0 (0, 0) (by decide)]
    have ht : ¬ oneFlux.type (0, 0).1 = FlowBCType.BC_PRESSURE := by decide
    unfold bfluxVal
    rw [if_neg ht]
    norm_num [signOf, oneFlux, oneCellGrid]
  · rw [press_flux_face_flux_listed oneCellGrid (onlyBC twoFluxes) (fun _ => 1) zeroData
      zeroSolution twoFluxes rfl 0 (1, 1) (by decide)]
    have ht : ¬ twoFluxes.type (1, 1).1 = FlowBCType.BC_PRESSURE := by decide
    unfold bfluxVal
    rw [if_neg ht]
    norm_num [signOf, twoFluxes, oneCellGrid]

/-- C11 (amended): for every boundary face `f` whose last listing under a
PRESSURE or FLUX_TOTVOL condition is under a FLUX_TOTVOL condition `i`,
`ifs_tpfa_press_flux` sets `flux[f] = -value[i]` when the interior cell is
the first endpoint of the face (its second cell is exterior) and
`flux[f] = value[i]` when the interior cell is the second endpoint (its first
cell is exterior). -/
theorem boundary_flux_totvol (G : UnstructuredGrid) (F : Option ifs_tpfa_forces)
    (trans : Nat → ℚ) (h : ifs_tpfa_data) (soln : ifs_tpfa_solution)
    (bc : FlowBoundaryConditions) (hbc : forcesBC F = some bc) (f i j : Nat)
    (hlast : lastListing bc f = some (i, j)) (hP : bc.type i = FlowBCType.BC_FLUX_TOTVOL) :
    (0 ≤ G.face_cells (2 * f + 0) → G.face_cells (2 * f + 1) < 0 →
      (ifs_tpfa_press_flux G F trans h soln).face_flux f = -bc.value i)
    ∧ (G.face_cells (2 * f + 0) < 0 → 0 ≤ G.face_cells (2 * f + 1) →
      (ifs_tpfa_press_flux G F trans h soln).face_flux f = bc.value i) := by
  have hface : bc.face j = f := by
    unfold lastListing at hlast
    have := (List.find?_eq_some.mp hlast).1
    simp only [listsFace, Bool.and_eq_true, decide_eq_true_eq] at this
    exact this.2
  rw [press_flux_face_flux_listed G F trans h soln bc hbc f (i, j) hlast]
  have hne : ¬ bc.type (i, j).1 = FlowBCType.BC_PRESSURE := by
    show ¬ bc.type i = FlowBCType.BC_PRESSURE
    rw [hP]
    decide
  unfold bfluxVal
  rw [if_neg hne]
  simp only [hface]
  constructor
  · intro h1 _
    have hd : decide (G.face_cells (2 * f + 0) < 0) = false := decide_eq_false (by omega)
    rw [hd]
    norm_num [signOf]
  · intro h1 _
    have hd : decide (G.face_cells (2 * f + 0) < 0) = true := decide_eq_true h1
    rw [hd]
    norm_num [signOf]

/-- Witness for C11 (amended): on the one-cell grid with two FLUX_TOTVOL
conditions on face 0, the last listing of face 0 is under condition 1, with
value 7, and the interior cell is the first endpoint. -/
theorem boundary_flux_totvol_witness :
    (ifs_tpfa_press_flux oneCellGrid (onlyBC twoFluxes) (fun _ => 1) zeroData
      zeroSolution).face_flux 0 = -twoFluxes.value 1 :=
  (boundary_flux_totvol oneCellGrid (onlyBC twoFluxes) (fun _ => 1) zeroData
    zeroSolution twoFluxes rfl 0 1 1 (by decide) rfl).1 (by decide) (by decide)

/-- C20, as stated, fails: for the producer with BHP limit 2000 and ORAT limit
500 at bhp 1800 producing 600 of oil, in the control mode GRUP (which is not
ORAT), `activeProductionConstraint` returns BHP and not ORAT: the code counts
the BHP limit of a producer as violated when the bhp is below the limit. -/
theorem activeProductionConstraint_scenario_bhp :
    scenarioProducer.productionControls.hasControl ProducerCMode.BHP = true
      ∧ scenarioProducer.productionControls.hasControl ProducerCMode.ORAT = true
      ∧ scenarioProducer.productionControls.bhp_limit = 2000
      ∧ scenarioProducer.productionControls.oil_rate = 500
      ∧ (scenarioProducerState ProducerCMode.GRUP).bhp = 1800
      ∧ -(scenarioProducerState ProducerCMode.GRUP).surface_rates
          (scenarioProducer.phaseUsage.phase_pos BlackoilPhases.Liquid) = 600
      ∧ (scenarioProducerState ProducerCMode.GRUP).production_cmode ≠ ProducerCMode.ORAT
      ∧ (activeProductionConstraint scenarioProducer (scenarioProducerState ProducerCMode.GRUP)
          false).1 = ProducerCMode.BHP
      ∧ (activeProductionConstraint scenarioProducer (scenarioProducerState ProducerCMode.GRUP)
          false).1 ≠ ProducerCMode.ORAT := by
  have hres : (activeProductionConstraint scenarioProducer
      (scenarioProducerState ProducerCMode.GRUP) false).1 = ProducerCMode.BHP := by
    unfold activeProductionConstraint
    rw [if_pos]
    refine ⟨rfl, by decide, ?_⟩
    norm_num [scenarioProducer, scenarioProducerState]
  refine ⟨rfl, rfl, rfl, rfl, rfl, ?_, by decide, hres, ?_⟩
  · norm_num [scenarioProducer, scenarioProducerState, threePhase]
  · rw [hres]
    decide

/-- C20 (amended): for a producer that has BHP and ORAT controls with BHP
limit 2000 and ORAT limit 500, current bhp 1800 and current oil production
rate 600, the BHP limit counts as violated (the bhp is below the limit), so
`activeProductionConstraint` returns BHP for every current control mode other
than BHP, and returns ORAT when the current control mode is BHP. -/
theorem activeProductionConstraint_scenario (w : WellContext) (ws : SingleWellState)
    (flag : Bool)
    (hB : w.productionControls.hasControl ProducerCMode.BHP = true)
    (hO : w.productionControls.hasControl ProducerCMode.ORAT = true)
    (hbl : w.productionControls.bhp_limit = 2000)
    (hol : w.productionControls.oil_rate = 500)
    (hbhp : ws.bhp = 1800)
    (hoil : -ws.surface_rates (w.phaseUsage.phase_pos BlackoilPhases.Liquid) = 600) :
    (ws.production_cmode ≠ ProducerCMode.BHP →
      (activeProductionConstraint w ws flag).1 = ProducerCMode.BHP)
    ∧ (ws.production_cmode = ProducerCMode.BHP →
      (activeProductionConstraint w ws flag).1 = ProducerCMode.ORAT) := by
  constructor
  · intro hne
    unfold activeProductionConstraint
    have hc : w.productionControls.hasControl ProducerCMode.BHP = true
        ∧ ws.production_cmode ≠ ProducerCMode.BHP
        ∧ w.productionControls.bhp_limit > ws.bhp := by
      refine ⟨hB, hne, ?_⟩
      rw [hbl, hbhp]
      norm_num
    simp only [if_pos hc]
  · intro heq
    unfold activeProductionConstraint
    have hc : ¬ (w.productionControls.hasControl ProducerCMode.BHP = true
        ∧ ws.production_cmode ≠ ProducerCMode.BHP
        ∧ w.productionControls.bhp_limit > ws.bhp) := fun hh => hh.2.1 heq
    have hc2 : w.productionControls.hasControl ProducerCMode.ORAT = true
        ∧ ws.production_cmode ≠ ProducerCMode.ORAT
        ∧ w.productionControls.oil_rate
          < -ws.surface_rates (w.phaseUsage.phase_pos BlackoilPhases.Liquid) := by
      refine ⟨hO, by rw [heq]; decide, ?_⟩
      rw [hol, hoil]
      norm_num
    simp only [if_neg hc, if_pos hc2]

/-- Witness for C20 (amended): the scenario producer in GRUP mode. -/
theorem activeProductionConstraint_scenario_witness :
    (activeProductionConstraint scenarioProducer (scenarioProducerState ProducerCMode.GRUP)
      false).1 = ProducerCMode.BHP :=
  (activeProductionConstraint_scenario scenarioProducer
    (scenarioProducerState ProducerCMode.GRUP) false rfl rfl rfl rfl rfl
    (by simp [scenarioProducer, scenarioProducerState, threePhase])).1 (by decide)

/-- C12, as stated, fails: the example producer is in BHP mode, not GRUP, and
the group check of its group reports a broken constraint with factor 1/2;
`checkGroupConstraints` evaluates that check, returns true, sets the control
mode to GRUP and halves the surface rates (the oil rate -600 becomes
-300). -/
theorem checkGroupConstraints_acts_outside_grup :
    exampleProducerState.production_cmode ≠ ProducerCMode.GRUP
      ∧ checkGroupConstraints exampleProducer exampleGroupContext exampleProducerState
        = Except.ok (true,
            { exampleProducerState with
                production_cmode := ProducerCMode.GRUP,
                surface_rates := scaleRates 3 (1 / 2) exampleProducerState.surface_rates })
      ∧ exampleProducerState.surface_rates 1 = -600
      ∧ scaleRates 3 (1 / 2) exampleProducerState.surface_rates 1 = -300 := by
  refine ⟨by decide, rfl, ?_, ?_⟩
  · simp [exampleProducerState]
  · rw [scaleRates_apply]
    norm_num [exampleProducerState]

/-- C12 (amended): for every well whose current control mode is GRUP (the
injection mode if the well is an injector, the production mode if it is a
producer), `checkGroupConstraints` does nothing: it returns false and leaves
the state of the well, its control mode and surface rates included,
unchanged, whatever the group checks would report. -/
theorem checkGroupConstraints_grup (w : WellContext) (env : GroupContext)
    (ws : SingleWellState)
    (hI : w.isInjector = true → ws.injection_cmode = InjectorCMode.GRUP)
    (hP : w.isProducer = true → ws.production_cmode = ProducerCMode.GRUP) :
    checkGroupConstraints w env ws = Except.ok (false, ws) := by
  unfold checkGroupConstraints
  rw [if_neg (fun hh => hh.2 (hI hh.1)), if_neg (fun hh => hh.2 (hP hh.1))]

/-- Witness for C12 (amended): the example producer in GRUP mode. -/
theorem checkGroupConstraints_grup_witness :
    checkGroupConstraints exampleProducer exampleGroupContext
        { exampleProducerState with production_cmode := ProducerCMode.GRUP }
      = Except.ok (false, { exampleProducerState with production_cmode := ProducerCMode.GRUP }) :=
  checkGroupConstraints_grup exampleProducer exampleGroupContext
    { exampleProducerState with production_cmode := ProducerCMode.GRUP }
    (by decide) (by decide)

/-- C13: whenever `checkGroupConstraints` evaluates the group check (for an
injector not in GRUP mode, and otherwise for a producer not in GRUP mode; on
the group of the well, with the efficiency factor of the well) and the check
reports `(broken, r)`: if `broken` is true the call returns true, the control
mode becomes GRUP and each of the `numPhases` surface rates is multiplied by
`r`, the rest of the state being unchanged; if `broken` is false the call
returns false and the state is unchanged. -/
theorem checkGroupConstraints_check (w : WellContext) (env : GroupContext)
    (ws : SingleWellState) (broken : Bool) (r : ℚ) :
    (w.isInjector = true → ws.injection_cmode ≠ InjectorCMode.GRUP →
      checkGroupConstraintsInj w env (env.getGroup env.groupName) ws env.getEfficiencyFactor
        = Except.ok (broken, r) →
      checkGroupConstraints w env ws
        = if broken = true then
            Except.ok (true,
              { ws with injection_cmode := InjectorCMode.GRUP,
                        surface_rates := scaleRates env.numPhases r ws.surface_rates })
          else Except.ok (false, ws))
    ∧ (¬ (w.isInjector = true ∧ ws.injection_cmode ≠ InjectorCMode.GRUP) →
      w.isProducer = true → ws.production_cmode ≠ ProducerCMode.GRUP →
      checkGroupConstraintsProd env (env.getGroup env.groupName) ws env.getEfficiencyFactor
        = (broken, r) →
      checkGroupConstraints w env ws
        = if broken = true then
            Except.ok (true,
              { ws with production_cmode := ProducerCMode.GRUP,
                        surface_rates := scaleRates env.numPhases r ws.surface_rates })
          else Except.ok (false, ws))
    ∧ (∀ p, scaleRates env.numPhases r ws.surface_rates p
        = if p < env.numPhases then ws.surface_rates p * r else ws.surface_rates p) := by
  refine ⟨?_, ?_, fun p => scaleRates_apply r ws.surface_rates p env.numPhases⟩
  · intro h1 h2 hc
    unfold checkGroupConstraints
    rw [if_pos ⟨h1, h2⟩]
    simp only [hc]
  · intro h0 h1 h2 hc
    unfold checkGroupConstraints
    rw [if_neg h0, if_pos ⟨h1, h2⟩]
    simp only [hc]

/-- Witness for C13: the example producer in BHP mode, whose group check
reports a broken constraint with factor 1/2. -/
theorem checkGroupConstraints_check_witness :
    checkGroupConstraints exampleProducer exampleGroupContext exampleProducerState
      = if true = true then
          Except.ok (true,
            { exampleProducerState with
                production_cmode := ProducerCMode.GRUP,
                surface_rates := scaleRates exampleGroupContext.numPhases (1 / 2)
                  exampleProducerState.surface_rates })
        else Except.ok (false, exampleProducerState) :=
  (checkGroupConstraints_check exampleProducer exampleGroupContext exampleProducerState true
    (1 / 2)).2.1 (by decide) (by decide) (by decide) rfl

/-- C14: the upward walk of `getGroupProductionTargetRate` and
`getGroupInjectionTargetRate`.  For a group whose current control mode is
FLD or NONE: if the group is not available for control from above the result
is the neutral default (1 for production, no value for injection);
otherwise the result is the result of the same function on the parent group
with the efficiency factor multiplied by the efficiency factor of the
group.  A group with another mode that is not a production (injection)
group also yields the neutral default.  The walk returns a result as soon as
some group towards the root does not inherit its control, and more fuel does
not change it. -/
theorem getGroupTargetRate_upward (env : GroupContext) (ws : SingleWellState)
    (ty : InjectorType) (group : Opm.Group) (eff : ℚ) :
    ((env.production_control group.name = Opm.Group.ProductionCMode.FLD
        ∨ env.production_control group.name = Opm.Group.ProductionCMode.NONE) →
      (group.productionGroupControlAvailable = false →
        ∀ fuel, getGroupProductionTargetRate env ws fuel group eff = some 1)
      ∧ (group.productionGroupControlAvailable = true →
        ∀ fuel, getGroupProductionTargetRate env ws (fuel + 1) group eff
          = getGroupProductionTargetRate env ws fuel (env.getGroup group.parent)
              (eff * group.getGroupEfficiencyFactor)))
    ∧ (¬ (env.production_control group.name = Opm.Group.ProductionCMode.FLD
        ∨ env.production_control group.name = Opm.Group.ProductionCMode.NONE) →
      group.isProductionGroup = false →
      ∀ fuel, getGroupProductionTargetRate env ws fuel group eff = some 1)
    ∧ ((env.injection_control group.name (injectionPhaseOf ty) = Opm.Group.InjectionCMode.FLD
        ∨ env.injection_control group.name (injectionPhaseOf ty)
          = Opm.Group.InjectionCMode.NONE) →
      (group.injectionGroupControlAvailable (injectionPhaseOf ty) = false →
        ∀ fuel, getGroupInjectionTargetRate env ws ty fuel group eff = some none)
      ∧ (group.injectionGroupControlAvailable (injectionPhaseOf ty) = true →
        ∀ fuel, getGroupInjectionTargetRate env ws ty (fuel + 1) group eff
          = getGroupInjectionTargetRate env ws ty fuel (env.getGroup group.parent)
              (eff * group.getGroupEfficiencyFactor)))
    ∧ (¬ (env.injection_control group.name (injectionPhaseOf ty)
          = Opm.Group.InjectionCMode.FLD
        ∨ env.injection_control group.name (injectionPhaseOf ty)
          = Opm.Group.InjectionCMode.NONE) →
      group.isInjectionGroup = false →
      ∀ fuel, getGroupInjectionTargetRate env ws ty fuel group eff = some none)
    ∧ (∀ k, ¬ inheritsProduction env (ancestor env group k) →
      ∃ r, ∀ fuel, k ≤ fuel → getGroupProductionTargetRate env ws fuel group eff = some r)
    ∧ (∀ k, ¬ inheritsInjection env (injectionPhaseOf ty) (ancestor env group k) →
      ∃ r, ∀ fuel, k ≤ fuel →
        getGroupInjectionTargetRate env ws ty fuel group eff = some r) := by
  refine ⟨fun hmode => ⟨fun hav fuel => ?_, fun hav fuel => ?_⟩, fun hmode hg fuel => ?_,
    fun hmode => ⟨fun hav fuel => ?_, fun hav fuel => ?_⟩, fun hmode hg fuel => ?_,
    fun k hk => ?_, fun k hk => ?_⟩
  · exact production_not_available env ws fuel group eff hmode hav
  · exact production_step env ws fuel group eff ⟨hmode, hav⟩
  · exact production_not_group env ws fuel group eff hmode hg
  · exact injection_not_available env ws ty fuel group eff hmode hav
  · exact injection_step env ws ty fuel group eff ⟨hmode, hav⟩
  · exact injection_not_group env ws ty fuel group eff hmode hg
  · obtain ⟨r, hr⟩ := production_terminates env ws k group eff hk
    exact ⟨r, fun fuel hle => production_mono env ws k group eff r hr fuel hle⟩
  · obtain ⟨r, hr⟩ := injection_terminates env ws ty k group eff hk
    exact ⟨r, fun fuel hle => injection_mono env ws ty k group eff r hr fuel hle⟩

/-- Witness for C14: in the example tree the group G1 is in FLD mode and
available for control from above, so its result with efficiency factor 1 is
that of its parent FIELD with efficiency factor 1 * 1/2. -/
theorem getGroupTargetRate_upward_witness :
    getGroupProductionTargetRate treeContext exampleProducerState (0 + 1) (treeGroup "G1") 1
      = getGroupProductionTargetRate treeContext exampleProducerState 0
          (treeContext.getGroup (treeGroup "G1").parent)
          (1 * (treeGroup "G1").getGroupEfficiencyFactor) :=
  ((getGroupTargetRate_upward treeContext exampleProducerState InjectorType.WATER
    (treeGroup "G1") 1).1 (by decide)).2 (by decide) 0

/-- C15: the downward walk.  With the chain `[g0, g1, ..., gk]` from the
group that holds the control down to the well, the loop over the ancestors
started from the target of `g0` computes the walk that, for `i = 0..k-1` in
order, subtracts the reduction rate of `g_i` if and only if `i = 0` or `g_i`
has a guide-rate entry and then multiplies by the fraction of `g_{i+1}`; the
production target rate is `max(0, target / efficiencyFactor)` and so is the
injection target that `getGroupInjectionTargetRate` returns at the group
that holds the control. -/
theorem getGroupTargetRate_downward (env : GroupContext) (ws : SingleWellState)
    (ty : InjectorType) (group : Opm.Group) (eff : ℚ)
    (hne : env.groupChainTopBot group.name ≠ [])
    (hlen : (env.groupChainTopBot group.name).length < 2 ^ 64) :
    productionTargetRate env ws group eff
      = max 0 (downwardWalk (env.prodLocalReduction group) (env.prodLocalFraction ws group)
          env.guideRateHas true (env.prodGroupTarget group)
          (env.groupChainTopBot group.name) / eff)
    ∧ (¬ (env.injection_control group.name (injectionPhaseOf ty)
          = Opm.Group.InjectionCMode.FLD
        ∨ env.injection_control group.name (injectionPhaseOf ty)
          = Opm.Group.InjectionCMode.NONE) →
      group.isInjectionGroup = true →
      ∀ fuel, getGroupInjectionTargetRate env ws ty fuel group eff
        = some (some (max 0
            (downwardWalk (env.injLocalReduction group (injectionPhaseOf ty))
              (env.injLocalFraction ws group (injectionPhaseOf ty))
              (fun g => env.guideRateHasPhase g (injectionPhaseOf ty)) true
              (env.injGroupTarget group (injectionPhaseOf ty))
              (env.groupChainTopBot group.name) / eff))))
    ∧ (∀ (reduction fraction : String → ℚ) (has : String → Bool) (top : Bool) (t : ℚ)
        (g g1 : String) (rest : List String),
      downwardWalk reduction fraction has top t [g] = t
      ∧ downwardWalk reduction fraction has top t (g :: g1 :: rest)
        = downwardWalk reduction fraction has false
            ((if top = true ∨ has g = true then t - reduction g else t) * fraction g1)
            (g1 :: rest)) := by
  refine ⟨?_, ?_, ?_⟩
  · unfold productionTargetRate
    simp only [chainTarget_eq_downwardWalk _ _ _ _ _ hne hlen]
  · intro hmode hinj fuel
    rw [injection_controlling env ws ty fuel group eff hmode hinj,
      chainTarget_eq_downwardWalk _ _ _ _ _ hne hlen]
  · intro reduction fraction has top t g g1 rest
    exact ⟨downwardWalk_single reduction fraction has top t g,
      downwardWalk_cons reduction fraction has top t g g1 rest⟩

/-- Witness for C15: in the example tree the chain from FIELD to the well is
FIELD, G1, P1, and the production target rate for efficiency factor 1/2 is
the maximum of 0 and the walk divided by 1/2. -/
theorem getGroupTargetRate_downward_witness :
    productionTargetRate treeContext exampleProducerState (treeGroup "FIELD") (1 / 2)
      = max 0 (downwardWalk (treeContext.prodLocalReduction (treeGroup "FIELD"))
          (treeContext.prodLocalFraction exampleProducerState (treeGroup "FIELD"))
          treeContext.guideRateHas true (treeContext.prodGroupTarget (treeGroup "FIELD"))
          (treeContext.groupChainTopBot (treeGroup "FIELD").name) / (1 / 2)) :=
  (getGroupTargetRate_downward treeContext exampleProducerState InjectorType.WATER
    (treeGroup "FIELD") (1 / 2) (by decide) (by decide)).1

/-- C16, as stated, fails.  For a well that produces nothing (current rate 0,
which is non-positive) under a controlling group whose target is 0 the
function returns 0, not 1; and for a well whose current rate is 1e-15, which
is positive, under a controlling group with target rate 1000 the function
returns 1, not 1000 divided by the current rate. -/
theorem getGroupProductionTargetRate_guards :
    (-zeroTargetContext.prodCalcModeRateFromRates (exampleGroup "G1") idleState.surface_rates
        ≤ 0
      ∧ getGroupProductionTargetRate zeroTargetContext idleState 0 (exampleGroup "G1") 1
          = some 0)
    ∧ (0 < -exampleGroupContext.prodCalcModeRateFromRates (exampleGroup "G1")
          tinyRateState.surface_rates
      ∧ productionTargetRate exampleGroupContext tinyRateState (exampleGroup "G1") 1 = 1000
      ∧ getGroupProductionTargetRate exampleGroupContext tinyRateState 0 (exampleGroup "G1") 1
          = some 1
      ∧ productionTargetRate exampleGroupContext tinyRateState (exampleGroup "G1") 1
          / -exampleGroupContext.prodCalcModeRateFromRates (exampleGroup "G1")
              tinyRateState.surface_rates ≠ 1) := by
  have hn : numAncestors ["G1", "P1"] = 1 := by decide
  have ht0 : productionTargetRate zeroTargetContext idleState (exampleGroup "G1") 1 = 0 := by
    simp [productionTargetRate, chainTarget, zeroTargetContext, exampleGroupContext,
      exampleGroup, hn, targetStep, List.range_succ]
  have ht1 : productionTargetRate exampleGroupContext tinyRateState (exampleGroup "G1") 1
      = 1000 := by
    simp [productionTargetRate, chainTarget, exampleGroupContext, exampleGroup, hn,
      targetStep, List.range_succ]
  have hc : -exampleGroupContext.prodCalcModeRateFromRates (exampleGroup "G1")
      tinyRateState.surface_rates = 1 / 10 ^ 15 := by
    simp [exampleGroupContext, tinyRateState]
  refine ⟨⟨?_, ?_⟩, ?_, ht1, ?_, ?_⟩
  · simp [zeroTargetContext, exampleGroupContext, idleState]
  · rw [production_controlling _ _ _ _ _ (by decide) rfl, ht0, if_pos rfl]
  · rw [hc]
    norm_num
  · rw [production_controlling _ _ _ _ _ (by decide) rfl, ht1, hc]
    norm_num
  · rw [ht1, hc]
    norm_num

/-- C16 (amended): once a controlling production group is found (its mode is
neither FLD nor NONE and it is a production group),
`getGroupProductionTargetRate` returns 0 when the target rate
`max(0, target / efficiencyFactor)` is 0; otherwise it returns the target
rate divided by the current rate of the well when that current rate is above
1e-14, and 1 when the current rate is at most 1e-14. -/
theorem getGroupProductionTargetRate_scale (env : GroupContext) (ws : SingleWellState)
    (fuel : Nat) (group : Opm.Group) (eff : ℚ)
    (hmode : ¬ (env.production_control group.name = Opm.Group.ProductionCMode.FLD
      ∨ env.production_control group.name = Opm.Group.ProductionCMode.NONE))
    (hprod : group.isProductionGroup = true) :
    (productionTargetRate env ws group eff = 0 →
      getGroupProductionTargetRate env ws fuel group eff = some 0)
    ∧ (productionTargetRate env ws group eff ≠ 0 →
      -env.prodCalcModeRateFromRates group ws.surface_rates > 1e-14 →
      getGroupProductionTargetRate env ws fuel group eff
        = some (productionTargetRate env ws group eff
            / -env.prodCalcModeRateFromRates group ws.surface_rates))
    ∧ (productionTargetRate env ws group eff ≠ 0 →
      -env.prodCalcModeRateFromRates group ws.surface_rates ≤ 1e-14 →
      getGroupProductionTargetRate env ws fuel group eff = some 1) := by
  rw [production_controlling env ws fuel group eff hmode hprod]
  refine ⟨fun h0 => ?_, fun h0 hc => ?_, fun h0 hc => ?_⟩
  · rw [if_pos h0]
  · rw [if_neg h0, if_pos hc]
  · rw [if_neg h0, if_neg (not_lt.mpr hc)]

/-- Witness for C16 (amended): the example producer, with current oil rate
600, under the group G1 that holds an ORAT control with target rate 1000. -/
theorem getGroupProductionTargetRate_scale_witness :
    getGroupProductionTargetRate exampleGroupContext exampleProducerState 0
        (exampleGroup "G1") 1
      = some (productionTargetRate exampleGroupContext exampleProducerState (exampleGroup "G1") 1
          / -exampleGroupContext.prodCalcModeRateFromRates (exampleGroup "G1")
              exampleProducerState.surface_rates) :=
  (getGroupProductionTargetRate_scale exampleGroupContext exampleProducerState 0
    (exampleGroup "G1") 1 (by decide) rfl).2.1
    (by simp [productionTargetRate, chainTarget, exampleGroupContext, exampleGroup,
      show numAncestors ["G1", "P1"] = 1 by decide, targetStep, List.range_succ])
    (by norm_num [exampleGroupContext, exampleProducerState])

/-- C17: on the one-cell grid with its single boundary face under a PRESSURE
condition with value `v`, transmissibility `t ≠ 0` on that face, zero
gravity and no source, the system assembled by `ifs_tpfa_assemble` has one
row, which maps `x` to `t * x[0]`, and right-hand side `t * v`; no stored
value is doubled; the constant vector `v` solves it, and for every exact
solution `x` the entry `x[0]`, and the cell pressure that
`ifs_tpfa_press_flux` recovers from it, equal `v`. -/
theorem one_cell_pressure_scenario (t v : ℚ) (trans : Nat → ℚ) (h : ifs_tpfa_data)
    (ht : trans 0 = t) (hne : t ≠ 0) (hA : constructedFor oneCellGrid none h) :
    (ifs_tpfa_assemble oneCellGrid (onlyBC (pressureAt v)) trans (fun _ => 0) h).A.m = 1
    ∧ (∀ x, rowWeighted
        (ifs_tpfa_assemble oneCellGrid (onlyBC (pressureAt v)) trans (fun _ => 0) h).A 0 x
        = t * x 0)
    ∧ (ifs_tpfa_assemble oneCellGrid (onlyBC (pressureAt v)) trans (fun _ => 0) h).b 0 = t * v
    ∧ (∀ p, (ifs_tpfa_assemble oneCellGrid (onlyBC (pressureAt v)) trans (fun _ => 0) h).A.sa p
        = (assemble_core oneCellGrid (onlyBC (pressureAt v)) trans (fun _ => 0) h).2.A.sa p)
    ∧ solvesSystem (withSolution
        (ifs_tpfa_assemble oneCellGrid (onlyBC (pressureAt v)) trans (fun _ => 0) h)
        (fun _ => v))
    ∧ (∀ x, solvesSystem (withSolution
          (ifs_tpfa_assemble oneCellGrid (onlyBC (pressureAt v)) trans (fun _ => 0) h) x) →
        x 0 = v
        ∧ ∀ soln, (ifs_tpfa_press_flux oneCellGrid (onlyBC (pressureAt v)) trans
            (withSolution
              (ifs_tpfa_assemble oneCellGrid (onlyBC (pressureAt v)) trans (fun _ => 0) h) x)
            soln).cell_press 0 = v) := by
  have hG : wellFormedGrid oneCellGrid := by decide
  have hW : wellFormedWells oneCellGrid none := trivial
  have hm := constructedFor_m oneCellGrid none h (wellFormedGrid_cellsInRange _ hG) hW hA
  have hn : numUnknowns oneCellGrid none = 1 := by decide
  have hf := assemble_frame oneCellGrid (onlyBC (pressureAt v)) trans (fun _ => 0) h
  have hm1 : (ifs_tpfa_assemble oneCellGrid (onlyBC (pressureAt v)) trans (fun _ => 0) h).A.m
      = 1 := by
    rw [hf.1, show (assembleStart oneCellGrid (fun _ => 0) h).A.m = h.A.m from rfl, hm, hn]
  have hrow : ∀ x, rowWeighted
      (ifs_tpfa_assemble oneCellGrid (onlyBC (pressureAt v)) trans (fun _ => 0) h).A 0 x
      = t * x 0 := by
    intro x
    rw [rowWeighted_assemble oneCellGrid none _ trans _ h hG hW hA 0 (by decide),
      rowWeighted_core oneCellGrid none _ trans _ h hG hW hA (forcesOnBoundary_pressureAt v) 0
        (by decide),
      if_pos (by decide), slots_oneCell, pressureDiag_pressureAt,
      if_neg (fun hh => not_noPressure_pressureAt v hh.1), ht]
    ring
  have hb : (ifs_tpfa_assemble oneCellGrid (onlyBC (pressureAt v)) trans (fun _ => 0) h).b 0
      = t * v := by
    have hfg : compute_grav_term oneCellGrid (fun _ => 0) h.fgrav 0 = 0 :=
      compute_grav_term_zero oneCellGrid h.fgrav 0 (by decide)
    rw [assemble_b_cell oneCellGrid none _ trans _ h hG (forcesOnBoundary_pressureAt v) hm 0
        (by decide),
      rhsGravity_oneCell trans _ hfg, rhsBoundary_pressureAt v trans _ hfg, ht]
    show -0 + t * v + 0 = t * v
    ring
  refine ⟨hm1, hrow, hb, ?_, ?_, ?_⟩
  · intro p
    rw [assemble_sa, if_neg (fun hh => not_noPressure_pressureAt v hh.1)]
  · intro i hi
    have hi1 : i < 1 := by
      have : i < (ifs_tpfa_assemble oneCellGrid (onlyBC (pressureAt v)) trans (fun _ => 0)
        h).A.m := hi
      omega
    have hi0 : i = 0 := by omega
    subst hi0
    show rowWeighted
      (ifs_tpfa_assemble oneCellGrid (onlyBC (pressureAt v)) trans (fun _ => 0) h).A 0
      (fun _ => v)
      = (ifs_tpfa_assemble oneCellGrid (onlyBC (pressureAt v)) trans (fun _ => 0) h).b 0
    rw [hrow, hb]
  · intro x hx
    have h0 := hx 0 (by
      show 0 < (ifs_tpfa_assemble oneCellGrid (onlyBC (pressureAt v)) trans (fun _ => 0)
        h).A.m
      omega)
    have h1 : rowWeighted
        (ifs_tpfa_assemble oneCellGrid (onlyBC (pressureAt v)) trans (fun _ => 0) h).A 0 x
        = (ifs_tpfa_assemble oneCellGrid (onlyBC (pressureAt v)) trans (fun _ => 0) h).b 0 :=
      h0
    rw [hrow, hb] at h1
    have hx0 : x 0 = v := mul_left_cancel₀ hne h1
    refine ⟨hx0, fun soln => ?_⟩
    rw [press_flux_cell_press, if_pos (by decide)]
    exact hx0

/-- Witness for C17: prescribed value 100 and transmissibility 1, with the
matrix constructed for the one-cell grid. -/
theorem one_cell_pressure_scenario_witness :
    solvesSystem (withSolution
      (ifs_tpfa_assemble oneCellGrid (onlyBC (pressureAt 100)) (fun _ => 1) (fun _ => 0)
        oneCellPlainData)
      (fun _ => 100)) :=
  (one_cell_pressure_scenario 1 100 (fun _ => 1) oneCellPlainData rfl one_ne_zero
    ⟨(ifs_tpfa_construct_matrix oneCellGrid none).getD (csrmatrix_new_count_nnz 0),
      by rfl, rfl, rfl, rfl, rfl⟩).2.2.2.2.1

/-- C18: on the two-cell grid whose cells 0 and 1 are joined by face 0 (first
cell 0) with transmissibility `T ≠ 0`, with zero gravity, no PRESSURE
condition, and an inflow `Q` into cell 0 and an outflow `-Q` at cell 1 (given
as source terms, or as FLUX_TOTVOL conditions on the boundary faces of the
two cells), the system assembled by `ifs_tpfa_assemble` is
`2 T x0 - T x1 = Q`, `T x1 - T x0 = -Q` (the entry (0,0) doubled); it has the
solution `x0 = 0`, `x1 = -Q / T`, and for every exact solution the flux that
`ifs_tpfa_press_flux` recovers across the shared face equals `Q`. -/
theorem two_cell_flux_scenario (T Q : ℚ) (trans : Nat → ℚ) (h : ifs_tpfa_data)
    (F : Option ifs_tpfa_forces) (hT : trans 0 = T) (hne : T ≠ 0)
    (hA : constructedFor twoCellGrid none h)
    (hF : F = twoCellSources Q ∨ F = onlyBC (twoCellFluxes Q)) :
    noPressure F
    ∧ (∀ x, rowWeighted (ifs_tpfa_assemble twoCellGrid F trans (fun _ => 0) h).A 0 x
          = 2 * T * x 0 - T * x 1
        ∧ rowWeighted (ifs_tpfa_assemble twoCellGrid F trans (fun _ => 0) h).A 1 x
          = T * x 1 - T * x 0)
    ∧ (ifs_tpfa_assemble twoCellGrid F trans (fun _ => 0) h).b 0 = Q
    ∧ (ifs_tpfa_assemble twoCellGrid F trans (fun _ => 0) h).b 1 = -Q
    ∧ solvesSystem (withSolution (ifs_tpfa_assemble twoCellGrid F trans (fun _ => 0) h)
        (fun c => if c = 0 then 0 else -Q / T))
    ∧ (∀ x, solvesSystem
          (withSolution (ifs_tpfa_assemble twoCellGrid F trans (fun _ => 0) h) x) →
        ∀ soln, (ifs_tpfa_press_flux twoCellGrid F trans
          (withSolution (ifs_tpfa_assemble twoCellGrid F trans (fun _ => 0) h) x)
          soln).face_flux 0 = Q) := by
  have hfacts : forcesOnBoundary twoCellGrid F ∧ noPressure F
      ∧ (∀ bc, forcesBC F = some bc → ∀ e ∈ bcEntries bc, bcHandled bc e.1 →
          bc.face e.2 ≠ 0)
      ∧ (∀ fg : Nat → ℚ, rhsBoundary twoCellGrid F trans fg 0 + rhsSource F 0 = Q
          ∧ rhsBoundary twoCellGrid F trans fg 1 + rhsSource F 1 = -Q) := by
    rcases hF with rfl | rfl
    · exact twoCellSources_facts Q trans
    · exact twoCellFluxes_facts Q trans
  obtain ⟨hassert, hno, hunl, hrhs⟩ := hfacts
  obtain ⟨hrows, hb0, hb1, hm, hflux⟩ := twoCell_system F trans h Q hA hassert hno hunl hrhs
  rw [hT] at hflux
  have hrows2 : ∀ x, rowWeighted (ifs_tpfa_assemble twoCellGrid F trans (fun _ => 0) h).A 0 x
        = 2 * T * x 0 - T * x 1
      ∧ rowWeighted (ifs_tpfa_assemble twoCellGrid F trans (fun _ => 0) h).A 1 x
        = T * x 1 - T * x 0 := by
    intro x
    have := hrows x
    rw [hT] at this
    exact this
  have hq : T * (-Q / T) = -Q := mul_div_cancel₀ _ hne
  refine ⟨hno, hrows2, hb0, hb1, ?_, ?_⟩
  · intro i hi
    have hi2 : i < 2 := by
      have : i < (ifs_tpfa_assemble twoCellGrid F trans (fun _ => 0) h).A.m := hi
      omega
    have hcases : i = 0 ∨ i = 1 := by omega
    rcases hcases with rfl | rfl
    · show rowWeighted (ifs_tpfa_assemble twoCellGrid F trans (fun _ => 0) h).A 0
          (fun c => if c = 0 then 0 else -Q / T)
        = (ifs_tpfa_assemble twoCellGrid F trans (fun _ => 0) h).b 0
      rw [(hrows2 _).1, hb0]
      simp only [if_true, if_neg (show ¬ (1 : Nat) = 0 by decide)]
      rw [hq]
      ring
    · show rowWeighted (ifs_tpfa_assemble twoCellGrid F trans (fun _ => 0) h).A 1
          (fun c => if c = 0 then 0 else -Q / T)
        = (ifs_tpfa_assemble twoCellGrid F trans (fun _ => 0) h).b 1
      rw [(hrows2 _).2, hb1]
      simp only [if_true, if_neg (show ¬ (1 : Nat) = 0 by decide)]
      rw [hq]
      ring
  · intro x hx soln
    have h1 := hx 1 (by
      show 1 < (ifs_tpfa_assemble twoCellGrid F trans (fun _ => 0) h).A.m
      omega)
    have h1b : rowWeighted (ifs_tpfa_assemble twoCellGrid F trans (fun _ => 0) h).A 1 x
        = (ifs_tpfa_assemble twoCellGrid F trans (fun _ => 0) h).b 1 := h1
    rw [(hrows2 x).2, hb1] at h1b
    rw [hflux]
    linarith

/-- Witness for C18: transmissibility 2 and rate 5 given as source terms,
with the matrix constructed for the two-cell grid. -/
theorem two_cell_flux_scenario_witness :
    solvesSystem (withSolution
      (ifs_tpfa_assemble twoCellGrid (twoCellSources 5) (fun _ => 2) (fun _ => 0) twoCellData)
      (fun c => if c = 0 then 0 else -5 / 2)) :=
  (two_cell_flux_scenario 2 5 (fun _ => 2) twoCellData (twoCellSources 5) rfl two_ne_zero
    ⟨(ifs_tpfa_construct_matrix twoCellGrid none).getD (csrmatrix_new_count_nnz 0),
      by rfl, rfl, rfl, rfl, rfl⟩ (Or.inl rfl)).2.2.2.2.1

/-- C19, as stated, fails.  With zero gravity and PRESSURE conditions only:
on the cell with two boundary faces that prescribe 100 and 0, with unit
transmissibilities, the constant 50 solves the assembled system and the
recovered pressure of the cell is 50, not the 100 prescribed on face 0; on
the one-cell grid with value 100 prescribed on its face and a source of 10
in the cell, the constant 110 solves the system and the recovered pressure
is 110; and on the one-cell grid with transmissibility 0 the constant 7
solves the system and the recovered pressure is 7. -/
theorem round_trip_not_reproduced :
    ((∀ i, i < twoFacePressures.nbc → twoFacePressures.type i = FlowBCType.BC_PRESSURE)
      ∧ (0, 0) ∈ bcEntriesAt twoFaceCell twoFacePressures FlowBCType.BC_PRESSURE 0
      ∧ twoFacePressures.value 0 = 100
      ∧ solvesSystem (withSolution
          (ifs_tpfa_assemble twoFaceCell (onlyBC twoFacePressures) (fun _ => 1) (fun _ => 0)
            twoFaceData) (fun _ => 50))
      ∧ (ifs_tpfa_press_flux twoFaceCell (onlyBC twoFacePressures) (fun _ => 1)
          (withSolution
            (ifs_tpfa_assemble twoFaceCell (onlyBC twoFacePressures) (fun _ => 1) (fun _ => 0)
              twoFaceData) (fun _ => 50)) zeroSolution).cell_press 0 = 50
      ∧ (50 : ℚ) ≠ twoFacePressures.value 0)
    ∧ ((0, 0) ∈ bcEntriesAt oneCellGrid (pressureAt 100) FlowBCType.BC_PRESSURE 0
      ∧ (pressureAt 100).value 0 = 100
      ∧ solvesSystem (withSolution
          (ifs_tpfa_assemble oneCellGrid pressureAndSource (fun _ => 1) (fun _ => 0)
            oneCellPlainData) (fun _ => 110))
      ∧ (ifs_tpfa_press_flux oneCellGrid pressureAndSource (fun _ => 1)
          (withSolution
            (ifs_tpfa_assemble oneCellGrid pressureAndSource (fun _ => 1) (fun _ => 0)
              oneCellPlainData) (fun _ => 110)) zeroSolution).cell_press 0 = 110
      ∧ (110 : ℚ) ≠ (pressureAt 100).value 0
      ∧ solvesSystem (withSolution
          (ifs_tpfa_assemble oneCellGrid (onlyBC (pressureAt 100)) (fun _ => 0) (fun _ => 0)
            oneCellPlainData) (fun _ => 7))
      ∧ (ifs_tpfa_press_flux oneCellGrid (onlyBC (pressureAt 100)) (fun _ => 0)
          (withSolution
            (ifs_tpfa_assemble oneCellGrid (onlyBC (pressureAt 100)) (fun _ => 0) (fun _ => 0)
              oneCellPlainData) (fun _ => 7)) zeroSolution).cell_press 0 = 7
      ∧ (7 : ℚ) ≠ (pressureAt 100).value 0) := by
  have hA1 : constructedFor twoFaceCell none twoFaceData :=
    ⟨(ifs_tpfa_construct_matrix twoFaceCell none).getD (csrmatrix_new_count_nnz 0),
      by rfl, rfl, rfl, rfl, rfl⟩
  have hA2 : constructedFor oneCellGrid none oneCellPlainData :=
    ⟨(ifs_tpfa_construct_matrix oneCellGrid none).getD (csrmatrix_new_count_nnz 0),
      by rfl, rfl, rfl, rfl, rfl⟩
  refine ⟨⟨fun _ _ => rfl, by decide, by simp [twoFacePressures], ?_, rfl,
      by norm_num [twoFacePressures]⟩,
    by decide, rfl, ?_, rfl, by norm_num [pressureAt], ?_, rfl, by norm_num [pressureAt]⟩
  · obtain ⟨hm, hrow, hb⟩ := twoFace_system twoFaceData hA1
    intro i hi
    have hi1 : i < (ifs_tpfa_assemble twoFaceCell (onlyBC twoFacePressures) (fun _ => 1)
      (fun _ => 0) twoFaceData).A.m := hi
    have hi0 : i = 0 := by omega
    subst hi0
    show rowWeighted (ifs_tpfa_assemble twoFaceCell (onlyBC twoFacePressures) (fun _ => 1)
        (fun _ => 0) twoFaceData).A 0 (fun _ => 50)
      = (ifs_tpfa_assemble twoFaceCell (onlyBC twoFacePressures) (fun _ => 1) (fun _ => 0)
        twoFaceData).b 0
    rw [hrow, hb]
    norm_num
  · apply oneCell_solves pressureAndSource 100 (fun _ => 1) oneCellPlainData rfl hA2
    show (1 : ℚ) * 110 = 1 * 100 + 10
    norm_num
  · apply oneCell_solves (onlyBC (pressureAt 100)) 100 (fun _ => 0) oneCellPlainData rfl hA2
    show (0 : ℚ) * 7 = 0 * 100 + 0
    norm_num

/-- C19 (amended): on a well-formed grid with boundary conditions on
boundary faces that are all of PRESSURE type and prescribe the same pressure
`v`, at least one being present, with zero gravity and zero sources, the
constant pressure `v` solves the assembled system exactly; and when in
addition all transmissibilities are positive and every cell is joined to a
cell with a PRESSURE face by a chain of faces, every exact solution `x`
equals `v` in every cell, so the cell pressure recovered by
`ifs_tpfa_press_flux` equals the prescribed pressure in every cell, in
particular in each cell adjacent to a PRESSURE boundary face. -/
theorem round_trip_uniform (G : UnstructuredGrid) (W : Option Wells)
    (F : Option ifs_tpfa_forces) (trans : Nat → ℚ) (h : ifs_tpfa_data) (v : ℚ)
    (hG : wellFormedGrid G) (hW : wellFormedWells G W) (hA : constructedFor G W h)
    (hassert : forcesOnBoundary G F) (hall : allPressure F v) (hsome : ¬ noPressure F)
    (hsrc : ∀ c, c < G.number_of_cells → rhsSource F c = 0) :
    solvesSystem (withSolution (ifs_tpfa_assemble G F trans (fun _ => 0) h) (fun _ => v))
    ∧ ((∀ f, f < G.number_of_faces → 0 < trans f) →
      (∀ c, c < G.number_of_cells → joinedToPressure G F G.number_of_cells c = true) →
      ∀ x, solvesSystem (withSolution (ifs_tpfa_assemble G F trans (fun _ => 0) h) x) →
      ∀ c, c < G.number_of_cells →
        x c = v
        ∧ ∀ soln, (ifs_tpfa_press_flux G F trans
            (withSolution (ifs_tpfa_assemble G F trans (fun _ => 0) h) x) soln).cell_press c
          = v) := by
  refine ⟨constant_solves G W F trans h v hG hW hA hassert hall hsome hsrc, ?_⟩
  intro hpos hconn x hx c hc
  have hxc := uniform_solution G W F trans h v hG hW hA hassert hall hsome hsrc hpos
    (fun c2 hc2 => ⟨G.number_of_cells, hconn c2 hc2⟩) x hx c hc
  refine ⟨hxc, fun soln => ?_⟩
  rw [press_flux_cell_press, if_pos hc]
  exact hxc

/-- Witness for C19 (amended): the two-cell grid with the pressure 100
prescribed on the boundary face of cell 0 and unit transmissibilities; cell 1
is joined to that face through the shared face, and its recovered pressure
is 100. -/
theorem round_trip_uniform_witness :
    (ifs_tpfa_press_flux twoCellGrid (onlyBC (pressureOnFace 1 100)) (fun _ => 1)
      (withSolution
        (ifs_tpfa_assemble twoCellGrid (onlyBC (pressureOnFace 1 100)) (fun _ => 1)
          (fun _ => 0) twoCellData) (fun _ => 100)) zeroSolution).cell_press 1 = 100 :=
  ((round_trip_uniform twoCellGrid none (onlyBC (pressureOnFace 1 100)) (fun _ => 1)
    twoCellData 100 (by decide) trivial
    ⟨(ifs_tpfa_construct_matrix twoCellGrid none).getD (csrmatrix_new_count_nnz 0),
      by rfl, rfl, rfl, rfl, rfl⟩
    (by decide) (fun _ _ => ⟨rfl, rfl⟩) (by decide) (fun _ _ => rfl)).2
    (fun _ _ => zero_lt_one) (by decide) (fun _ => 100)
    (round_trip_uniform twoCellGrid none (onlyBC (pressureOnFace 1 100)) (fun _ => 1)
      twoCellData 100 (by decide) trivial
      ⟨(ifs_tpfa_construct_matrix twoCellGrid none).getD (csrmatrix_new_count_nnz 0),
        by rfl, rfl, rfl, rfl, rfl⟩
      (by decide) (fun _ _ => ⟨rfl, rfl⟩) (by decide) (fun _ _ => rfl)).1
    1 (by decide)).2 zeroSolution

/-- C21, as stated, fails at the boundary value: the producer has LRAT as its
only control, with the liquid-rate limit 500 equal to the oil-rate limit, and
produces 600 of oil and exactly 1e-12 of water, so the absolute value of the
water rate is at most 1e-12; the code does not skip the check (its test is
`< 1e-12`) and returns LRAT. -/
theorem activeProductionConstraint_lrat_boundary :
    lratProducer.productionControls.liquid_rate = lratProducer.productionControls.oil_rate
      ∧ |boundaryWaterState.surface_rates (lratProducer.phaseUsage.phase_pos BlackoilPhases.Aqua)|
          ≤ 1e-12
      ∧ (activeProductionConstraint lratProducer boundaryWaterState false).1
          = ProducerCMode.LRAT := by
  refine ⟨rfl, ?_, ?_⟩
  · norm_num [boundaryWaterState, lratProducer, threePhase, abs_of_pos]
  · rw [activeProductionConstraint_cascade]
    have h1 : ¬ bhpTriggers lratProducer boundaryWaterState := fun h => absurd h.1 (by decide)
    have h2 : ¬ oratTriggers lratProducer boundaryWaterState := fun h => absurd h.1 (by decide)
    have h3 : ¬ wratTriggers lratProducer boundaryWaterState := fun h => absurd h.1 (by decide)
    have h4 : ¬ gratTriggers lratProducer boundaryWaterState := fun h => absurd h.1 (by decide)
    have h5 : lratTriggers lratProducer boundaryWaterState := by
      refine ⟨rfl, by decide, ?_⟩
      norm_num [boundaryWaterState, lratProducer, threePhase, abs_of_pos]
    rw [if_neg h1, if_neg h2, if_neg h3, if_neg h4, if_pos h5]

/-- C21 (amended): when the LRAT check of `activeProductionConstraint` is
reached (no earlier check returns, LRAT is available and is not the current
mode), the function returns LRAT exactly when it is not the case that the
liquid-rate limit equals the oil-rate limit and the absolute value of the
current water surface rate is below 1e-12 (the value 1e-12 itself
excluded), and the liquid-rate limit is below the produced oil-plus-water
surface rate. -/
theorem activeProductionConstraint_lrat (w : WellContext) (ws : SingleWellState) (flag : Bool)
    (h1 : ¬ bhpTriggers w ws) (h2 : ¬ oratTriggers w ws) (h3 : ¬ wratTriggers w ws)
    (h4 : ¬ gratTriggers w ws)
    (hL : w.productionControls.hasControl ProducerCMode.LRAT = true)
    (hcur : ws.production_cmode ≠ ProducerCMode.LRAT) :
    (activeProductionConstraint w ws flag).1 = ProducerCMode.LRAT
      ↔ (¬ (w.productionControls.liquid_rate = w.productionControls.oil_rate
            ∧ |ws.surface_rates (w.phaseUsage.phase_pos BlackoilPhases.Aqua)| < 1e-12)
          ∧ w.productionControls.liquid_rate
            < -ws.surface_rates (w.phaseUsage.phase_pos BlackoilPhases.Liquid)
              - ws.surface_rates (w.phaseUsage.phase_pos BlackoilPhases.Aqua)) := by
  rw [activeProductionConstraint_cascade, if_neg h1, if_neg h2, if_neg h3, if_neg h4]
  by_cases h5 : lratTriggers w ws
  · rw [if_pos h5]
    have h5b := h5.2.2
    simp only [decide_eq_false_iff_not] at h5b
    exact ⟨fun _ => h5b, fun _ => rfl⟩
  · rw [if_neg h5]
    have hno : ¬ (¬ (w.productionControls.liquid_rate = w.productionControls.oil_rate
            ∧ |ws.surface_rates (w.phaseUsage.phase_pos BlackoilPhases.Aqua)| < 1e-12)
          ∧ w.productionControls.liquid_rate
            < -ws.surface_rates (w.phaseUsage.phase_pos BlackoilPhases.Liquid)
              - ws.surface_rates (w.phaseUsage.phase_pos BlackoilPhases.Aqua)) := by
      intro hc
      apply h5
      refine ⟨hL, hcur, ?_⟩
      simp only [decide_eq_false_iff_not]
      exact hc
    constructor
    · intro hres
      exfalso
      split_ifs at hres <;> exact hcur hres
    · intro hc
      exact absurd hc hno

/-- Witness for C21 (amended): the producer with LRAT as its only control at
the boundary water rate 1e-12. -/
theorem activeProductionConstraint_lrat_witness :
    (activeProductionConstraint lratProducer boundaryWaterState false).1 = ProducerCMode.LRAT
      ↔ (¬ (lratProducer.productionControls.liquid_rate
              = lratProducer.productionControls.oil_rate
            ∧ |boundaryWaterState.surface_rates
                (lratProducer.phaseUsage.phase_pos BlackoilPhases.Aqua)| < 1e-12)
          ∧ lratProducer.productionControls.liquid_rate
            < -boundaryWaterState.surface_rates
                (lratProducer.phaseUsage.phase_pos BlackoilPhases.Liquid)
              - boundaryWaterState.surface_rates
                (lratProducer.phaseUsage.phase_pos BlackoilPhases.Aqua)) :=
  activeProductionConstraint_lrat lratProducer boundaryWaterState false
    (fun h => absurd h.1 (by decide)) (fun h => absurd h.1 (by decide))
    (fun h => absurd h.1 (by decide)) (fun h => absurd h.1 (by decide)) rfl (by decide)

/-- C22: for a producer that reaches the THP check (no earlier check returns,
THP is available and is not the current mode) with the THP limit above the
current thp and a non-trivial target: if the prevent flag of the well is set
and for every phase `p` the produced rate `-surface_rates[p]` does not
exceed `well_potentials[p]`, the current mode is returned and the flag
`thp_limit_violated_but_not_switched` is set to true; otherwise THP is
returned and the flag is set to false. -/
theorem activeProductionConstraint_thp (w : WellContext) (ws : SingleWellState) (flag : Bool)
    (h1 : ¬ bhpTriggers w ws) (h2 : ¬ oratTriggers w ws) (h3 : ¬ wratTriggers w ws)
    (h4 : ¬ gratTriggers w ws) (h5 : ¬ lratTriggers w ws) (h6 : ¬ resvTriggers w ws)
    (hT : w.productionControls.hasControl ProducerCMode.THP = true)
    (hcur : ws.production_cmode ≠ ProducerCMode.THP)
    (hthp : w.thpConstraint > ws.thp) (htriv : ws.trivial_target = false) :
    ((w.wvfpexp_prevent = true
        ∧ ∀ p, p < w.number_of_phases → -ws.surface_rates p ≤ ws.well_potentials p) →
      activeProductionConstraint w ws flag = (ws.production_cmode, true))
    ∧ (¬ (w.wvfpexp_prevent = true
        ∧ ∀ p, p < w.number_of_phases → -ws.surface_rates p ≤ ws.well_potentials p) →
      activeProductionConstraint w ws flag = (ProducerCMode.THP, false)) := by
  have hc : w.productionControls.hasControl ProducerCMode.THP
      ∧ ws.production_cmode ≠ ProducerCMode.THP
      ∧ w.thpConstraint > ws.thp ∧ ws.trivial_target = false := ⟨hT, hcur, hthp, htriv⟩
  rw [activeProductionConstraint_cascade, if_neg h1, if_neg h2, if_neg h3, if_neg h4,
    if_neg h5, if_neg h6, if_pos hc]
  constructor
  · intro hp
    have hr := (rateLessThanPotential_iff (fun p => -ws.surface_rates p) ws.well_potentials
      w.number_of_phases).mpr hp.2
    rw [if_neg]
    rw [hp.1, hr]
    simp
  · intro hp
    rw [if_pos]
    cases hpr : w.wvfpexp_prevent
    · exact Or.inl rfl
    · right
      rw [if_pos rfl]
      cases hr : rateLessThanPotential w.number_of_phases (fun p => -ws.surface_rates p)
        ws.well_potentials
      · rfl
      · exact absurd ⟨hpr, (rateLessThanPotential_iff _ _ _).mp hr⟩ hp

/-- Witness for C22: the producer with THP as its only control, the prevent
flag set, thp 50 under the limit 100 and rates within the potentials. -/
theorem activeProductionConstraint_thp_witness :
    activeProductionConstraint thpProducer thpState false = (thpState.production_cmode, true) :=
  (activeProductionConstraint_thp thpProducer thpState false
    (fun h => absurd h.1 (by decide)) (fun h => absurd h.1 (by decide))
    (fun h => absurd h.1 (by decide)) (fun h => absurd h.1 (by decide))
    (fun h => absurd h.1 (by decide)) (fun h => absurd h.1 (by decide)) rfl (by decide)
    (by norm_num [thpProducer, thpState]) rfl).1
    ⟨rfl, fun p _ => by
      show -(if p = 1 then (-600 : ℚ) else 0) ≤ 700
      split_ifs <;> norm_num⟩

/-- C23: for a producer that reaches the RESV check (no earlier check
returns, RESV is available and is not the current mode): in prediction mode
RESV is returned exactly when the scheduled `resv_rate` is below the
produced total reservoir rate; outside prediction mode it is returned
exactly when the sum over the phases of the reservoir-voidage rates that the
rate converter computes from the vector of phase rate targets is below the
produced total reservoir rate.  The produced total reservoir rate is minus
the sum of the reservoir rates of the active phases. -/
theorem activeProductionConstraint_resv (w : WellContext) (ws : SingleWellState) (flag : Bool)
    (h1 : ¬ bhpTriggers w ws) (h2 : ¬ oratTriggers w ws) (h3 : ¬ wratTriggers w ws)
    (h4 : ¬ gratTriggers w ws) (h5 : ¬ lratTriggers w ws)
    (hR : w.productionControls.hasControl ProducerCMode.RESV = true)
    (hcur : ws.production_cmode ≠ ProducerCMode.RESV) :
    (w.productionControls.prediction_mode = true →
      ((activeProductionConstraint w ws flag).1 = ProducerCMode.RESV
        ↔ w.productionControls.resv_rate < producedResvRate w.phaseUsage ws))
    ∧ (w.productionControls.prediction_mode = false →
      ((activeProductionConstraint w ws flag).1 = ProducerCMode.RESV
        ↔ ((List.range w.number_of_phases).map
            (w.calcReservoirVoidageRates (phaseTargets w))).sum
          < producedResvRate w.phaseUsage ws))
    ∧ producedResvRate w.phaseUsage ws
      = -((if w.phaseUsage.phase_used BlackoilPhases.Aqua then
            ws.reservoir_rates (w.phaseUsage.phase_pos BlackoilPhases.Aqua) else 0)
          + (if w.phaseUsage.phase_used BlackoilPhases.Liquid then
            ws.reservoir_rates (w.phaseUsage.phase_pos BlackoilPhases.Liquid) else 0)
          + (if w.phaseUsage.phase_used BlackoilPhases.Vapour then
            ws.reservoir_rates (w.phaseUsage.phase_pos BlackoilPhases.Vapour) else 0)) := by
  have hhist : historyResvRate w
      = ((List.range w.number_of_phases).map
          (w.calcReservoirVoidageRates (phaseTargets w))).sum :=
    foldl_add_eq_sum (w.calcReservoirVoidageRates (phaseTargets w)) w.number_of_phases
  have hmain : (activeProductionConstraint w ws flag).1 = ProducerCMode.RESV
      ↔ resvTriggers w ws := by
    rw [activeProductionConstraint_cascade, if_neg h1, if_neg h2, if_neg h3, if_neg h4,
      if_neg h5]
    by_cases h6 : resvTriggers w ws
    · rw [if_pos h6]
      exact ⟨fun _ => h6, fun _ => rfl⟩
    · rw [if_neg h6]
      constructor
      · intro hres
        exfalso
        split_ifs at hres <;> exact hcur hres
      · intro hc
        exact absurd hc h6
  refine ⟨?_, ?_, ?_⟩
  · intro hp
    rw [hmain]
    constructor
    · intro h
      rcases h.2.2 with h | h
      · exact h.2
      · rw [hp] at h
        exact absurd h.1 (by decide)
    · intro h
      exact ⟨hR, hcur, Or.inl ⟨hp, h⟩⟩
  · intro hp
    rw [hmain, ← hhist]
    constructor
    · intro h
      rcases h.2.2 with h | h
      · rw [hp] at h
        exact absurd h.1 (by decide)
      · exact h.2
    · intro h
      exact ⟨hR, hcur, Or.inr ⟨hp, h⟩⟩
  · unfold producedResvRate
    simp only []
    split_ifs <;> ring

/-- Witness for C23: the producer with RESV as its only control outside
prediction mode. -/
theorem activeProductionConstraint_resv_witness :
    (activeProductionConstraint resvProducer resvState false).1 = ProducerCMode.RESV
      ↔ ((List.range resvProducer.number_of_phases).map
          (resvProducer.calcReservoirVoidageRates (phaseTargets resvProducer))).sum
        < producedResvRate resvProducer.phaseUsage resvState :=
  (activeProductionConstraint_resv resvProducer resvState false
    (fun h => absurd h.1 (by decide)) (fun h => absurd h.1 (by decide))
    (fun h => absurd h.1 (by decide)) (fun h => absurd h.1 (by decide))
    (fun h => absurd h.1 (by decide)) rfl (by decide)).2.1 rfl

/-- C24: `activeInjectionConstraint` fails with an error that names the well,
and returns no control mode, whenever its RATE check is reached (RATE is
available and is not the current mode, and the BHP check does not return)
and the injector type is none of WATER, OIL, GAS; for the three handled
types it never fails. -/
theorem activeInjectionConstraint_unhandled_type (w : WellContext) (ws : SingleWellState)
    (flag : Bool) :
    (w.injectionControls.hasControl InjectorCMode.RATE = true →
      ws.injection_cmode ≠ InjectorCMode.RATE →
      ¬ (w.injectionControls.hasControl InjectorCMode.BHP = true
        ∧ ws.injection_cmode ≠ InjectorCMode.BHP ∧ w.injectionControls.bhp_limit < ws.bhp) →
      w.injectionControls.injector_type = InjectorType.MULTI →
      activeInjectionConstraint w ws flag
        = Except.error ("Expected WATER, OIL or GAS as type for injectors " ++ w.name))
    ∧ (w.injectionControls.injector_type ≠ InjectorType.MULTI →
      ∃ r, activeInjectionConstraint w ws flag = Except.ok r) := by
  constructor
  · intro hR hcur hB hty
    unfold activeInjectionConstraint
    have hc : w.injectionControls.hasControl InjectorCMode.RATE = true
        ∧ ws.injection_cmode ≠ InjectorCMode.RATE := ⟨hR, hcur⟩
    simp only [if_neg hB, if_pos hc, hty]
  · intro hty
    obtain ⟨flag1, h⟩ := aic_walk w ws flag hty
    exact ⟨_, h⟩

/-- Witness for C24: an injector of another type whose only control is RATE,
in BHP mode. -/
theorem activeInjectionConstraint_unhandled_type_witness :
    activeInjectionConstraint multiInjector exampleInjectorState false
      = Except.error ("Expected WATER, OIL or GAS as type for injectors " ++ multiInjector.name) :=
  (activeInjectionConstraint_unhandled_type multiInjector exampleInjectorState false).1
    rfl (by decide) (fun h => absurd h.1 (by decide)) rfl
/-! ## C25: boundary conditions of another type -/

/-- C25, as stated, fails: on the one-cell grid with the single NOFLOW
condition `oneNoflow` on face 0 (neither PRESSURE nor FLUX_TOTVOL), assembly
and flux recovery both produce a result, and it is the very result obtained
with no boundary conditions at all: the condition is silently skipped. -/
theorem unhandled_bc_is_skipped :
    oneNoflow.type 0 ≠ FlowBCType.BC_PRESSURE ∧
    oneNoflow.type 0 ≠ FlowBCType.BC_FLUX_TOTVOL ∧ 0 < oneNoflow.nbc ∧
    ifs_tpfa_assemble oneCellGrid (onlyBC oneNoflow) (fun _ => 1) (fun _ => 0) oneRowData
      = ifs_tpfa_assemble oneCellGrid (withoutBC (onlyBC oneNoflow)) (fun _ => 1) (fun _ => 0)
          oneRowData ∧
    ifs_tpfa_press_flux oneCellGrid (onlyBC oneNoflow) (fun _ => 1) oneRowData zeroSolution
      = ifs_tpfa_press_flux oneCellGrid (withoutBC (onlyBC oneNoflow)) (fun _ => 1) oneRowData
          zeroSolution ∧
    assemble_bc_contrib oneCellGrid oneNoflow (fun _ => 1) oneRowData = (true, oneRowData) := by
  refine ⟨by simp [oneNoflow], by simp [oneNoflow], by decide, ?_, ?_, ?_⟩
  · exact assemble_other oneCellGrid none oneNoflow _ _ _ onlyOtherTypes_oneNoflow
  · exact press_flux_other oneCellGrid none oneNoflow _ _ _ onlyOtherTypes_oneNoflow
  · exact assemble_bc_contrib_other oneCellGrid oneNoflow _ _ onlyOtherTypes_oneNoflow

/-- C25, amended: a boundary condition whose type is neither PRESSURE nor
FLUX_TOTVOL is skipped, by `assemble_bc_contrib` and by `boundary_fluxes`
alike: the step for such a condition leaves the state (flag, matrix,
right-hand side, fluxes) unchanged; and when the list holds only such
conditions, `ifs_tpfa_assemble` and `ifs_tpfa_press_flux` return what they
return for the same forces without boundary conditions.  Neither function
has an error result. -/
theorem unhandled_bc_skipped (G : UnstructuredGrid) (bc : FlowBoundaryConditions)
    (src : Option (Nat → ℚ)) (trans gpress : Nat → ℚ) (h : ifs_tpfa_data)
    (soln : ifs_tpfa_solution) :
    (∀ i, bc.type i ≠ FlowBCType.BC_PRESSURE → bc.type i ≠ FlowBCType.BC_FLUX_TOTVOL →
      (∀ st, bc_contrib_step G bc trans st i = st) ∧
      (∀ cpress fgrav fflux, bflux_step G bc trans cpress fgrav fflux i = fflux)) ∧
    (onlyOtherTypes bc →
      ifs_tpfa_assemble G (some { src := src, bc := some bc }) trans gpress h
        = ifs_tpfa_assemble G (withoutBC (some { src := src, bc := some bc })) trans gpress h ∧
      ifs_tpfa_press_flux G (some { src := src, bc := some bc }) trans h soln
        = ifs_tpfa_press_flux G (withoutBC (some { src := src, bc := some bc })) trans h soln) :=
  ⟨fun i hp hf =>
    ⟨fun st => bc_contrib_step_other G bc trans st i hp hf,
     fun cpress fgrav fflux => bflux_step_other G bc trans cpress fgrav fflux i hp hf⟩,
   fun hbc => ⟨assemble_other G src bc trans gpress h hbc,
     press_flux_other G src bc trans h soln hbc⟩⟩

/-- The amended C25 at the one-cell grid with the NOFLOW condition
`oneNoflow`. -/
theorem unhandled_bc_skipped_witness :
    onlyOtherTypes oneNoflow ∧
    bc_contrib_step oneCellGrid oneNoflow (fun _ => 1) (true, oneRowData) 0
      = (true, oneRowData) ∧
    ifs_tpfa_assemble oneCellGrid (some { src := none, bc := some oneNoflow }) (fun _ => 1)
        (fun _ => 0) oneRowData
      = ifs_tpfa_assemble oneCellGrid
          (withoutBC (some { src := none, bc := some oneNoflow })) (fun _ => 1)
          (fun _ => 0) oneRowData :=
  ⟨onlyOtherTypes_oneNoflow,
   ((unhandled_bc_skipped oneCellGrid oneNoflow none (fun _ => 1) (fun _ => 0) oneRowData
      zeroSolution).1 0 (by simp [oneNoflow]) (by simp [oneNoflow])).1 (true, oneRowData),
   ((unhandled_bc_skipped oneCellGrid oneNoflow none (fun _ => 1) (fun _ => 0) oneRowData
      zeroSolution).2 onlyOtherTypes_oneNoflow).1⟩

/-! ## C27: the nonzero count and the null result -/

/-- C27: `ifs_tpfa_construct_matrix`, and hence `ifs_tpfa_construct`, returns
no system whenever the computed nonzero count `constructNnz` is zero.  For a
grid whose faces refer to cells of the grid or to the exterior and wells
perforating cells of the grid, the count equals
`(N + W) + 2 * (number of interior faces) + 2 * (number of perforations)`;
it is zero exactly when there is no unknown (`N + W = 0`); and for every such
grid with at least one cell a matrix with that many stored entries is
returned, and `ifs_tpfa_construct` returns a system. -/
theorem ifs_tpfa_construct_matrix_zero_count (G : UnstructuredGrid) (W : Option Wells)
    (ddata : Nat → ℚ) :
    (constructNnz G W = 0 →
      ifs_tpfa_construct_matrix G W = none ∧ ifs_tpfa_construct G W ddata = none)
    ∧ (cellsInRange G → wellFormedWells G W →
        constructNnz G W = numUnknowns G W + 2 * numInteriorFaces G + 2 * numPerforations W
        ∧ (constructNnz G W = 0 ↔ numUnknowns G W = 0)
        ∧ (1 ≤ G.number_of_cells →
            ∃ A, ifs_tpfa_construct_matrix G W = some A ∧ A.nnz = constructNnz G W
              ∧ ifs_tpfa_construct G W ddata
                  = some { A := A, b := ddata, x := fun i => ddata (A.m + i),
                           fgrav := fun i => ddata (A.m + A.m + i) })) := by
  have hnnz := construct_matrix_of_nnz G W
  refine ⟨?_, ?_⟩
  · intro hz
    have hnone := hnnz.1 hz
    refine ⟨hnone, ?_⟩
    unfold ifs_tpfa_construct
    rw [hnone]
  · intro hG hW
    have hcount := constructNnz_eq G W hG hW
    refine ⟨hcount, ?_, ?_⟩
    · constructor
      · intro hz
        omega
      · intro hz
        have hfaces : numInteriorFaces G = 0 := by
          unfold numInteriorFaces
          rw [List.length_eq_zero, List.filter_eq_nil_iff]
          intro f hf
          have hc := hG f (List.mem_range.mp hf)
          have hN : G.number_of_cells = 0 := by
            unfold numUnknowns at hz
            omega
          rw [hN] at hc
          have : ¬ interiorFace G f := by
            unfold interiorFace
            omega
          simpa using this
        have hperf : numPerforations W = 0 := by
          cases W with
          | none => rfl
          | some w =>
            have hw : w.number_of_wells = 0 := by
              unfold numUnknowns at hz
              simp only [] at hz
              omega
            show w.well_connpos w.number_of_wells = 0
            rw [hw]
            exact hW.1
        omega
    · intro hN
      have hne : constructNnz G W ≠ 0 := by
        have : 1 ≤ numUnknowns G W := by
          unfold numUnknowns
          omega
        omega
      obtain ⟨A, hA, hAn⟩ := hnnz.2 hne
      refine ⟨A, hA, hAn, ?_⟩
      unfold ifs_tpfa_construct
      rw [hA]

/-- C27 at the empty grid, whose count is zero, and at the one-cell grid
with one well perforating the cell, whose count is `2 + 0 + 2`. -/
theorem ifs_tpfa_construct_matrix_zero_count_witness :
    (constructNnz emptyGrid none = 0 ∧ ifs_tpfa_construct_matrix emptyGrid none = none
      ∧ ifs_tpfa_construct emptyGrid none (fun _ => 7) = none)
    ∧ cellsInRange oneCellGrid ∧ wellFormedWells oneCellGrid (some oneWell)
    ∧ constructNnz oneCellGrid (some oneWell)
        = numUnknowns oneCellGrid (some oneWell) + 2 * numInteriorFaces oneCellGrid
          + 2 * numPerforations (some oneWell)
    ∧ (constructNnz oneCellGrid (some oneWell) = 0
        ↔ numUnknowns oneCellGrid (some oneWell) = 0)
    ∧ ∃ A, ifs_tpfa_construct_matrix oneCellGrid (some oneWell) = some A
        ∧ A.nnz = constructNnz oneCellGrid (some oneWell)
        ∧ ifs_tpfa_construct oneCellGrid (some oneWell) (fun _ => 7)
            = some { A := A, b := fun _ => 7, x := fun i => (fun _ => 7) (A.m + i),
                     fgrav := fun i => (fun _ => 7) (A.m + A.m + i) } :=
  ⟨⟨by rfl,
    (ifs_tpfa_construct_matrix_zero_count emptyGrid none (fun _ => 7)).1 (by rfl)⟩,
   by decide, by decide,
   ((ifs_tpfa_construct_matrix_zero_count oneCellGrid (some oneWell) (fun _ => 7)).2
      (by decide) (by decide)).1,
   ((ifs_tpfa_construct_matrix_zero_count oneCellGrid (some oneWell) (fun _ => 7)).2
      (by decide) (by decide)).2.1,
   ((ifs_tpfa_construct_matrix_zero_count oneCellGrid (some oneWell) (fun _ => 7)).2
      (by decide) (by decide)).2.2 (by decide)⟩

/-! ## C28: the two entries of a single-perforation well -/

/-- C28: on a well-formed grid with well-formed wells, for a well `k` whose
single perforation is in cell `c`, after `ifs_tpfa_assemble` on the
constructed system the value of the matrix entry `(N + k, c)` equals the
value of the entry `(c, N + k)`: both entries exist in the pattern, the
values at the storage positions that `csrmatrix_elm_index` finds for them
are equal, and so are the total values stored at the two places.  Both are
zero, since assembly zeroes the matrix and then adds to cell entries only. -/
theorem well_entries_equal (G : UnstructuredGrid) (w : Wells) (F : Option ifs_tpfa_forces)
    (trans gpress : Nat → ℚ) (h : ifs_tpfa_data) (hG : wellFormedGrid G)
    (hW : wellFormedWells G (some w)) (hA : constructedFor G (some w) h)
    (hassert : forcesOnBoundary G F) (k c : Nat) (hk : k < w.number_of_wells)
    (hsingle : w.well_connpos (k + 1) = w.well_connpos k + 1)
    (hc : w.well_cells (w.well_connpos k) = c) :
    (G.number_of_cells + k, c) ∈ csrPositions (ifs_tpfa_assemble G F trans gpress h).A
    ∧ (c, G.number_of_cells + k) ∈ csrPositions (ifs_tpfa_assemble G F trans gpress h).A
    ∧ (ifs_tpfa_assemble G F trans gpress h).A.sa
          (csrmatrix_elm_index (G.number_of_cells + k) c
            (ifs_tpfa_assemble G F trans gpress h).A)
        = (ifs_tpfa_assemble G F trans gpress h).A.sa
          (csrmatrix_elm_index c (G.number_of_cells + k)
            (ifs_tpfa_assemble G F trans gpress h).A)
    ∧ csrTotal (ifs_tpfa_assemble G F trans gpress h).A (G.number_of_cells + k) c
        = csrTotal (ifs_tpfa_assemble G F trans gpress h).A c (G.number_of_cells + k)
    ∧ csrTotal (ifs_tpfa_assemble G F trans gpress h).A c (G.number_of_cells + k) = 0 := by
  have hB := constructedFor_built G (some w) h (wellFormedGrid_cellsInRange G hG) hW hA
  obtain ⟨hia, hja⟩ := assemble_ia_ja G F trans gpress h
  have hf := assemble_frame G F trans gpress h
  have hB2 : builtPattern (patternEvents G (some w)) (numUnknowns G (some w))
      (ifs_tpfa_assemble G F trans gpress h).A :=
    builtPattern_congr _ _ h.A _ hf.1 hf.2.1 hf.2.2.1 hf.2.2.2.1 hB
  have hrows := fun e he => (patternEvents_rows G (some w)
    (wellFormedGrid_cellsInRange G hG) hW e he).1
  have hperm := csrPositions_perm _ _ _ hrows hB2
  obtain ⟨hcN, hm1, hm2⟩ := perforation_mem_patternEvents G w hW k (w.well_connpos k) hk
    ⟨le_refl _, by omega⟩
  rw [hc] at hcN hm1 hm2
  have hkm : G.number_of_cells + k < numUnknowns G (some w) := by
    unfold numUnknowns
    simp only []
    omega
  have hcm : c < numUnknowns G (some w) := by
    unfold numUnknowns
    omega
  obtain ⟨a1, a2, _⟩ := elm_index_spec _ _ h.A hB _ _ hkm hm2
  obtain ⟨b1, b2, b3⟩ := elm_index_spec _ _ h.A hB _ _ hcm hm1
  have e1 := assemble_sa_well G (some w) F trans gpress h hG hW hA hassert
    (G.number_of_cells + k) _ hkm ⟨a1, a2⟩ (Or.inl (by omega))
  have e2 := assemble_sa_well G (some w) F trans gpress h hG hW hA hassert
    c _ hcm ⟨b1, b2⟩ (Or.inr (by rw [b3]; omega))
  have t1 := assemble_csrTotal_well G (some w) F trans gpress h hG hW hA hassert
    (G.number_of_cells + k) c hkm (Or.inl (by omega))
  have t2 := assemble_csrTotal_well G (some w) F trans gpress h hG hW hA hassert
    c (G.number_of_cells + k) hcm (Or.inr (by omega))
  refine ⟨hperm.mem_iff.mpr hm2, hperm.mem_iff.mpr hm1, ?_, ?_, t2⟩
  · rw [elm_index_congr _ _ _ h.A hia hja, elm_index_congr _ _ _ h.A hia hja, e1, e2]
  · rw [t1, t2]

/-- C28 at the one-cell grid with the one well that perforates the cell,
under a PRESSURE condition on the boundary face. -/
theorem well_entries_equal_witness :
    (ifs_tpfa_assemble oneCellGrid (onlyBC onePressure) (fun _ => 1) (fun _ => 0)
        oneCellData).A.sa
          (csrmatrix_elm_index (oneCellGrid.number_of_cells + 0) 0
            (ifs_tpfa_assemble oneCellGrid (onlyBC onePressure) (fun _ => 1) (fun _ => 0)
              oneCellData).A)
      = (ifs_tpfa_assemble oneCellGrid (onlyBC onePressure) (fun _ => 1) (fun _ => 0)
        oneCellData).A.sa
          (csrmatrix_elm_index 0 (oneCellGrid.number_of_cells + 0)
            (ifs_tpfa_assemble oneCellGrid (onlyBC onePressure) (fun _ => 1) (fun _ => 0)
              oneCellData).A) :=
  (well_entries_equal oneCellGrid oneWell (onlyBC onePressure) (fun _ => 1)
    (fun _ => 0) oneCellData (by decide) (by decide) ⟨oneCellMatrix, by rfl, rfl, rfl, rfl, rfl⟩
    (by decide) 0 0 (by decide) (by decide) (by decide)).2.2.1

/-! ## C26: sorted rows -/

/-- C26: for a grid whose faces refer to cells of the grid or to the
exterior and wells perforating cells of the grid, in the matrix returned by
`ifs_tpfa_construct_matrix` the column indices of every row are in ascending
order.  When no two interior faces join the same pair of cells, no interior
face joins a cell to itself and no well perforates the same cell twice, they
are strictly ascending: no two storage positions of a row hold the same
column, no (row, column) is stored twice, and the position that
`csrmatrix_elm_index` finds for a stored (row, column) is the only one that
holds it. -/
theorem ifs_tpfa_construct_matrix_sorted (G : UnstructuredGrid) (W : Option Wells)
    (A : CSRMatrix) (hG : cellsInRange G) (hW : wellFormedWells G W)
    (hA : ifs_tpfa_construct_matrix G W = some A) :
    (∀ r, r < A.m → List.Sorted (· ≤ ·) ((rowPositions A r).map A.ja))
    ∧ (noParallelFaces G → noSelfFaces G → noDoublePerforation W →
        (∀ r, r < A.m → List.Sorted (· < ·) ((rowPositions A r).map A.ja))
        ∧ (csrPositions A).Nodup
        ∧ (∀ r, r < A.m → ∀ p ∈ rowPositions A r,
            p = csrmatrix_elm_index r (A.ja p) A)) := by
  have hB := (construct_matrix_spec G W hG hW).2.1 A hA
  have hm := hB.1
  have hrows := fun e he => (patternEvents_rows G W hG hW e he).1
  have hperm := csrPositions_perm _ _ A hrows hB
  constructor
  · intro r hr
    exact (hB.2.2.2 r (by omega)).1
  · intro hpar hself hperf
    have hnd := patternEvents_nodup G W hG hW hpar hself hperf
    refine ⟨?_, hperm.nodup_iff.mpr hnd, ?_⟩
    · intro r hr
      exact (built_strict _ _ A hB hnd r (by omega)).1
    · intro r hr p hp
      have hmem : (r, A.ja p) ∈ patternEvents G W := by
        apply hperm.mem_iff.mp
        unfold csrPositions
        rw [List.mem_flatMap]
        exact ⟨r, List.mem_range.mpr hr, List.mem_map.mpr ⟨p, hp, rfl⟩⟩
      obtain ⟨a1, a2, a3⟩ := elm_index_spec _ _ A hB r (A.ja p) (by omega) hmem
      have hq : csrmatrix_elm_index r (A.ja p) A ∈ rowPositions A r := by
        unfold rowPositions
        rw [List.mem_range'_1]
        omega
      exact (built_strict _ _ A hB hnd r (by omega)).2 p hp _ hq a3.symm

/-- C26 at the two-cell grid without wells, whose single interior face joins
cell 0 to cell 1: the columns of row 0 are strictly ascending. -/
theorem ifs_tpfa_construct_matrix_sorted_witness :
    List.Sorted (· ≤ ·) ((rowPositions twoCellMatrix 0).map twoCellMatrix.ja)
    ∧ List.Sorted (· < ·) ((rowPositions twoCellMatrix 0).map twoCellMatrix.ja)
    ∧ (csrPositions twoCellMatrix).Nodup :=
  ⟨(ifs_tpfa_construct_matrix_sorted twoCellGrid none twoCellMatrix (by decide) (by decide)
      (by rfl)).1 0 (by decide),
   ((ifs_tpfa_construct_matrix_sorted twoCellGrid none twoCellMatrix (by decide) (by decide)
      (by rfl)).2 (by decide) (by decide) (by decide)).1 0 (by decide),
   ((ifs_tpfa_construct_matrix_sorted twoCellGrid none twoCellMatrix (by decide) (by decide)
      (by rfl)).2 (by decide) (by decide) (by decide)).2.1⟩

/-! ## C30: the doubling does not change a compatible system -/

/-- C30: on a well-formed grid in which every interior face is listed once
for each of its cells, with forces without PRESSURE condition, if the
assembled right-hand sides of the cells sum to zero and the value stored at
position 0 (the entry `(0, 0)`) before the doubling is non-zero, then every
exact solution `x` of the system assembled by `ifs_tpfa_assemble` (with the
entry doubled) has `x[0] = 0` and is also an exact solution of the system
before the doubling. -/
theorem neumann_doubling_harmless (G : UnstructuredGrid) (W : Option Wells)
    (F : Option ifs_tpfa_forces) (trans gpress : Nat → ℚ) (h : ifs_tpfa_data) (x : Nat → ℚ)
    (hG : wellFormedGrid G) (honce : listedOnce G) (hW : wellFormedWells G W)
    (hA : constructedFor G W h) (hassert : forcesOnBoundary G F) (hnp : noPressure F)
    (hsum : ((List.range G.number_of_cells).map
      (fun c => (ifs_tpfa_assemble G F trans gpress h).b c)).sum = 0)
    (hnz : (assemble_core G F trans gpress h).2.A.sa 0 ≠ 0)
    (hx : solvesSystem (withSolution (ifs_tpfa_assemble G F trans gpress h) x)) :
    x 0 = 0 ∧ solvesSystem (withSolution (assemble_core G F trans gpress h).2 x) := by
  have hcr := wellFormedGrid_cellsInRange G hG
  have hm := constructedFor_m G W h hcr hW hA
  obtain ⟨hm0, hia0, hia1, _⟩ := constructed_first G W h hcr hW hA
  have hf1 := assemble_frame G F trans gpress h
  have hf2 := assemble_core_frame G F trans gpress h
  have hm1 : (ifs_tpfa_assemble G F trans gpress h).A.m = numUnknowns G W := by
    rw [hf1.1]
    exact hm
  have hm2 : (assemble_core G F trans gpress h).2.A.m = numUnknowns G W := by
    rw [hf2.1]
    exact hm
  have hN : 0 < G.number_of_cells := by
    by_contra hcon
    exact hnz (core_sa_well G W F trans gpress h hG hW hA hassert 0 0 hm0
      ⟨by omega, hia1⟩ (Or.inl (by omega)))
  have hrowx : ∀ i, i < numUnknowns G W →
      rowWeighted (assemble_core G F trans gpress h).2.A i x
        + (if noPressure F ∧ i = 0 then x 0 * (assemble_core G F trans gpress h).2.A.sa 0
            else 0)
      = (ifs_tpfa_assemble G F trans gpress h).b i := by
    intro i hi
    have h2 : rowWeighted (ifs_tpfa_assemble G F trans gpress h).A i x
        = (ifs_tpfa_assemble G F trans gpress h).b i := hx i (by
      show i < (ifs_tpfa_assemble G F trans gpress h).A.m
      omega)
    rw [rowWeighted_assemble G W F trans gpress h hG hW hA i hi] at h2
    exact h2
  have hrow : ∀ c ∈ List.range G.number_of_cells,
      ((cellFaceSlots G c).map (slotWeighted G trans c x)).sum
        + (if c = 0 then (fun _ => x 0 * (assemble_core G F trans gpress h).2.A.sa 0) c else 0)
      = (ifs_tpfa_assemble G F trans gpress h).b c := by
    intro c hc
    rw [List.mem_range] at hc
    have hcm : c < numUnknowns G W := by
      unfold numUnknowns
      omega
    have h2 := hrowx c hcm
    rw [rowWeighted_core G W F trans gpress h hG hW hA hassert c hcm, if_pos hc,
      pressureDiag_noPressure _ _ _ _ hnp, mul_zero, add_zero] at h2
    simp only [hnp, true_and] at h2
    exact h2
  have hs := sum_map_congr _ _ _ hrow
  rw [sum_map_add_eq, sum_cells_slotWeighted G trans hG honce x,
    sum_range_single (fun _ => x 0 * (assemble_core G F trans gpress h).2.A.sa 0) 0,
    if_pos hN, hsum, zero_add] at hs
  have hx0 : x 0 = 0 := (mul_eq_zero.mp hs).resolve_right hnz
  refine ⟨hx0, ?_⟩
  intro i hi
  have hi2 : i < numUnknowns G W := by
    have : i < (assemble_core G F trans gpress h).2.A.m := hi
    omega
  have hb : (ifs_tpfa_assemble G F trans gpress h).b = (assemble_core G F trans gpress h).2.b := by
    unfold ifs_tpfa_assemble
    simp only []
    split_ifs <;> rfl
  have h2 := hrowx i hi2
  rw [hx0, zero_mul, ite_self, add_zero, hb] at h2
  exact h2

/-- C30 at the two-cell grid with transmissibility 2 and sources 5 and -5:
the solution `(0, -5/2)` of the doubled system also solves the system before
the doubling. -/
theorem neumann_doubling_harmless_witness :
    (if (0 : Nat) = 0 then (0 : ℚ) else -5 / 2) = 0
    ∧ solvesSystem (withSolution
        (assemble_core twoCellGrid (twoCellSources 5) (fun _ => 2) (fun _ => 0) twoCellData).2
        (fun c => if c = 0 then 0 else -5 / 2)) :=
  neumann_doubling_harmless twoCellGrid none (twoCellSources 5) (fun _ => 2) (fun _ => 0)
    twoCellData (fun c => if c = 0 then 0 else -5 / 2) (by decide) (by decide) trivial
    ⟨(ifs_tpfa_construct_matrix twoCellGrid none).getD (csrmatrix_new_count_nnz 0),
      by rfl, rfl, rfl, rfl, rfl⟩
    trivial trivial twoCell_doubled_example.1 twoCell_doubled_example.2.1
    twoCell_doubled_example.2.2

/-! ## C29: conservation in a cell -/

/-- C29: on a well-formed grid (every face in the face list of a cell has
that cell as one of its two cells) in which every face with one cell of the
grid is listed once among the faces of that cell and every face is listed by
at most one face slot of a PRESSURE or FLUX_TOTVOL condition, if `x`
satisfies row `c` of the system assembled by `ifs_tpfa_assemble` and row `c`
is not the doubled row (`c ≠ 0`, or a PRESSURE condition is present), then
the net outflow of cell `c`, the sum over the faces `f` in the face list of
`c` of `sigma(c, f) * flux[f]` with the fluxes recovered by
`ifs_tpfa_press_flux`, equals the source term of `c` (zero when no sources
are given), for arbitrary `trans` and `gpress`. -/
theorem cell_mass_conservation (G : UnstructuredGrid) (W : Option Wells)
    (F : Option ifs_tpfa_forces) (trans gpress : Nat → ℚ) (h : ifs_tpfa_data) (x : Nat → ℚ)
    (soln : ifs_tpfa_solution) (hG : wellFormedGrid G) (hW : wellFormedWells G W)
    (hA : constructedFor G W h) (hassert : forcesOnBoundary G F)
    (hlist : boundaryListedOnce G) (hone : oneConditionPerFace G F)
    (c : Nat) (hc : c < G.number_of_cells) (hnd : ¬ (noPressure F ∧ c = 0))
    (hrow : rowWeighted (ifs_tpfa_assemble G F trans gpress h).A c x
      = (ifs_tpfa_assemble G F trans gpress h).b c) :
    cellOutflow G c (ifs_tpfa_press_flux G F trans
        (withSolution (ifs_tpfa_assemble G F trans gpress h) x) soln).face_flux
      = rhsSource F c := by
  have hcr := wellFormedGrid_cellsInRange G hG
  have hm := constructedFor_m G W h hcr hW hA
  have hcm : c < numUnknowns G W := by
    unfold numUnknowns
    omega
  have hfgeq : (withSolution (ifs_tpfa_assemble G F trans gpress h) x).fgrav
      = compute_grav_term G gpress h.fgrav := assemble_fgrav G F trans gpress h
  have hfg : ∀ f, f < G.number_of_faces → ¬ interiorFace G f →
      (withSolution (ifs_tpfa_assemble G F trans gpress h) x).fgrav f = 0 := by
    intro f hf hb
    rw [hfgeq]
    exact compute_grav_term_boundary G gpress h.fgrav f hf hb
  rw [cellOutflow_eq G F trans _ soln hG hlist hassert hone hfg c hc, hfgeq]
  have hxeq : (withSolution (ifs_tpfa_assemble G F trans gpress h) x).x = x := rfl
  rw [hxeq]
  rw [rowWeighted_assemble G W F trans gpress h hG hW hA c hcm,
    rowWeighted_core G W F trans gpress h hG hW hA hassert c hcm, if_pos hc, if_neg hnd,
    add_zero, assemble_b_cell G W F trans gpress h hG hassert hm c hc,
    ← bcRhsSum_eq G F trans _ c hassert] at hrow
  linarith

/-- C29 at cell 1 of the two-cell grid with transmissibility 2 and
FLUX_TOTVOL conditions 5 and -5 on the two boundary faces: with the solution
`(0, -5/2)` the flux 5 entering through the shared face leaves through the
boundary face, and the net outflow is the (absent) source term. -/
theorem cell_mass_conservation_witness :
    cellOutflow twoCellGrid 1 (ifs_tpfa_press_flux twoCellGrid (onlyBC (twoCellFluxes 5))
        (fun _ => 2)
        (withSolution (ifs_tpfa_assemble twoCellGrid (onlyBC (twoCellFluxes 5)) (fun _ => 2)
          (fun _ => 0) twoCellData) (fun c => if c = 0 then 0 else -5 / 2))
        zeroSolution).face_flux
      = rhsSource (onlyBC (twoCellFluxes 5)) 1 :=
  cell_mass_conservation twoCellGrid none (onlyBC (twoCellFluxes 5)) (fun _ => 2) (fun _ => 0)
    twoCellData (fun c => if c = 0 then 0 else -5 / 2) zeroSolution (by decide) trivial
    ⟨(ifs_tpfa_construct_matrix twoCellGrid none).getD (csrmatrix_new_count_nnz 0),
      by rfl, rfl, rfl, rfl, rfl⟩
    twoCell_fluxes_row.1 (by decide) (by decide) 1 (by decide)
    (fun hh => absurd hh.2 (by decide)) twoCell_fluxes_row.2

/-! ## C36, C37: `checkIndividualConstraints` -/

/-- C36: `checkIndividualConstraints` changes no field of the single-well
state other than a control mode: whenever it returns, the surface rates, the
reservoir rates, bhp, thp, the well potentials and the trivial-target flag
are those of the state before the call.  For a producer the production mode
afterwards is the value of `activeProductionConstraint` on the original
state, nothing else changes, and the call returns true exactly when that
value differs from the mode before.  For an injector the same holds with
`activeInjectionConstraint`, whenever that function returns; its exception
is passed on. -/
theorem checkIndividualConstraints_effect (w : WellContext) (ws : SingleWellState)
    (flag : Bool) :
    (∀ b ws1 f, checkIndividualConstraints w ws flag = Except.ok (b, ws1, f) →
      ws1.surface_rates = ws.surface_rates ∧ ws1.reservoir_rates = ws.reservoir_rates
      ∧ ws1.bhp = ws.bhp ∧ ws1.thp = ws.thp ∧ ws1.well_potentials = ws.well_potentials
      ∧ ws1.trivial_target = ws.trivial_target)
    ∧ (w.isProducer = true → w.isInjector = false →
        checkIndividualConstraints w ws flag
          = Except.ok
              (decide ((activeProductionConstraint w ws flag).1 ≠ ws.production_cmode),
               { ws with production_cmode := (activeProductionConstraint w ws flag).1 },
               (activeProductionConstraint w ws flag).2))
    ∧ (w.isInjector = true → w.isProducer = false →
        (∀ r, activeInjectionConstraint w ws flag = Except.ok r →
          checkIndividualConstraints w ws flag
            = Except.ok (decide (r.1 ≠ ws.injection_cmode),
                { ws with injection_cmode := r.1 }, r.2))
        ∧ (∀ e, activeInjectionConstraint w ws flag = Except.error e →
          checkIndividualConstraints w ws flag = Except.error e)) := by
  refine ⟨?_, ?_, ?_⟩
  · intro b ws1 f h
    obtain ⟨pm, im, rfl⟩ := checkIndividual_frame w ws ws1 flag b f h
    exact ⟨rfl, rfl, rfl, rfl, rfl, rfl⟩
  · intro hP hI
    exact checkIndividual_producer w ws flag hP hI
  · intro hI hP
    have hnp : ¬ w.isProducer = true := by
      rw [hP]
      decide
    constructor
    · intro r hr
      unfold checkIndividualConstraints
      rw [if_neg hnp]
      exact individualInjectorCheck_ok w ws flag hI r hr
    · intro e hr
      unfold checkIndividualConstraints
      rw [if_neg hnp]
      exact individualInjectorCheck_error w ws flag hI e hr

/-- C36 at the scenario producer in BHP mode: the call returns true, the
production mode becomes ORAT and the rest of the state is unchanged. -/
theorem checkIndividualConstraints_effect_witness :
    checkIndividualConstraints scenarioProducer (scenarioProducerState ProducerCMode.BHP) false
      = Except.ok
          (decide ((activeProductionConstraint scenarioProducer
              (scenarioProducerState ProducerCMode.BHP) false).1
            ≠ (scenarioProducerState ProducerCMode.BHP).production_cmode),
           { scenarioProducerState ProducerCMode.BHP with
               production_cmode := (activeProductionConstraint scenarioProducer
                 (scenarioProducerState ProducerCMode.BHP) false).1 },
           (activeProductionConstraint scenarioProducer
             (scenarioProducerState ProducerCMode.BHP) false).2) :=
  (checkIndividualConstraints_effect scenarioProducer
    (scenarioProducerState ProducerCMode.BHP) false).2.1 rfl rfl

/-- C37: the control-mode switch need not settle.  The scenario producer has
BHP and ORAT controls (limits 2000 and 500); at bhp 1800, below the BHP
limit, and producing 600 of oil, above the ORAT limit, in mode BHP, the first
call of `checkIndividualConstraints` returns true and switches to ORAT, and
a second call on the resulting state, whose rates and pressures are those of
the first, returns true and switches back to BHP: the state after two calls
is the initial state. -/
theorem checkIndividualConstraints_oscillates :
    scenarioProducer.isProducer = true
    ∧ scenarioProducer.productionControls.hasControl ProducerCMode.BHP = true
    ∧ scenarioProducer.productionControls.hasControl ProducerCMode.ORAT = true
    ∧ (scenarioProducerState ProducerCMode.BHP).bhp
        < scenarioProducer.productionControls.bhp_limit
    ∧ scenarioProducer.productionControls.oil_rate
        < -(scenarioProducerState ProducerCMode.BHP).surface_rates
            (scenarioProducer.phaseUsage.phase_pos BlackoilPhases.Liquid)
    ∧ (scenarioProducerState ProducerCMode.BHP).production_cmode = ProducerCMode.BHP
    ∧ checkIndividualConstraints scenarioProducer (scenarioProducerState ProducerCMode.BHP)
        false
      = Except.ok (true, scenarioProducerState ProducerCMode.ORAT, false)
    ∧ checkIndividualConstraints scenarioProducer (scenarioProducerState ProducerCMode.ORAT)
        false
      = Except.ok (true, scenarioProducerState ProducerCMode.BHP, false)
    ∧ (scenarioProducerState ProducerCMode.ORAT).surface_rates
        = (scenarioProducerState ProducerCMode.BHP).surface_rates
    ∧ (scenarioProducerState ProducerCMode.ORAT).bhp
        = (scenarioProducerState ProducerCMode.BHP).bhp
    ∧ scenarioProducerState ProducerCMode.ORAT ≠ scenarioProducerState ProducerCMode.BHP := by
  refine ⟨rfl, rfl, rfl, ?_, ?_, rfl, ?_, ?_, rfl, rfl, ?_⟩
  · norm_num [scenarioProducer, scenarioProducerState]
  · norm_num [scenarioProducer, scenarioProducerState, threePhase]
  · rw [checkIndividual_producer _ _ _ rfl rfl, scenario_switch, if_pos rfl]
    rfl
  · rw [checkIndividual_producer _ _ _ rfl rfl, scenario_switch,
      if_neg (show ¬ ProducerCMode.ORAT = ProducerCMode.BHP by decide)]
    rfl
  · intro hcon
    have h2 := congrArg SingleWellState.production_cmode hcon
    exact absurd h2 (by decide)

/-! ## C38: the THP check of an injector -/

/-- C38: for an injector that reaches the THP check (the BHP and RESV checks
do not return, the RATE check neither returns nor throws, THP is available
and is not the current mode) with the current thp above the THP limit: if
every phase surface rate is at most its well potential the current mode is
returned and the flag `thp_limit_violated_but_not_switched` is set to true;
otherwise THP is returned and the flag is set to false.  The result of
`activeInjectionConstraint` depends neither on the prevent flag of the well
nor on the trivial-target flag of the state. -/
theorem activeInjectionConstraint_thp (w : WellContext) (ws : SingleWellState) (flag : Bool)
    (h1 : ¬ injBhpTriggers w ws) (h2 : injRateCheck w ws = Except.ok false)
    (h3 : ¬ injResvTriggers w ws)
    (hT : w.injectionControls.hasControl InjectorCMode.THP = true)
    (hcur : ws.injection_cmode ≠ InjectorCMode.THP)
    (hthp : w.thpConstraint < ws.thp) :
    ((∀ p, p < w.number_of_phases → ws.surface_rates p ≤ ws.well_potentials p) →
      activeInjectionConstraint w ws flag = Except.ok (ws.injection_cmode, true))
    ∧ (¬ (∀ p, p < w.number_of_phases → ws.surface_rates p ≤ ws.well_potentials p) →
      activeInjectionConstraint w ws flag = Except.ok (InjectorCMode.THP, false))
    ∧ (∀ prevent trivial : Bool,
      activeInjectionConstraint { w with wvfpexp_prevent := prevent }
          { ws with trivial_target := trivial } flag
        = activeInjectionConstraint w ws flag) := by
  have hc : w.injectionControls.hasControl InjectorCMode.THP
      ∧ ws.injection_cmode ≠ InjectorCMode.THP ∧ w.thpConstraint < ws.thp :=
    ⟨hT, hcur, hthp⟩
  have hmain : activeInjectionConstraint w ws flag
      = if rateLessThanPotential w.number_of_phases ws.surface_rates ws.well_potentials
          = false then
          Except.ok (InjectorCMode.THP, false)
        else Except.ok (ws.injection_cmode, true) := by
    rw [activeInjectionConstraint_cascade, if_neg h1, h2]
    simp only []
    rw [if_neg h3, if_pos hc]
  refine ⟨?_, ?_, fun _ _ => rfl⟩
  · intro hp
    have hr := (rateLessThanPotential_iff ws.surface_rates ws.well_potentials
      w.number_of_phases).mpr hp
    rw [hmain, hr]
    rfl
  · intro hp
    rw [hmain, if_pos]
    cases hr : rateLessThanPotential w.number_of_phases ws.surface_rates ws.well_potentials
    · rfl
    · exact absurd ((rateLessThanPotential_iff _ _ _).mp hr) hp

/-- C38 at the example injector: thp 150 above the limit 100, the water rate
250 within the RATE limit 300 and every rate within the potential 400; the
current mode BHP is kept and the flag is set. -/
theorem activeInjectionConstraint_thp_witness :
    activeInjectionConstraint exampleInjector exampleInjectorState false
      = Except.ok (exampleInjectorState.injection_cmode, true) :=
  (activeInjectionConstraint_thp exampleInjector exampleInjectorState false
    (fun h => absurd h.1 (by decide))
    (by
      show (if _ then _ else _) = _
      rw [if_pos ⟨rfl, by decide⟩]
      show Except.ok (decide ((300 : ℚ) < (if (0 : Nat) = 0 then 250 else 0))) = Except.ok false
      norm_num)
    (fun h => absurd h.1 (by decide)) rfl (by decide)
    (by norm_num [exampleInjector, exampleInjectorState])).1
    (fun p _ => by
      show (if p = 0 then (250 : ℚ) else 0) ≤ 400
      split_ifs <;> norm_num)

/-! ## C39, C40: the group check and `checkConstraints` -/

/-- C39: for a well whose current control mode is already GRUP (the injection
mode of an injector, the production mode of a producer),
`checkGroupConstraints` returns false and leaves the state of the well, its
control mode and surface rates included, unchanged, and it evaluates no group
limit: the result is the same for every group context.  The group check is
run only for wells not in GRUP mode: a call that throws, returns true or
changes the state is a call for an injector whose injection mode is not GRUP
or for a producer whose production mode is not GRUP. -/
theorem checkGroupConstraints_skips_grup (w : WellContext) (env : GroupContext)
    (ws : SingleWellState) :
    ((w.isInjector = true → ws.injection_cmode = InjectorCMode.GRUP) →
      (w.isProducer = true → ws.production_cmode = ProducerCMode.GRUP) →
      checkGroupConstraints w env ws = Except.ok (false, ws)
      ∧ (∀ env2 : GroupContext,
          checkGroupConstraints w env2 ws = checkGroupConstraints w env ws)
      ∧ (∀ r, checkGroupConstraints w env ws = Except.ok r →
          r.1 = false ∧ r.2.production_cmode = ws.production_cmode
          ∧ r.2.injection_cmode = ws.injection_cmode
          ∧ r.2.surface_rates = ws.surface_rates))
    ∧ (checkGroupConstraints w env ws ≠ Except.ok (false, ws) →
        (w.isInjector = true ∧ ws.injection_cmode ≠ InjectorCMode.GRUP)
        ∨ (w.isProducer = true ∧ ws.production_cmode ≠ ProducerCMode.GRUP)) := by
  have hskip : ∀ env1 : GroupContext,
      (w.isInjector = true → ws.injection_cmode = InjectorCMode.GRUP) →
      (w.isProducer = true → ws.production_cmode = ProducerCMode.GRUP) →
      checkGroupConstraints w env1 ws = Except.ok (false, ws) := by
    intro env1 hI hP
    unfold checkGroupConstraints
    rw [if_neg (fun hh => hh.2 (hI hh.1)), if_neg (fun hh => hh.2 (hP hh.1))]
  constructor
  · intro hI hP
    refine ⟨hskip env hI hP, ?_, ?_⟩
    · intro env2
      rw [hskip env hI hP, hskip env2 hI hP]
    · intro r hr
      rw [hskip env hI hP] at hr
      have := Except.ok.inj hr
      rw [← this]
      exact ⟨rfl, rfl, rfl, rfl⟩
  · intro hne
    by_contra hcon
    apply hne
    apply hskip env
    · intro hI
      by_contra hm
      exact hcon (Or.inl ⟨hI, hm⟩)
    · intro hP
      by_contra hm
      exact hcon (Or.inr ⟨hP, hm⟩)

/-- C39 at the example producer in GRUP mode, in the group context whose
checks report a broken constraint. -/
theorem checkGroupConstraints_skips_grup_witness :
    checkGroupConstraints exampleProducer exampleGroupContext
        { exampleProducerState with production_cmode := ProducerCMode.GRUP }
      = Except.ok (false, { exampleProducerState with production_cmode := ProducerCMode.GRUP }) :=
  ((checkGroupConstraints_skips_grup exampleProducer exampleGroupContext
    { exampleProducerState with production_cmode := ProducerCMode.GRUP }).1
    (by decide) (by decide)).1

/-- C40: `checkConstraints` evaluates the individual limits first.  If
`checkIndividualConstraints` switched the control mode, `checkConstraints`
returns true with the state that `checkIndividualConstraints` left, whatever
the group context: no group constraint is evaluated or applied and the
surface rates are those before the call.  If `checkIndividualConstraints`
returned false, it left the state unchanged and the result and the state
after `checkConstraints` are those of `checkGroupConstraints` on the state
before the call.  An exception of `checkIndividualConstraints` is passed on.
Hence every result of `checkConstraints` is either that of the individual
switch alone or that of the group check alone. -/
theorem checkConstraints_short_circuit (w : WellContext) (env : GroupContext)
    (ws : SingleWellState) (flag : Bool) :
    (∀ ws1 f, checkIndividualConstraints w ws flag = Except.ok (true, ws1, f) →
      (∀ env2 : GroupContext, checkConstraints w env2 ws flag = Except.ok (true, ws1, f))
      ∧ ws1.surface_rates = ws.surface_rates)
    ∧ (∀ ws1 f, checkIndividualConstraints w ws flag = Except.ok (false, ws1, f) →
      ws1 = ws
      ∧ checkConstraints w env ws flag
        = match checkGroupConstraints w env ws with
          | Except.error e => Except.error e
          | Except.ok grp => Except.ok (grp.1, grp.2, f))
    ∧ (∀ e, checkIndividualConstraints w ws flag = Except.error e →
      checkConstraints w env ws flag = Except.error e)
    ∧ (∀ b ws2 f, checkConstraints w env ws flag = Except.ok (b, ws2, f) →
      (b = true ∧ checkIndividualConstraints w ws flag = Except.ok (true, ws2, f))
      ∨ (checkIndividualConstraints w ws flag = Except.ok (false, ws, f)
        ∧ checkGroupConstraints w env ws = Except.ok (b, ws2))) := by
  have hfalse : ∀ ws1 f, checkIndividualConstraints w ws flag = Except.ok (false, ws1, f) →
      ws1 = ws := by
    intro ws1 f h
    have hinj : ∀ fl, individualInjectorCheck w ws fl = Except.ok (false, ws1, f) →
        ws1 = ws := by
      intro fl h2
      unfold individualInjectorCheck at h2
      by_cases hI : w.isInjector = true
      · rw [if_pos hI] at h2
        cases hr : activeInjectionConstraint w ws fl with
        | error e => rw [hr] at h2; exact absurd h2 (by simp)
        | ok r =>
          rw [hr] at h2
          simp only [] at h2
          by_cases hne : r.1 ≠ ws.injection_cmode
          · rw [if_pos hne] at h2
            have := congrArg (fun t => t.1) (Except.ok.inj h2)
            exact absurd this (by simp)
          · rw [if_neg hne] at h2
            exact (congrArg (fun t => t.2.1) (Except.ok.inj h2)).symm
      · rw [if_neg hI] at h2
        exact (congrArg (fun t => t.2.1) (Except.ok.inj h2)).symm
    unfold checkIndividualConstraints at h
    by_cases hP : w.isProducer = true
    · rw [if_pos hP] at h
      simp only [] at h
      by_cases hne : (activeProductionConstraint w ws flag).1 ≠ ws.production_cmode
      · rw [if_pos hne] at h
        have := congrArg (fun t => t.1) (Except.ok.inj h)
        exact absurd this (by simp)
      · rw [if_neg hne] at h
        exact hinj _ h
    · rw [if_neg hP] at h
      exact hinj _ h
  refine ⟨?_, ?_, ?_, ?_⟩
  · intro ws1 f h
    constructor
    · intro env2
      unfold checkConstraints
      rw [h]
      rfl
    · obtain ⟨pm, im, rfl⟩ := checkIndividual_frame w ws ws1 flag true f h
      rfl
  · intro ws1 f h
    have hws := hfalse ws1 f h
    refine ⟨hws, ?_⟩
    unfold checkConstraints
    rw [h]
    simp only [Bool.false_eq_true, if_false]
    rw [hws]
  · intro e h
    unfold checkConstraints
    rw [h]
  · intro b ws2 f h
    cases hind : checkIndividualConstraints w ws flag with
    | error e =>
      unfold checkConstraints at h
      rw [hind] at h
      exact absurd h (by simp)
    | ok ind =>
      obtain ⟨ib, iws, ifl⟩ := ind
      unfold checkConstraints at h
      rw [hind] at h
      simp only [] at h
      cases ib with
      | true =>
        left
        simp only [if_true] at h
        have h2 := Except.ok.inj h
        have hb : true = b := congrArg (fun t => t.1) h2
        have hw : iws = ws2 := congrArg (fun t => t.2.1) h2
        have hf : ifl = f := congrArg (fun t => t.2.2) h2
        rw [← hb, ← hw, ← hf]
        exact ⟨rfl, rfl⟩
      | false =>
        right
        have hws := hfalse iws ifl hind
        subst hws
        simp only [Bool.false_eq_true, if_false] at h
        cases hg : checkGroupConstraints w env iws with
        | error e =>
          rw [hg] at h
          exact absurd h (by simp)
        | ok grp =>
          rw [hg] at h
          simp only [] at h
          have h2 := Except.ok.inj h
          have hb : grp.1 = b := congrArg (fun t => t.1) h2
          have hw : grp.2 = ws2 := congrArg (fun t => t.2.1) h2
          have hf : ifl = f := congrArg (fun t => t.2.2) h2
          rw [← hb, ← hw, ← hf]
          exact ⟨rfl, rfl⟩

/-- C40 at the scenario producer in BHP mode, whose ORAT limit is violated:
in the group context whose checks report a broken constraint with factor
1/2, `checkConstraints` returns true with the mode ORAT and the surface rates
not rescaled. -/
theorem checkConstraints_short_circuit_witness :
    checkConstraints scenarioProducer exampleGroupContext
        (scenarioProducerState ProducerCMode.BHP) false
      = Except.ok (true, scenarioProducerState ProducerCMode.ORAT, false) :=
  ((checkConstraints_short_circuit scenarioProducer exampleGroupContext
    (scenarioProducerState ProducerCMode.BHP) false).1
    (scenarioProducerState ProducerCMode.ORAT) false
    (by
      rw [checkIndividual_producer _ _ _ rfl rfl, scenario_switch, if_pos rfl]
      rfl)).1 exampleGroupContext

/-! ## C31: assembly writes no well coupling -/

/-- C31: on a well-formed grid with well-formed wells and forces that meet
the assertions of the code, after `ifs_tpfa_assemble` on the constructed
system every stored value in a well row (the diagonal of the well included)
is 0, every stored value of a cell row at a well column is 0, and every
right-hand-side entry of a well is 0, whatever `trans`, `gpress` and the
forces are.  Hence for every well unknown `k` the row `k` of the assembled
matrix is zero and the matrix is singular: the unit vector of `k` is a
non-zero vector that every row maps to 0. -/
theorem assemble_no_well_coupling (G : UnstructuredGrid) (W : Option Wells)
    (F : Option ifs_tpfa_forces) (trans gpress : Nat → ℚ) (h : ifs_tpfa_data)
    (hG : wellFormedGrid G) (hW : wellFormedWells G W) (hA : constructedFor G W h)
    (hassert : forcesOnBoundary G F) :
    (∀ r p, G.number_of_cells ≤ r → r < numUnknowns G W →
      (ifs_tpfa_assemble G F trans gpress h).A.ia r ≤ p →
      p < (ifs_tpfa_assemble G F trans gpress h).A.ia (r + 1) →
      (ifs_tpfa_assemble G F trans gpress h).A.sa p = 0)
    ∧ (∀ r p, r < numUnknowns G W →
      (ifs_tpfa_assemble G F trans gpress h).A.ia r ≤ p →
      p < (ifs_tpfa_assemble G F trans gpress h).A.ia (r + 1) →
      G.number_of_cells ≤ (ifs_tpfa_assemble G F trans gpress h).A.ja p →
      (ifs_tpfa_assemble G F trans gpress h).A.sa p = 0)
    ∧ (∀ k, G.number_of_cells ≤ k → k < numUnknowns G W →
      (ifs_tpfa_assemble G F trans gpress h).b k = 0
      ∧ (∀ j, csrTotal (ifs_tpfa_assemble G F trans gpress h).A k j = 0)
      ∧ ∃ y : Nat → ℚ, y k ≠ 0
        ∧ ∀ i, i < (ifs_tpfa_assemble G F trans gpress h).A.m →
          rowWeighted (ifs_tpfa_assemble G F trans gpress h).A i y = 0) := by
  obtain ⟨hia, hja⟩ := assemble_ia_ja G F trans gpress h
  have hm := constructedFor_m G W h (wellFormedGrid_cellsInRange G hG) hW hA
  have hf := assemble_frame G F trans gpress h
  have hm1 : (ifs_tpfa_assemble G F trans gpress h).A.m = numUnknowns G W := by
    rw [hf.1]
    exact hm
  refine ⟨?_, ?_, ?_⟩
  · intro r p hr hrm hp1 hp2
    rw [hia] at hp1 hp2
    exact assemble_sa_well G W F trans gpress h hG hW hA hassert r p hrm ⟨hp1, hp2⟩
      (Or.inl hr)
  · intro r p hrm hp1 hp2 hcol
    rw [hia] at hp1 hp2
    rw [hja] at hcol
    exact assemble_sa_well G W F trans gpress h hG hW hA hassert r p hrm ⟨hp1, hp2⟩
      (Or.inr hcol)
  · intro k hk hkm
    refine ⟨assemble_b_well G W F trans gpress h hG hassert hm k hk hkm, ?_, ?_⟩
    · intro j
      exact assemble_csrTotal_well G W F trans gpress h hG hW hA hassert k j hkm (Or.inl hk)
    · refine ⟨fun j => if j = k then 1 else 0, ?_, ?_⟩
      · simp
      · intro i hi
        rw [← csrTotal_eq_rowWeighted]
        exact assemble_csrTotal_well G W F trans gpress h hG hW hA hassert i k
          (by omega) (Or.inr hk)

/-- C31 at the one-cell grid with one well perforating the cell, under a
PRESSURE condition: the right-hand side of the well unknown 1 is 0 and the
total value stored at `(1, 0)` is 0. -/
theorem assemble_no_well_coupling_witness :
    (ifs_tpfa_assemble oneCellGrid (onlyBC onePressure) (fun _ => 1) (fun _ => 0)
        oneCellData).b 1 = 0
    ∧ csrTotal (ifs_tpfa_assemble oneCellGrid (onlyBC onePressure) (fun _ => 1) (fun _ => 0)
        oneCellData).A 1 0 = 0 :=
  ⟨((assemble_no_well_coupling oneCellGrid (some oneWell) (onlyBC onePressure) (fun _ => 1)
      (fun _ => 0) oneCellData (by decide) (by decide)
      ⟨oneCellMatrix, by rfl, rfl, rfl, rfl, rfl⟩ (by decide)).2.2 1 (by decide)
      (by decide)).1,
   ((assemble_no_well_coupling oneCellGrid (some oneWell) (onlyBC onePressure) (fun _ => 1)
      (fun _ => 0) oneCellData (by decide) (by decide)
      ⟨oneCellMatrix, by rfl, rfl, rfl, rfl, rfl⟩ (by decide)).2.2 1 (by decide)
      (by decide)).2.1 0⟩

/-! ## C34: the assembled matrix is symmetric -/

/-- C34: on a well-formed grid in which each interior face is listed once in
the face lists of both of its cells, with well-formed wells and forces that
meet the assertions of the code, the matrix assembled by `ifs_tpfa_assemble`
is symmetric in value: for all unknowns `c` and `c2` the total value stored
at `(c, c2)` equals the total value stored at `(c2, c)`, whatever the
boundary conditions and sources, with or without the doubling of the entry
`(0, 0)`.  For two different cells both are minus the sum of `trans[f]` over
the interior faces joining them; with a well they are 0. -/
theorem assemble_symmetric (G : UnstructuredGrid) (W : Option Wells)
    (F : Option ifs_tpfa_forces) (trans gpress : Nat → ℚ) (h : ifs_tpfa_data)
    (hG : wellFormedGrid G) (hW : wellFormedWells G W) (hA : constructedFor G W h)
    (hassert : forcesOnBoundary G F) (honce : listedOnce G) (c c2 : Nat)
    (hc : c < numUnknowns G W) (hc2 : c2 < numUnknowns G W) :
    csrTotal (ifs_tpfa_assemble G F trans gpress h).A c c2
        = csrTotal (ifs_tpfa_assemble G F trans gpress h).A c2 c
    ∧ csrTotal (assemble_core G F trans gpress h).2.A c c2
        = csrTotal (assemble_core G F trans gpress h).2.A c2 c := by
  by_cases heq : c = c2
  · rw [heq]
    exact ⟨rfl, rfl⟩
  have hne1 : c2 ≠ c := fun hh => heq hh.symm
  by_cases hcell : c < G.number_of_cells ∧ c2 < G.number_of_cells
  · constructor
    · rw [assemble_offdiag_total G W F trans gpress h hG hW hA hassert honce c c2 hcell.1 hne1,
        assemble_offdiag_total G W F trans gpress h hG hW hA hassert honce c2 c hcell.2 heq,
        joiningFaces_comm]
    · rw [core_offdiag_total G W F trans gpress h hG hW hA hassert honce c c2 hcell.1 hne1,
        core_offdiag_total G W F trans gpress h hG hW hA hassert honce c2 c hcell.2 heq,
        joiningFaces_comm]
  · have hout : G.number_of_cells ≤ c ∨ G.number_of_cells ≤ c2 := by omega
    have hf2 := assemble_core_frame G F trans gpress h
    have hcore : ∀ r col, r < numUnknowns G W →
        (G.number_of_cells ≤ r ∨ G.number_of_cells ≤ col) →
        csrTotal (assemble_core G F trans gpress h).2.A r col = 0 := by
      intro r col hr ho
      unfold csrTotal
      apply sum_map_zero_of_forall
      intro p hp
      unfold rowPositions at hp
      rw [hf2.2.2.1, List.mem_range'_1] at hp
      have hp1 : h.A.ia r ≤ p := hp.1
      have hp2 : p < h.A.ia (r + 1) := by
        have := hp.2
        have hle : (assembleStart G gpress h).A.ia r ≤ p := hp.1
        show p < (assembleStart G gpress h).A.ia (r + 1)
        omega
      split_ifs with hcol
      · rw [hf2.2.2.2.1] at hcol
        have hcol2 : h.A.ja p = col := hcol
        exact core_sa_well G W F trans gpress h hG hW hA hassert r p hr ⟨hp1, hp2⟩
          (by rw [hcol2]; exact ho)
      · rfl
    constructor
    · rw [assemble_csrTotal_well G W F trans gpress h hG hW hA hassert c c2 hc hout,
        assemble_csrTotal_well G W F trans gpress h hG hW hA hassert c2 c hc2 hout.symm]
    · rw [hcore c c2 hc hout, hcore c2 c hc2 hout.symm]

/-- C34 at the two-cell grid with transmissibility 2 and sources: the totals
at `(0, 1)` and `(1, 0)` agree. -/
theorem assemble_symmetric_witness :
    csrTotal (ifs_tpfa_assemble twoCellGrid (twoCellSources 5) (fun _ => 2) (fun _ => 0)
        twoCellData).A 0 1
      = csrTotal (ifs_tpfa_assemble twoCellGrid (twoCellSources 5) (fun _ => 2) (fun _ => 0)
        twoCellData).A 1 0 :=
  (assemble_symmetric twoCellGrid none (twoCellSources 5) (fun _ => 2) (fun _ => 0)
    twoCellData (by decide) trivial
    ⟨(ifs_tpfa_construct_matrix twoCellGrid none).getD (csrmatrix_new_count_nnz 0),
      by rfl, rfl, rfl, rfl, rfl⟩
    trivial (by decide) 0 1 (by decide) (by decide)).1

/-! ## C32, C33: gravity terms -/

/-- C32: for every face `f` of the grid whose two cells are both
non-negative, `compute_grav_term` sets `fgrav[f]` to the sum over all pairs
(cell `c`, face-list slot `i`) visited by its loop nest with
`cell_faces[i] = f` of `s * gpress[i]`, where `s = +1` if `c` is the first
cell of `f` and `-1` otherwise, independently of the previous content of
`fgrav`.  On a well-formed grid in which interior faces are listed once for
each of their cells, a face joining two different cells gets
`gpress[i1] - gpress[i2]`, with `i1` its slot in the first and `i2` its slot
in the second cell. -/
theorem compute_grav_term_sum (G : UnstructuredGrid) (gpress fgrav : Nat → ℚ) (f : Nat)
    (hf : f < G.number_of_faces) (hint : interiorFace G f) :
    compute_grav_term G gpress fgrav f
      = ((segLoop G.number_of_cells G.cell_facepos).map (fun e =>
          if G.cell_faces e.2 = f then faceSign G e.1 f * gpress e.2 else 0)).sum
    ∧ (∀ fgrav2 : Nat → ℚ,
        compute_grav_term G gpress fgrav2 f = compute_grav_term G gpress fgrav f)
    ∧ (wellFormedGrid G → listedOnce G →
        G.face_cells (2 * f + 0) ≠ G.face_cells (2 * f + 1) →
        ∃ i1 i2, i1 ∈ cellFaceSlots G (G.face_cells (2 * f + 0)).toNat
          ∧ i2 ∈ cellFaceSlots G (G.face_cells (2 * f + 1)).toNat
          ∧ G.cell_faces i1 = f ∧ G.cell_faces i2 = f
          ∧ compute_grav_term G gpress fgrav f = gpress i1 - gpress i2) :=
  ⟨compute_grav_term_interior G gpress fgrav f hf hint,
   fun fgrav2 => compute_grav_term_independent G gpress fgrav2 fgrav f hf,
   fun hG honce hne => compute_grav_term_two_slots G gpress fgrav hG honce f hf hint hne⟩

/-- C32 at the interior face 0 of the two-cell grid, with the potential
`gpress[i] = i` and old buffer content 7. -/
theorem compute_grav_term_sum_witness :
    compute_grav_term twoCellGrid (fun i => (i : ℚ)) (fun _ => 7) 0
      = ((segLoop twoCellGrid.number_of_cells twoCellGrid.cell_facepos).map (fun e =>
          if twoCellGrid.cell_faces e.2 = 0 then
            faceSign twoCellGrid e.1 0 * (fun i : Nat => (i : ℚ)) e.2
          else 0)).sum
    ∧ ∃ i1 i2, i1 ∈ cellFaceSlots twoCellGrid (twoCellGrid.face_cells (2 * 0 + 0)).toNat
      ∧ i2 ∈ cellFaceSlots twoCellGrid (twoCellGrid.face_cells (2 * 0 + 1)).toNat
      ∧ twoCellGrid.cell_faces i1 = 0 ∧ twoCellGrid.cell_faces i2 = 0
      ∧ compute_grav_term twoCellGrid (fun i => (i : ℚ)) (fun _ => 7) 0
          = (fun i : Nat => (i : ℚ)) i1 - (fun i : Nat => (i : ℚ)) i2 :=
  ⟨(compute_grav_term_sum twoCellGrid (fun i => (i : ℚ)) (fun _ => 7) 0 (by decide)
      (by decide)).1,
   (compute_grav_term_sum twoCellGrid (fun i => (i : ℚ)) (fun _ => 7) 0 (by decide)
      (by decide)).2.2 (by decide) (by decide) (by decide)⟩

/-- C33: the gravity correction of PRESSURE conditions is identically zero.
On a well-formed grid, with forces that meet the assertions of the code:
after `ifs_tpfa_assemble` the gravity term of every face of the grid with an
exterior cell is 0, whatever `gpress` is; the PRESSURE contribution to the
right-hand side of a cell is the sum of `trans[f] * value` over its faces
under a PRESSURE condition; the flux that `ifs_tpfa_press_flux` recovers for
a face whose last listing is under a PRESSURE condition is
`trans[f] * (value - p[c2])` if the first cell is exterior and
`trans[f] * (p[c1] - value)` otherwise; and two potentials `gpress` that
agree on the slots of the interior faces give the same assembled system,
hence the same matrix, right-hand side and fluxes. -/
theorem pressure_bc_no_gravity (G : UnstructuredGrid) (F : Option ifs_tpfa_forces)
    (trans gpress : Nat → ℚ) (h : ifs_tpfa_data) (hG : wellFormedGrid G)
    (hassert : forcesOnBoundary G F) :
    (∀ f, f < G.number_of_faces → ¬ interiorFace G f →
      (ifs_tpfa_assemble G F trans gpress h).fgrav f = 0)
    ∧ (∀ bc, forcesBC F = some bc → ∀ c,
      rhsPressure G bc trans (ifs_tpfa_assemble G F trans gpress h).fgrav c
        = ((bcEntriesAt G bc FlowBCType.BC_PRESSURE c).map (fun e =>
            trans (bc.face e.2) * bc.value e.1)).sum)
    ∧ (∀ bc, forcesBC F = some bc → ∀ f e, lastListing bc f = some e →
      bc.type e.1 = FlowBCType.BC_PRESSURE → ∀ (x : Nat → ℚ) (soln : ifs_tpfa_solution),
      (ifs_tpfa_press_flux G F trans
          (withSolution (ifs_tpfa_assemble G F trans gpress h) x) soln).face_flux f
        = if G.face_cells (2 * f + 0) < 0 then
            trans f * (bc.value e.1 - x (G.face_cells (2 * f + 1)).toNat)
          else trans f * (x (G.face_cells (2 * f + 0)).toNat - bc.value e.1))
    ∧ (∀ gpress2 : Nat → ℚ,
      (∀ e ∈ segLoop G.number_of_cells G.cell_facepos,
        interiorFace G (G.cell_faces e.2) → gpress e.2 = gpress2 e.2) →
      ifs_tpfa_assemble G F trans gpress2 h = ifs_tpfa_assemble G F trans gpress h
      ∧ ∀ (x : Nat → ℚ) (soln : ifs_tpfa_solution),
        ifs_tpfa_press_flux G F trans
            (withSolution (ifs_tpfa_assemble G F trans gpress2 h) x) soln
          = ifs_tpfa_press_flux G F trans
            (withSolution (ifs_tpfa_assemble G F trans gpress h) x) soln) := by
  have hfg : ∀ f, f < G.number_of_faces → ¬ interiorFace G f →
      (ifs_tpfa_assemble G F trans gpress h).fgrav f = 0 := by
    intro f hf hb
    rw [assemble_fgrav]
    exact compute_grav_term_boundary G gpress h.fgrav f hf hb
  refine ⟨hfg, ?_, ?_, ?_⟩
  · intro bc hbc c
    unfold forcesOnBoundary at hassert
    rw [hbc] at hassert
    unfold rhsPressure
    apply sum_map_congr
    intro e he
    unfold bcEntriesAt at he
    obtain ⟨hmem, hcond⟩ := List.mem_filter.mp he
    have hP := (of_decide_eq_true hcond).1
    obtain ⟨hf, hb⟩ := hassert e hmem (Or.inl hP)
    have hnint : ¬ interiorFace G (bc.face e.2) := by
      unfold interiorFace
      omega
    rw [hfg _ hf hnint]
    ring
  · intro bc hbc f e hlast hP x soln
    unfold forcesOnBoundary at hassert
    rw [hbc] at hassert
    have hfind : (bcEntries bc).reverse.find? (listsFace bc f) = some e := hlast
    have hl := List.find?_some hfind
    have hmem := List.mem_reverse.mp (List.mem_of_find?_eq_some hfind)
    unfold listsFace at hl
    simp only [Bool.and_eq_true, decide_eq_true_eq] at hl
    obtain ⟨hf, hb⟩ := hassert e hmem hl.1
    rw [hl.2] at hf hb
    have hnint : ¬ interiorFace G f := by
      unfold interiorFace
      omega
    have hr := hG.2.2.2 f hf
    rw [press_flux_face_flux_listed G F trans _ soln bc hbc f e hlast]
    unfold bfluxVal
    rw [if_pos hP, hl.2]
    have hfg0 : (withSolution (ifs_tpfa_assemble G F trans gpress h) x).fgrav f = 0 :=
      hfg f hf hnint
    rw [hfg0, add_zero, press_flux_cell_press, press_flux_cell_press]
    rcases hb with ⟨h1, h2⟩ | ⟨h1, h2⟩
    · have hlt : (G.face_cells (2 * f + 1)).toNat < G.number_of_cells := by omega
      rw [if_pos h1, if_pos h1, if_pos hlt]
      rfl
    · have hn : ¬ G.face_cells (2 * f + 0) < 0 := by omega
      have hlt : (G.face_cells (2 * f + 0)).toNat < G.number_of_cells := by omega
      rw [if_neg hn, if_neg hn, if_pos hlt]
      rfl
  · intro gpress2 hagree
    have heq := assemble_congr_gpress G F trans gpress gpress2 h hagree
    refine ⟨heq.symm, ?_⟩
    intro x soln
    rw [heq]

/-- C33 at the one-cell grid with a PRESSURE condition on its boundary face,
with gravity potential 9 on the slot of that face: the gravity term of the
face is 0. -/
theorem pressure_bc_no_gravity_witness :
    (ifs_tpfa_assemble oneCellGrid (onlyBC onePressure) (fun _ => 1) (fun _ => 9)
      oneRowData).fgrav 0 = 0 :=
  (pressure_bc_no_gravity oneCellGrid (onlyBC onePressure) (fun _ => 1) (fun _ => 9)
    oneRowData (by decide) (by decide)).1 0 (by decide) (by decide)

/-! ## C35: `directVerticalNeighbors` -/

